import Mathlib

/-!
# COLLADA reader of `robot_model`: kinematic-tree reconstruction

A shallow embedding of `ColladaModelReader` (`collada_parser.cpp`): scene
selection (`_Extract`), articulated systems, kinematics models with their
formulas, and the recursive link extraction (`_ExtractLink`) with its
joint-type and joint-limit rules.

Conventions of the embedding.

* The COLLADA DOM is an external collaborator.  A reference (`url`, sid
  reference) is represented by the outcome of resolving it: `none` when the
  DOM returns a null element or an element of another kind.
* Element identity (pointer equality in the source) is a natural number
  `eid` carried by the element.
* `double` values are exact numbers and the arithmetic on them is exact;
  `M_PI` is the rational that the IEEE-754 double constant denotes.  Where a
  result is cast to `int`, its rounding is a parameter (`MathLibrary`).
* `shared_ptr<Joint>` objects live in a heap (`ModelInterface.jointHeap`);
  the map `joints_` sends a name to a heap index, so that an entry that is
  overwritten in the map leaves the older object alive but unreachable.
* Poses, axis vectors, materials and the mesh payload are not part of the
  link extraction: no branch of it reads them.  Of the geometry of a visual
  node only the number of vertices that `_ExtractGeometry` gathers is kept
  there, because `_CreateGeometry` tests it.  The pose algebra, the
  tessellation and the mesh decoders have sections of their own.
* Dereferencing a null smart reference and a failed `BOOST_ASSERT` are
  results of their own (`Fault`), not silently skipped.
-/

namespace ColladaModelReader

/-! ## Values -/

deriving instance DecidableEq for Except

/-- Abnormal terminations of the reader. -/
inductive Fault where
  | nullDeref
  | outOfRange
  | assertFailed
  | lengthError
  deriving DecidableEq, Repr

/-- The `double` constant `M_PI` (3.141592653589793115997963...), exactly. -/
def M_PI : ℚ := 884279719003555 / 281474976710656

/-- Modelled from the spec: the enumeration `urdf::Joint` type of the
urdfdom headers, whose declaration is not part of the sources.  `UNKNOWN`
is the value a freshly constructed `Joint` carries. -/
inductive JointType where
  | UNKNOWN
  | REVOLUTE
  | CONTINUOUS
  | PRISMATIC
  | FIXED
  deriving DecidableEq, Repr

/-- Modelled from the spec: `urdf::JointLimits`, all fields zero after
construction. -/
structure JointLimits where
  lower : ℚ := 0
  upper : ℚ := 0
  velocity : ℚ := 0
  effort : ℚ := 0
  deriving DecidableEq, Repr

/-- Modelled from the spec: `urdf::JointMimic`. -/
structure JointMimic where
  joint_name : String
  multiplier : ℚ
  offset : ℚ
  deriving DecidableEq, Repr

/-- Modelled from the spec: the fields of `urdf::Joint` that the reader
branches on or that name links; a new `Joint` has empty names and type
`UNKNOWN`. -/
structure Joint where
  name : String := ""
  type : JointType := JointType.UNKNOWN
  parent_link_name : String := ""
  child_link_name : String := ""
  limits : JointLimits := {}
  mimic : Option JointMimic := none
  deriving DecidableEq, Repr

/-- Modelled from the spec: `urdf::Inertial` (mass and diagonal inertia). -/
structure Inertial where
  mass : ℚ := 0
  ixx : ℚ := 0
  iyy : ℚ := 0
  izz : ℚ := 0
  deriving DecidableEq, Repr

/-- Modelled from the spec: `urdf::Link`.  `visual`, `collision` say whether
the pointer is set; `geometry` whether `visual->geometry` is set. -/
structure Link where
  name : String := ""
  inertial : Option Inertial := none
  visual : Bool := false
  geometry : Bool := false
  collision : Bool := false
  deriving DecidableEq, Repr

/-! ## The document -/

/-- A `<newparam>` of a kinematics element.  `SIDREF` holds, when the child
exists, what its reference resolves to: a `<bool>` value and a `<float>`
value (each `none` when the cast to that element kind fails). -/
structure Newparam where
  sid : Option String := none
  bool : Option Bool := none
  float : Option ℚ := none
  SIDREF : Option (Option Bool × Option ℚ) := none
  deriving DecidableEq, Repr

/-- A `common_bool_or_param` element. -/
structure BoolOrParam where
  bool : Option Bool := none
  param : Option String := none
  deriving DecidableEq, Repr

/-- A `common_float_or_param` element. -/
structure FloatOrParam where
  float : Option ℚ := none
  param : Option String := none
  deriving DecidableEq, Repr

/-- A `<limits>` of a kinematics `<axis_info>`. -/
structure KinematicsLimits where
  min : FloatOrParam
  max : FloatOrParam
  deriving DecidableEq, Repr

/-- A kinematics `<axis_info>`.  `axis` lists, for each kinematics-model
instance of the enclosing `<kinematics>`, the element its axis reference
resolves to from there; `scale` is the unit scale of its user data. -/
structure KinematicsAxisInfo where
  eid : Nat := 0
  axis : List (Option Nat) := []
  newparams : List Newparam := []
  active : Option BoolOrParam := none
  locked : Option BoolOrParam := none
  limits : Option KinematicsLimits := none
  scale : ℚ := 1
  deriving DecidableEq, Repr

/-- A motion `<axis_info>`; `axis` is the kinematics axis-info its reference
resolves to, which is taken to lie inside a `<kinematics>` element. -/
structure MotionAxisInfo where
  axis : Option KinematicsAxisInfo := none
  newparams : List Newparam := []
  speed : Option FloatOrParam := none
  acceleration : Option FloatOrParam := none
  deriving DecidableEq, Repr

/-- Element name of an axis constraint. -/
inductive AxisKind where
  | revolute
  | prismatic
  | other
  deriving DecidableEq, Repr

/-- An axis constraint (`<revolute>` or `<prismatic>`) of a joint.  The
inline `<limits>`, when present, are taken to hold both `<min>` and
`<max>`. -/
structure AxisConstraint where
  eid : Nat
  kind : AxisKind
  limits : Option (ℚ × ℚ) := none
  scale : ℚ := 1
  deriving DecidableEq, Repr

/-- A `<joint>` element. -/
structure DomJoint where
  name : Option String := none
  axes : List AxisConstraint := []
  deriving DecidableEq, Repr

/-- A visual-scene `<node>`; `vertices` is the number of vertices that
`_ExtractGeometry` collects below it. -/
structure DomNode where
  eid : Nat := 0
  id : Option String := none
  name : Option String := none
  vertices : Nat := 0
  deriving DecidableEq, Repr

/-- The `technique_common` of a rigid body. -/
structure RigidData where
  mass : Option ℚ := none
  inertia : Option (ℚ × ℚ × ℚ) := none
  mass_frame : Bool := false
  deriving DecidableEq, Repr

/-- The class `JointAxisBinding`. -/
structure JointAxisBinding where
  pkinematicaxis : Nat
  visualnode : Option DomNode := none
  kinematics_axis_info : Option KinematicsAxisInfo := none
  motion_axis_info : Option MotionAxisInfo := none
  deriving DecidableEq, Repr

/-- The class `LinkBinding`: the node, and the `technique_common` of its
rigid body (`none` when the rigid body is null or has none). -/
structure LinkBinding where
  node : DomNode
  rigidbody : Option RigidData := none
  deriving DecidableEq, Repr

mutual
/-- A kinematics `<link>`. -/
inductive DomLink where
  | mk (name : Option String) (id : Option String)
      (attachment_full : List DomAttachment) : DomLink
/-- An `<attachment_full>`: the joint its reference resolves to and its child
link. -/
inductive DomAttachment where
  | mk (joint : Option DomJoint) (link : Option DomLink) : DomAttachment
end

/-! ## Parameter resolution -/

/-- The loop of `resolveBool` over the new-param array of the parent. -/
def resolveBoolParams (name : String) : List Newparam → Bool
  | [] => false
  | p :: rest =>
    if p.sid = some name then
      match p.bool with
      | some b => b
      | none =>
        match p.SIDREF with
        | some (some b, _) => b
        | some (none, _) => resolveBoolParams name rest
        | none => resolveBoolParams name rest
    else resolveBoolParams name rest

/-- The function `resolveBool`: a literal wins, then the parameter table of
the parent, else `false`. -/
def resolveBool (paddr : BoolOrParam) (parent : List Newparam) : Bool :=
  match paddr.bool with
  | some b => b
  | none =>
    match paddr.param with
    | none => false
    | some name => resolveBoolParams name parent

/-- The loop of `resolveFloat` over the new-param array of the parent. -/
def resolveFloatParams (name : String) : List Newparam → ℚ
  | [] => 0
  | p :: rest =>
    if p.sid = some name then
      match p.float with
      | some f => f
      | none =>
        match p.SIDREF with
        | some (_, some f) => f
        | some (_, none) => resolveFloatParams name rest
        | none => resolveFloatParams name rest
    else resolveFloatParams name rest

/-- The function `resolveFloat`. -/
def resolveFloat (paddr : FloatOrParam) (parent : List Newparam) : ℚ :=
  match paddr.float with
  | some f => f
  | none =>
    match paddr.param with
    | none => 0
    | some name => resolveFloatParams name parent

/-! ## The model under construction -/

/-- The class `KinematicsSceneBindings`.  A kinematics-visual binding pairs a
node with the identity of a kinematics-model instance. -/
structure KinematicsSceneBindings where
  listKinematicsVisualBindings : List (DomNode × Nat) := []
  listAxisBindings : List JointAxisBinding := []
  listLinkBindings : List LinkBinding := []
  deriving DecidableEq, Repr

/-- Modelled from the spec: `urdf::ModelInterface`.  The two `std::map`s are
association lists kept in key order; `joints_` maps a name to an index of
`jointHeap`. -/
structure ModelInterface where
  name_ : String := ""
  links_ : List (String × Link) := []
  joints_ : List (String × Nat) := []
  jointHeap : List Joint := []
  root_link_ : Option String := none
  deriving DecidableEq, Repr

/-- Lookup in a `std::map` (`find`). -/
def mapFind {α : Type} (k : String) : List (String × α) → Option α
  | [] => none
  | (k1, v) :: rest => if k1 = k then some v else mapFind k rest

/-- The place of a new key in a `std::map`: before the first key that is
greater (strings compare character by character). -/
def mapPlace {α : Type} (k : String) (v : α) : List (String × α) → List (String × α)
  | [] => [(k, v)]
  | (k1, v1) :: rest =>
    if k.data < k1.data then (k, v) :: (k1, v1) :: rest
    else (k1, v1) :: mapPlace k v rest

/-- The `std::map::insert` of a pair: an existing key keeps its value, a new
key goes to its place in key order. -/
def mapInsert {α : Type} (k : String) (v : α) (m : List (String × α)) : List (String × α) :=
  match mapFind k m with
  | some _ => m
  | none => mapPlace k v m

/-- The assignment `m[k] = v`: an existing key gets the new value, a new key
goes to its place in key order. -/
def mapAssign {α : Type} (k : String) (v : α) (m : List (String × α)) : List (String × α) :=
  match mapFind k m with
  | some _ => m.map (fun e => if e.1 = k then (e.1, v) else e)
  | none => mapPlace k v m

/-- The keys of a map. -/
def mapKeys {α : Type} (m : List (String × α)) : List String := m.map Prod.fst

/-- The joint object that `joints_` holds under a name. -/
def ModelInterface.getJoint (m : ModelInterface) (name : String) : Option Joint :=
  match mapFind name m.joints_ with
  | none => none
  | some i => m.jointHeap.get? i

/-- The joint map as name/value pairs (the pointers followed). -/
def ModelInterface.jointEntries (m : ModelInterface) : List (String × Joint) :=
  m.joints_.filterMap (fun e => (m.jointHeap.get? e.2).map (fun j => (e.1, j)))

/-- Writes through a `shared_ptr<Joint>`. -/
def ModelInterface.setJoint (m : ModelInterface) (i : Nat) (j : Joint) : ModelInterface :=
  { m with jointHeap := m.jointHeap.set i j }

/-- Writes through a `shared_ptr<Link>` that the map holds under `name`. -/
def ModelInterface.setLink (m : ModelInterface) (name : String) (l : Link) : ModelInterface :=
  { m with links_ := mapAssign name l m.links_ }

/-! ## Link extraction -/

/-- The function `_ExtractLinkName`, on the name and id of a non-null link. -/
def _ExtractLinkName (name id : Option String) : String :=
  let linkname := match name with
    | some s => s
    | none => ""
  if linkname = "" then
    match id with
    | some s => s
    | none => linkname
  else linkname

/-- Lines 811-822 of `_ExtractLink`: the link name, falling back to the
node. -/
def _ExtractLink_linkname (name id : Option String) (pdomnode : Option DomNode) : String :=
  let linkname := _ExtractLinkName name id
  if linkname = "" then
    match pdomnode with
    | none => linkname
    | some n =>
      let l1 := match n.name with
        | some s => s
        | none => linkname
      if l1 = "" then
        match n.id with
        | some s => s
        | none => l1
      else l1
  else linkname

/-- Lines 824-839: the link registered under the name, created with a visual
when absent. -/
def _ExtractLink_getOrCreate (linkname : String) (st : ModelInterface) : ModelInterface :=
  match mapFind linkname st.links_ with
  | some _ => st
  | none => { st with links_ := mapInsert linkname { name := linkname, visual := true } st.links_ }

/-- Lines 850-856: the loop over the link bindings.  Every iteration reads
`pdomnode->getID()`; the last binding with the same node id wins. -/
def _ExtractLink_findRigid (pdomnode : Option DomNode) :
    List LinkBinding → Option RigidData → Except Fault (Option RigidData)
  | [], acc => .ok acc
  | b :: rest, acc =>
    match pdomnode with
    | none => .error Fault.nullDeref
    | some n =>
      if n.id.isSome ∧ b.node.id.isSome ∧ n.id = b.node.id then
        _ExtractLink_findRigid pdomnode rest b.rigidbody
      else _ExtractLink_findRigid pdomnode rest acc

/-- The inertial of a link, created when it is null. -/
def inertialOrNew (l : Link) : Inertial :=
  match l.inertial with
  | some i => i
  | none => {}

/-- Lines 858-884: mass, inertia and mass frame of the bound rigid body. -/
def _ExtractLink_physics (rigiddata : Option RigidData) (plink : Link) : Link :=
  match rigiddata with
  | none => plink
  | some r =>
    let l1 := match r.mass with
      | some m => { plink with inertial := some { inertialOrNew plink with mass := m } }
      | none => plink
    let l2 := match r.inertia with
      | some (x, y, z) => { l1 with inertial := some { inertialOrNew l1 with ixx := x, iyy := y, izz := z } }
      | none => l1
    if r.mass_frame then { l2 with inertial := some (inertialOrNew l2) } else l2

/-- Lines 942-953: the visual node of the child, the first non-null
`visualnode` among the bindings of one of the axes of the joint. -/
def _ExtractLink_childNode (vdomaxes : List AxisConstraint) :
    List JointAxisBinding → Option DomNode
  | [] => none
  | b :: rest =>
    if vdomaxes.any (fun a => a.eid = b.pkinematicaxis) then
      match b.visualnode with
      | some n => some n
      | none => _ExtractLink_childNode vdomaxes rest
    else _ExtractLink_childNode vdomaxes rest

/-- The first binding of an axis (`vdomaxes[ic] == itaxisbinding->pkinematicaxis`). -/
def findAxisBinding (pdomaxis : AxisConstraint) (l : List JointAxisBinding) :
    Option JointAxisBinding :=
  l.find? (fun b => pdomaxis.eid = b.pkinematicaxis)

/-- Lines 990-999: the joint type from the element name of the axis. -/
def _ExtractLink_axisType (kind : AxisKind) (old : JointType) : JointType :=
  match kind with
  | AxisKind.revolute => JointType.REVOLUTE
  | AxisKind.prismatic => JointType.PRISMATIC
  | AxisKind.other => old

/-- Lines 973-1008, one iteration of the first loop over the axes: a new
joint, named after the `<joint>` or `dummy<size of the joint map>`, stored with
`joints_[name] = pjoint`.  Returns the pointer (heap index) too.  The flag
`joint_active` of lines 961-971 is only logged. -/
def _ExtractLink_createJoint (linkname : String) (pdomjoint : DomJoint)
    (pdomaxis : AxisConstraint) (st : ModelInterface) : Nat × ModelInterface :=
  let name := match pdomjoint.name with
    | some n => n
    | none => "dummy" ++ toString st.joints_.length
  let pjoint : Joint :=
    { name := name
      parent_link_name := linkname
      type := _ExtractLink_axisType pdomaxis.kind JointType.UNKNOWN
      limits := { velocity := 0, effort := 0 } }
  let i := st.jointHeap.length
  (i, { st with jointHeap := st.jointHeap ++ [pjoint], joints_ := mapAssign name i st.joints_ })

/-- Lines 959-1009: the first loop over the axes; the result lists `vjoints`. -/
def _ExtractLink_createJoints (linkname : String) (pdomjoint : DomJoint) :
    List AxisConstraint → ModelInterface → List Nat × ModelInterface
  | [], st => ([], st)
  | a :: rest, st =>
    let r := _ExtractLink_createJoint linkname pdomjoint a st
    let r2 := _ExtractLink_createJoints linkname pdomjoint rest r.2
    (r.1 :: r2.1, r2.2)

/-- Lines 1081-1091: speed and acceleration of the motion axis-info. -/
def _ExtractLink_motion (motion_axis_info : Option MotionAxisInfo) (pjoint : Joint) : Joint :=
  match motion_axis_info with
  | none => pjoint
  | some m =>
    let j1 := match m.speed with
      | some s => { pjoint with limits := { pjoint.limits with velocity := resolveFloat s m.newparams } }
      | none => pjoint
    match m.acceleration with
    | some a => { j1 with limits := { j1.limits with effort := resolveFloat a m.newparams } }
    | none => j1

/-- Line 1098: the locked flag, `false` without axis-info or `<locked>`. -/
def _ExtractLink_locked (kinematics_axis_info : Option KinematicsAxisInfo) : Bool :=
  match kinematics_axis_info with
  | none => false
  | some k =>
    match k.locked with
    | some l => resolveBool l k.newparams
    | none => false

/-- Lines 1096-1119: the axis-info rules.  Returns the joint and the flag
`kinematics_limits`. -/
def _ExtractLink_axisInfoLimits (kinematics_axis_info : Option KinematicsAxisInfo)
    (pjoint : Joint) : Joint × Bool :=
  match kinematics_axis_info with
  | none => (pjoint, false)
  | some k =>
    if _ExtractLink_locked (some k) then
      if pjoint.type = JointType.REVOLUTE ∨ pjoint.type = JointType.PRISMATIC then
        ({ pjoint with limits := { pjoint.limits with lower := 0, upper := 0 } }, false)
      else (pjoint, false)
    else
      match k.limits with
      | some lim =>
        let fscale : ℚ := if pjoint.type = JointType.REVOLUTE then M_PI / 180 else k.scale
        if pjoint.type = JointType.REVOLUTE ∨ pjoint.type = JointType.PRISMATIC then
          let lower := fscale * resolveFloat lim.min k.newparams
          let upper := fscale * resolveFloat lim.max k.newparams
          let j1 := { pjoint with limits := { pjoint.limits with lower := lower, upper := upper } }
          if lower = 0 ∧ upper = 0 then ({ j1 with type := JointType.FIXED }, true)
          else (j1, true)
        else (pjoint, true)
      | none => (pjoint, false)

/-- Lines 1122-1145: the limits of the axis constraint itself, or the
fallback without limits. -/
def _ExtractLink_inlineLimits (pdomaxis : AxisConstraint) (pjoint : Joint) : Joint :=
  match pdomaxis.limits with
  | none =>
    if pjoint.type = JointType.REVOLUTE then
      { pjoint with type := JointType.CONTINUOUS,
                    limits := { pjoint.limits with lower := -M_PI, upper := M_PI } }
    else { pjoint with limits := { pjoint.limits with lower := -100000, upper := 100000 } }
  | some (min, max) =>
    let fscale : ℚ := if pjoint.type = JointType.REVOLUTE then M_PI / 180 else pdomaxis.scale
    let lower := min * fscale
    let upper := max * fscale
    let j1 := { pjoint with limits := { pjoint.limits with lower := lower, upper := upper } }
    if lower = 0 ∧ upper = 0 then { j1 with type := JointType.FIXED } else j1

/-- Lines 1147-1149: the default velocity. -/
def _ExtractLink_velocity (pjoint : Joint) : Joint :=
  if pjoint.limits.velocity = 0 then
    { pjoint with limits := { pjoint.limits with
        velocity := if pjoint.type = JointType.PRISMATIC then 1 / 100 else 1 / 2 } }
  else pjoint

/-- Lines 1077-1149: speed, limits and type of one joint, from its axis
constraint and the axis-info bound to it. -/
def _ExtractLink_limits (pdomaxis : AxisConstraint)
    (kinematics_axis_info : Option KinematicsAxisInfo)
    (motion_axis_info : Option MotionAxisInfo) (pjoint : Joint) : Joint :=
  let j1 := _ExtractLink_motion motion_axis_info pjoint
  let joint_locked := _ExtractLink_locked kinematics_axis_info
  let r := _ExtractLink_axisInfoLimits kinematics_axis_info j1
  let kinematics_limits := r.2
  let j2 :=
    if kinematics_axis_info.isNone ∨ (¬ joint_locked ∧ ¬ kinematics_limits) then
      _ExtractLink_inlineLimits pdomaxis r.1
    else r.1
  _ExtractLink_velocity j2

/-- Lines 1019-1152: the second loop over the axes.  `pchildlink` is the name
of the link the next joint gets as child (`none` once it was reset). -/
def _ExtractLink_assignChildren (linkname : String) (listAxisBindings : List JointAxisBinding) :
    List AxisConstraint → List Nat → Option String → Nat → ModelInterface →
    Except Fault ModelInterface
  | [], _, _, _, st => .ok st
  | _ :: _, [], _, _, _ => .error Fault.nullDeref
  | pdomaxis :: axes, i :: vjoints, pchildlink, numjoints, st =>
    let binding := findAxisBinding pdomaxis listAxisBindings
    let kinematics_axis_info := binding.bind (fun b => b.kinematics_axis_info)
    let motion_axis_info := binding.bind (fun b => b.motion_axis_info)
    let r : String × ModelInterface :=
      match pchildlink with
      | some c => (c, st)
      | none =>
        let name := linkname ++ "_dummy" ++ toString numjoints
        (name, { st with links_ := mapInsert name { name := name } st.links_ })
    match r.2.jointHeap.get? i with
    | none => .error Fault.nullDeref
    | some pjoint =>
      let j1 := { pjoint with child_link_name := r.1 }
      let j2 := _ExtractLink_limits pdomaxis kinematics_axis_info motion_axis_info j1
      _ExtractLink_assignChildren linkname listAxisBindings axes vjoints none (numjoints + 1)
        (r.2.setJoint i j2)

/-- Lines 1163-1178: the geometry of the link from the vertices gathered at
its node; without vertices the visual and the collision are reset. -/
def _ExtractLink_geometry (pdomnode : Option DomNode) (plink : Link) : Link :=
  let vert_counter := match pdomnode with
    | some n => n.vertices
    | none => 0
  if vert_counter = 0 then { plink with visual := false, geometry := false, collision := false }
  else { plink with geometry := true, collision := true }

mutual
/-- The function `_ExtractLink` for a non-null `pdomlink`.  The result is the
name of the link returned (`none` for the null pointer) and the model. -/
def _ExtractLink (bindings : KinematicsSceneBindings) (pdomnode : Option DomNode)
    (st : ModelInterface) : DomLink → Except Fault (Option String × ModelInterface)
  | DomLink.mk name id attachment_full =>
    let linkname := _ExtractLink_linkname name id pdomnode
    let st1 := _ExtractLink_getOrCreate linkname st
    match _ExtractLink_findRigid pdomnode bindings.listLinkBindings none with
    | .error e => .error e
    | .ok rigiddata =>
      match mapFind linkname st1.links_ with
      | none => .error Fault.nullDeref
      | some plink =>
        -- line 898 writes `plink->visual->origin`
        if plink.visual = false then .error Fault.nullDeref
        else
          let st2 := st1.setLink linkname (_ExtractLink_physics rigiddata plink)
          match _ExtractLink_attachments bindings linkname st2 attachment_full with
          | .error e => .error e
          | .ok (true, st3) => .ok (none, st3)
          | .ok (false, st3) =>
            match mapFind linkname st3.links_ with
            | none => .error Fault.nullDeref
            | some pl =>
              -- line 1163 writes `plink->visual->geometry`
              if pl.visual = false then .error Fault.nullDeref
              else .ok (some linkname, st3.setLink linkname (_ExtractLink_geometry pdomnode pl))
/-- Lines 909-1153: the loop over the attachments of the link.  The flag is
`true` when the function returned the null link from inside the loop. -/
def _ExtractLink_attachments (bindings : KinematicsSceneBindings) (linkname : String)
    (st : ModelInterface) : List DomAttachment → Except Fault (Bool × ModelInterface)
  | [] => .ok (false, st)
  | pattfull :: rest =>
    match _ExtractLink_attachment bindings linkname st pattfull with
    | .error e => .error e
    | .ok (true, st1) => .ok (true, st1)
    | .ok (false, st1) => _ExtractLink_attachments bindings linkname st1 rest
/-- One iteration of the loop over the attachments. -/
def _ExtractLink_attachment (bindings : KinematicsSceneBindings) (linkname : String)
    (st : ModelInterface) : DomAttachment → Except Fault (Bool × ModelInterface)
  | DomAttachment.mk none _ => .ok (true, st)
  | DomAttachment.mk (some _) none => .ok (false, st)
  | DomAttachment.mk (some pdomjoint) (some link) =>
    let vdomaxes := pdomjoint.axes
    let pchildnode := _ExtractLink_childNode vdomaxes bindings.listAxisBindings
    let r := _ExtractLink_createJoints linkname pdomjoint vdomaxes st
    match _ExtractLink bindings pchildnode r.2 link with
    | .error e => .error e
    | .ok (none, st1) => .ok (false, st1)
    | .ok (some pchildlink, st1) =>
      match _ExtractLink_assignChildren linkname bindings.listAxisBindings vdomaxes r.1
          (some pchildlink) 0 st1 with
      | .error e => .error e
      | .ok st2 => .ok (false, st2)
end

/-! ## Formulas -/

/-- A generic element of a `<math>` tree.  `number` is the value that the
extraction `stringstream >> double` reads from the character data (`none`
when it fails); `joint` is the `<joint>` that the character data resolves
to as a reference from the formula. -/
inductive DaeElement where
  | mk (elementName : String) (number : Option ℚ) (encoding : Option String)
      (joint : Option DomJoint) (children : List DaeElement) : DaeElement

/-- Element name. -/
def DaeElement.elementName : DaeElement → String
  | DaeElement.mk n _ _ _ _ => n

/-- The number read from the character data; a failed extraction stores 0. -/
def DaeElement.value : DaeElement → ℚ
  | DaeElement.mk _ (some x) _ _ _ => x
  | DaeElement.mk _ none _ _ _ => 0

/-- The attribute `encoding`. -/
def DaeElement.encoding : DaeElement → Option String
  | DaeElement.mk _ _ e _ _ => e

/-- The joint the character data refers to. -/
def DaeElement.joint : DaeElement → Option DomJoint
  | DaeElement.mk _ _ _ j _ => j

/-- The child elements. -/
def DaeElement.children : DaeElement → List DaeElement
  | DaeElement.mk _ _ _ _ c => c

/-- A `<formula>`: the joint its target resolves to (`none` without a
`<target>`), and the children of its `technique_common`. -/
structure DomFormula where
  target : Option (Option DomJoint) := none
  technique_common : Option (List DaeElement) := none

/-- The characters after the last occurrence of `c`, if there is one. -/
def afterLast (c : Char) : List Char → Option (List Char)
  | [] => none
  | x :: xs =>
    match afterLast c xs with
    | some r => some r
    | none => if x = c then some xs else none

/-- The function `_checkMathML`: the element name, or its part after the last
colon, equals `type`. -/
def _checkMathML (pelt : DaeElement) (type : String) : Bool :=
  if pelt.elementName = type then true
  else
    match afterLast ':' pelt.elementName.data with
    | none => false
    | some r => r = type.data

/-- The macro `BOOST_ASSERT`; `asserts` says whether it is compiled in. -/
def BOOST_ASSERT (asserts : Bool) (c : Bool) : Except Fault Unit :=
  if asserts ∧ ¬ c then .error Fault.assertFailed else .ok ()

/-- Indexing `getChildren()[k]`. -/
def childAt (e : DaeElement) (k : Nat) : Except Fault DaeElement :=
  match e.children.get? k with
  | some c => .ok c
  | none => .error Fault.outOfRange

/-- Lines 743-789: the multiplier `a`, the offset `b` and the symbol element
read from a `<math>` element. -/
def _ExtractKinematicsModel_math (asserts : Bool) (peltmath : DaeElement) :
    Except Fault (ℚ × ℚ × DaeElement) := do
  BOOST_ASSERT asserts (decide (peltmath.children.length > 0))
  let papplyelt ← childAt peltmath 0
  BOOST_ASSERT asserts (_checkMathML papplyelt "apply")
  BOOST_ASSERT asserts (decide (papplyelt.children.length > 0))
  let c0 ← childAt papplyelt 0
  if _checkMathML c0 "plus" then
    BOOST_ASSERT asserts (decide (papplyelt.children.length = 3))
    let c1 ← childAt papplyelt 1
    let c2 ← childAt papplyelt 2
    let pa := if _checkMathML c1 "apply" then c1 else c2
    let pb := if _checkMathML c1 "apply" then c2 else c1
    let r ←
      if _checkMathML pa "csymbol" then pure ((1 : ℚ), pa)
      else do
        BOOST_ASSERT asserts (_checkMathML pa "apply")
        if asserts then
          let pa0 ← childAt pa 0
          BOOST_ASSERT asserts (_checkMathML pa0 "times")
        let pa1 ← childAt pa 1
        let pa2 ← childAt pa 2
        if _checkMathML pa1 "csymbol" then
          BOOST_ASSERT asserts (_checkMathML pa2 "cn")
          pure (pa2.value, pa1)
        else
          BOOST_ASSERT asserts (_checkMathML pa1 "cn")
          pure (pa1.value, pa2)
    BOOST_ASSERT asserts (_checkMathML pb "cn")
    pure (r.1, pb.value, r.2)
  else if _checkMathML c0 "minus" then
    let c1 ← childAt papplyelt 1
    BOOST_ASSERT asserts (_checkMathML c1 "csymbol")
    pure (-1, 0, c1)
  else
    BOOST_ASSERT asserts (_checkMathML c0 "csymbol")
    pure (1, 0, c0)

/-- The function `_getJointFromRef`, on the element the reference resolves to:
the joint object registered under the name of the `<joint>`. -/
def _getJointFromRef (pdomjoint : Option DomJoint) (st : ModelInterface) : Option Nat :=
  match pdomjoint with
  | none => none
  | some j =>
    match j.name with
    | none => none
    | some name => mapFind name st.joints_

/-- Lines 731-739: the last child of `technique_common` that is a `<math>`. -/
def _ExtractKinematicsModel_findMath : List DaeElement → Option DaeElement → Option DaeElement
  | [], acc => acc
  | pelt :: rest, acc =>
    if _checkMathML pelt "math" then _ExtractKinematicsModel_findMath rest (some pelt)
    else _ExtractKinematicsModel_findMath rest acc

/-- Lines 715-802: one `<formula>`. -/
def _ExtractKinematicsModel_formula (asserts : Bool) (pf : DomFormula) (st : ModelInterface) :
    Except Fault ModelInterface :=
  match pf.target with
  | none => .ok st
  | some target =>
    match _getJointFromRef target st with
    | none => .ok st
    | some pjoint =>
      match pf.technique_common with
      | none => .ok st
      | some children =>
        match _ExtractKinematicsModel_findMath children none with
        | none => .ok st
        | some peltmath =>
          match _ExtractKinematicsModel_math asserts peltmath with
          | .error e => .error e
          | .ok (a, b, psymboljoint) =>
            match BOOST_ASSERT asserts (psymboljoint.encoding.isSome
                && decide (psymboljoint.encoding = some "COLLADA")) with
            | .error e => .error e
            | .ok _ =>
              match _getJointFromRef psymboljoint.joint st with
              | none => .ok st
              | some pbasejoint =>
                match st.jointHeap.get? pjoint, st.jointHeap.get? pbasejoint with
                | some j, some base =>
                  .ok (st.setJoint pjoint
                    { j with mimic := some { joint_name := base.name, multiplier := a, offset := b } })
                | _, _ => .error Fault.nullDeref

/-- Lines 714-803: the loop over the formulas. -/
def _ExtractKinematicsModel_formulas (asserts : Bool) :
    List DomFormula → ModelInterface → Except Fault ModelInterface
  | [], st => .ok st
  | pf :: rest, st =>
    match _ExtractKinematicsModel_formula asserts pf st with
    | .error e => .error e
    | .ok st1 => _ExtractKinematicsModel_formulas asserts rest st1

/-! ## Kinematics models -/

/-- A `<kinematics_model>` (its `technique_common`): the root links and the
formulas. -/
structure DomKinematicsModel where
  id : Option String := none
  link : List DomLink := []
  formula : List DomFormula := []

/-- An `<instance_kinematics_model>` and the model its url resolves to. -/
structure InstanceKinematicsModel where
  eid : Nat := 0
  name : Option String := none
  id : Option String := none
  url : Option DomKinematicsModel := none

/-- Lines 696-702: the search of the visual node named like the root link.
Every iteration passes both names to `strcmp`. -/
def _ExtractKinematicsModel_visualRoot (linkname : Option String) :
    List (DomNode × Nat) → Except Fault (Option DomNode)
  | [] => .ok none
  | b :: rest =>
    match b.1.name, linkname with
    | some n, some l =>
      if n = l then .ok (some b.1) else _ExtractKinematicsModel_visualRoot linkname rest
    | _, _ => .error Fault.nullDeref

/-- The name attribute of a link. -/
def DomLink.name : DomLink → Option String
  | DomLink.mk n _ _ => n

/-- Lines 688-711: the loop over the root links; only the first one gets the
visual node.  The link returned by `_ExtractLink` is dropped. -/
def _ExtractKinematicsModel_links (pnode : Option DomNode) (bindings : KinematicsSceneBindings) :
    List DomLink → Nat → ModelInterface → Except Fault ModelInterface
  | [], _, st => .ok st
  | pdomlink :: rest, ilink, st =>
    match _ExtractKinematicsModel_visualRoot pdomlink.name bindings.listKinematicsVisualBindings with
    | .error e => .error e
    | .ok _ =>
      match _ExtractLink bindings (if ilink = 0 then pnode else none) st pdomlink with
      | .error e => .error e
      | .ok r => _ExtractKinematicsModel_links pnode bindings rest (ilink + 1) r.2

/-- The overload `_ExtractKinematicsModel(kmodel, pnode, pmodel, bindings)`. -/
def _ExtractKinematicsModel_kmodel (asserts : Bool) (kmodel : DomKinematicsModel)
    (pnode : Option DomNode) (bindings : KinematicsSceneBindings) (st : ModelInterface) :
    Except Fault (Bool × ModelInterface) :=
  match _ExtractKinematicsModel_links pnode bindings kmodel.link 0 st with
  | .error e => .error e
  | .ok st1 =>
    match _ExtractKinematicsModel_formulas asserts kmodel.formula st1 with
    | .error e => .error e
    | .ok st2 => .ok (true, st2)

/-- Sets the model name when it is still empty. -/
def setNameIfEmpty (name : Option String) (st : ModelInterface) : ModelInterface :=
  match name with
  | some n => if st.name_ = "" then { st with name_ := n } else st
  | none => st

/-- The overload `_ExtractKinematicsModel(ikm, bindings)` for a non-null
instance. -/
def _ExtractKinematicsModel (asserts : Bool) (ikm : InstanceKinematicsModel)
    (bindings : KinematicsSceneBindings) (st : ModelInterface) :
    Except Fault (Bool × ModelInterface) :=
  match ikm.url with
  | none => .ok (false, st)
  | some kmodel =>
    match bindings.listKinematicsVisualBindings.find? (fun b => b.2 = ikm.eid) with
    | none => .ok (false, st)
    | some b =>
      let st1 := setNameIfEmpty ikm.id (setNameIfEmpty ikm.name st)
      match _ExtractKinematicsModel_kmodel asserts kmodel (some b.1) bindings st1 with
      | .error e => .error e
      | .ok (false, st2) => .ok (false, st2)
      | .ok (true, st2) => .ok (true, st2)

/-! ## Articulated systems -/

/-- A `<kinematics>` of an articulated system. -/
structure DomKinematics where
  instance_kinematics_model : List InstanceKinematicsModel := []
  technique_common : Option (List KinematicsAxisInfo) := none

/-- An `attach_actuator` extra with an OpenRAVE technique: the joint that
`bind_actuator` refers to and the `nominal_torque` of the actuator (`none`
when the instance, the actuator or the child is missing). -/
structure AttachActuator where
  joint : Option DomJoint := none
  nominal_torque : Option ℚ := none

mutual
/-- An `<articulated_system>`. -/
inductive DomArticulatedSystem where
  | mk (name : Option String) (id : Option String) (motion : Option DomMotion)
      (kinematics : Option DomKinematics) (actuators : List AttachActuator) :
      DomArticulatedSystem
/-- A `<motion>`: its articulated-system instance and the axis-info array of
its `technique_common`. -/
inductive DomMotion where
  | mk (instance_articulated_system : Option InstanceArticulatedSystem)
      (technique_common : Option (List MotionAxisInfo)) : DomMotion
/-- An `<instance_articulated_system>` and the system its url resolves to. -/
inductive InstanceArticulatedSystem where
  | mk (sid : Option String) (name : Option String) (url : Option DomArticulatedSystem) :
      InstanceArticulatedSystem
end

/-- The search of `AddAxisInfo` for the binding of the axis `pelt`; the first
one gets the axis-info, and the motion axis-info when that is not null. -/
def AddAxisInfo_place (pelt : Nat) (kinematics_axis_info : KinematicsAxisInfo)
    (motion_axis_info : Option MotionAxisInfo) :
    List JointAxisBinding → Option (List JointAxisBinding)
  | [] => none
  | b :: rest =>
    if b.pkinematicaxis = pelt then
      some ({ b with
        kinematics_axis_info := some kinematics_axis_info
        motion_axis_info := match motion_axis_info with
          | some m => some m
          | none => b.motion_axis_info } :: rest)
    else (AddAxisInfo_place pelt kinematics_axis_info motion_axis_info rest).map (fun l => b :: l)

/-- The method `KinematicsSceneBindings::AddAxisInfo`; the array of
kinematics-model instances enters through the resolutions `axis` of the
axis-info. -/
def AddAxisInfo (kinematics_axis_info : Option KinematicsAxisInfo)
    (motion_axis_info : Option MotionAxisInfo) (bindings : KinematicsSceneBindings) :
    Bool × KinematicsSceneBindings :=
  match kinematics_axis_info with
  | none => (false, bindings)
  | some k =>
    match k.axis.findSome? (fun x => x) with
    | none => (false, bindings)
    | some pelt =>
      match AddAxisInfo_place pelt k motion_axis_info bindings.listAxisBindings with
      | none => (false, bindings)
      | some l => (true, { bindings with listAxisBindings := l })

/-- Lines 567-583: the axis-info array of a `<motion>`; each iteration reads
`ias_new->getUrl()`. -/
def _ExtractArticulatedSystem_motionAxes (ias_new_null : Bool) :
    List MotionAxisInfo → KinematicsSceneBindings → Except Fault KinematicsSceneBindings
  | [], bindings => .ok bindings
  | motion_axis_info :: rest, bindings =>
    if ias_new_null then .error Fault.nullDeref
    else
      match motion_axis_info.axis with
      | some kinematics_axis_info =>
        _ExtractArticulatedSystem_motionAxes ias_new_null rest
          (AddAxisInfo (some kinematics_axis_info) (some motion_axis_info) bindings).2
      | none => _ExtractArticulatedSystem_motionAxes ias_new_null rest bindings

/-- Lines 596-598: the axis-info array of a `<kinematics>`. -/
def _ExtractArticulatedSystem_kinematicsAxes :
    List KinematicsAxisInfo → KinematicsSceneBindings → KinematicsSceneBindings
  | [], bindings => bindings
  | k :: rest, bindings =>
    _ExtractArticulatedSystem_kinematicsAxes rest (AddAxisInfo (some k) none bindings).2

/-- Lines 601-603: every kinematics-model instance is tried, the results are
dropped. -/
def _ExtractArticulatedSystem_models (asserts : Bool) (bindings : KinematicsSceneBindings) :
    List InstanceKinematicsModel → ModelInterface → Except Fault ModelInterface
  | [], st => .ok st
  | ikm :: rest, st =>
    match _ExtractKinematicsModel asserts ikm bindings st with
    | .error e => .error e
    | .ok r => _ExtractArticulatedSystem_models asserts bindings rest r.2

/-- The function `_ExtractRobotAttachedActuators`: the nominal torque
overwrites the effort of the joint. -/
def _ExtractRobotAttachedActuators : List AttachActuator → ModelInterface → ModelInterface
  | [], st => st
  | act :: rest, st =>
    match _getJointFromRef act.joint st, act.nominal_torque with
    | some i, some t =>
      match st.jointHeap.get? i with
      | some j =>
        _ExtractRobotAttachedActuators rest
          (st.setJoint i { j with limits := { j.limits with effort := t } })
      | none => _ExtractRobotAttachedActuators rest st
    | _, _ => _ExtractRobotAttachedActuators rest st

mutual
/-- The function `_ExtractArticulatedSystem` for a non-null instance.  It
returns its result, the bindings and the model. -/
def _ExtractArticulatedSystem (asserts : Bool) (bindings : KinematicsSceneBindings)
    (st : ModelInterface) :
    InstanceArticulatedSystem → Except Fault (Bool × KinematicsSceneBindings × ModelInterface)
  | InstanceArticulatedSystem.mk _ _ none => .ok (false, bindings, st)
  | InstanceArticulatedSystem.mk sid name (some articulated_system) =>
    _ExtractArticulatedSystem_system asserts bindings
      (setNameIfEmpty sid (setNameIfEmpty name st)) articulated_system
/-- Lines 557-609: the part of `_ExtractArticulatedSystem` on the system
definition. -/
def _ExtractArticulatedSystem_system (asserts : Bool) (bindings : KinematicsSceneBindings)
    (st : ModelInterface) :
    DomArticulatedSystem → Except Fault (Bool × KinematicsSceneBindings × ModelInterface)
  | DomArticulatedSystem.mk name id motion kinematics actuators =>
    let st1 := setNameIfEmpty id (setNameIfEmpty name st)
    match motion with
    | some (DomMotion.mk ias_new technique_common) =>
      match _ExtractArticulatedSystem_motionAxes ias_new.isNone
          (match technique_common with
            | some l => l
            | none => []) bindings with
      | .error e => .error e
      | .ok b1 =>
        match ias_new with
        | none => .ok (false, b1, st1)
        | some i =>
          match _ExtractArticulatedSystem asserts b1 st1 i with
          | .error e => .error e
          | .ok (false, b2, st2) => .ok (false, b2, st2)
          | .ok (true, b2, st2) => .ok (true, b2, _ExtractRobotAttachedActuators actuators st2)
    | none =>
      match kinematics with
      | none => .ok (true, bindings, st1)
      | some k =>
        let b1 := _ExtractArticulatedSystem_kinematicsAxes
          (match k.technique_common with
            | some l => l
            | none => []) bindings
        match _ExtractArticulatedSystem_models asserts b1 k.instance_kinematics_model st1 with
        | .error e => .error e
        | .ok st2 => .ok (true, b1, _ExtractRobotAttachedActuators actuators st2)
end

/-! ## Post-processing and scene selection -/

/-- Modelled from the spec: `ModelInterface::initTree` of the urdfdom
headers, which is not part of the sources.  It walks the joint map in key
order and records child -> parent in `parent_link_tree`; it throws
`ParseError` (flag `true`) at the first joint with an empty parent or child
name or with a parent or child that is not a link of the model.  The entries
made before the throw stay in the tree. -/
def initTree (m : ModelInterface) :
    List (String × Nat) → List (String × String) → Bool × List (String × String)
  | [], tree => (false, tree)
  | e :: rest, tree =>
    match m.jointHeap.get? e.2 with
    | none => (true, tree)
    | some joint =>
      if joint.parent_link_name = "" ∨ joint.child_link_name = "" then (true, tree)
      else if (mapFind joint.child_link_name m.links_).isNone then (true, tree)
      else if (mapFind joint.parent_link_name m.links_).isNone then (true, tree)
      else initTree m rest (mapAssign joint.child_link_name joint.parent_link_name tree)

/-- The loop of `initRoot` over the link map: the first link without a parent
becomes the root, a second one throws (flag `true`). -/
def initRoot_loop (parent_link_tree : List (String × String)) :
    List (String × Link) → Option String → Bool × Option String
  | [], root => (false, root)
  | l :: rest, root =>
    match mapFind l.1 parent_link_tree with
    | some _ => initRoot_loop parent_link_tree rest root
    | none =>
      match root with
      | none => initRoot_loop parent_link_tree rest (some l.1)
      | some r => (true, some r)

/-- Modelled from the spec: `ModelInterface::initRoot` of the urdfdom headers,
which is not part of the sources.  The root is the link that is never a
child; `ParseError` is thrown (flag `true`) when two links qualify or none
does. -/
def initRoot (m : ModelInterface) (parent_link_tree : List (String × String)) :
    Bool × ModelInterface :=
  let r := initRoot_loop parent_link_tree m.links_ none
  if r.1 then (true, { m with root_link_ := r.2 })
  else
    match r.2 with
    | none => (true, { m with root_link_ := none })
    | some root => (false, { m with root_link_ := some root })

/-- The function `_PostProcess`: both `ParseError`s are caught and logged. -/
def _PostProcess (st : ModelInterface) : ModelInterface :=
  let parent_link_tree := (initTree st st.joints_ []).2
  (initRoot st parent_link_tree).2

/-- Whether `_PostProcess` logged a `ParseError` of `initTree` or of
`initRoot`. -/
def _PostProcess_failed (st : ModelInterface) : Bool :=
  (initTree st st.joints_ []).1 || (initRoot st (initTree st st.joints_ []).2).1

/-- A `<kinematics_scene>`. -/
structure DomKinematicsScene where
  instance_articulated_system : List InstanceArticulatedSystem := []
  instance_kinematics_model : List InstanceKinematicsModel := []

/-- An `<instance_kinematics_scene>`: the scene its url resolves to, and the
bindings that `_ExtractKinematicsVisualBindings` and `_ExtractPhysicsBindings`
collect for it. -/
structure InstanceKinematicsScene where
  url : Option DomKinematicsScene := none
  bindings : KinematicsSceneBindings := {}

/-- The `<scene>` of the document. -/
structure DomScene where
  instance_kinematics_scene : List InstanceKinematicsScene := []

/-- The document root. -/
structure DomCOLLADA where
  scene : Option DomScene := none

/-- Lines 485-490: the articulated systems of one kinematics scene, in order,
until one is extracted. -/
def _Extract_systems (asserts : Bool) :
    List InstanceArticulatedSystem → KinematicsSceneBindings → ModelInterface →
    Except Fault (Bool × KinematicsSceneBindings × ModelInterface)
  | [], bindings, st => .ok (false, bindings, st)
  | ias :: rest, bindings, st =>
    match _ExtractArticulatedSystem asserts bindings st ias with
    | .error e => .error e
    | .ok (true, b1, st1) => .ok (true, b1, st1)
    | .ok (false, b1, st1) => _Extract_systems asserts rest b1 st1

/-- Lines 496-501: the kinematics-model instances kept as possible bodies. -/
def _Extract_bodies (asserts : Bool) :
    List (InstanceKinematicsModel × KinematicsSceneBindings) → ModelInterface →
    Except Fault (Bool × ModelInterface)
  | [], st => .ok (false, st)
  | it :: rest, st =>
    match _ExtractKinematicsModel asserts it.1 it.2 st with
    | .error e => .error e
    | .ok (true, st1) => .ok (true, _PostProcess st1)
    | .ok (false, st1) => _Extract_bodies asserts rest st1

/-- Lines 476-503: the loop over the kinematics-scene instances, then the
possible bodies. -/
def _Extract_scenes (asserts : Bool) :
    List InstanceKinematicsScene → List (InstanceKinematicsModel × KinematicsSceneBindings) →
    ModelInterface → Except Fault (Bool × ModelInterface)
  | [], listPossibleBodies, st => _Extract_bodies asserts listPossibleBodies st
  | kiscene :: rest, listPossibleBodies, st =>
    match kiscene.url with
    | none => _Extract_scenes asserts rest listPossibleBodies st
    | some kscene =>
      match _Extract_systems asserts kscene.instance_articulated_system kiscene.bindings st with
      | .error e => .error e
      | .ok (true, _, st1) => .ok (true, _PostProcess st1)
      | .ok (false, b1, st1) =>
        _Extract_scenes asserts rest
          (listPossibleBodies ++ kscene.instance_kinematics_model.map (fun ikm => (ikm, b1))) st1

/-- The function `_Extract`, from the cleared model. -/
def _Extract (asserts : Bool) (dom : DomCOLLADA) : Except Fault (Bool × ModelInterface) :=
  match dom.scene with
  | none => .ok (false, {})
  | some allscene => _Extract_scenes asserts allscene.instance_kinematics_scene [] {}

/-- The function `InitFromData`; `none` is data that the DOM fails to load. -/
def InitFromData (asserts : Bool) (pdata : Option DomCOLLADA) :
    Except Fault (Bool × ModelInterface) :=
  match pdata with
  | none => .ok (false, {})
  | some dom => _Extract asserts dom

/-- The function `parseCollada`: the model, or the null pointer when the
reader reports failure. -/
def parseCollada (asserts : Bool) (xml_str : Option DomCOLLADA) :
    Except Fault (Option ModelInterface) :=
  match InitFromData asserts xml_str with
  | .error e => .error e
  | .ok (true, model) => .ok (some model)
  | .ok (false, _) => .ok none

/-! ## Example documents -/

/-- The root link A of the failing input of C8: one attachment through the
joint J, with one revolute axis (inline limits -1 and 1), to the link B. -/
def lockedExample : DomLink :=
  DomLink.mk (some "A") none
    [DomAttachment.mk
      (some { name := some "J",
              axes := [{ eid := 1, kind := AxisKind.revolute, limits := some (-1, 1) }] })
      (some (DomLink.mk (some "B") none []))]

/-- The bindings of the failing input of C8: the axis is bound to a node and
to an axis-info whose locked flag is the literal true. -/
def lockedBindings : KinematicsSceneBindings :=
  { listAxisBindings :=
      [{ pkinematicaxis := 1
         visualnode := some { eid := 2, name := some "B" }
         kinematics_axis_info := some { locked := some { bool := some true } } }] }

/-- A kinematics-model instance whose model has the two root links A and B
and no joint. -/
def twoRootsModel : InstanceKinematicsModel :=
  { eid := 5, url := some { link := [DomLink.mk (some "A") none [], DomLink.mk (some "B") none []] } }

/-- The bindings of `twoRootsDocument`: the instance is bound to the node A. -/
def twoRootsBindings : KinematicsSceneBindings :=
  { listKinematicsVisualBindings := [({ eid := 1, name := some "A" }, 5)] }

/-- A document whose only kinematics scene instantiates `twoRootsModel`. -/
def twoRootsDocument : DomCOLLADA :=
  { scene := some { instance_kinematics_scene :=
      [{ url := some { instance_kinematics_model := [twoRootsModel] }
         bindings := twoRootsBindings }] } }

/-- The model that the extraction of `twoRootsDocument` hands to
`_PostProcess`. -/
def twoRootsExtracted : ModelInterface :=
  { links_ := [("A", { name := "A" }), ("B", { name := "B" })] }

/-- Every joint object names as parent a key of the link map, and as child a
key of the link map or nothing. -/
def JointsNameLinks (st : ModelInterface) : Prop :=
  ∀ j ∈ st.jointHeap,
    j.parent_link_name ∈ mapKeys st.links_ ∧
    (j.child_link_name = "" ∨ j.child_link_name ∈ mapKeys st.links_)

/-- A step of the extraction keeps the links it found and the
well-formedness of the joint records. -/
def Grows (st st1 : ModelInterface) : Prop :=
  (∀ k ∈ mapKeys st.links_, k ∈ mapKeys st1.links_) ∧
  (JointsNameLinks st → JointsNameLinks st1)

/-- The root link A of `brokenChildDocument`: the joint J leads to the link B,
whose own attachment refers to a joint that does not resolve. -/
def brokenChildLink : DomLink :=
  DomLink.mk (some "A") none
    [DomAttachment.mk
      (some { name := some "J", axes := [{ eid := 1, kind := AxisKind.revolute }] })
      (some (DomLink.mk (some "B") none
        [DomAttachment.mk none (some (DomLink.mk (some "C") none []))]))]

/-- A document whose only kinematics scene instantiates the kinematics model
with the root link `brokenChildLink`, bound to the node A. -/
def brokenChildDocument : DomCOLLADA :=
  { scene := some { instance_kinematics_scene :=
      [{ url := some { instance_kinematics_model :=
            [{ eid := 5, url := some { link := [brokenChildLink] } }] }
         bindings := { listKinematicsVisualBindings := [({ eid := 1, name := some "A" }, 5)] } }] } }

/-- The root link A of `twoLinkDocument`: the joint J, one revolute axis with
the inline limits -1 and 1, leads to the link B. -/
def twoLinkRoot : DomLink :=
  DomLink.mk (some "A") none
    [DomAttachment.mk
      (some { name := some "J",
              axes := [{ eid := 1, kind := AxisKind.revolute, limits := some (-1, 1) }] })
      (some (DomLink.mk (some "B") none []))]

/-- A document whose only kinematics scene instantiates the kinematics model
with the root link `twoLinkRoot`, bound to the node A. -/
def twoLinkDocument : DomCOLLADA :=
  { scene := some { instance_kinematics_scene :=
      [{ url := some { instance_kinematics_model :=
            [{ eid := 5, url := some { link := [twoLinkRoot] } }] }
         bindings := { listKinematicsVisualBindings := [({ eid := 1, name := some "A" }, 5)] } }] } }

/-- The model that `_Extract` returns for `twoLinkDocument`. -/
def twoLinkModel : ModelInterface :=
  { links_ := [("A", { name := "A" }), ("B", { name := "B" })]
    joints_ := [("J", 0)]
    jointHeap := [{ name := "J", type := JointType.REVOLUTE, parent_link_name := "A",
                    child_link_name := "B",
                    limits := { lower := -1 * (M_PI / 180), upper := 1 * (M_PI / 180),
                                velocity := 1 / 2 } }]
    root_link_ := some "A" }

/-- A root link P whose only attachment leads, through a joint without name
with a revolute and a prismatic axis, to the link C. -/
def twoAxesUnnamed : DomLink :=
  DomLink.mk (some "P") none
    [DomAttachment.mk
      (some { name := none,
              axes := [{ eid := 1, kind := AxisKind.revolute },
                       { eid := 2, kind := AxisKind.prismatic }] })
      (some (DomLink.mk (some "C") none []))]

/-! ## Formula trees -/

/-- An element without character data, attributes or children, as `<plus/>`. -/
def mathOp (name : String) : DaeElement := DaeElement.mk name none none none []

/-- A `<cn>` whose character data reads as the number `a`. -/
def mathCn (a : ℚ) : DaeElement := DaeElement.mk "cn" (some a) none none []

/-- A `<csymbol encoding="COLLADA">` whose character data refers to `x`. -/
def mathCsymbol (x : Option DomJoint) : DaeElement :=
  DaeElement.mk "csymbol" none (some "COLLADA") x []

/-- An `<apply>` with the given children. -/
def mathApply (children : List DaeElement) : DaeElement :=
  DaeElement.mk "apply" none none none children

/-- The tree `apply(csymbol x)`. -/
def mathBare (x : Option DomJoint) : DaeElement :=
  mathApply [mathCsymbol x]

/-- The tree `apply(times, cn a, csymbol x)`, which is none of the three. -/
def mathProduct (a : ℚ) (x : Option DomJoint) : DaeElement :=
  mathApply [mathOp "times", mathCn a, mathCsymbol x]

/-- A `<formula>` with the target `target` and one `<math>` holding `tree`. -/
def formulaOf (target : Option DomJoint) (tree : DaeElement) : DomFormula :=
  { target := some target
    technique_common := some [DaeElement.mk "math" none none none [tree]] }

/-- A model with two extracted joints, `B` and `T`. -/
def mimicModel : ModelInterface :=
  { jointHeap := [{ name := "B", type := JointType.REVOLUTE },
                  { name := "T", type := JointType.REVOLUTE }]
    joints_ := [("B", 0), ("T", 1)] }

/-! ## Poses

The functions taken over from the geometry header of OpenRAVE.  They are
written over any field `K`; the square root of the C library is a parameter. -/

/-- Modelled from the spec: `urdf::Vector3`. -/
structure Vector3 (K : Type) where
  x : K
  y : K
  z : K
  deriving DecidableEq, Repr

/-- Modelled from the spec: `urdf::Rotation`, a quaternion with the real part
`w` last. -/
structure Rotation (K : Type) where
  x : K
  y : K
  z : K
  w : K
  deriving DecidableEq, Repr

/-- Modelled from the spec: `urdf::Pose`. -/
structure Pose (K : Type) where
  position : Vector3 K
  rotation : Rotation K
  deriving DecidableEq, Repr

/-- The sum `x^2 + y^2 + z^2 + w^2`. -/
def Rotation.normSq {K : Type} [Field K] (q : Rotation K) : K :=
  q.x * q.x + q.y * q.y + q.z * q.z + q.w * q.w

/-- The quaternion of Mathlib with the same components. -/
def Rotation.toQuaternion {K : Type} [Field K] (q : Rotation K) : Quaternion K :=
  ⟨q.w, q.x, q.y, q.z⟩

/-- The overload `_poseMult(const Pose&, const Vector3&)`. -/
def _poseMult_point {K : Type} [Field K] (p : Pose K) (v : Vector3 K) : Vector3 K :=
  let ww := 2 * p.rotation.x * p.rotation.x
  let wx := 2 * p.rotation.x * p.rotation.y
  let wy := 2 * p.rotation.x * p.rotation.z
  let wz := 2 * p.rotation.x * p.rotation.w
  let xx := 2 * p.rotation.y * p.rotation.y
  let xy := 2 * p.rotation.y * p.rotation.z
  let xz := 2 * p.rotation.y * p.rotation.w
  let yy := 2 * p.rotation.z * p.rotation.z
  let yz := 2 * p.rotation.z * p.rotation.w
  { x := (1 - xx - yy) * v.x + (wx - yz) * v.y + (wy + xz) * v.z + p.position.x
    y := (wx + yz) * v.x + (1 - ww - yy) * v.y + (xy - wz) * v.z + p.position.y
    z := (wy - xz) * v.x + (xy + wz) * v.y + (1 - ww - xx) * v.z + p.position.z }

/-- Lines 2642-2645 of `_quatMult`: the product before it is normalised. -/
def _quatMult_product {K : Type} [Field K] (quat0 quat1 : Rotation K) : Rotation K :=
  { x := quat0.w * quat1.x + quat0.x * quat1.w + quat0.y * quat1.z - quat0.z * quat1.y
    y := quat0.w * quat1.y + quat0.y * quat1.w + quat0.z * quat1.x - quat0.x * quat1.z
    z := quat0.w * quat1.z + quat0.z * quat1.w + quat0.x * quat1.y - quat0.y * quat1.x
    w := quat0.w * quat1.w - quat0.x * quat1.x - quat0.y * quat1.y - quat0.z * quat1.z }

/-- The last lines of `_quatMult` and of `_quatFromMatrix`: the division by
the square root of the sum of the squares. -/
def normalizeRotation {K : Type} [Field K] (sqrt : K → K) (q : Rotation K) : Rotation K :=
  let fnorm := sqrt (q.x * q.x + q.y * q.y + q.z * q.z + q.w * q.w)
  { x := q.x / fnorm, y := q.y / fnorm, z := q.z / fnorm, w := q.w / fnorm }

/-- The function `_quatMult`. -/
def _quatMult {K : Type} [Field K] (sqrt : K → K) (quat0 quat1 : Rotation K) : Rotation K :=
  normalizeRotation sqrt (_quatMult_product quat0 quat1)

/-- The overload `_poseMult(const Pose&, const Pose&)`. -/
def _poseMult {K : Type} [Field K] (sqrt : K → K) (p0 p1 : Pose K) : Pose K :=
  { position := _poseMult_point p0 p1.position
    rotation := _quatMult sqrt p0.rotation p1.rotation }

/-- The function `_poseInverse`; a new `Pose` has the position (0, 0, 0). -/
def _poseInverse {K : Type} [Field K] (p : Pose K) : Pose K :=
  let pinv : Pose K :=
    { position := { x := 0, y := 0, z := 0 }
      rotation := { x := -p.rotation.x, y := -p.rotation.y, z := -p.rotation.z,
                    w := p.rotation.w } }
  let t := _poseMult_point pinv p.position
  { pinv with position := { x := -t.x, y := -t.y, z := -t.z } }

/-- The branches of `_quatFromMatrix`: the quaternion before it is
normalised, from a matrix stored by rows, `m[4*i+j]`. -/
def _quatFromMatrix_branch {K : Type} [LinearOrderedField K] (mat : Fin 12 → K) : Rotation K :=
  let tr := mat 0 + mat 5 + mat 10
  if tr ≥ 0 then
    { w := tr + 1, x := mat 9 - mat 6, y := mat 2 - mat 8, z := mat 4 - mat 1 }
  else if mat 5 > mat 0 then
    if mat 10 > mat 5 then
      { z := (mat 10 - (mat 0 + mat 5)) + 1, x := mat 8 + mat 2, y := mat 6 + mat 9,
        w := mat 4 - mat 1 }
    else
      { y := (mat 5 - (mat 10 + mat 0)) + 1, z := mat 6 + mat 9, x := mat 1 + mat 4,
        w := mat 2 - mat 8 }
  else if mat 10 > mat 0 then
    { z := (mat 10 - (mat 0 + mat 5)) + 1, x := mat 8 + mat 2, y := mat 6 + mat 9,
      w := mat 4 - mat 1 }
  else
    { x := (mat 0 - (mat 5 + mat 10)) + 1, y := mat 1 + mat 4, z := mat 8 + mat 2,
      w := mat 9 - mat 6 }

/-- The function `_quatFromMatrix`. -/
def _quatFromMatrix {K : Type} [LinearOrderedField K] (sqrt : K → K) (mat : Fin 12 → K) :
    Rotation K :=
  normalizeRotation sqrt (_quatFromMatrix_branch mat)

/-! ## Collision meshes -/

/-- The function `_dot3`. -/
def _dot3 {K : Type} [Field K] (v0 v1 : Vector3 K) : K :=
  v0.x * v1.x + v0.y * v1.y + v0.z * v1.z

/-- The function `_cross3`. -/
def _cross3 {K : Type} [Field K] (v0 v1 : Vector3 K) : Vector3 K :=
  { x := v0.y * v1.z - v0.z * v1.y
    y := v0.z * v1.x - v0.x * v1.z
    z := v0.x * v1.y - v0.y * v1.x }

/-- The function `_sub3`. -/
def _sub3 {K : Type} [Field K] (v0 v1 : Vector3 K) : Vector3 K :=
  { x := v0.x - v1.x, y := v0.y - v1.y, z := v0.z - v1.z }

/-- The function `_add3`. -/
def _add3 {K : Type} [Field K] (v0 v1 : Vector3 K) : Vector3 K :=
  { x := v0.x + v1.x, y := v0.y + v1.y, z := v0.z + v1.z }

/-- The function `_normalize3`. -/
def _normalize3 {K : Type} [Field K] (sqrt : K → K) (v0 : Vector3 K) : Vector3 K :=
  let norm := sqrt (v0.x * v0.x + v0.y * v0.y + v0.z * v0.z)
  { x := v0.x / norm, y := v0.y / norm, z := v0.z / norm }

/-- The enumeration `GeomType`. -/
inductive GeomType where
  | GeomNone
  | GeomBox
  | GeomSphere
  | GeomCylinder
  | GeomTrimesh
  deriving DecidableEq, Repr

/-- The struct `GEOMPROPERTIES` without its pose and colours: the data of the
primitive, the two buffers and the type. -/
structure GEOMPROPERTIES (K : Type) where
  vGeomData : Vector3 K
  vertices : List (Vector3 K) := []
  indices : List Nat := []
  type : GeomType
  deriving DecidableEq, Repr

/-- The functions of the C library that the tessellation calls, and the
rounding of the two results that it casts to `int`: `roundDouble x` and
`roundFloat x` are the `double` and the `float` that the arithmetic returns
for the exact result `x`. -/
structure MathLibrary (K : Type) where
  sqrt : K → K
  sin : K → K
  cos : K → K
  logf : K → K
  roundDouble : K → K
  roundFloat : K → K

/-- Checked indexing, `std::vector::at`. -/
def vectorAt {α : Type} (v : List α) (i : Nat) : Except Fault α :=
  match v.get? i with
  | some a => .ok a
  | none => .error Fault.outOfRange

/-- The call `std::swap(v[i], v[j])` on a `std::vector`; both positions have
to exist. -/
def vectorSwap {α : Type} (v : List α) (i j : Nat) : Except Fault (List α) :=
  match v.get? i, v.get? j with
  | some a, some b => .ok ((v.set i b).set j a)
  | _, _ => .error Fault.outOfRange

/-- The constant `GTS_M_ICOSAHEDRON_X`, as the double it is read as. -/
def GTS_M_ICOSAHEDRON_X {K : Type} [Field K] : K := 1915495331758329 / 2251799813685248

/-- The constant `GTS_M_ICOSAHEDRON_Y`, as the double it is read as. -/
def GTS_M_ICOSAHEDRON_Y {K : Type} [Field K] : K := 4735364881273613 / 9007199254740992

/-- The constant `GTS_M_ICOSAHEDRON_Z`. -/
def GTS_M_ICOSAHEDRON_Z {K : Type} [Field K] : K := 0

/-- Lines 219-230: the twelve vertices of the icosahedron. -/
def icosahedronVertices {K : Type} [Field K] : List (Vector3 K) :=
  [ { x := GTS_M_ICOSAHEDRON_Z, y := GTS_M_ICOSAHEDRON_X, z := -GTS_M_ICOSAHEDRON_Y },
    { x := GTS_M_ICOSAHEDRON_X, y := GTS_M_ICOSAHEDRON_Y, z := GTS_M_ICOSAHEDRON_Z },
    { x := GTS_M_ICOSAHEDRON_Y, y := GTS_M_ICOSAHEDRON_Z, z := -GTS_M_ICOSAHEDRON_X },
    { x := GTS_M_ICOSAHEDRON_Y, y := GTS_M_ICOSAHEDRON_Z, z := GTS_M_ICOSAHEDRON_X },
    { x := GTS_M_ICOSAHEDRON_X, y := -GTS_M_ICOSAHEDRON_Y, z := GTS_M_ICOSAHEDRON_Z },
    { x := GTS_M_ICOSAHEDRON_Z, y := GTS_M_ICOSAHEDRON_X, z := GTS_M_ICOSAHEDRON_Y },
    { x := -GTS_M_ICOSAHEDRON_Y, y := GTS_M_ICOSAHEDRON_Z, z := GTS_M_ICOSAHEDRON_X },
    { x := GTS_M_ICOSAHEDRON_Z, y := -GTS_M_ICOSAHEDRON_X, z := -GTS_M_ICOSAHEDRON_Y },
    { x := -GTS_M_ICOSAHEDRON_X, y := GTS_M_ICOSAHEDRON_Y, z := GTS_M_ICOSAHEDRON_Z },
    { x := -GTS_M_ICOSAHEDRON_Y, y := GTS_M_ICOSAHEDRON_Z, z := -GTS_M_ICOSAHEDRON_X },
    { x := -GTS_M_ICOSAHEDRON_X, y := -GTS_M_ICOSAHEDRON_Y, z := GTS_M_ICOSAHEDRON_Z },
    { x := GTS_M_ICOSAHEDRON_Z, y := -GTS_M_ICOSAHEDRON_X, z := GTS_M_ICOSAHEDRON_Y } ]

/-- Lines 232-254: the twenty triangles of the icosahedron. -/
def icosahedronIndices : List Nat :=
  [0, 1, 2, 1, 3, 4, 3, 5, 6, 2, 4, 7, 5, 6, 8, 2, 7, 9, 0, 5, 8, 7, 9, 10, 0, 1, 5,
   7, 10, 11, 1, 3, 5, 6, 10, 11, 3, 6, 11, 9, 10, 8, 3, 4, 11, 6, 8, 10, 4, 7, 11,
   1, 2, 4, 0, 8, 9, 0, 2, 9]

/-- Lines 256-264: the loop that orients the triangles of the icosahedron
counter-clockwise. -/
def orientCCW {K : Type} [LinearOrderedField K] (vertices : List (Vector3 K)) :
    List Nat → Except Fault (List Nat)
  | a :: b :: c :: rest =>
    match vectorAt vertices a, vectorAt vertices b, vectorAt vertices c,
      orientCCW vertices rest with
    | .ok v0, .ok v1, .ok v2, .ok r =>
      if _dot3 v0 (_cross3 (_sub3 v1 v0) (_sub3 v2 v0)) < 0 then .ok (b :: a :: c :: r)
      else .ok (a :: b :: c :: r)
    | _, _, _, _ => .error Fault.outOfRange
  | l => .ok l

/-- Line 281: the key of the edge from `a` to `b`, `(uint64_t)a << 32 | b`. -/
def edgeKey (a b : Nat) : Nat :=
  (((a % 2 ^ 64) * 2 ^ 32) % 2 ^ 64) ||| (b % 2 ^ 64)

/-- Line 285: the key of the opposite edge, `(key << 32) | (key >> 32)`. -/
def edgeKeySwapped (key : Nat) : Nat :=
  ((key * 2 ^ 32) % 2 ^ 64) ||| (key / 2 ^ 32)

/-- Lines 280-291, one edge of a triangle: the index of its midpoint, which
is looked up in `mapnewinds` and is a new vertex when it is not there.  The map
is an association list in which the newest entry of a key is the one found. -/
def subdivideEdge {K : Type} [Field K] (sqrt : K → K) (a b : Nat) (va vb : Vector3 K)
    (s : List (Vector3 K) × List (Nat × Nat)) : Nat × List (Vector3 K) × List (Nat × Nat) :=
  let key := edgeKey a b
  match s.2.lookup key with
  | none =>
    (s.1.length, s.1 ++ [_normalize3 sqrt (_add3 va vb)],
      (key, s.1.length) :: (edgeKeySwapped key, s.1.length) :: s.2)
  | some ind => (ind, s.1, s.2)

/-- Lines 273-299: the loop over the triangles of one level.  The state is
`newvertices`, `newindices` and `mapnewinds`. -/
def subdivideLoop {K : Type} [Field K] (sqrt : K → K) (curvertices : List (Vector3 K)) :
    List Nat → List (Vector3 K) × List Nat × List (Nat × Nat) →
    Except Fault (List (Vector3 K) × List Nat × List (Nat × Nat))
  | [], s => .ok s
  | a :: b :: c :: rest, s =>
    match vectorAt curvertices a, vectorAt curvertices b, vectorAt curvertices c with
    | .ok v0, .ok v1, .ok v2 =>
      let e0 := subdivideEdge sqrt a b v0 v1 (s.1, s.2.2)
      let e1 := subdivideEdge sqrt b c v1 v2 e0.2
      let e2 := subdivideEdge sqrt c a v2 v0 e1.2
      subdivideLoop sqrt curvertices rest
        (e2.2.1,
         s.2.1 ++ [a, e0.1, e2.1, e0.1, b, e1.1, e2.1, e0.1, e1.1, e2.1, e1.1, c],
         e2.2.2)
    | _, _, _ => .error Fault.outOfRange
  | _, _ => .error Fault.outOfRange

/-- Lines 265-304: the loop over the levels, on `curvertices` and
`curindices`. -/
def subdivide {K : Type} [Field K] (sqrt : K → K) :
    Nat → List (Vector3 K) × List Nat → Except Fault (List (Vector3 K) × List Nat)
  | 0, cur => .ok cur
  | n + 1, cur =>
    match subdivideLoop sqrt cur.1 cur.2 (cur.1, [], []) with
    | .error e => .error e
    | .ok r => subdivide sqrt n (r.1, r.2.1)

/-- The function `GenerateSphereTriangulation`.  Its two vectors are passed
by value; the result is what these local copies hold when it returns. -/
def GenerateSphereTriangulation {K : Type} [LinearOrderedField K] (sqrt : K → K)
    (_realvertices : List (Vector3 K)) (_realindices : List Nat) (levels : Int) :
    Except Fault (List (Vector3 K) × List Nat) :=
  match orientCCW (icosahedronVertices : List (Vector3 K)) icosahedronIndices with
  | .error e => .error e
  | .ok indices => subdivide sqrt levels.toNat (icosahedronVertices, indices)

/-- The conversion `(int)x` of a double: the fraction is dropped, and a value
outside the range of `int` has no defined result. -/
def toInt32 {K : Type} [LinearOrderedField K] [FloorRing K] (x : K) : Except Fault Int :=
  let t : Int := if 0 ≤ x then Int.floor x else Int.ceil x
  if -2 ^ 31 ≤ t ∧ t < 2 ^ 31 then .ok t else .error Fault.outOfRange

/-- Lines 343-350: the eight corners of a box with the extents `ex`. -/
def boxVertices {K : Type} [Field K] (ex : Vector3 K) : List (Vector3 K) :=
  [ { x := ex.x, y := ex.y, z := ex.z },
    { x := ex.x, y := ex.y, z := -ex.z },
    { x := ex.x, y := -ex.y, z := ex.z },
    { x := ex.x, y := -ex.y, z := -ex.z },
    { x := -ex.x, y := ex.y, z := ex.z },
    { x := -ex.x, y := ex.y, z := -ex.z },
    { x := -ex.x, y := -ex.y, z := ex.z },
    { x := -ex.x, y := -ex.y, z := -ex.z } ]

/-- Lines 352-365: the array `startindices` of the box. -/
def startindices : List Nat :=
  [0, 1, 2, 1, 2, 3, 4, 5, 6, 5, 6, 7, 0, 1, 4, 1, 4, 5, 2, 3, 6, 3, 6, 7, 0, 2, 4,
   2, 4, 6, 1, 3, 5, 3, 5, 7]

/-- Lines 367-374: the winding loop of the box.  The first argument is what
is left of `startindices`, `i` the position reached, `indices` the index
buffer of the geometry, in which the swap is made. -/
def InitCollisionMesh_boxWinding {K : Type} [LinearOrderedField K] (v : List (Vector3 K)) :
    List Nat → Nat → List Nat → Except Fault (List Nat)
  | a :: b :: c :: rest, i, indices =>
    match vectorAt v a, vectorAt v b, vectorAt v c with
    | .ok v1, .ok v2, .ok v3 =>
      if _dot3 v1 (_sub3 v2 (_cross3 v1 (_sub3 v3 v1))) < 0 then
        match vectorSwap indices i (i + 1) with
        | .error e => .error e
        | .ok indices1 => InitCollisionMesh_boxWinding v rest (i + 3) indices1
      else InitCollisionMesh_boxWinding v rest (i + 3) indices
    | _, _, _ => .error Fault.outOfRange
  | _, _, indices => .ok indices

/-- Lines 340-381: the case `GeomBox`, entered with both buffers cleared.
After the loop the buffers are resized and overwritten with the eight
corners and with `startindices`. -/
def InitCollisionMesh_box {K : Type} [LinearOrderedField K] (g : GEOMPROPERTIES K) :
    Except Fault (Bool × GEOMPROPERTIES K) :=
  let v := boxVertices g.vGeomData
  match InitCollisionMesh_boxWinding v startindices 0 g.indices with
  | .error e => .error e
  | .ok _ => .ok (true, { g with vertices := v, indices := startindices })

/-- Lines 329-339: the case `GeomSphere`, entered with both buffers cleared.
The two buffers go to `GenerateSphereTriangulation` by value. -/
def InitCollisionMesh_sphere {K : Type} [LinearOrderedField K] [FloorRing K]
    (lib : MathLibrary K) (g : GEOMPROPERTIES K) (fTessellation : K) :
    Except Fault (Bool × GEOMPROPERTIES K) :=
  match toInt32 (lib.roundFloat (lib.logf fTessellation / lib.logf 2)) with
  | .error e => .error e
  | .ok l =>
    match GenerateSphereTriangulation lib.sqrt g.vertices g.indices (3 + l) with
    | .error e => .error e
    | .ok _ =>
      let fRadius := g.vGeomData.x
      let scaled := g.vertices.map
        (fun it => { x := it.x * fRadius, y := it.y * fRadius, z := it.z * fRadius })
      .ok (true, { g with vertices := scaled })

/-- Lines 393-405: the loop of the cylinder, `n` iterations from `i` on. -/
def InitCollisionMesh_cylinderLoop {K : Type} [Field K] (lib : MathLibrary K)
    (rad len dtheta : K) :
    Nat → Nat → List (Vector3 K) × List Nat → List (Vector3 K) × List Nat
  | 0, _, s => s
  | n + 1, i, s =>
    let sn := rad * lib.sin (dtheta * (i : K))
    let c := rad * lib.cos (dtheta * (i : K))
    let off := s.1.length
    InitCollisionMesh_cylinderLoop lib rad len dtheta n (i + 1)
      (s.1 ++ [{ x := c, y := sn, z := len }, { x := c, y := sn, z := -len }],
       s.2 ++ [0, off, off - 2, 1, off - 1, off + 1, off - 2, off, off - 1,
               off, off - 1, off + 1])

/-- Lines 382-407: the case `GeomCylinder`, entered with both buffers
cleared.  The product `fTessellation*24.0f` is a `double`, the rounded
product, which the cast truncates. -/
def InitCollisionMesh_cylinder {K : Type} [LinearOrderedField K] [FloorRing K]
    (lib : MathLibrary K) (g : GEOMPROPERTIES K) (fTessellation : K) :
    Except Fault (Bool × GEOMPROPERTIES K) :=
  let rad := g.vGeomData.x
  let len := g.vGeomData.y * (1 / 2)
  match toInt32 (lib.roundDouble (fTessellation * 24)) with
  | .error e => .error e
  | .ok t =>
    if t + 3 < 2 ^ 31 then
      let numverts : Int := t + 3
      let dtheta : K := 2 * (M_PI : ℚ) / (numverts : K)
      let r := InitCollisionMesh_cylinderLoop lib rad len dtheta (numverts + 1).toNat 0
        (g.vertices ++ [{ x := 0, y := 0, z := len }, { x := 0, y := 0, z := -len },
                        { x := rad, y := 0, z := len }, { x := rad, y := 0, z := -len }],
         g.indices)
      .ok (true, { g with vertices := r.1, indices := r.2 })
    else .error Fault.outOfRange

/-- The function `InitCollisionMesh`; `0.01f` is the float nearest to 0.01. -/
def InitCollisionMesh {K : Type} [LinearOrderedField K] [FloorRing K] (asserts : Bool)
    (lib : MathLibrary K) (g : GEOMPROPERTIES K) (fTessellation : K) :
    Except Fault (Bool × GEOMPROPERTIES K) :=
  if g.type = GeomType.GeomTrimesh then .ok (true, g)
  else
    let g0 : GEOMPROPERTIES K := { g with indices := [], vertices := [] }
    let f : K := if fTessellation < 5368709 / 536870912 then 5368709 / 536870912
      else fTessellation
    match g.type with
    | GeomType.GeomSphere => InitCollisionMesh_sphere lib g0 f
    | GeomType.GeomBox => InitCollisionMesh_box g0
    | GeomType.GeomCylinder => InitCollisionMesh_cylinder lib g0 f
    | _ =>
      match BOOST_ASSERT asserts false with
      | .error e => .error e
      | .ok _ => .ok (true, g0)

/-- The signed volume from the origin of the triangle `(a, b, c)`, as the
specification states it: `a . ((b - a) x (c - a))`. -/
def signedVolume {K : Type} [Field K] (a b c : Vector3 K) : K :=
  _dot3 a (_cross3 (_sub3 b a) (_sub3 c a))

/-- The signed volumes of the triangles that an index buffer lists; a
position outside the vertex buffer counts as the origin. -/
def signedVolumes {K : Type} [Field K] (vertices : List (Vector3 K)) : List Nat → List K
  | a :: b :: c :: rest =>
    signedVolume (vertices.getD a ⟨0, 0, 0⟩) (vertices.getD b ⟨0, 0, 0⟩)
      (vertices.getD c ⟨0, 0, 0⟩) :: signedVolumes vertices rest
  | _ => []

/-- The function `subdivideEdge` on the number of vertices instead of the
vertex buffer. -/
def subdivideEdgeCount (a b : Nat) (s : Nat × List (Nat × Nat)) :
    Nat × Nat × List (Nat × Nat) :=
  let key := edgeKey a b
  match s.2.lookup key with
  | none => (s.1, s.1 + 1, (key, s.1) :: (edgeKeySwapped key, s.1) :: s.2)
  | some ind => (ind, s.1, s.2)

/-- The function `subdivideLoop` on the numbers of vertices instead of the
vertex buffers. -/
def subdivideLoopCount (curvertices : Nat) :
    List Nat → Nat × List Nat × List (Nat × Nat) → Except Fault (Nat × List Nat × List (Nat × Nat))
  | [], s => .ok s
  | a :: b :: c :: rest, s =>
    if a < curvertices ∧ b < curvertices ∧ c < curvertices then
      let e0 := subdivideEdgeCount a b (s.1, s.2.2)
      let e1 := subdivideEdgeCount b c e0.2
      let e2 := subdivideEdgeCount c a e1.2
      subdivideLoopCount curvertices rest
        (e2.2.1,
         s.2.1 ++ [a, e0.1, e2.1, e0.1, b, e1.1, e2.1, e0.1, e1.1, e2.1, e1.1, c],
         e2.2.2)
    else .error Fault.outOfRange
  | _, _ => .error Fault.outOfRange

/-- The function `subdivide` on the number of vertices instead of the vertex
buffer. -/
def subdivideCount : Nat → Nat × List Nat → Except Fault (Nat × List Nat)
  | 0, cur => .ok cur
  | n + 1, cur =>
    match subdivideLoopCount cur.1 cur.2 (cur.1, [], []) with
    | .error e => .error e
    | .ok r => subdivideCount n (r.1, r.2.1)

/-- The index buffer of the icosahedron after the orientation loop. -/
def icosahedronOriented : List Nat :=
  [0, 1, 2, 1, 3, 4, 3, 5, 6, 2, 4, 7, 6, 5, 8, 2, 7, 9, 5, 0, 8, 9, 7, 10, 1, 0, 5,
   10, 7, 11, 3, 1, 5, 6, 10, 11, 3, 6, 11, 9, 10, 8, 4, 3, 11, 6, 8, 10, 7, 4, 11,
   2, 1, 4, 8, 0, 9, 0, 2, 9]

/-- The directed edges of the triangles that an index buffer lists. -/
def triangleEdges : List Nat → List (Nat × Nat)
  | a :: b :: c :: rest => (a, b) :: (b, c) :: (c, a) :: triangleEdges rest
  | _ => []

/-- An edge without its direction: the smaller end comes first. -/
def undirected (e : Nat × Nat) : Nat × Nat :=
  if e.1 ≤ e.2 then e else (e.2, e.1)

/-- The set of the undirected edges of the triangles of an index buffer. -/
def undirectedEdges (indices : List Nat) : Finset (Nat × Nat) :=
  ((triangleEdges indices).map undirected).toFinset

/-- The map `mapnewinds` holds an entry for an edge exactly when the edge, in
one direction or the other, is in `S`. -/
def EdgeInv (S : Finset (Nat × Nat)) (m : List (Nat × Nat)) : Prop :=
  ∀ a b, a < 2 ^ 32 → b < 2 ^ 32 →
    ((m.lookup (edgeKey a b)).isSome = true ↔ undirected (a, b) ∈ S)

/-- Every index that the map `mapnewinds` holds is below `n`. -/
def MapBelow (n : Nat) (m : List (Nat × Nat)) : Prop :=
  ∀ k v, m.lookup k = some v → v < n

/-- The number of distinct undirected edges in a list of edges between
indices below `w`, counted with a bit set `seen` in which the edge between
`lo` and `hi` has the position `lo * w + hi`. -/
def countEdges (w : Nat) : List (Nat × Nat) → Nat → Nat → Nat
  | [], _, n => n
  | e :: es, seen, n =>
    if seen.testBit ((undirected e).1 * w + (undirected e).2) then countEdges w es seen n
    else countEdges w es (seen ||| 2 ^ ((undirected e).1 * w + (undirected e).2)) (n + 1)

/-- The index buffer of the icosahedron after one level of subdivision. -/
def icosahedronLevel1 : List Nat :=
  [0, 12, 14, 12, 1, 13, 14, 12, 13, 14, 13, 2, 1, 15, 17, 15, 3, 16, 17, 15, 16, 17, 16, 4,
   3, 18, 20, 18, 5, 19, 20, 18, 19, 20, 19, 6, 2, 21, 23, 21, 4, 22, 23, 21, 22, 23, 22, 7,
   6, 19, 25, 19, 5, 24, 25, 19, 24, 25, 24, 8, 2, 23, 27, 23, 7, 26, 27, 23, 26, 27, 26, 9,
   5, 28, 24, 28, 0, 29, 24, 28, 29, 24, 29, 8, 9, 26, 31, 26, 7, 30, 31, 26, 30, 31, 30, 10,
   1, 12, 32, 12, 0, 28, 32, 12, 28, 32, 28, 5, 10, 30, 34, 30, 7, 33, 34, 30, 33, 34, 33, 11,
   3, 15, 18, 15, 1, 32, 18, 15, 32, 18, 32, 5, 6, 35, 36, 35, 10, 34, 36, 35, 34, 36, 34, 11,
   3, 20, 37, 20, 6, 36, 37, 20, 36, 37, 36, 11, 9, 31, 39, 31, 10, 38, 39, 31, 38, 39, 38, 8,
   4, 16, 40, 16, 3, 37, 40, 16, 37, 40, 37, 11, 6, 25, 35, 25, 8, 38, 35, 25, 38, 35, 38, 10,
   7, 22, 33, 22, 4, 40, 33, 22, 40, 33, 40, 11, 2, 13, 21, 13, 1, 17, 21, 13, 17, 21, 17, 4,
   8, 29, 39, 29, 0, 41, 39, 29, 41, 39, 41, 9, 0, 14, 41, 14, 2, 27, 41, 14, 27, 41, 27, 9]

/-- The index buffer of the icosahedron after two levels of subdivision. -/
def icosahedronLevel2 : List Nat :=
  [0, 42, 44, 42, 12, 43, 44, 42, 43, 44, 43, 14, 12, 45, 47, 45, 1, 46, 47, 45, 46, 47, 46,
   13, 14, 43, 48, 43, 12, 47, 48, 43, 47, 48, 47, 13, 14, 48, 50, 48, 13, 49, 50, 48, 49, 50,
   49, 2, 1, 51, 53, 51, 15, 52, 53, 51, 52, 53, 52, 17, 15, 54, 56, 54, 3, 55, 56, 54, 55,
   56, 55, 16, 17, 52, 57, 52, 15, 56, 57, 52, 56, 57, 56, 16, 17, 57, 59, 57, 16, 58, 59, 57,
   58, 59, 58, 4, 3, 60, 62, 60, 18, 61, 62, 60, 61, 62, 61, 20, 18, 63, 65, 63, 5, 64, 65,
   63, 64, 65, 64, 19, 20, 61, 66, 61, 18, 65, 66, 61, 65, 66, 65, 19, 20, 66, 68, 66, 19, 67,
   68, 66, 67, 68, 67, 6, 2, 69, 71, 69, 21, 70, 71, 69, 70, 71, 70, 23, 21, 72, 74, 72, 4,
   73, 74, 72, 73, 74, 73, 22, 23, 70, 75, 70, 21, 74, 75, 70, 74, 75, 74, 22, 23, 75, 77, 75,
   22, 76, 77, 75, 76, 77, 76, 7, 6, 67, 79, 67, 19, 78, 79, 67, 78, 79, 78, 25, 19, 64, 81,
   64, 5, 80, 81, 64, 80, 81, 80, 24, 25, 78, 82, 78, 19, 81, 82, 78, 81, 82, 81, 24, 25, 82,
   84, 82, 24, 83, 84, 82, 83, 84, 83, 8, 2, 71, 86, 71, 23, 85, 86, 71, 85, 86, 85, 27, 23,
   77, 88, 77, 7, 87, 88, 77, 87, 88, 87, 26, 27, 85, 89, 85, 23, 88, 89, 85, 88, 89, 88, 26,
   27, 89, 91, 89, 26, 90, 91, 89, 90, 91, 90, 9, 5, 92, 80, 92, 28, 93, 80, 92, 93, 80, 93,
   24, 28, 94, 96, 94, 0, 95, 96, 94, 95, 96, 95, 29, 24, 93, 97, 93, 28, 96, 97, 93, 96, 97,
   96, 29, 24, 97, 83, 97, 29, 98, 83, 97, 98, 83, 98, 8, 9, 90, 100, 90, 26, 99, 100, 90, 99,
   100, 99, 31, 26, 87, 102, 87, 7, 101, 102, 87, 101, 102, 101, 30, 31, 99, 103, 99, 26, 102,
   103, 99, 102, 103, 102, 30, 31, 103, 105, 103, 30, 104, 105, 103, 104, 105, 104, 10, 1, 45,
   107, 45, 12, 106, 107, 45, 106, 107, 106, 32, 12, 42, 108, 42, 0, 94, 108, 42, 94, 108, 94,
   28, 32, 106, 109, 106, 12, 108, 109, 106, 108, 109, 108, 28, 32, 109, 110, 109, 28, 92,
   110, 109, 92, 110, 92, 5, 10, 104, 112, 104, 30, 111, 112, 104, 111, 112, 111, 34, 30, 101,
   114, 101, 7, 113, 114, 101, 113, 114, 113, 33, 34, 111, 115, 111, 30, 114, 115, 111, 114,
   115, 114, 33, 34, 115, 117, 115, 33, 116, 117, 115, 116, 117, 116, 11, 3, 54, 60, 54, 15,
   118, 60, 54, 118, 60, 118, 18, 15, 51, 119, 51, 1, 107, 119, 51, 107, 119, 107, 32, 18,
   118, 120, 118, 15, 119, 120, 118, 119, 120, 119, 32, 18, 120, 63, 120, 32, 110, 63, 120,
   110, 63, 110, 5, 6, 121, 123, 121, 35, 122, 123, 121, 122, 123, 122, 36, 35, 124, 125, 124,
   10, 112, 125, 124, 112, 125, 112, 34, 36, 122, 126, 122, 35, 125, 126, 122, 125, 126, 125,
   34, 36, 126, 127, 126, 34, 117, 127, 126, 117, 127, 117, 11, 3, 62, 129, 62, 20, 128, 129,
   62, 128, 129, 128, 37, 20, 68, 130, 68, 6, 123, 130, 68, 123, 130, 123, 36, 37, 128, 131,
   128, 20, 130, 131, 128, 130, 131, 130, 36, 37, 131, 132, 131, 36, 127, 132, 131, 127, 132,
   127, 11, 9, 100, 134, 100, 31, 133, 134, 100, 133, 134, 133, 39, 31, 105, 136, 105, 10,
   135, 136, 105, 135, 136, 135, 38, 39, 133, 137, 133, 31, 136, 137, 133, 136, 137, 136, 38,
   39, 137, 139, 137, 38, 138, 139, 137, 138, 139, 138, 8, 4, 58, 141, 58, 16, 140, 141, 58,
   140, 141, 140, 40, 16, 55, 142, 55, 3, 129, 142, 55, 129, 142, 129, 37, 40, 140, 143, 140,
   16, 142, 143, 140, 142, 143, 142, 37, 40, 143, 144, 143, 37, 132, 144, 143, 132, 144, 132,
   11, 6, 79, 121, 79, 25, 145, 121, 79, 145, 121, 145, 35, 25, 84, 146, 84, 8, 138, 146, 84,
   138, 146, 138, 38, 35, 145, 147, 145, 25, 146, 147, 145, 146, 147, 146, 38, 35, 147, 124,
   147, 38, 135, 124, 147, 135, 124, 135, 10, 7, 76, 113, 76, 22, 148, 113, 76, 148, 113, 148,
   33, 22, 73, 149, 73, 4, 141, 149, 73, 141, 149, 141, 40, 33, 148, 150, 148, 22, 149, 150,
   148, 149, 150, 149, 40, 33, 150, 116, 150, 40, 144, 116, 150, 144, 116, 144, 11, 2, 49, 69,
   49, 13, 151, 69, 49, 151, 69, 151, 21, 13, 46, 152, 46, 1, 53, 152, 46, 53, 152, 53, 17,
   21, 151, 153, 151, 13, 152, 153, 151, 152, 153, 152, 17, 21, 153, 72, 153, 17, 59, 72, 153,
   59, 72, 59, 4, 8, 98, 139, 98, 29, 154, 139, 98, 154, 139, 154, 39, 29, 95, 156, 95, 0,
   155, 156, 95, 155, 156, 155, 41, 39, 154, 157, 154, 29, 156, 157, 154, 156, 157, 156, 41,
   39, 157, 134, 157, 41, 158, 134, 157, 158, 134, 158, 9, 0, 44, 155, 44, 14, 159, 155, 44,
   159, 155, 159, 41, 14, 50, 160, 50, 2, 86, 160, 50, 86, 160, 86, 27, 41, 159, 161, 159, 14,
   160, 161, 159, 160, 161, 160, 27, 41, 161, 158, 161, 27, 91, 158, 161, 91, 158, 91, 9]

/-! ## The writer: identifiers -/

/-- The loop of `_ComputeId` over the characters of the name. -/
def _ComputeId_loop : List Char → List Char
  | [] => []
  | c :: rest =>
    (if c = '/' ∨ c = ' ' ∨ c = '.' then '_' else c) :: _ComputeId_loop rest

/-- The function `_ComputeId` of the writer (collada_urdf.cpp, lines
1940-1950). -/
def _ComputeId (name : String) : String :=
  String.mk (_ComputeId_loop name.data)

/-! ## Example documents with two scenes -/

/-- The element that the first `POSITION` input with a source resolves to:
the unit scale of its user data and its float array, if it has one. -/
structure PositionSource (K : Type) where
  fUnitScale : K
  float_array : Option (List K)

/-- The conversion of a `size_t` to `int`. -/
def sizeToInt (n : Nat) : Int :=
  if n % 2 ^ 32 < 2 ^ 31 then ((n % 2 ^ 32 : Nat) : Int) else ((n % 2 ^ 32 : Nat) : Int) - 2 ^ 32

/-- The method `daeTArray::get` at the `int` position `index`, which has to
be a position of the array. -/
def daeGet {α : Type} (a : List α) (index : Int) : Except Fault α :=
  if 0 ≤ index then vectorAt a index.toNat else .error Fault.outOfRange

/-- The statement `int index0 = indexArray.get(k)*vertexStride`: the product
of the unsigned index of 64 bits and 3, converted to `int`. -/
def _ExtractGeometry_index0 (i : Nat) : Int :=
  sizeToInt ((i * 3) % 2 ^ 64)

/-- The statement `k+=triangleIndexStride` on the `int` counter `k`: the sum
is taken as `size_t` and converted back to `int`. -/
def intPlusSize (k : Int) (triangleIndexStride : Nat) : Int :=
  sizeToInt (((k + (triangleIndexStride : Int)) % 2 ^ 64).toNat)

/-- One vertex: the three floats at `index0`, `index0+1` and `index0+2`,
times the unit scale.  The two sums are sums of `int`, which have to stay in
its range. -/
def _ExtractGeometry_vertex {K : Type} [Field K] (indexArray : List Nat) (listFloats : List K)
    (fUnitScale : K) (k : Int) : Except Fault (Vector3 K) :=
  match daeGet indexArray k with
  | .error e => .error e
  | .ok i =>
    let index0 := _ExtractGeometry_index0 i
    if index0 + 2 < 2 ^ 31 then
      match daeGet listFloats index0, daeGet listFloats (index0 + 1),
        daeGet listFloats (index0 + 2) with
      | .ok fl0, .ok fl1, .ok fl2 =>
        .ok { x := fl0 * fUnitScale, y := fl1 * fUnitScale, z := fl2 * fUnitScale }
      | _, _, _ => .error Fault.outOfRange
    else .error Fault.outOfRange

/-- Lines 1574-1583: the loop over the corners of one triangle, `j` of them
left. -/
def _ExtractGeometry_triangle {K : Type} [Field K] (triangleIndexStride : Nat)
    (indexArray : List Nat) (listFloats : List K) (fUnitScale : K) :
    Nat → Int → GEOMPROPERTIES K → Except Fault (Int × GEOMPROPERTIES K)
  | 0, k, geom => .ok (k, geom)
  | j + 1, k, geom =>
    match _ExtractGeometry_vertex indexArray listFloats fUnitScale k with
    | .error e => .error e
    | .ok v =>
      _ExtractGeometry_triangle triangleIndexStride indexArray listFloats fUnitScale j
        (intPlusSize k triangleIndexStride)
        { geom with indices := geom.indices ++ [geom.vertices.length]
                    vertices := geom.vertices ++ [v] }

/-- Lines 1572-1585: the loop over the triangles, `n` of them left.  The
test compares as `size_t`. -/
def _ExtractGeometry_trianglesLoop {K : Type} [Field K] (triangleIndexStride : Nat)
    (indexArray : List Nat) (listFloats : List K) (fUnitScale : K) :
    Nat → Int → GEOMPROPERTIES K → Except Fault (GEOMPROPERTIES K)
  | 0, _, geom => .ok geom
  | n + 1, k, geom =>
    if ((k + 2 * (triangleIndexStride : Int)) % 2 ^ 64).toNat < indexArray.length then
      match _ExtractGeometry_triangle triangleIndexStride indexArray listFloats fUnitScale 3 k
          geom with
      | .error e => .error e
      | .ok r =>
        _ExtractGeometry_trianglesLoop triangleIndexStride indexArray listFloats fUnitScale n
          r.1 r.2
    else
      _ExtractGeometry_trianglesLoop triangleIndexStride indexArray listFloats fUnitScale n k geom

/-- The overload of `_ExtractGeometry` for `<triangles>`: `count` is the
attribute, `vertexoffset` the offset of the `VERTEX` input (2^64 - 1 when there
is none), `triangleIndexStride` the largest offset plus one.  The call of
`InitCollisionMesh` at the end returns at once, the type being `GeomTrimesh`. -/
def _ExtractGeometry_triangles {K : Type} [Field K] (count vertexoffset triangleIndexStride : Nat)
    (indexArray : List Nat) (source : Option (PositionSource K)) :
    Except Fault (Bool × GEOMPROPERTIES K) :=
  let geom : GEOMPROPERTIES K :=
    { vGeomData := { x := 0, y := 0, z := 0 }, type := GeomType.GeomTrimesh }
  match source with
  | none => .ok (true, geom)
  | some node =>
    match node.float_array with
    | none => .ok (true, geom)
    | some listFloats =>
      match _ExtractGeometry_trianglesLoop triangleIndexStride indexArray listFloats
          node.fUnitScale count (sizeToInt vertexoffset) geom with
      | .error e => .error e
      | .ok g => .ok (true, g)

/-- Lines 1664-1671 and 1755-1762: the `while` loop that reads the vertices
of one group, with the test `k < (int)indexArray.getCount()`; `fuel` bounds
the number of iterations. -/
def _ExtractGeometry_groupVertices {K : Type} [Field K] (triangleIndexStride : Nat)
    (indexArray : List Nat) (listFloats : List K) (fUnitScale : K) :
    Nat → Int → List (Vector3 K) → Except Fault (List (Vector3 K))
  | 0, _, vertices => .ok vertices
  | fuel + 1, k, vertices =>
    if k < sizeToInt indexArray.length then
      match _ExtractGeometry_vertex indexArray listFloats fUnitScale k with
      | .error e => .error e
      | .ok v =>
        _ExtractGeometry_groupVertices triangleIndexStride indexArray listFloats fUnitScale fuel
          (intPlusSize k triangleIndexStride) (vertices ++ [v])
    else .ok vertices

/-- Lines 1672-1676 and 1853-1857: the triangles of a fan, `n` positions from
`ivert` on. -/
def _ExtractGeometry_fanIndices (startoffset : Nat) : Nat → Nat → List Nat → List Nat
  | 0, _, indices => indices
  | n + 1, ivert, indices =>
    _ExtractGeometry_fanIndices startoffset n (ivert + 1)
      (indices ++ [startoffset, ivert - 1, ivert])

/-- Lines 1764-1770: the triangles of a strip, `n` positions from `ivert`
on. -/
def _ExtractGeometry_stripIndices : Nat → Nat → Bool → List Nat → List Nat
  | 0, _, _, indices => indices
  | n + 1, ivert, bFlip, indices =>
    _ExtractGeometry_stripIndices n (ivert + 1) (!bFlip)
      (indices ++ [ivert - 2, if bFlip then ivert else ivert - 1,
                   if bFlip then ivert - 1 else ivert])

/-- The `size_t` difference `n - 2`, which wraps for `n` below 2. -/
def sizeMinusTwo (n : Nat) : Nat := ((2 ^ 64 - 2) + n) % 2 ^ 64

/-- The `size_t` product `3 * n`. -/
def sizeTimesThree (n : Nat) : Nat := (3 * n) % 2 ^ 64

/-- The call `geom.indices.reserve(...)` when the capacity is below the
`size_t` sum `size + usedindices`: it throws `std::length_error` when that
sum is above `max_size()`. -/
def reserveIndices (max_size size usedindices : Nat) : Except Fault Unit :=
  if (size + usedindices) % 2 ^ 64 > max_size then .error Fault.lengthError else .ok ()

/-- Lines 1653-1677: one group of `<trifans>` once the float array is there.
The `size_t` value `usedindices` is `3 * (indexArray.getCount() - 2)`. -/
def _ExtractGeometry_fanGroup {K : Type} [Field K]
    (max_size vertexoffset triangleIndexStride : Nat) (indexArray : List Nat)
    (listFloats : List K) (fUnitScale : K) (geom : GEOMPROPERTIES K) :
    Except Fault (GEOMPROPERTIES K) :=
  match reserveIndices max_size geom.indices.length
      (sizeTimesThree (sizeMinusTwo indexArray.length)) with
  | .error e => .error e
  | .ok _ =>
    let startoffset := geom.vertices.length
    match _ExtractGeometry_groupVertices triangleIndexStride indexArray listFloats
        fUnitScale (indexArray.length + 1) (sizeToInt vertexoffset) geom.vertices with
    | .error e => .error e
    | .ok vertices =>
      .ok { geom with
        vertices := vertices
        indices := _ExtractGeometry_fanIndices startoffset
          (vertices.length - (startoffset + 2)) (startoffset + 2) geom.indices }

/-- Lines 1642-1683: one group of `<trifans>`. -/
def _ExtractGeometry_fan {K : Type} [Field K] (max_size vertexoffset triangleIndexStride : Nat)
    (indexArray : List Nat) (source : Option (PositionSource K)) (geom : GEOMPROPERTIES K) :
    Except Fault (GEOMPROPERTIES K) :=
  match source with
  | none => .ok geom
  | some node =>
    match node.float_array with
    | none => .ok geom
    | some listFloats =>
      _ExtractGeometry_fanGroup max_size vertexoffset triangleIndexStride indexArray listFloats
        node.fUnitScale geom

/-- Lines 1743-1771: one group of `<tristrips>` once the float array is
there.  The `size_t` value `usedindices` is `indexArray.getCount() - 2`. -/
def _ExtractGeometry_stripGroup {K : Type} [Field K]
    (max_size vertexoffset triangleIndexStride : Nat) (indexArray : List Nat)
    (listFloats : List K) (fUnitScale : K) (geom : GEOMPROPERTIES K) :
    Except Fault (GEOMPROPERTIES K) :=
  match reserveIndices max_size geom.indices.length (sizeMinusTwo indexArray.length) with
  | .error e => .error e
  | .ok _ =>
    let startoffset := geom.vertices.length
    match _ExtractGeometry_groupVertices triangleIndexStride indexArray listFloats
        fUnitScale (indexArray.length + 1) (sizeToInt vertexoffset) geom.vertices with
    | .error e => .error e
    | .ok vertices =>
      .ok { geom with
        vertices := vertices
        indices := _ExtractGeometry_stripIndices
          (vertices.length - (startoffset + 2)) (startoffset + 2) false geom.indices }

/-- Lines 1732-1777: one group of `<tristrips>`. -/
def _ExtractGeometry_strip {K : Type} [Field K] (max_size vertexoffset triangleIndexStride : Nat)
    (indexArray : List Nat) (source : Option (PositionSource K)) (geom : GEOMPROPERTIES K) :
    Except Fault (GEOMPROPERTIES K) :=
  match source with
  | none => .ok geom
  | some node =>
    match node.float_array with
    | none => .ok geom
    | some listFloats =>
      _ExtractGeometry_stripGroup max_size vertexoffset triangleIndexStride indexArray
        listFloats node.fUnitScale geom

/-- The loop over the groups of `<trifans>` or `<tristrips>`, with the
function for one group. -/
def _ExtractGeometry_groups {K : Type}
    (group : List Nat → GEOMPROPERTIES K → Except Fault (GEOMPROPERTIES K)) :
    List (List Nat) → GEOMPROPERTIES K → Except Fault (GEOMPROPERTIES K)
  | [], geom => .ok geom
  | indexArray :: rest, geom =>
    match group indexArray geom with
    | .error e => .error e
    | .ok g => _ExtractGeometry_groups group rest g

/-- The overload of `_ExtractGeometry` for `<trifans>`: `count` is the
attribute, `p_array` the index arrays of the groups.  It returns false. -/
def _ExtractGeometry_trifans {K : Type} [Field K]
    (max_size count vertexoffset triangleIndexStride : Nat)
    (p_array : List (List Nat)) (source : Option (PositionSource K)) :
    Except Fault (Bool × GEOMPROPERTIES K) :=
  let geom : GEOMPROPERTIES K :=
    { vGeomData := { x := 0, y := 0, z := 0 }, type := GeomType.GeomTrimesh }
  let primitivecount := if count > p_array.length then p_array.length else count
  match _ExtractGeometry_groups
      (fun indexArray g =>
        _ExtractGeometry_fan max_size vertexoffset triangleIndexStride indexArray source g)
      (p_array.take primitivecount) geom with
  | .error e => .error e
  | .ok g => .ok (false, g)

/-- The overload of `_ExtractGeometry` for `<tristrips>`.  It returns
false. -/
def _ExtractGeometry_tristrips {K : Type} [Field K]
    (max_size count vertexoffset triangleIndexStride : Nat)
    (p_array : List (List Nat)) (source : Option (PositionSource K)) :
    Except Fault (Bool × GEOMPROPERTIES K) :=
  let geom : GEOMPROPERTIES K :=
    { vGeomData := { x := 0, y := 0, z := 0 }, type := GeomType.GeomTrimesh }
  let primitivecount := if count > p_array.length then p_array.length else count
  match _ExtractGeometry_groups
      (fun indexArray g =>
        _ExtractGeometry_strip max_size vertexoffset triangleIndexStride indexArray source g)
      (p_array.take primitivecount) geom with
  | .error e => .error e
  | .ok g => .ok (false, g)

/-- Lines 1840-1846: the loop that reads the `numverts` vertices of one
polygon, `j` of them left; `k` is a `size_t`. -/
def _ExtractGeometry_polygonVertices {K : Type} [Field K] (triangleIndexStride : Nat)
    (indexArray : List Nat) (listFloats : List K) (fUnitScale : K) :
    Nat → Nat → List (Vector3 K) → Except Fault (Nat × List (Vector3 K))
  | 0, k, vertices => .ok (k, vertices)
  | j + 1, k, vertices =>
    match _ExtractGeometry_vertex indexArray listFloats fUnitScale (k : Int) with
    | .error e => .error e
    | .ok v =>
      _ExtractGeometry_polygonVertices triangleIndexStride indexArray listFloats fUnitScale j
        ((k + triangleIndexStride) % 2 ^ 64) (vertices ++ [v])

/-- Lines 1836-1856: the loop over the polygons of a `<polylist>`. -/
def _ExtractGeometry_polygons {K : Type} [Field K] (triangleIndexStride : Nat)
    (indexArray : List Nat) (listFloats : List K) (fUnitScale : K) :
    List Nat → Nat → GEOMPROPERTIES K → Except Fault (GEOMPROPERTIES K)
  | [], _, geom => .ok geom
  | numverts :: rest, k, geom =>
    if numverts > 0 ∧
        (k + (numverts - 1) * triangleIndexStride) % 2 ^ 64 < indexArray.length then
      let startoffset := geom.vertices.length
      match _ExtractGeometry_polygonVertices triangleIndexStride indexArray listFloats
          fUnitScale numverts k geom.vertices with
      | .error e => .error e
      | .ok r =>
        _ExtractGeometry_polygons triangleIndexStride indexArray listFloats fUnitScale rest r.1
          { geom with
            vertices := r.2
            indices := _ExtractGeometry_fanIndices startoffset
              (r.2.length - (startoffset + 2)) (startoffset + 2) geom.indices }
    else
      _ExtractGeometry_polygons triangleIndexStride indexArray listFloats fUnitScale rest k geom

/-- The overload of `_ExtractGeometry` for `<polylist>`: `vcount` lists the
numbers of vertices of the polygons.  It returns false. -/
def _ExtractGeometry_polylist {K : Type} [Field K] (vertexoffset triangleIndexStride : Nat)
    (vcount indexArray : List Nat) (source : Option (PositionSource K)) :
    Except Fault (Bool × GEOMPROPERTIES K) :=
  let geom : GEOMPROPERTIES K :=
    { vGeomData := { x := 0, y := 0, z := 0 }, type := GeomType.GeomTrimesh }
  match source with
  | none => .ok (false, geom)
  | some node =>
    match node.float_array with
    | none => .ok (false, geom)
    | some listFloats =>
      match _ExtractGeometry_polygons triangleIndexStride indexArray listFloats node.fUnitScale
          vcount vertexoffset geom with
      | .error e => .error e
      | .ok g => .ok (false, g)

/-- The position that the index `i` selects in a float array, times the unit
scale: `(floats[3i], floats[3i+1], floats[3i+2]) * scale`, as the
specification states it.  A float that is not there counts as 0. -/
def scaledPosition {K : Type} [Field K] (listFloats : List K) (fUnitScale : K) (i : Nat) :
    Vector3 K :=
  { x := listFloats.getD (3 * i) 0 * fUnitScale
    y := listFloats.getD (3 * i + 1) 0 * fUnitScale
    z := listFloats.getD (3 * i + 2) 0 * fUnitScale }

/-- The triangles of a fan of `m` vertices at the buffer offset `s`, as the
specification states them: `(s, s+i-1, s+i)` for `i = 2 .. m-1`. -/
def fanTriangles (s m : Nat) : List Nat :=
  (List.range (m - 2)).flatMap (fun i => [s, s + (i + 2) - 1, s + (i + 2)])

/-- The triangles of a strip of `m` vertices at the buffer offset `s`, as the
specification states them: the `j`-th is `(s+j, s+j+1, s+j+2)` for even `j`
and `(s+j, s+j+2, s+j+1)` for odd `j`. -/
def stripTriangles (s m : Nat) : List Nat :=
  (List.range (m - 2)).flatMap
    (fun j => if j % 2 = 0 then [s + j, s + j + 1, s + j + 2] else [s + j, s + j + 2, s + j + 1])

/-! ## Matrices of poses -/

/-- The function `_matrixFromQuat`: the matrix stored by rows, `m[4*i+j]`. -/
def _matrixFromQuat {K : Type} [Field K] (quat : Rotation K) : Fin 12 → K :=
  let qq1 := 2 * quat.x * quat.x
  let qq2 := 2 * quat.y * quat.y
  let qq3 := 2 * quat.z * quat.z
  ![1 - qq2 - qq3, 2 * (quat.x * quat.y - quat.w * quat.z),
    2 * (quat.x * quat.z + quat.w * quat.y), 0,
    2 * (quat.x * quat.y + quat.w * quat.z), 1 - qq1 - qq3,
    2 * (quat.y * quat.z - quat.w * quat.x), 0,
    2 * (quat.x * quat.z - quat.w * quat.y), 2 * (quat.y * quat.z + quat.w * quat.x),
    1 - qq1 - qq2, 0]

/-- The function `_matrixFromPose`. -/
def _matrixFromPose {K : Type} [Field K] (t : Pose K) : Fin 12 → K :=
  let m := _matrixFromQuat t.rotation
  let m := Function.update m 3 t.position.x
  let m := Function.update m 7 t.position.y
  Function.update m 11 t.position.z

/-- The overload `_poseMult(const boost::array<double,12>&, const Vector3&)`. -/
def _poseMult_matrix_point {K : Type} [Field K] (m : Fin 12 → K) (v : Vector3 K) : Vector3 K :=
  { x := m 0 * v.x + m 1 * v.y + m 2 * v.z + m 3
    y := m 4 * v.x + m 5 * v.y + m 6 * v.z + m 7
    z := m 8 * v.x + m 9 * v.y + m 10 * v.z + m 11 }

/-- The quaternion with all four components negated, which stands for the
same rotation. -/
def Rotation.neg {K : Type} [Field K] (q : Rotation K) : Rotation K :=
  { x := -q.x, y := -q.y, z := -q.z, w := -q.w }

/-! ## Parameter resolution, as the specification states it -/

/-- The float that a new-param resolves to, as the specification states it:
the float it holds, or else the float that its SIDREF resolves to. -/
def newparamFloat (p : Newparam) : Option ℚ :=
  match p.float with
  | some f => some f
  | none =>
    match p.SIDREF with
    | some r => r.2
    | none => none

/-- The boolean that a new-param resolves to, as the specification states it:
the boolean it holds, or else the boolean that its SIDREF resolves to. -/
def newparamBool (p : Newparam) : Option Bool :=
  match p.bool with
  | some b => some b
  | none =>
    match p.SIDREF with
    | some r => r.1
    | none => none

/-- The function `resolveFloat` as the specification states it: the literal
when there is one; for a parameter name the value of the first new-param of
the parent with that sid that resolves to a float; 0 when nothing resolves. -/
def resolveFloatSpec (paddr : FloatOrParam) (parent : List Newparam) : ℚ :=
  match paddr.float with
  | some f => f
  | none =>
    match paddr.param with
    | none => 0
    | some name =>
      match parent.find? (fun p => decide (p.sid = some name) && (newparamFloat p).isSome) with
      | some p => (newparamFloat p).getD 0
      | none => 0

/-- The function `resolveBool` as the specification states it. -/
def resolveBoolSpec (paddr : BoolOrParam) (parent : List Newparam) : Bool :=
  match paddr.bool with
  | some b => b
  | none =>
    match paddr.param with
    | none => false
    | some name =>
      match parent.find? (fun p => decide (p.sid = some name) && (newparamBool p).isSome) with
      | some p => (newparamBool p).getD false
      | none => false

/-! ## Scale of a node -/

/-- The function `_poseFromMatrix`. -/
def _poseFromMatrix {K : Type} [LinearOrderedField K] (sqrt : K → K) (m : Fin 12 → K) : Pose K :=
  { rotation := _quatFromMatrix sqrt m
    position := { x := m 3, y := m 7, z := m 11 } }

/-- The function `_decompose`: the pose `tout` and the scale `vscale`. -/
def _decompose {K : Type} [LinearOrderedField K] (sqrt : K → K) (tm : Fin 12 → K) :
    Pose K × Vector3 K :=
  (_poseFromMatrix sqrt tm, { x := 1, y := 1, z := 1 })

/-- Lines 1462-1484: the `switch` over the type of a geometry in
`_ExtractGeometry(node)`, on the data, the vertices and the indices. -/
def _ExtractGeometry_switch {K : Type} [LinearOrderedField K] (tmnodegeom : Fin 12 → K)
    (vscale : Vector3 K) (g : GEOMPROPERTIES K) : GEOMPROPERTIES K :=
  match g.type with
  | GeomType.GeomBox =>
    { g with vGeomData := { x := g.vGeomData.x * vscale.x, y := g.vGeomData.y * vscale.y,
                            z := g.vGeomData.z * vscale.z } }
  | GeomType.GeomSphere =>
    { g with vGeomData := { g.vGeomData with
        x := g.vGeomData.x * max vscale.z (max vscale.x vscale.y) } }
  | GeomType.GeomCylinder =>
    { g with vGeomData := { g.vGeomData with
        x := g.vGeomData.x * max vscale.x vscale.y, y := g.vGeomData.y * vscale.z } }
  | GeomType.GeomTrimesh =>
    { g with vertices := g.vertices.map (fun v => _poseMult_matrix_point tmnodegeom v) }
  | _ => g

/-! ## Unit scale of the elements

The function `_processUserData`, which `InitFromData` calls on the root with
the scale 1.0.  An element is its name, the `meter` of its `<unit>` child when
it has one (read for `<asset>` elements only) and its children; the user data
is the scale. -/

/-- A generic element of the document. -/
inductive UnitElement where
  | mk (elementName : String) (meter : Option ℚ) (children : List UnitElement) : UnitElement

/-- Element name. -/
def UnitElement.elementName : UnitElement → String
  | UnitElement.mk n _ _ => n

/-- The `meter` of the `<unit>` child, `getUnit()->getMeter()`. -/
def UnitElement.meter : UnitElement → Option ℚ
  | UnitElement.mk _ m _ => m

/-- The child elements. -/
def UnitElement.children : UnitElement → List UnitElement
  | UnitElement.mk _ _ c => c

/-- The elements with the user data that `setUserData` attached; an element
that was not visited has none, and its children are not looked at. -/
inductive UserDataTree where
  | mk (scale : Option ℚ) (children : List UserDataTree) : UserDataTree

/-- The user data of an element. -/
def UserDataTree.scale : UserDataTree → Option ℚ
  | UserDataTree.mk s _ => s

/-- The child elements. -/
def UserDataTree.children : UserDataTree → List UserDataTree
  | UserDataTree.mk _ c => c

/-- The call `pelt->getChild("asset")`: the first child with that name. -/
def getChild_asset (children : List UnitElement) : Option UnitElement :=
  children.find? (fun c => c.elementName = "asset")

/-- The position of the child that `getChild("asset")` returns. -/
def getChild_assetIndex (children : List UnitElement) : Option Nat :=
  children.findIdx? (fun c => c.elementName = "asset")

/-- Lines 2544-2547: the scale after the test of the `<asset>` child. -/
def _processUserData_scale (children : List UnitElement) (scale : ℚ) : ℚ :=
  match getChild_asset children with
  | some passet =>
    match passet.meter with
    | some meter => meter
    | none => scale
  | none => scale

mutual
/-- The function `_processUserData`. -/
def _processUserData (scale : ℚ) : UnitElement → UserDataTree
  | UnitElement.mk _ _ children =>
    UserDataTree.mk (some (_processUserData_scale children scale))
      (_processUserData_children (_processUserData_scale children scale)
        (getChild_assetIndex children) 0 children)
/-- Lines 2553-2557: the loop over the children, from the position `i` on;
the child that is `passet` is not visited. -/
def _processUserData_children (scale : ℚ) (passet : Option Nat) (i : Nat) :
    List UnitElement → List UserDataTree
  | [] => []
  | c :: rest =>
    (if passet = some i then UserDataTree.mk none [] else _processUserData scale c) ::
      _processUserData_children scale passet (i + 1) rest
end

/-- The user data of the element at a path of child positions; `none` when
there is no user data at that place. -/
def userDataAt : UserDataTree → List Nat → Option ℚ
  | t, [] => t.scale
  | t, i :: path =>
    match t.children.get? i with
    | some c => userDataAt c path
    | none => none

/-- The element at a path of child positions. -/
def elementAt : UnitElement → List Nat → Option UnitElement
  | e, [] => some e
  | e, i :: path =>
    match e.children.get? i with
    | some c => elementAt c path
    | none => none

/-- Whether a path enters the subtree of the `<asset>` child of an element on
it. -/
def insideAsset : UnitElement → List Nat → Bool
  | _, [] => false
  | e, i :: path =>
    if getChild_assetIndex e.children = some i then true
    else
      match e.children.get? i with
      | some c => insideAsset c path
      | none => false

/-- The elements on a path, from the element at its start to the element at
its end. -/
def ancestorsOrSelf : UnitElement → List Nat → List UnitElement
  | e, [] => [e]
  | e, i :: path =>
    match e.children.get? i with
    | some c => e :: ancestorsOrSelf c path
    | none => [e]

/-- The meter that an element declares: that of the `<unit>` of its `<asset>`
child. -/
def declaredUnit (e : UnitElement) : Option ℚ :=
  match getChild_asset e.children with
  | some passet => passet.meter
  | none => none

/-- The unit scale of the element at a path, as the specification states it:
the meter that the nearest ancestor-or-self with an `<asset>` child that
declares a `<unit>` declares, and `default` when there is none. -/
def unitScaleSpec (default : ℚ) (root : UnitElement) (path : List Nat) : ℚ :=
  match (ancestorsOrSelf root path).reverse.find? (fun e => (declaredUnit e).isSome) with
  | some e => (declaredUnit e).getD default
  | none => default

/-! ## Principal axes of the inertia (writer)

The namespace `mathextra` of the writer.  The arrays are functions on the
positions; a 3x3 matrix is stored by rows, `m[3*i+j]`. -/

/-- The constant `g_fEpsilon`, the double nearest to `1e-15`. -/
def g_fEpsilon : ℚ := 2535301200456459 / 2 ^ 101

/-- The function `Tridiagonal3`: the matrix written over `mat`, `diag` and
`subd`. -/
def Tridiagonal3 {K : Type} [LinearOrderedField K] (sqrt : K → K) (mat : Nat → K) :
    (Nat → K) × (Nat → K) × (Nat → K) :=
  let a := mat 0
  let b := mat 1
  let c := mat 2
  let d := mat 4
  let e := mat 5
  let f := mat 8
  if |c| ≥ (g_fEpsilon : ℚ) then
    let ell := sqrt (b * b + c * c)
    let b := b / ell
    let c := c / ell
    let q := 2 * b * e + c * (f - d)
    (fun i => ([1, 0, 0, 0, b, c, 0, c, -b] : List K).getD i (mat i),
     fun i => ([a, d + c * q, f - c * q] : List K).getD i 0,
     fun i => ([ell, e - b * q, 0] : List K).getD i 0)
  else
    (fun i => ([1, 0, 0, 0, 1, 0, 0, 0, 1] : List K).getD i (mat i),
     fun i => ([a, d, f] : List K).getD i 0,
     fun i => ([b, e, 0] : List K).getD i 0)

/-- The state of `_QLAlgorithm3`: the matrix, the diagonal and the
subdiagonal. -/
structure QLState (K : Type) where
  m_aafEntry : Nat → K
  afDiag : Nat → K
  afSubDiag : Nat → K

/-- Lines 331-337: the loop that looks for a subdiagonal entry that is
negligible, from `i1` on; `fuel` bounds its iterations, which are at most 2. -/
def _QLAlgorithm3_i1 {K : Type} [LinearOrderedField K] (afDiag afSubDiag : Nat → K) :
    Nat → Nat → Nat
  | 0, i1 => i1
  | fuel + 1, i1 =>
    if i1 ≤ 1 then
      let fSum := |afDiag i1| + |afDiag (i1 + 1)|
      if |afSubDiag i1| + fSum = fSum then i1
      else _QLAlgorithm3_i1 afDiag afSubDiag fuel (i1 + 1)
    else i1

/-- The variables of the loop over `i2`. -/
structure QLSweep (K : Type) where
  fSin : K
  fCos : K
  fTmp0 : K
  fTmp2 : K
  s : QLState K

/-- Lines 377-384: the loop over the rows, which rotates the columns `i2` and
`i2 + 1` of the matrix. -/
def _QLAlgorithm3_rows {K : Type} [Field K] (fSin fCos : K) (i2 : Nat) :
    List Nat → (Nat → K) → Nat → K
  | [], m => m
  | iRow :: rest, m =>
    let fTmp3 := m (iRow * 3 + i2 + 1)
    let m1 := Function.update m (iRow * 3 + i2 + 1) (fSin * m (iRow * 3 + i2) + fCos * fTmp3)
    let m2 := Function.update m1 (iRow * 3 + i2) (fCos * m1 (iRow * 3 + i2) - fSin * fTmp3)
    _QLAlgorithm3_rows fSin fCos i2 rest m2

/-- Lines 351-385: one iteration of the loop over `i2`. -/
def _QLAlgorithm3_rotate {K : Type} [LinearOrderedField K] (sqrt : K → K) (i2 : Nat)
    (v : QLSweep K) : QLSweep K :=
  let fTmp3 := v.fSin * v.s.afSubDiag i2
  let fTmp4 := v.fCos * v.s.afSubDiag i2
  let r : K × K × K :=
    if |fTmp3| ≥ |v.fTmp0| then
      let fCos := v.fTmp0 / fTmp3
      let fTmp1 := sqrt (fCos * fCos + 1)
      let fSin := 1 / fTmp1
      (fSin, fCos * fSin, fTmp3 * fTmp1)
    else
      let fSin := fTmp3 / v.fTmp0
      let fTmp1 := sqrt (fSin * fSin + 1)
      let fCos := 1 / fTmp1
      (fSin * fCos, fCos, v.fTmp0 * fTmp1)
  let fSin := r.1
  let fCos := r.2.1
  let afSubDiag := Function.update v.s.afSubDiag (i2 + 1) r.2.2
  let fTmp0 := v.s.afDiag (i2 + 1) - v.fTmp2
  let fTmp1 := (v.s.afDiag i2 - fTmp0) * fSin + 2 * fTmp4 * fCos
  let fTmp2 := fSin * fTmp1
  let afDiag := Function.update v.s.afDiag (i2 + 1) (fTmp0 + fTmp2)
  { fSin := fSin, fCos := fCos, fTmp0 := fCos * fTmp1 - fTmp4, fTmp2 := fTmp2,
    s := { m_aafEntry := _QLAlgorithm3_rows fSin fCos i2 [0, 1, 2] v.s.m_aafEntry,
           afDiag := afDiag, afSubDiag := afSubDiag } }

/-- Lines 349-386: the loop over `i2`, from `i0 + n - 1` down to `i0`. -/
def _QLAlgorithm3_rotations {K : Type} [LinearOrderedField K] (sqrt : K → K) (i0 : Nat) :
    Nat → QLSweep K → QLSweep K
  | 0, v => v
  | n + 1, v => _QLAlgorithm3_rotations sqrt i0 n (_QLAlgorithm3_rotate sqrt (i0 + n) v)

/-- Lines 341-389: one iteration of the loop over `iIter` after the test
`i1 == i0` failed. -/
def _QLAlgorithm3_sweep {K : Type} [LinearOrderedField K] (sqrt : K → K) (i0 i1 : Nat)
    (s : QLState K) : QLState K :=
  let fTmp0 := (s.afDiag (i0 + 1) - s.afDiag i0) / (2 * s.afSubDiag i0)
  let fTmp1 := sqrt (fTmp0 * fTmp0 + 1)
  let fTmp0 :=
    if fTmp0 < 0 then s.afDiag i1 - s.afDiag i0 + s.afSubDiag i0 / (fTmp0 - fTmp1)
    else s.afDiag i1 - s.afDiag i0 + s.afSubDiag i0 / (fTmp0 + fTmp1)
  let v := _QLAlgorithm3_rotations sqrt i0 (i1 - i0)
    { fSin := 1, fCos := 1, fTmp0 := fTmp0, fTmp2 := 0, s := s }
  let afDiag := Function.update v.s.afDiag i0 (v.s.afDiag i0 - v.fTmp2)
  let afSubDiag := Function.update v.s.afSubDiag i0 v.fTmp0
  { m_aafEntry := v.s.m_aafEntry, afDiag := afDiag,
    afSubDiag := Function.update afSubDiag i1 0 }

/-- Lines 327-396: the loop over `iIter`, with `fuel` iterations left; the
flag is `false` when the iterations are used up. -/
def _QLAlgorithm3_iterate {K : Type} [LinearOrderedField K] (sqrt : K → K) (i0 : Nat) :
    Nat → QLState K → Bool × QLState K
  | 0, s => (false, s)
  | fuel + 1, s =>
    let i1 := _QLAlgorithm3_i1 s.afDiag s.afSubDiag 2 i0
    if i1 = i0 then (true, s)
    else _QLAlgorithm3_iterate sqrt i0 fuel (_QLAlgorithm3_sweep sqrt i0 i1 s)

/-- The loop of `_QLAlgorithm3` over `i0`. -/
def _QLAlgorithm3_loop {K : Type} [LinearOrderedField K] (sqrt : K → K) :
    List Nat → QLState K → Bool × QLState K
  | [], s => (true, s)
  | i0 :: rest, s =>
    let r := _QLAlgorithm3_iterate sqrt i0 32 s
    if r.1 then _QLAlgorithm3_loop sqrt rest r.2 else (false, r.2)

/-- The function `_QLAlgorithm3`. -/
def _QLAlgorithm3 {K : Type} [LinearOrderedField K] (sqrt : K → K) (s : QLState K) :
    Bool × QLState K :=
  _QLAlgorithm3_loop sqrt [0, 1, 2] s

/-- The determinant that `EigenSymmetric3` computes. -/
def EigenSymmetric3_fDet {K : Type} [Field K] (fevecs : Nat → K) : K :=
  fevecs 0 * (fevecs 4 * fevecs 8 - fevecs 5 * fevecs 7) +
  fevecs 1 * (fevecs 5 * fevecs 6 - fevecs 3 * fevecs 8) +
  fevecs 2 * (fevecs 3 * fevecs 7 - fevecs 4 * fevecs 6)

/-- The function `EigenSymmetric3`: the eigenvalues and the matrix `fevecs`.
The result of `QLAlgorithm3` is not looked at. -/
def EigenSymmetric3 {K : Type} [LinearOrderedField K] (sqrt : K → K) (fmat : Nat → K) :
    (Nat → K) × (Nat → K) :=
  let t := Tridiagonal3 sqrt fmat
  let r := _QLAlgorithm3 sqrt { m_aafEntry := t.1, afDiag := t.2.1, afSubDiag := t.2.2 }
  let fevecs := r.2.m_aafEntry
  if EigenSymmetric3_fDet fevecs < 0 then
    (r.2.afDiag,
      Function.update (Function.update (Function.update fevecs 2 (-fevecs 2)) 5 (-fevecs 5)) 8
        (-fevecs 8))
  else (r.2.afDiag, fevecs)

/-- Line 1441: the array `fCovariance` of an inertia. -/
def fCovariance {K : Type} [Field K] (ixx ixy ixz iyy iyz izz : K) : Nat → K :=
  fun i => ([ixx, ixy, ixz, ixy, iyy, iyz, ixz, iyz, izz] : List K).getD i 0

/-- The 3x3 matrix of Mathlib with the entries `m[3*i+j]`. -/
def toMatrix3 {K : Type} (m : Nat → K) : Matrix (Fin 3) (Fin 3) K :=
  fun i j => m (3 * i.val + j.val)

/-! ## Joint limits in the writer -/

/-- Modelled from the spec: the members of `urdf::Joint` that the writer
reads for the limits of an axis.  `limits` and `safety` are null or hold the
limits and the soft limits `(soft_lower_limit, soft_upper_limit)`; `mimic`
says whether the pointer is set. -/
structure UrdfJoint where
  type : JointType
  limits : Option JointLimits := none
  safety : Option (ℚ × ℚ) := none
  mimic : Bool := false
  deriving DecidableEq, Repr

/-- Lines 765-794 of `_WriteRobot`: the kinematics `<axis_info>` of a joint,
with its `<limits>`, `<active>` and `<locked>`. -/
def _WriteRobot_axisInfo (pjoint : UrdfJoint) : KinematicsAxisInfo :=
  let bactive := !pjoint.mimic
  if pjoint.type ≠ JointType.CONTINUOUS then
    let r0 : ℚ × ℚ :=
      match pjoint.limits with
      | some l => (l.lower, l.upper)
      | none => (0, 0)
    let r : ℚ × ℚ :=
      match pjoint.safety with
      | some s => s
      | none => r0
    let bactive := if r.1 = r.2 then false else bactive
    let fmult : ℚ := if pjoint.type ≠ JointType.PRISMATIC then 180 / M_PI else 1
    { limits := some { min := { float := some (r.1 * fmult) },
                       max := { float := some (r.2 * fmult) } }
      active := some { bool := some bactive }
      locked := some { bool := some false } }
  else
    { active := some { bool := some bactive }
      locked := some { bool := some false } }

/-- Lines 945-993 of `WriteKinematics_model`: the axis constraint of a joint
with its inline limits; `none` for a type that is not supported. -/
def WriteKinematics_model_axis (pjoint : UrdfJoint) : Option AxisConstraint :=
  let l : ℚ × ℚ :=
    match pjoint.limits with
    | some l => (l.lower, l.upper)
    | none => (0, 0)
  let r : Option (AxisKind × ℚ × ℚ) :=
    match pjoint.type with
    | JointType.REVOLUTE => some (AxisKind.revolute, l.1 * (180 / M_PI), l.2 * (180 / M_PI))
    | JointType.CONTINUOUS => some (AxisKind.revolute, l.1 * (180 / M_PI), l.2 * (180 / M_PI))
    | JointType.PRISMATIC => some (AxisKind.prismatic, l.1, l.2)
    | JointType.FIXED => some (AxisKind.revolute, 0, 0)
    | _ => none
  match r with
  | none => none
  | some (kind, lmin, lmax) =>
    some { eid := 0, kind := kind,
           limits := if pjoint.type ≠ JointType.CONTINUOUS then some (lmin, lmax) else none }

/-! # Theorems -/

/-! ## Maps -/

/-- A key is absent from the lookup exactly when it is not among the keys. -/
theorem mapFind_eq_none_iff {α : Type} (k : String) (m : List (String × α)) :
    mapFind k m = none ↔ k ∉ mapKeys m := by
  induction m with
  | nil => simp [mapFind, mapKeys]
  | cons e rest ih =>
    obtain ⟨k1, v1⟩ := e
    by_cases h : k1 = k
    · simp [mapFind, mapKeys, h]
    · have h2 : ¬ k = k1 := fun e => h e.symm
      simp only [mapKeys] at ih
      simp [mapFind, mapKeys, h, h2, ih]

/-- A key that is found is among the keys. -/
theorem mem_mapKeys_of_mapFind {α : Type} (k : String) (m : List (String × α)) (v : α)
    (h : mapFind k m = some v) : k ∈ mapKeys m := by
  by_contra hc
  rw [(mapFind_eq_none_iff k m).2 hc] at h
  exact Option.noConfusion h

/-- A key among the keys is found. -/
theorem mapFind_isSome_of_mem {α : Type} (k : String) (m : List (String × α))
    (h : k ∈ mapKeys m) : ∃ v, mapFind k m = some v := by
  cases hf : mapFind k m with
  | none => exact absurd h ((mapFind_eq_none_iff k m).1 hf)
  | some v => exact ⟨v, rfl⟩

/-- Keys after placing a new key. -/
theorem mem_mapKeys_mapPlace {α : Type} (x k : String) (v : α) (m : List (String × α)) :
    x ∈ mapKeys (mapPlace k v m) ↔ x = k ∨ x ∈ mapKeys m := by
  induction m with
  | nil => simp [mapPlace, mapKeys]
  | cons e rest ih =>
    obtain ⟨k1, v1⟩ := e
    simp only [mapKeys] at ih
    simp only [mapPlace]
    split_ifs with h1
    · simp [mapKeys]
    · simp only [mapKeys, List.map_cons, List.mem_cons, ih]
      tauto

/-- Lookup of another key after placing a key. -/
theorem mapFind_mapPlace_ne {α : Type} (x k : String) (v : α) (m : List (String × α))
    (h : k ≠ x) : mapFind x (mapPlace k v m) = mapFind x m := by
  induction m with
  | nil => simp [mapPlace, mapFind, h]
  | cons e rest ih =>
    obtain ⟨k1, v1⟩ := e
    simp only [mapPlace]
    split_ifs with h1
    · simp [mapFind, h]
    · simp [mapFind, ih]

/-- Keys after overwriting the value of a key. -/
theorem mapKeys_map_value {α : Type} (k : String) (v : α) (m : List (String × α)) :
    mapKeys (m.map (fun e => if e.1 = k then (e.1, v) else e)) = mapKeys m := by
  induction m with
  | nil => rfl
  | cons e rest ih =>
    simp only [mapKeys] at ih
    simp only [mapKeys, List.map_cons, ih]
    split_ifs <;> rfl

/-- Lookup after overwriting the value of a key. -/
theorem mapFind_map_value {α : Type} (x k : String) (v : α) (m : List (String × α)) :
    mapFind x (m.map (fun e => if e.1 = k then (e.1, v) else e)) =
      if x = k then (mapFind x m).map (fun _ => v) else mapFind x m := by
  induction m with
  | nil => simp [mapFind]
  | cons e rest ih =>
    obtain ⟨k1, v1⟩ := e
    simp only [List.map_cons]
    by_cases h1 : k1 = k
    · rw [if_pos (show (k1, v1).1 = k from h1)]
      simp only [mapFind, ih]
      by_cases h2 : k1 = x
      · have h3 : x = k := h2 ▸ h1
        simp [h2, h3]
      · simp [h2]
    · rw [if_neg (show ¬ (k1, v1).1 = k from h1)]
      simp only [mapFind, ih]
      by_cases h2 : k1 = x
      · have h3 : ¬ x = k := fun e => h1 (h2.trans e)
        simp [h2, h3]
      · simp [h2]

/-- Keys after `insert`. -/
theorem mem_mapKeys_mapInsert {α : Type} (x k : String) (v : α) (m : List (String × α)) :
    x ∈ mapKeys (mapInsert k v m) ↔ x = k ∨ x ∈ mapKeys m := by
  unfold mapInsert
  cases hf : mapFind k m with
  | none => exact mem_mapKeys_mapPlace x k v m
  | some w =>
    have hk := mem_mapKeys_of_mapFind k m w hf
    constructor
    · exact Or.inr
    · rintro (h | h)
      · exact h ▸ hk
      · exact h

/-- Keys after an assignment. -/
theorem mem_mapKeys_mapAssign {α : Type} (x k : String) (v : α) (m : List (String × α)) :
    x ∈ mapKeys (mapAssign k v m) ↔ x = k ∨ x ∈ mapKeys m := by
  unfold mapAssign
  cases hf : mapFind k m with
  | none => exact mem_mapKeys_mapPlace x k v m
  | some w =>
    have hk := mem_mapKeys_of_mapFind k m w hf
    simp only [mapKeys_map_value]
    constructor
    · exact Or.inr
    · rintro (h | h)
      · exact h ▸ hk
      · exact h

/-- Lookup of another key after an assignment. -/
theorem mapFind_mapAssign_ne {α : Type} (x k : String) (v : α) (m : List (String × α))
    (h : k ≠ x) : mapFind x (mapAssign k v m) = mapFind x m := by
  unfold mapAssign
  have h2 : ¬ x = k := fun e => h e.symm
  cases hf : mapFind k m with
  | none => exact mapFind_mapPlace_ne x k v m h
  | some w => simp [mapFind_map_value, h2]

/-- Lookup of another key after `insert`. -/
theorem mapFind_mapInsert_ne {α : Type} (x k : String) (v : α) (m : List (String × α))
    (h : k ≠ x) : mapFind x (mapInsert k v m) = mapFind x m := by
  unfold mapInsert
  cases hf : mapFind k m with
  | none => exact mapFind_mapPlace_ne x k v m h
  | some w => rfl

/-- When no kinematics-scene instance resolves, the scene loop reaches the
possible bodies with the list it started with. -/
theorem _Extract_scenes_unresolved (asserts : Bool)
    (l : List InstanceKinematicsScene) (hl : ∀ k ∈ l, k.url = none)
    (bodies : List (InstanceKinematicsModel × KinematicsSceneBindings)) (st : ModelInterface) :
    _Extract_scenes asserts l bodies st = _Extract_bodies asserts bodies st := by
  induction l with
  | nil => simp [_Extract_scenes]
  | cons k rest ih =>
    have hk : k.url = none := hl k (List.mem_cons_self k rest)
    have hrest : ∀ k1 ∈ rest, k1.url = none := fun k1 h1 => hl k1 (List.mem_cons_of_mem k h1)
    simp [_Extract_scenes, hk, ih hrest]

/-- C1: a document without `<scene>`, or whose `<scene>` lists no
kinematics-scene instance that resolves to a kinematics scene (none at all,
or every url unresolved), makes `_Extract` return false with nothing in the
model, and `parseCollada` return the null model. -/
theorem C1_no_kinematics_scene_fails (asserts : Bool) (dom : DomCOLLADA)
    (h : ∀ allscene, dom.scene = some allscene →
      ∀ k ∈ allscene.instance_kinematics_scene, k.url = none) :
    _Extract asserts dom = .ok (false, {}) ∧ parseCollada asserts (some dom) = .ok none := by
  have hE : _Extract asserts dom = .ok (false, {}) := by
    cases hs : dom.scene with
    | none => simp [_Extract, hs]
    | some allscene =>
      simp [_Extract, hs, _Extract_scenes_unresolved asserts _ (h allscene hs), _Extract_bodies]
  exact ⟨hE, by simp [parseCollada, InitFromData, hE]⟩

/-- C1, witness: a scene with two kinematics-scene instances, neither of which
resolves. -/
theorem C1_no_kinematics_scene_fails_witness :
    _Extract true { scene := some { instance_kinematics_scene := [{}, {}] } } = .ok (false, {}) ∧
    parseCollada true (some { scene := some { instance_kinematics_scene := [{}, {}] } })
      = .ok none :=
  C1_no_kinematics_scene_fails true { scene := some { instance_kinematics_scene := [{}, {}] } }
    (by
      intro allscene hs k hk
      simp at hs
      subst hs
      simp at hk
      subst hk
      rfl)

/-! ## Joint limits -/

/-- The speed step leaves the type of the joint alone. -/
theorem _ExtractLink_motion_type (mai : Option MotionAxisInfo) (j : Joint) :
    (_ExtractLink_motion mai j).type = j.type := by
  unfold _ExtractLink_motion
  cases mai with
  | none => rfl
  | some m =>
    rcases m with ⟨ax, np, sp, acc⟩
    cases sp <;> cases acc <;> rfl

/-- The speed step leaves the lower limit alone. -/
theorem _ExtractLink_motion_lower (mai : Option MotionAxisInfo) (j : Joint) :
    (_ExtractLink_motion mai j).limits.lower = j.limits.lower := by
  unfold _ExtractLink_motion
  cases mai with
  | none => rfl
  | some m =>
    rcases m with ⟨ax, np, sp, acc⟩
    cases sp <;> cases acc <;> rfl

/-- The speed step leaves the upper limit alone. -/
theorem _ExtractLink_motion_upper (mai : Option MotionAxisInfo) (j : Joint) :
    (_ExtractLink_motion mai j).limits.upper = j.limits.upper := by
  unfold _ExtractLink_motion
  cases mai with
  | none => rfl
  | some m =>
    rcases m with ⟨ax, np, sp, acc⟩
    cases sp <;> cases acc <;> rfl

/-- The default velocity leaves the type of the joint alone. -/
theorem _ExtractLink_velocity_type (j : Joint) : (_ExtractLink_velocity j).type = j.type := by
  unfold _ExtractLink_velocity
  split <;> rfl

/-- The default velocity leaves the lower limit alone. -/
theorem _ExtractLink_velocity_lower (j : Joint) :
    (_ExtractLink_velocity j).limits.lower = j.limits.lower := by
  unfold _ExtractLink_velocity
  split <;> rfl

/-- The default velocity leaves the upper limit alone. -/
theorem _ExtractLink_velocity_upper (j : Joint) :
    (_ExtractLink_velocity j).limits.upper = j.limits.upper := by
  unfold _ExtractLink_velocity
  split <;> rfl

/-- A revolute or prismatic axis gives the joint the matching type. -/
theorem _ExtractLink_axisType_cases (kind : AxisKind)
    (hkind : kind = AxisKind.revolute ∨ kind = AxisKind.prismatic) :
    (kind = AxisKind.revolute ∧
        _ExtractLink_axisType kind JointType.UNKNOWN = JointType.REVOLUTE) ∨
    (kind = AxisKind.prismatic ∧
        _ExtractLink_axisType kind JointType.UNKNOWN = JointType.PRISMATIC) := by
  rcases hkind with h | h <;> subst h <;> simp [_ExtractLink_axisType]

/-- Rule (a): a locked axis-info sets [0,0] on a revolute or prismatic joint
and does not raise the flag `kinematics_limits`. -/
theorem _ExtractLink_axisInfoLimits_locked (k : KinematicsAxisInfo) (j : Joint)
    (hlocked : _ExtractLink_locked (some k) = true)
    (ht : j.type = JointType.REVOLUTE ∨ j.type = JointType.PRISMATIC) :
    _ExtractLink_axisInfoLimits (some k) j =
      ({ j with limits := { j.limits with lower := 0, upper := 0 } }, false) := by
  simp [_ExtractLink_axisInfoLimits, hlocked, ht]

/-- Rule (b): limits of the axis-info, scaled, raise the flag. -/
theorem _ExtractLink_axisInfoLimits_limits (k : KinematicsAxisInfo) (lim : KinematicsLimits)
    (j : Joint) (hlocked : _ExtractLink_locked (some k) = false) (hlim : k.limits = some lim)
    (ht : j.type = JointType.REVOLUTE ∨ j.type = JointType.PRISMATIC) :
    (_ExtractLink_axisInfoLimits (some k) j).2 = true ∧
    (_ExtractLink_axisInfoLimits (some k) j).1.limits.lower =
      (if j.type = JointType.REVOLUTE then M_PI / 180 else k.scale)
        * resolveFloat lim.min k.newparams ∧
    (_ExtractLink_axisInfoLimits (some k) j).1.limits.upper =
      (if j.type = JointType.REVOLUTE then M_PI / 180 else k.scale)
        * resolveFloat lim.max k.newparams := by
  simp only [_ExtractLink_axisInfoLimits, hlocked, hlim, ht]
  simp only [Bool.false_eq_true, if_false, if_true]
  split_ifs <;> exact ⟨rfl, rfl, rfl⟩

/-- Without a lock and without limits the axis-info changes nothing. -/
theorem _ExtractLink_axisInfoLimits_none (kai : Option KinematicsAxisInfo) (j : Joint)
    (hlocked : _ExtractLink_locked kai = false)
    (hnolim : ∀ k, kai = some k → k.limits = none) :
    _ExtractLink_axisInfoLimits kai j = (j, false) := by
  cases kai with
  | none => rfl
  | some k => simp [_ExtractLink_axisInfoLimits, hlocked, hnolim k rfl]

/-- The limit step as a whole when rule (a) or (b) applied: the inline limits
are not looked at. -/
theorem _ExtractLink_limits_of_info (pdomaxis : AxisConstraint) (k : KinematicsAxisInfo)
    (mai : Option MotionAxisInfo) (pjoint : Joint)
    (h : _ExtractLink_locked (some k) = true ∨
      (_ExtractLink_axisInfoLimits (some k) (_ExtractLink_motion mai pjoint)).2 = true) :
    _ExtractLink_limits pdomaxis (some k) mai pjoint =
      _ExtractLink_velocity
        (_ExtractLink_axisInfoLimits (some k) (_ExtractLink_motion mai pjoint)).1 := by
  unfold _ExtractLink_limits
  rcases h with h | h <;> simp [h]

/-- The limit step as a whole when neither rule (a) nor (b) applied. -/
theorem _ExtractLink_limits_of_inline (pdomaxis : AxisConstraint)
    (kai : Option KinematicsAxisInfo) (mai : Option MotionAxisInfo) (pjoint : Joint)
    (hlocked : _ExtractLink_locked kai = false)
    (hnolim : ∀ k, kai = some k → k.limits = none) :
    _ExtractLink_limits pdomaxis kai mai pjoint =
      _ExtractLink_velocity
        (_ExtractLink_inlineLimits pdomaxis (_ExtractLink_motion mai pjoint)) := by
  unfold _ExtractLink_limits
  simp [_ExtractLink_axisInfoLimits_none kai _ hlocked hnolim, hlocked]

/-- C9: limit resolution of a revolute or prismatic axis takes the first
applicable rule.  (a) A locked flag that resolves to true gives [0,0].
(b) Otherwise limits of the axis-info give min and max times pi/180
(revolute) or times the unit scale of the axis-info (prismatic), whatever the
inline limits are.  (c) Otherwise the inline min and max, times pi/180 or
the unit scale of the axis.  (d) Otherwise the fallback without limits. -/
theorem C9_limit_precedence (pdomaxis : AxisConstraint) (kai : Option KinematicsAxisInfo)
    (mai : Option MotionAxisInfo) (pjoint : Joint)
    (hkind : pdomaxis.kind = AxisKind.revolute ∨ pdomaxis.kind = AxisKind.prismatic)
    (htype : pjoint.type = _ExtractLink_axisType pdomaxis.kind JointType.UNKNOWN) :
    (_ExtractLink_locked kai = true →
      (_ExtractLink_limits pdomaxis kai mai pjoint).limits.lower = 0 ∧
      (_ExtractLink_limits pdomaxis kai mai pjoint).limits.upper = 0) ∧
    (∀ k lim, kai = some k → _ExtractLink_locked kai = false → k.limits = some lim →
      (_ExtractLink_limits pdomaxis kai mai pjoint).limits.lower =
        (if pdomaxis.kind = AxisKind.revolute then M_PI / 180 else k.scale)
          * resolveFloat lim.min k.newparams ∧
      (_ExtractLink_limits pdomaxis kai mai pjoint).limits.upper =
        (if pdomaxis.kind = AxisKind.revolute then M_PI / 180 else k.scale)
          * resolveFloat lim.max k.newparams) ∧
    (∀ min max, _ExtractLink_locked kai = false → (∀ k, kai = some k → k.limits = none) →
      pdomaxis.limits = some (min, max) →
      (_ExtractLink_limits pdomaxis kai mai pjoint).limits.lower =
        min * (if pdomaxis.kind = AxisKind.revolute then M_PI / 180 else pdomaxis.scale) ∧
      (_ExtractLink_limits pdomaxis kai mai pjoint).limits.upper =
        max * (if pdomaxis.kind = AxisKind.revolute then M_PI / 180 else pdomaxis.scale)) ∧
    (_ExtractLink_locked kai = false → (∀ k, kai = some k → k.limits = none) →
      pdomaxis.limits = none →
      (_ExtractLink_limits pdomaxis kai mai pjoint).limits.lower =
        (if pdomaxis.kind = AxisKind.revolute then -M_PI else -100000) ∧
      (_ExtractLink_limits pdomaxis kai mai pjoint).limits.upper =
        (if pdomaxis.kind = AxisKind.revolute then M_PI else 100000)) := by
  have hmt := _ExtractLink_motion_type mai pjoint
  have hty : (_ExtractLink_motion mai pjoint).type = JointType.REVOLUTE ∨
      (_ExtractLink_motion mai pjoint).type = JointType.PRISMATIC := by
    rcases _ExtractLink_axisType_cases pdomaxis.kind hkind with ⟨_, ht⟩ | ⟨_, ht⟩
    · exact Or.inl (by rw [hmt, htype, ht])
    · exact Or.inr (by rw [hmt, htype, ht])
  have hrev : (_ExtractLink_motion mai pjoint).type = JointType.REVOLUTE ↔
      pdomaxis.kind = AxisKind.revolute := by
    rw [hmt, htype]
    rcases hkind with h | h <;> simp [h, _ExtractLink_axisType]
  refine ⟨?_, ?_, ?_, ?_⟩
  · intro hlocked
    cases kai with
    | none => simp [_ExtractLink_locked] at hlocked
    | some k =>
      rw [_ExtractLink_limits_of_info pdomaxis k mai pjoint (Or.inl hlocked),
        _ExtractLink_velocity_lower, _ExtractLink_velocity_upper,
        _ExtractLink_axisInfoLimits_locked k _ hlocked hty]
      exact ⟨rfl, rfl⟩
  · intro k lim hkai hlocked hlim
    subst hkai
    obtain ⟨h2, hlo, hup⟩ := _ExtractLink_axisInfoLimits_limits k lim _ hlocked hlim hty
    rw [_ExtractLink_limits_of_info pdomaxis k mai pjoint (Or.inr h2),
      _ExtractLink_velocity_lower, _ExtractLink_velocity_upper, hlo, hup]
    simp only [hrev]
    exact ⟨trivial, trivial⟩
  · intro min max hlocked hnolim hinline
    rw [_ExtractLink_limits_of_inline pdomaxis kai mai pjoint hlocked hnolim,
      _ExtractLink_velocity_lower, _ExtractLink_velocity_upper]
    simp only [_ExtractLink_inlineLimits, hinline, hrev]
    split_ifs <;> exact ⟨rfl, rfl⟩
  · intro hlocked hnolim hinline
    rw [_ExtractLink_limits_of_inline pdomaxis kai mai pjoint hlocked hnolim,
      _ExtractLink_velocity_lower, _ExtractLink_velocity_upper]
    simp only [_ExtractLink_inlineLimits, hinline, hrev]
    split_ifs <;> exact ⟨rfl, rfl⟩

/-- C9, witness: a prismatic axis (unit scale 1/1000, inline limits -1 and 1)
with an axis-info that is not locked and carries the limits 2 and 3 at unit
scale 1/100 gets the limits 2/100 and 3/100 by rule (b). -/
theorem C9_limit_precedence_witness :
    (_ExtractLink_limits
      { eid := 1, kind := AxisKind.prismatic, limits := some (-1, 1), scale := 1 / 1000 }
      (some { locked := some { bool := some false },
              limits := some { min := { float := some 2 }, max := { float := some 3 } },
              scale := 1 / 100 })
      none { type := JointType.PRISMATIC }).limits.lower = 1 / 100 * 2 ∧
    (_ExtractLink_limits
      { eid := 1, kind := AxisKind.prismatic, limits := some (-1, 1), scale := 1 / 1000 }
      (some { locked := some { bool := some false },
              limits := some { min := { float := some 2 }, max := { float := some 3 } },
              scale := 1 / 100 })
      none { type := JointType.PRISMATIC }).limits.upper = 1 / 100 * 3 := by
  have h := (C9_limit_precedence
    { eid := 1, kind := AxisKind.prismatic, limits := some (-1, 1), scale := 1 / 1000 }
    (some { locked := some { bool := some false },
            limits := some { min := { float := some 2 }, max := { float := some 3 } },
            scale := 1 / 100 })
    none { type := JointType.PRISMATIC } (Or.inr rfl) rfl).2.1
    { locked := some { bool := some false },
      limits := some { min := { float := some 2 }, max := { float := some 3 } },
      scale := 1 / 100 }
    { min := { float := some 2 }, max := { float := some 3 } } rfl rfl rfl
  simpa [resolveFloat] using h

/-- C10: an axis with no lock and no limits in its axis-info (or without
axis-info) and without inline limits: a revolute axis becomes CONTINUOUS with
[-pi, pi], a prismatic axis stays PRISMATIC with [-100000, 100000]. -/
theorem C10_no_limits_fallback (pdomaxis : AxisConstraint) (kai : Option KinematicsAxisInfo)
    (mai : Option MotionAxisInfo) (pjoint : Joint)
    (htype : pjoint.type = _ExtractLink_axisType pdomaxis.kind JointType.UNKNOWN)
    (hlocked : _ExtractLink_locked kai = false)
    (hnolim : ∀ k, kai = some k → k.limits = none)
    (hinline : pdomaxis.limits = none) :
    (pdomaxis.kind = AxisKind.revolute →
      (_ExtractLink_limits pdomaxis kai mai pjoint).type = JointType.CONTINUOUS ∧
      (_ExtractLink_limits pdomaxis kai mai pjoint).limits.lower = -M_PI ∧
      (_ExtractLink_limits pdomaxis kai mai pjoint).limits.upper = M_PI) ∧
    (pdomaxis.kind = AxisKind.prismatic →
      (_ExtractLink_limits pdomaxis kai mai pjoint).type = JointType.PRISMATIC ∧
      (_ExtractLink_limits pdomaxis kai mai pjoint).limits.lower = -100000 ∧
      (_ExtractLink_limits pdomaxis kai mai pjoint).limits.upper = 100000) := by
  have hmt := _ExtractLink_motion_type mai pjoint
  rw [_ExtractLink_limits_of_inline pdomaxis kai mai pjoint hlocked hnolim,
    _ExtractLink_velocity_lower, _ExtractLink_velocity_upper, _ExtractLink_velocity_type]
  constructor
  · intro hk
    have ht : (_ExtractLink_motion mai pjoint).type = JointType.REVOLUTE := by
      rw [hmt, htype, hk]
      rfl
    simp only [_ExtractLink_inlineLimits, hinline, ht]
    exact ⟨rfl, rfl, rfl⟩
  · intro hk
    have ht : (_ExtractLink_motion mai pjoint).type = JointType.PRISMATIC := by
      rw [hmt, htype, hk]
      rfl
    simp only [_ExtractLink_inlineLimits, hinline, ht]
    exact ⟨rfl, rfl, rfl⟩

/-- C10, witness: a revolute axis without limits whose axis-info has neither
lock nor limits. -/
theorem C10_no_limits_fallback_witness :
    (_ExtractLink_limits { eid := 7, kind := AxisKind.revolute } (some {}) none
        { type := JointType.REVOLUTE }).type = JointType.CONTINUOUS ∧
    (_ExtractLink_limits { eid := 7, kind := AxisKind.revolute } (some {}) none
        { type := JointType.REVOLUTE }).limits.lower = -M_PI ∧
    (_ExtractLink_limits { eid := 7, kind := AxisKind.revolute } (some {}) none
        { type := JointType.REVOLUTE }).limits.upper = M_PI :=
  (C10_no_limits_fallback { eid := 7, kind := AxisKind.revolute } (some {}) none
    { type := JointType.REVOLUTE } rfl rfl
    (by
      intro k hk
      simp at hk
      subst hk
      rfl)
    rfl).1 rfl

/-- C8, the code at the failing input: the locked revolute joint J is left
with the limits [0,0] and the type REVOLUTE, not FIXED. -/
theorem C8_locked_joint_stays_revolute :
    (_ExtractLink lockedBindings (some { eid := 1, name := some "A" }) {} lockedExample).toOption.map
      (fun r => (r.2.getJoint "J").map (fun j => (j.limits.lower, j.limits.upper, j.type)))
      = some (some (0, 0, JointType.REVOLUTE)) := by
  decide!

/-! ## Post-processing -/

/-- C2, counterexample: for the document with the two root links A and B
post-processing raises `ParseError` (two links are never a child), and still
`_Extract` returns true and `parseCollada` returns the model. -/
theorem C2_counterexample :
    _ExtractKinematicsModel true twoRootsModel twoRootsBindings {} = .ok (true, twoRootsExtracted) ∧
    _PostProcess_failed twoRootsExtracted = true ∧
    _Extract true twoRootsDocument = .ok (true, _PostProcess twoRootsExtracted) ∧
    parseCollada true (some twoRootsDocument) = .ok (some (_PostProcess twoRootsExtracted)) := by
  refine ⟨by decide, by decide, by decide, by decide⟩

/-- C2 (amended): a `ParseError` of `initTree` or `initRoot` is caught inside
`_PostProcess` and does not turn success into failure.  Whenever a candidate
was extracted into a model `st1` on which post-processing cannot determine a
unique root, the loop over the possible bodies and the loop over the
kinematics scenes still return true with the post-processed model, and
`parseCollada` returns that model. -/
theorem C2_postprocess_error_not_fatal (asserts : Bool) (st1 : ModelInterface)
    (hfail : _PostProcess_failed st1 = true) :
    (∀ (it : InstanceKinematicsModel × KinematicsSceneBindings)
        (rest : List (InstanceKinematicsModel × KinematicsSceneBindings)) (st : ModelInterface),
      _ExtractKinematicsModel asserts it.1 it.2 st = .ok (true, st1) →
      _Extract_bodies asserts (it :: rest) st = .ok (true, _PostProcess st1)) ∧
    (∀ (kiscene : InstanceKinematicsScene) (kscene : DomKinematicsScene)
        (rest : List InstanceKinematicsScene)
        (bodies : List (InstanceKinematicsModel × KinematicsSceneBindings))
        (st : ModelInterface) (b1 : KinematicsSceneBindings),
      kiscene.url = some kscene →
      _Extract_systems asserts kscene.instance_articulated_system kiscene.bindings st
        = .ok (true, b1, st1) →
      _Extract_scenes asserts (kiscene :: rest) bodies st = .ok (true, _PostProcess st1)) ∧
    (∀ dom : DomCOLLADA, _Extract asserts dom = .ok (true, _PostProcess st1) →
      parseCollada asserts (some dom) = .ok (some (_PostProcess st1))) := by
  have _ := hfail
  refine ⟨?_, ?_, ?_⟩
  · intro it rest st h
    simp [_Extract_bodies, h]
  · intro kiscene kscene rest bodies st b1 hurl h
    simp [_Extract_scenes, hurl, h]
  · intro dom h
    simp [parseCollada, InitFromData, h]

/-- C2 (amended), witness: the document with the two root links. -/
theorem C2_postprocess_error_not_fatal_witness :
    _PostProcess_failed twoRootsExtracted = true ∧
    _Extract_bodies true [(twoRootsModel, twoRootsBindings)] {}
      = .ok (true, _PostProcess twoRootsExtracted) ∧
    parseCollada true (some twoRootsDocument) = .ok (some (_PostProcess twoRootsExtracted)) :=
  ⟨by decide,
   (C2_postprocess_error_not_fatal true twoRootsExtracted (by decide)).1
     (twoRootsModel, twoRootsBindings) [] {} (by decide),
   (C2_postprocess_error_not_fatal true twoRootsExtracted (by decide)).2.2
     twoRootsDocument (by decide)⟩

/-! ## Articulated systems -/

/-- Post-processing leaves the link map alone. -/
theorem _PostProcess_links (st : ModelInterface) : (_PostProcess st).links_ = st.links_ := by
  unfold _PostProcess initRoot
  simp only []
  split
  · rfl
  · split <;> rfl

/-- Post-processing leaves the joint map alone. -/
theorem _PostProcess_joints (st : ModelInterface) : (_PostProcess st).joints_ = st.joints_ := by
  unfold _PostProcess initRoot
  simp only []
  split
  · rfl
  · split <;> rfl

/-- No step is a step. -/
theorem Grows.refl (st : ModelInterface) : Grows st st :=
  ⟨fun _ h => h, fun h => h⟩

/-- Steps compose. -/
theorem Grows.trans {a b c : ModelInterface} (h1 : Grows a b) (h2 : Grows b c) : Grows a c :=
  ⟨fun k hk => h2.1 k (h1.1 k hk), fun h => h2.2 (h1.2 h)⟩

/-- A change that keeps the joint objects and the keys of the link map is a
step. -/
theorem Grows.of_links {st st1 : ModelInterface} (hheap : st1.jointHeap = st.jointHeap)
    (hkeys : ∀ k ∈ mapKeys st.links_, k ∈ mapKeys st1.links_) : Grows st st1 := by
  refine ⟨hkeys, ?_⟩
  intro h j hj
  rw [hheap] at hj
  obtain ⟨hp, hc⟩ := h j hj
  exact ⟨hkeys _ hp, hc.imp id (hkeys _)⟩

/-- Writing a link is a step. -/
theorem Grows.setLink (st : ModelInterface) (name : String) (l : Link) :
    Grows st (st.setLink name l) :=
  Grows.of_links rfl (fun k hk => (mem_mapKeys_mapAssign k name l st.links_).2 (Or.inr hk))

/-- The key of a link just written. -/
theorem mem_links_setLink (st : ModelInterface) (name : String) (l : Link) :
    name ∈ mapKeys (st.setLink name l).links_ :=
  (mem_mapKeys_mapAssign name name l st.links_).2 (Or.inl rfl)

/-- Creating the link is a step. -/
theorem Grows.getOrCreate (linkname : String) (st : ModelInterface) :
    Grows st (_ExtractLink_getOrCreate linkname st) := by
  unfold _ExtractLink_getOrCreate
  split
  · exact Grows.refl st
  · exact Grows.of_links rfl (fun k hk => (mem_mapKeys_mapInsert k linkname _ st.links_).2 (Or.inr hk))

/-- Writing a joint object whose names are fine is a step. -/
theorem Grows.setJoint (st : ModelInterface) (i : Nat) (j : Joint)
    (hp : j.parent_link_name ∈ mapKeys st.links_)
    (hc : j.child_link_name = "" ∨ j.child_link_name ∈ mapKeys st.links_) :
    Grows st (st.setJoint i j) := by
  refine ⟨fun _ h => h, ?_⟩
  intro h j1 hj1
  rcases List.mem_or_eq_of_mem_set hj1 with hm | he
  · exact h j1 hm
  · subst he
    exact ⟨hp, hc⟩

/-- The limit step leaves the name of the parent link alone. -/
theorem _ExtractLink_limits_parent (pdomaxis : AxisConstraint)
    (kai : Option KinematicsAxisInfo) (mai : Option MotionAxisInfo) (j : Joint) :
    (_ExtractLink_limits pdomaxis kai mai j).parent_link_name = j.parent_link_name := by
  have hm : (_ExtractLink_motion mai j).parent_link_name = j.parent_link_name := by
    unfold _ExtractLink_motion
    cases mai with
    | none => rfl
    | some m =>
      rcases m with ⟨ax, np, sp, acc⟩
      cases sp <;> cases acc <;> rfl
  have hv : ∀ x : Joint, (_ExtractLink_velocity x).parent_link_name = x.parent_link_name := by
    intro x
    unfold _ExtractLink_velocity
    split <;> rfl
  have hi : ∀ x : Joint,
      (_ExtractLink_axisInfoLimits kai x).1.parent_link_name = x.parent_link_name := by
    intro x
    cases kai with
    | none => rfl
    | some k =>
      cases hk : k.limits with
      | none =>
        simp only [_ExtractLink_axisInfoLimits, hk]
        split_ifs <;> rfl
      | some lim =>
        simp only [_ExtractLink_axisInfoLimits, hk]
        split_ifs <;> rfl
  have hl : ∀ x : Joint,
      (_ExtractLink_inlineLimits pdomaxis x).parent_link_name = x.parent_link_name := by
    intro x
    unfold _ExtractLink_inlineLimits
    cases pdomaxis.limits with
    | none =>
      simp only []
      split_ifs <;> rfl
    | some lim =>
      obtain ⟨mn, mx⟩ := lim
      simp only []
      split_ifs <;> rfl
  unfold _ExtractLink_limits
  simp only [hv]
  split_ifs
  · rw [hl, hi, hm]
  · rw [hi, hm]

/-- The limit step leaves the name of the child link alone. -/
theorem _ExtractLink_limits_child (pdomaxis : AxisConstraint)
    (kai : Option KinematicsAxisInfo) (mai : Option MotionAxisInfo) (j : Joint) :
    (_ExtractLink_limits pdomaxis kai mai j).child_link_name = j.child_link_name := by
  have hm : (_ExtractLink_motion mai j).child_link_name = j.child_link_name := by
    unfold _ExtractLink_motion
    cases mai with
    | none => rfl
    | some m =>
      rcases m with ⟨ax, np, sp, acc⟩
      cases sp <;> cases acc <;> rfl
  have hv : ∀ x : Joint, (_ExtractLink_velocity x).child_link_name = x.child_link_name := by
    intro x
    unfold _ExtractLink_velocity
    split <;> rfl
  have hi : ∀ x : Joint,
      (_ExtractLink_axisInfoLimits kai x).1.child_link_name = x.child_link_name := by
    intro x
    cases kai with
    | none => rfl
    | some k =>
      cases hk : k.limits with
      | none =>
        simp only [_ExtractLink_axisInfoLimits, hk]
        split_ifs <;> rfl
      | some lim =>
        simp only [_ExtractLink_axisInfoLimits, hk]
        split_ifs <;> rfl
  have hl : ∀ x : Joint,
      (_ExtractLink_inlineLimits pdomaxis x).child_link_name = x.child_link_name := by
    intro x
    unfold _ExtractLink_inlineLimits
    cases pdomaxis.limits with
    | none =>
      simp only []
      split_ifs <;> rfl
    | some lim =>
      obtain ⟨mn, mx⟩ := lim
      simp only []
      split_ifs <;> rfl
  unfold _ExtractLink_limits
  simp only [hv]
  split_ifs
  · rw [hl, hi, hm]
  · rw [hi, hm]

/-- Writing a joint object that keeps the parent of the object it replaces,
and keeps its child or names a link of the model, is a step. -/
theorem Grows.setJoint_at (st : ModelInterface) (i : Nat) (pjoint j : Joint)
    (hget : st.jointHeap.get? i = some pjoint)
    (hp : j.parent_link_name = pjoint.parent_link_name)
    (hc : j.child_link_name = pjoint.child_link_name ∨
      j.child_link_name ∈ mapKeys st.links_) :
    Grows st (st.setJoint i j) := by
  refine ⟨fun _ h => h, ?_⟩
  intro h j1 hj1
  have hmem : pjoint ∈ st.jointHeap := List.get?_mem hget
  rcases List.mem_or_eq_of_mem_set hj1 with hm | he
  · exact h j1 hm
  · subst he
    obtain ⟨hp1, hc1⟩ := h pjoint hmem
    refine ⟨hp ▸ hp1, ?_⟩
    rcases hc with hc | hc
    · rw [hc]
      exact hc1
    · exact Or.inr hc

/-- Creating a joint under a link of the model is a step that leaves the link
map alone. -/
theorem Grows.createJoint (linkname : String) (pdomjoint : DomJoint)
    (pdomaxis : AxisConstraint) (st : ModelInterface) (h : linkname ∈ mapKeys st.links_) :
    Grows st (_ExtractLink_createJoint linkname pdomjoint pdomaxis st).2 ∧
    (_ExtractLink_createJoint linkname pdomjoint pdomaxis st).2.links_ = st.links_ := by
  refine ⟨⟨fun _ hk => hk, ?_⟩, rfl⟩
  intro hinv j hj
  simp only [_ExtractLink_createJoint, List.mem_append, List.mem_singleton] at hj
  rcases hj with hj | hj
  · exact hinv j hj
  · subst hj
    exact ⟨h, Or.inl rfl⟩

/-- The first loop over the axes is a step that leaves the link map alone. -/
theorem Grows.createJoints (linkname : String) (pdomjoint : DomJoint) :
    ∀ (axes : List AxisConstraint) (st : ModelInterface), linkname ∈ mapKeys st.links_ →
      Grows st (_ExtractLink_createJoints linkname pdomjoint axes st).2 ∧
      (_ExtractLink_createJoints linkname pdomjoint axes st).2.links_ = st.links_
  | [], st, _ => ⟨Grows.refl st, rfl⟩
  | a :: rest, st, h => by
    obtain ⟨h1, h2⟩ := Grows.createJoint linkname pdomjoint a st h
    have h3 : linkname ∈ mapKeys (_ExtractLink_createJoint linkname pdomjoint a st).2.links_ := by
      rw [h2]
      exact h
    obtain ⟨h4, h5⟩ := Grows.createJoints linkname pdomjoint rest _ h3
    exact ⟨h1.trans h4, h5.trans h2⟩

/-- One iteration of the second loop that creates a dummy link is a step. -/
theorem Grows.assignChild_dummy (st : ModelInterface) (name : String) (l : Link) (i : Nat)
    (pjoint j : Joint) (hget : st.jointHeap.get? i = some pjoint)
    (hp : j.parent_link_name = pjoint.parent_link_name) (hc : j.child_link_name = name) :
    Grows st (ModelInterface.setJoint
      { st with links_ := mapInsert name l st.links_ } i j) := by
  have h1 : Grows st { st with links_ := mapInsert name l st.links_ } :=
    Grows.of_links rfl (fun k hk => (mem_mapKeys_mapInsert k name l st.links_).2 (Or.inr hk))
  refine h1.trans (Grows.setJoint_at _ i pjoint j hget hp (Or.inr ?_))
  rw [hc]
  exact (mem_mapKeys_mapInsert name name l st.links_).2 (Or.inl rfl)

/-- The second loop over the axes is a step, when the child link it starts
with is a link of the model. -/
theorem Grows.assignChildren (linkname : String) (listAxisBindings : List JointAxisBinding) :
    ∀ (axes : List AxisConstraint) (vjoints : List Nat) (pchildlink : Option String)
      (numjoints : Nat) (st st1 : ModelInterface),
      (∀ c, pchildlink = some c → c ∈ mapKeys st.links_) →
      _ExtractLink_assignChildren linkname listAxisBindings axes vjoints pchildlink numjoints st
        = .ok st1 →
      Grows st st1
  | [], _, _, _, st, st1, _, h => by
    simp only [_ExtractLink_assignChildren, Except.ok.injEq] at h
    subst h
    exact Grows.refl st
  | _ :: _, [], _, _, _, _, _, h => by
    simp [_ExtractLink_assignChildren] at h
  | pdomaxis :: axes, i :: vjoints, some c, numjoints, st, st1, hc, h => by
    simp only [_ExtractLink_assignChildren] at h
    split at h
    · exact Except.noConfusion h
    · rename_i pjoint hget
      have hrec := Grows.assignChildren linkname listAxisBindings axes vjoints none
        (numjoints + 1) _ st1 (fun c hc2 => Option.noConfusion hc2) h
      refine Grows.trans ?_ hrec
      apply Grows.setJoint_at st i pjoint _ hget
      · rw [_ExtractLink_limits_parent]
      · right
        rw [_ExtractLink_limits_child]
        exact hc c rfl
  | pdomaxis :: axes, i :: vjoints, none, numjoints, st, st1, _, h => by
    simp only [_ExtractLink_assignChildren] at h
    split at h
    · exact Except.noConfusion h
    · rename_i pjoint hget
      have hrec := Grows.assignChildren linkname listAxisBindings axes vjoints none
        (numjoints + 1) _ st1 (fun c hc2 => Option.noConfusion hc2) h
      refine Grows.trans ?_ hrec
      apply Grows.assignChild_dummy st _ _ i pjoint _ hget
      · rw [_ExtractLink_limits_parent]
      · rw [_ExtractLink_limits_child]

mutual
/-- Extracting a link is a step, and the link it returns is a link of the
model. -/
theorem _ExtractLink_grows : ∀ (link : DomLink) (bindings : KinematicsSceneBindings)
    (pdomnode : Option DomNode) (st : ModelInterface) (r : Option String) (st1 : ModelInterface),
    _ExtractLink bindings pdomnode st link = .ok (r, st1) →
    Grows st st1 ∧ (∀ n, r = some n → n ∈ mapKeys st1.links_)
  | DomLink.mk name id attachment_full, bindings, pdomnode, st, r, st1, h => by
    simp only [_ExtractLink] at h
    split at h
    · exact Except.noConfusion h
    · split at h
      · exact Except.noConfusion h
      · split at h
        · exact Except.noConfusion h
        · have hg1 := Grows.getOrCreate (_ExtractLink_linkname name id pdomnode) st
          split at h
          · exact Except.noConfusion h
          · rename_i st3 hatt
            have hg3 := _ExtractLink_attachments_grows attachment_full bindings _ _ _ _
              (mem_links_setLink _ _ _) hatt
            simp only [Except.ok.injEq, Prod.mk.injEq] at h
            obtain ⟨hr, hst⟩ := h
            subst hr hst
            exact ⟨hg1.trans ((Grows.setLink _ _ _).trans hg3),
              fun n hn => Option.noConfusion hn⟩
          · rename_i st3 hatt
            have hg3 := _ExtractLink_attachments_grows attachment_full bindings _ _ _ _
              (mem_links_setLink _ _ _) hatt
            split at h
            · exact Except.noConfusion h
            · split at h
              · exact Except.noConfusion h
              · simp only [Except.ok.injEq, Prod.mk.injEq] at h
                obtain ⟨hr, hst⟩ := h
                subst hr hst
                refine ⟨hg1.trans ((Grows.setLink _ _ _).trans
                  (hg3.trans (Grows.setLink _ _ _))), ?_⟩
                intro n hn
                simp only [Option.some.injEq] at hn
                subst hn
                exact mem_links_setLink _ _ _
/-- The loop over the attachments of a link of the model is a step. -/
theorem _ExtractLink_attachments_grows : ∀ (atts : List DomAttachment)
    (bindings : KinematicsSceneBindings) (linkname : String) (st : ModelInterface) (b : Bool)
    (st1 : ModelInterface), linkname ∈ mapKeys st.links_ →
    _ExtractLink_attachments bindings linkname st atts = .ok (b, st1) → Grows st st1
  | [], bindings, linkname, st, b, st1, _, h => by
    simp only [_ExtractLink_attachments, Except.ok.injEq, Prod.mk.injEq] at h
    obtain ⟨_, hst⟩ := h
    subst hst
    exact Grows.refl st
  | pattfull :: rest, bindings, linkname, st, b, st1, hl, h => by
    simp only [_ExtractLink_attachments] at h
    split at h
    · exact Except.noConfusion h
    · rename_i st2 hatt
      have hg := _ExtractLink_attachment_grows pattfull bindings linkname st true st2 hl hatt
      simp only [Except.ok.injEq, Prod.mk.injEq] at h
      obtain ⟨_, hst⟩ := h
      subst hst
      exact hg
    · rename_i st2 hatt
      have hg := _ExtractLink_attachment_grows pattfull bindings linkname st false st2 hl hatt
      exact hg.trans (_ExtractLink_attachments_grows rest bindings linkname st2 b st1
        (hg.1 linkname hl) h)
/-- One attachment of a link of the model is a step. -/
theorem _ExtractLink_attachment_grows : ∀ (pattfull : DomAttachment)
    (bindings : KinematicsSceneBindings) (linkname : String) (st : ModelInterface) (b : Bool)
    (st1 : ModelInterface), linkname ∈ mapKeys st.links_ →
    _ExtractLink_attachment bindings linkname st pattfull = .ok (b, st1) → Grows st st1
  | DomAttachment.mk none _, bindings, linkname, st, b, st1, _, h => by
    simp only [_ExtractLink_attachment, Except.ok.injEq, Prod.mk.injEq] at h
    obtain ⟨_, hst⟩ := h
    subst hst
    exact Grows.refl st
  | DomAttachment.mk (some _) none, bindings, linkname, st, b, st1, _, h => by
    simp only [_ExtractLink_attachment, Except.ok.injEq, Prod.mk.injEq] at h
    obtain ⟨_, hst⟩ := h
    subst hst
    exact Grows.refl st
  | DomAttachment.mk (some pdomjoint) (some link), bindings, linkname, st, b, st1, hl, h => by
    simp only [_ExtractLink_attachment] at h
    obtain ⟨hc1, hc2⟩ := Grows.createJoints linkname pdomjoint pdomjoint.axes st hl
    split at h
    · exact Except.noConfusion h
    · rename_i st2 hlink
      obtain ⟨hg, _⟩ := _ExtractLink_grows link bindings _ _ _ _ hlink
      simp only [Except.ok.injEq, Prod.mk.injEq] at h
      obtain ⟨_, hst⟩ := h
      subst hst
      exact hc1.trans hg
    · rename_i pchildlink st2 hlink
      obtain ⟨hg, hn⟩ := _ExtractLink_grows link bindings _ _ _ _ hlink
      split at h
      · exact Except.noConfusion h
      · rename_i st3 hassign
        have ha := Grows.assignChildren linkname bindings.listAxisBindings _ _ _ _ _ _
          (fun c hc => hn c hc) hassign
        simp only [Except.ok.injEq, Prod.mk.injEq] at h
        obtain ⟨_, hst⟩ := h
        subst hst
        exact hc1.trans (hg.trans ha)
end

/-- The loop over the root links is a step. -/
theorem _ExtractKinematicsModel_links_grows (pnode : Option DomNode)
    (bindings : KinematicsSceneBindings) :
    ∀ (links : List DomLink) (ilink : Nat) (st st1 : ModelInterface),
      _ExtractKinematicsModel_links pnode bindings links ilink st = .ok st1 → Grows st st1
  | [], _, st, st1, h => by
    simp only [_ExtractKinematicsModel_links, Except.ok.injEq] at h
    subst h
    exact Grows.refl st
  | pdomlink :: rest, ilink, st, st1, h => by
    simp only [_ExtractKinematicsModel_links] at h
    split at h
    · exact Except.noConfusion h
    · split at h
      · exact Except.noConfusion h
      · rename_i r hlink
        obtain ⟨hg, _⟩ := _ExtractLink_grows pdomlink bindings _ st r.1 r.2 hlink
        exact hg.trans (_ExtractKinematicsModel_links_grows pnode bindings rest _ _ _ h)

/-- One formula is a step. -/
theorem _ExtractKinematicsModel_formula_grows (asserts : Bool) (pf : DomFormula)
    (st st1 : ModelInterface)
    (h : _ExtractKinematicsModel_formula asserts pf st = .ok st1) : Grows st st1 := by
  unfold _ExtractKinematicsModel_formula at h
  split at h
  · simp only [Except.ok.injEq] at h
    subst h
    exact Grows.refl st
  · split at h
    · simp only [Except.ok.injEq] at h
      subst h
      exact Grows.refl st
    · split at h
      · simp only [Except.ok.injEq] at h
        subst h
        exact Grows.refl st
      · split at h
        · simp only [Except.ok.injEq] at h
          subst h
          exact Grows.refl st
        · split at h
          · exact Except.noConfusion h
          · split at h
            · exact Except.noConfusion h
            · split at h
              · simp only [Except.ok.injEq] at h
                subst h
                exact Grows.refl st
              · split at h
                · rename_i j base hj _
                  simp only [Except.ok.injEq] at h
                  subst h
                  exact Grows.setJoint_at st _ j _ hj rfl (Or.inl rfl)
                · exact Except.noConfusion h

/-- The loop over the formulas is a step. -/
theorem _ExtractKinematicsModel_formulas_grows (asserts : Bool) :
    ∀ (l : List DomFormula) (st st1 : ModelInterface),
      _ExtractKinematicsModel_formulas asserts l st = .ok st1 → Grows st st1
  | [], st, st1, h => by
    simp only [_ExtractKinematicsModel_formulas, Except.ok.injEq] at h
    subst h
    exact Grows.refl st
  | pf :: rest, st, st1, h => by
    simp only [_ExtractKinematicsModel_formulas] at h
    split at h
    · exact Except.noConfusion h
    · rename_i st2 hf
      exact (_ExtractKinematicsModel_formula_grows asserts pf st st2 hf).trans
        (_ExtractKinematicsModel_formulas_grows asserts rest st2 st1 h)

/-- Setting the model name is a step. -/
theorem Grows.setNameIfEmpty (name : Option String) (st : ModelInterface) :
    Grows st (setNameIfEmpty name st) := by
  unfold ColladaModelReader.setNameIfEmpty
  cases name with
  | none => exact Grows.refl st
  | some n =>
    simp only []
    split
    · exact Grows.of_links rfl (fun _ hk => hk)
    · exact Grows.refl st

/-- Extracting a kinematics model is a step. -/
theorem _ExtractKinematicsModel_kmodel_grows (asserts : Bool) (kmodel : DomKinematicsModel)
    (pnode : Option DomNode) (bindings : KinematicsSceneBindings) (st : ModelInterface)
    (b : Bool) (st1 : ModelInterface)
    (h : _ExtractKinematicsModel_kmodel asserts kmodel pnode bindings st = .ok (b, st1)) :
    Grows st st1 := by
  unfold _ExtractKinematicsModel_kmodel at h
  split at h
  · exact Except.noConfusion h
  · rename_i st2 hl
    split at h
    · exact Except.noConfusion h
    · rename_i st3 hf
      simp only [Except.ok.injEq, Prod.mk.injEq] at h
      obtain ⟨_, hst⟩ := h
      subst hst
      exact (_ExtractKinematicsModel_links_grows pnode bindings _ _ _ _ hl).trans
        (_ExtractKinematicsModel_formulas_grows asserts _ _ _ hf)

/-- Extracting a kinematics-model instance is a step. -/
theorem _ExtractKinematicsModel_grows (asserts : Bool) (ikm : InstanceKinematicsModel)
    (bindings : KinematicsSceneBindings) (st : ModelInterface) (b : Bool) (st1 : ModelInterface)
    (h : _ExtractKinematicsModel asserts ikm bindings st = .ok (b, st1)) : Grows st st1 := by
  unfold _ExtractKinematicsModel at h
  split at h
  · simp only [Except.ok.injEq, Prod.mk.injEq] at h
    obtain ⟨_, hst⟩ := h
    subst hst
    exact Grows.refl st
  · split at h
    · simp only [Except.ok.injEq, Prod.mk.injEq] at h
      obtain ⟨_, hst⟩ := h
      subst hst
      exact Grows.refl st
    · have hn := (Grows.setNameIfEmpty ikm.name st).trans
        (Grows.setNameIfEmpty ikm.id (setNameIfEmpty ikm.name st))
      dsimp only at h
      split at h
      · exact Except.noConfusion h
      · rename_i st2 hk
        simp only [Except.ok.injEq, Prod.mk.injEq] at h
        obtain ⟨_, hst⟩ := h
        subst hst
        exact hn.trans (_ExtractKinematicsModel_kmodel_grows asserts _ _ _ _ _ _ hk)
      · rename_i st2 hk
        simp only [Except.ok.injEq, Prod.mk.injEq] at h
        obtain ⟨_, hst⟩ := h
        subst hst
        exact hn.trans (_ExtractKinematicsModel_kmodel_grows asserts _ _ _ _ _ _ hk)

/-- The kinematics-model instances of an articulated system are a step. -/
theorem _ExtractArticulatedSystem_models_grows (asserts : Bool)
    (bindings : KinematicsSceneBindings) :
    ∀ (l : List InstanceKinematicsModel) (st st1 : ModelInterface),
      _ExtractArticulatedSystem_models asserts bindings l st = .ok st1 → Grows st st1
  | [], st, st1, h => by
    simp only [_ExtractArticulatedSystem_models, Except.ok.injEq] at h
    subst h
    exact Grows.refl st
  | ikm :: rest, st, st1, h => by
    simp only [_ExtractArticulatedSystem_models] at h
    split at h
    · exact Except.noConfusion h
    · rename_i r hk
      exact (_ExtractKinematicsModel_grows asserts ikm bindings st r.1 r.2 hk).trans
        (_ExtractArticulatedSystem_models_grows asserts bindings rest _ _ h)

/-- The actuators are a step. -/
theorem _ExtractRobotAttachedActuators_grows :
    ∀ (l : List AttachActuator) (st : ModelInterface),
      Grows st (_ExtractRobotAttachedActuators l st)
  | [], st => Grows.refl st
  | act :: rest, st => by
    simp only [_ExtractRobotAttachedActuators]
    split
    · split
      · rename_i j hj
        refine Grows.trans ?_ (_ExtractRobotAttachedActuators_grows rest _)
        exact Grows.setJoint_at st _ j _ hj rfl (Or.inl rfl)
      · exact _ExtractRobotAttachedActuators_grows rest st
    · exact _ExtractRobotAttachedActuators_grows rest st

mutual
/-- Extracting an articulated-system instance is a step. -/
theorem _ExtractArticulatedSystem_grows : ∀ (ias : InstanceArticulatedSystem) (asserts : Bool)
    (bindings : KinematicsSceneBindings) (st : ModelInterface) (b : Bool)
    (b1 : KinematicsSceneBindings) (st1 : ModelInterface),
    _ExtractArticulatedSystem asserts bindings st ias = .ok (b, b1, st1) → Grows st st1
  | InstanceArticulatedSystem.mk _ _ none, asserts, bindings, st, b, b1, st1, h => by
    simp only [_ExtractArticulatedSystem, Except.ok.injEq, Prod.mk.injEq] at h
    obtain ⟨_, _, hst⟩ := h
    subst hst
    exact Grows.refl st
  | InstanceArticulatedSystem.mk sid name (some articulated_system), asserts, bindings, st, b, b1,
      st1, h => by
    simp only [_ExtractArticulatedSystem] at h
    exact ((Grows.setNameIfEmpty name st).trans (Grows.setNameIfEmpty sid _)).trans
      (_ExtractArticulatedSystem_system_grows articulated_system asserts bindings _ b b1 st1 h)
/-- Extracting an articulated system is a step. -/
theorem _ExtractArticulatedSystem_system_grows : ∀ (sys : DomArticulatedSystem)
    (asserts : Bool) (bindings : KinematicsSceneBindings) (st : ModelInterface) (b : Bool)
    (b1 : KinematicsSceneBindings) (st1 : ModelInterface),
    _ExtractArticulatedSystem_system asserts bindings st sys = .ok (b, b1, st1) → Grows st st1
  | DomArticulatedSystem.mk name id (some (DomMotion.mk none technique_common)) kinematics
      actuators, asserts, bindings, st, b, b1, st1, h => by
    have hn := (Grows.setNameIfEmpty name st).trans (Grows.setNameIfEmpty id _)
    simp only [_ExtractArticulatedSystem_system] at h
    split at h
    · exact Except.noConfusion h
    · simp only [Except.ok.injEq, Prod.mk.injEq] at h
      obtain ⟨_, _, hst⟩ := h
      subst hst
      exact hn
  | DomArticulatedSystem.mk name id (some (DomMotion.mk (some i) technique_common)) kinematics
      actuators, asserts, bindings, st, b, b1, st1, h => by
    have hn := (Grows.setNameIfEmpty name st).trans (Grows.setNameIfEmpty id _)
    simp only [_ExtractArticulatedSystem_system] at h
    split at h
    · exact Except.noConfusion h
    · split at h
      · exact Except.noConfusion h
      · rename_i b2 st2 hrec
        have hg := _ExtractArticulatedSystem_grows i asserts _ _ _ _ _ hrec
        simp only [Except.ok.injEq, Prod.mk.injEq] at h
        obtain ⟨_, _, hst⟩ := h
        subst hst
        exact hn.trans hg
      · rename_i b2 st2 hrec
        have hg := _ExtractArticulatedSystem_grows i asserts _ _ _ _ _ hrec
        simp only [Except.ok.injEq, Prod.mk.injEq] at h
        obtain ⟨_, _, hst⟩ := h
        subst hst
        exact hn.trans (hg.trans (_ExtractRobotAttachedActuators_grows actuators st2))
  | DomArticulatedSystem.mk name id none none actuators, asserts, bindings, st, b, b1, st1,
      h => by
    have hn := (Grows.setNameIfEmpty name st).trans (Grows.setNameIfEmpty id _)
    simp only [_ExtractArticulatedSystem_system, Except.ok.injEq, Prod.mk.injEq] at h
    obtain ⟨_, _, hst⟩ := h
    subst hst
    exact hn
  | DomArticulatedSystem.mk name id none (some k) actuators, asserts, bindings, st, b, b1, st1,
      h => by
    have hn := (Grows.setNameIfEmpty name st).trans (Grows.setNameIfEmpty id _)
    simp only [_ExtractArticulatedSystem_system] at h
    split at h
    · exact Except.noConfusion h
    · rename_i st2 hm
      simp only [Except.ok.injEq, Prod.mk.injEq] at h
      obtain ⟨_, _, hst⟩ := h
      subst hst
      exact hn.trans ((_ExtractArticulatedSystem_models_grows asserts _ _ _ _ hm).trans
        (_ExtractRobotAttachedActuators_grows actuators st2))
end

/-- Post-processing is a step. -/
theorem _PostProcess_grows (st : ModelInterface) : Grows st (_PostProcess st) := by
  have hheap : (_PostProcess st).jointHeap = st.jointHeap := by
    unfold _PostProcess initRoot
    simp only []
    split
    · rfl
    · split <;> rfl
  exact Grows.of_links hheap (fun k hk => by rw [_PostProcess_links]; exact hk)

/-- The loop over the articulated systems of a scene is a step. -/
theorem _Extract_systems_grows (asserts : Bool) :
    ∀ (l : List InstanceArticulatedSystem) (bindings : KinematicsSceneBindings)
      (st : ModelInterface) (b : Bool) (b1 : KinematicsSceneBindings) (st1 : ModelInterface),
      _Extract_systems asserts l bindings st = .ok (b, b1, st1) → Grows st st1
  | [], bindings, st, b, b1, st1, h => by
    simp only [_Extract_systems, Except.ok.injEq, Prod.mk.injEq] at h
    obtain ⟨_, _, hst⟩ := h
    subst hst
    exact Grows.refl st
  | ias :: rest, bindings, st, b, b1, st1, h => by
    simp only [_Extract_systems] at h
    split at h
    · exact Except.noConfusion h
    · rename_i b2 st2 hs
      simp only [Except.ok.injEq, Prod.mk.injEq] at h
      obtain ⟨_, _, hst⟩ := h
      subst hst
      exact _ExtractArticulatedSystem_grows ias asserts bindings st true b2 st2 hs
    · rename_i b2 st2 hs
      exact (_ExtractArticulatedSystem_grows ias asserts bindings st false b2 st2 hs).trans
        (_Extract_systems_grows asserts rest b2 st2 b b1 st1 h)

/-- The loop over the possible bodies is a step. -/
theorem _Extract_bodies_grows (asserts : Bool) :
    ∀ (l : List (InstanceKinematicsModel × KinematicsSceneBindings)) (st : ModelInterface)
      (b : Bool) (st1 : ModelInterface),
      _Extract_bodies asserts l st = .ok (b, st1) → Grows st st1
  | [], st, b, st1, h => by
    simp only [_Extract_bodies, Except.ok.injEq, Prod.mk.injEq] at h
    obtain ⟨_, hst⟩ := h
    subst hst
    exact Grows.refl st
  | it :: rest, st, b, st1, h => by
    simp only [_Extract_bodies] at h
    split at h
    · exact Except.noConfusion h
    · rename_i st2 hk
      simp only [Except.ok.injEq, Prod.mk.injEq] at h
      obtain ⟨_, hst⟩ := h
      subst hst
      exact (_ExtractKinematicsModel_grows asserts it.1 it.2 st true st2 hk).trans
        (_PostProcess_grows st2)
    · rename_i st2 hk
      exact (_ExtractKinematicsModel_grows asserts it.1 it.2 st false st2 hk).trans
        (_Extract_bodies_grows asserts rest st2 b st1 h)

/-- The loop over the kinematics scenes is a step. -/
theorem _Extract_scenes_grows (asserts : Bool) :
    ∀ (l : List InstanceKinematicsScene)
      (bodies : List (InstanceKinematicsModel × KinematicsSceneBindings)) (st : ModelInterface)
      (b : Bool) (st1 : ModelInterface),
      _Extract_scenes asserts l bodies st = .ok (b, st1) → Grows st st1
  | [], bodies, st, b, st1, h => by
    simp only [_Extract_scenes] at h
    exact _Extract_bodies_grows asserts bodies st b st1 h
  | kiscene :: rest, bodies, st, b, st1, h => by
    simp only [_Extract_scenes] at h
    split at h
    · exact _Extract_scenes_grows asserts rest bodies st b st1 h
    · split at h
      · exact Except.noConfusion h
      · rename_i b2 st2 hs
        simp only [Except.ok.injEq, Prod.mk.injEq] at h
        obtain ⟨_, hst⟩ := h
        subst hst
        exact (_Extract_systems_grows asserts _ _ st true b2 st2 hs).trans (_PostProcess_grows st2)
      · rename_i b2 st2 hs
        exact (_Extract_systems_grows asserts _ _ st false b2 st2 hs).trans
          (_Extract_scenes_grows asserts rest _ st2 b st1 h)

/-- The joint records of every model that `_Extract` returns name links of
the model. -/
theorem _Extract_jointsNameLinks (asserts : Bool) (dom : DomCOLLADA) (b : Bool)
    (m : ModelInterface) (h : _Extract asserts dom = .ok (b, m)) : JointsNameLinks m := by
  have h0 : JointsNameLinks ({} : ModelInterface) := fun j hj => by simp at hj
  unfold _Extract at h
  split at h
  · simp only [Except.ok.injEq, Prod.mk.injEq] at h
    obtain ⟨_, hst⟩ := h
    subst hst
    exact h0
  · exact (_Extract_scenes_grows asserts _ _ _ b m h).2 h0

/-! ## The tree that post-processing finds -/

/-- The entries of the joint map, spelled out. -/
theorem mem_jointEntries (m : ModelInterface) (n : String) (j : Joint) :
    (n, j) ∈ m.jointEntries ↔ ∃ i, (n, i) ∈ m.joints_ ∧ m.jointHeap.get? i = some j := by
  unfold ModelInterface.jointEntries
  simp only [List.mem_filterMap, Option.map_eq_some', Prod.mk.injEq]
  constructor
  · rintro ⟨e, he, j1, hj1, hn, hj⟩
    subst hn hj
    exact ⟨e.2, he, hj1⟩
  · rintro ⟨i, hi, hj⟩
    exact ⟨(n, i), hi, j, hj, rfl, rfl⟩

/-- When `initTree` does not throw, every joint it walked has its child among
the links of the model and in the tree, and the tree holds nothing else. -/
theorem initTree_ok (m : ModelInterface) :
    ∀ (entries : List (String × Nat)) (tree0 tree : List (String × String)),
      initTree m entries tree0 = (false, tree) →
      (∀ e ∈ entries, ∃ j, m.jointHeap.get? e.2 = some j ∧
        j.child_link_name ∈ mapKeys m.links_ ∧ j.child_link_name ∈ mapKeys tree) ∧
      (∀ k ∈ mapKeys tree0, k ∈ mapKeys tree) ∧
      (∀ k ∈ mapKeys tree, k ∈ mapKeys tree0 ∨
        ∃ e ∈ entries, ∃ j, m.jointHeap.get? e.2 = some j ∧ j.child_link_name = k)
  | [], tree0, tree, h => by
    simp only [initTree, Prod.mk.injEq, true_and] at h
    subst h
    exact ⟨fun e he => by simp at he, fun _ hk => hk, fun _ hk => Or.inl hk⟩
  | e :: rest, tree0, tree, h => by
    simp only [initTree] at h
    split at h
    · simp at h
    · rename_i joint hget
      split_ifs at h with h1 h2 h3
      · simp at h
      · simp at h
      · simp at h
      · obtain ⟨ih1, ih2, ih3⟩ := initTree_ok m rest _ tree h
        have hchild : joint.child_link_name ∈ mapKeys m.links_ := by
          by_contra hc
          exact h2 (by rw [(mapFind_eq_none_iff _ _).2 hc]; rfl)
        have hin : joint.child_link_name ∈ mapKeys tree :=
          ih2 _ ((mem_mapKeys_mapAssign _ _ _ tree0).2 (Or.inl rfl))
        refine ⟨?_, ?_, ?_⟩
        · intro e1 he1
          rcases List.mem_cons.1 he1 with he1 | he1
          · subst he1
            exact ⟨joint, hget, hchild, hin⟩
          · exact ih1 e1 he1
        · intro k hk
          exact ih2 k ((mem_mapKeys_mapAssign _ _ _ tree0).2 (Or.inr hk))
        · intro k hk
          rcases ih3 k hk with h4 | ⟨e1, he1, j, hj, hjk⟩
          · rcases (mem_mapKeys_mapAssign _ _ _ tree0).1 h4 with h5 | h5
            · exact Or.inr ⟨e, List.mem_cons_self _ _, joint, hget, h5.symm⟩
            · exact Or.inl h5
          · exact Or.inr ⟨e1, List.mem_cons_of_mem _ he1, j, hj, hjk⟩

/-- When the loop of `initRoot` does not throw, the root it ends with is the
one it started with or a link without parent, and every other link it walked
has a parent. -/
theorem initRoot_loop_ok (tree : List (String × String)) :
    ∀ (links : List (String × Link)) (root0 r : Option String),
      initRoot_loop tree links root0 = (false, r) →
      (r = root0 ∨ ∃ l ∈ links, r = some l.1 ∧ mapFind l.1 tree = none) ∧
      (∀ l ∈ links, some l.1 ≠ r → mapFind l.1 tree ≠ none) ∧
      (∀ x, root0 = some x → r = some x)
  | [], root0, r, h => by
    simp only [initRoot_loop, Prod.mk.injEq, true_and] at h
    subst h
    exact ⟨Or.inl rfl, fun l hl => by simp at hl, fun x hx => hx⟩
  | l :: rest, root0, r, h => by
    simp only [initRoot_loop] at h
    split at h
    · rename_i p hp
      obtain ⟨ih1, ih2, ih3⟩ := initRoot_loop_ok tree rest root0 r h
      refine ⟨?_, ?_, ih3⟩
      · rcases ih1 with h1 | ⟨l1, hl1, h1⟩
        · exact Or.inl h1
        · exact Or.inr ⟨l1, List.mem_cons_of_mem _ hl1, h1⟩
      · intro l1 hl1 hne
        rcases List.mem_cons.1 hl1 with hl1 | hl1
        · subst hl1
          rw [hp]
          exact fun hc => Option.noConfusion hc
        · exact ih2 l1 hl1 hne
    · rename_i hp
      split at h
      · obtain ⟨ih1, ih2, ih3⟩ := initRoot_loop_ok tree rest (some l.1) r h
        have hr : r = some l.1 := ih3 l.1 rfl
        refine ⟨Or.inr ⟨l, List.mem_cons_self _ _, hr, hp⟩, ?_, fun x hx => Option.noConfusion hx⟩
        intro l1 hl1 hne
        rcases List.mem_cons.1 hl1 with hl1 | hl1
        · subst hl1
          exact absurd hr.symm hne
        · exact ih2 l1 hl1 hne
      · simp at h

/-- Post-processing leaves the joint objects alone. -/
theorem _PostProcess_heap (st : ModelInterface) :
    (_PostProcess st).jointHeap = st.jointHeap := by
  unfold _PostProcess initRoot
  simp only []
  split
  · rfl
  · split <;> rfl

/-- The root that post-processing leaves in the model. -/
theorem _PostProcess_root (st : ModelInterface) :
    (_PostProcess st).root_link_ =
      (initRoot_loop (initTree st st.joints_ []).2 st.links_ none).2 := by
  unfold _PostProcess initRoot
  simp only []
  split
  · rfl
  · split
    · rename_i h
      rw [h]
    · rename_i root h
      rw [h]

/-- The function `initTree` reads the joint objects and the link map only. -/
theorem initTree_congr (m m1 : ModelInterface) (hh : m1.jointHeap = m.jointHeap)
    (hl : m1.links_ = m.links_) :
    ∀ (entries : List (String × Nat)) (tree : List (String × String)),
      initTree m1 entries tree = initTree m entries tree
  | [], _ => rfl
  | e :: rest, tree => by
    simp only [initTree, hh, hl]
    split
    · rfl
    · split_ifs
      · rfl
      · rfl
      · rfl
      · exact initTree_congr m m1 hh hl rest _

/-- A successful loop over the possible bodies returns a post-processed
model. -/
theorem _Extract_bodies_postProcessed (asserts : Bool) :
    ∀ (l : List (InstanceKinematicsModel × KinematicsSceneBindings)) (st m : ModelInterface),
      _Extract_bodies asserts l st = .ok (true, m) → ∃ st1, m = _PostProcess st1
  | [], st, m, h => by
    simp [_Extract_bodies] at h
  | it :: rest, st, m, h => by
    simp only [_Extract_bodies] at h
    split at h
    · exact Except.noConfusion h
    · rename_i st2 _
      simp only [Except.ok.injEq, Prod.mk.injEq, true_and] at h
      exact ⟨st2, h.symm⟩
    · exact _Extract_bodies_postProcessed asserts rest _ m h

/-- A successful loop over the kinematics scenes returns a post-processed
model. -/
theorem _Extract_scenes_postProcessed (asserts : Bool) :
    ∀ (l : List InstanceKinematicsScene)
      (bodies : List (InstanceKinematicsModel × KinematicsSceneBindings))
      (st m : ModelInterface),
      _Extract_scenes asserts l bodies st = .ok (true, m) → ∃ st1, m = _PostProcess st1
  | [], bodies, st, m, h => by
    simp only [_Extract_scenes] at h
    exact _Extract_bodies_postProcessed asserts bodies st m h
  | kiscene :: rest, bodies, st, m, h => by
    simp only [_Extract_scenes] at h
    split at h
    · exact _Extract_scenes_postProcessed asserts rest bodies st m h
    · split at h
      · exact Except.noConfusion h
      · rename_i b2 st2 _
        simp only [Except.ok.injEq, Prod.mk.injEq, true_and] at h
        exact ⟨st2, h.symm⟩
      · exact _Extract_scenes_postProcessed asserts rest _ _ m h

/-- A post-processed model on which `initTree` and `initRoot` do not throw
has a root that is a link and never a child, and every other link is the
child of a joint of the joint map. -/
theorem _PostProcess_tree (st1 : ModelInterface)
    (hfail : _PostProcess_failed (_PostProcess st1) = false) :
    ∃ root, (_PostProcess st1).root_link_ = some root ∧
      root ∈ mapKeys (_PostProcess st1).links_ ∧
      (∀ e ∈ (_PostProcess st1).jointEntries,
        e.2.child_link_name ∈ mapKeys (_PostProcess st1).links_ ∧
        e.2.child_link_name ≠ root) ∧
      (∀ k ∈ mapKeys (_PostProcess st1).links_, k ≠ root →
        ∃ e ∈ (_PostProcess st1).jointEntries, e.2.child_link_name = k) := by
  have hh := _PostProcess_heap st1
  have hl := _PostProcess_links st1
  have hj := _PostProcess_joints st1
  have hroot := _PostProcess_root st1
  have hentries : (_PostProcess st1).jointEntries = st1.jointEntries := by
    unfold ModelInterface.jointEntries
    rw [hh, hj]
  have htree : initTree (_PostProcess st1) (_PostProcess st1).joints_ [] =
      initTree st1 st1.joints_ [] := by
    rw [hj]
    exact initTree_congr st1 _ hh hl _ _
  unfold _PostProcess_failed at hfail
  rw [htree] at hfail
  simp only [Bool.or_eq_false_iff] at hfail
  obtain ⟨hf1, hf2⟩ := hfail
  rw [hentries, hl, hroot]
  generalize htr : initTree st1 st1.joints_ [] = tr at hf1 hf2
  obtain ⟨flag, tree⟩ := tr
  simp only at hf1 hf2
  subst hf1
  obtain ⟨ht1, _, ht3⟩ := initTree_ok st1 st1.joints_ [] tree htr
  unfold initRoot at hf2
  rw [hl] at hf2
  generalize hlp : initRoot_loop tree st1.links_ none = lp at hf2
  obtain ⟨flag2, r⟩ := lp
  cases flag2 with
  | true => simp at hf2
  | false =>
    cases r with
    | none => simp at hf2
    | some root =>
      obtain ⟨hr1, hr2, _⟩ := initRoot_loop_ok tree st1.links_ none (some root) hlp
      have hrootmem : root ∈ mapKeys st1.links_ ∧ mapFind root tree = none := by
        rcases hr1 with hr1 | ⟨l, hl1, hl2, hl3⟩
        · exact Option.noConfusion hr1
        · simp only [Option.some.injEq] at hl2
          subst hl2
          exact ⟨List.mem_map_of_mem Prod.fst hl1, hl3⟩
      refine ⟨root, rfl, hrootmem.1, ?_, ?_⟩
      · intro e he
        obtain ⟨n, j⟩ := e
        obtain ⟨i, hi, hget⟩ := (mem_jointEntries st1 n j).1 he
        obtain ⟨j1, hj1, hc1, hc2⟩ := ht1 (n, i) hi
        simp only [hget, Option.some.injEq] at hj1
        subst hj1
        refine ⟨hc1, ?_⟩
        intro heq
        simp only at heq
        rw [heq] at hc2
        exact (mapFind_eq_none_iff root tree).1 hrootmem.2 hc2
      · intro k hk hne
        obtain ⟨l, hl1, hl2⟩ := List.mem_map.1 hk
        have hp : mapFind l.1 tree ≠ none :=
          hr2 l hl1 (fun hc => hne (by rw [← hl2]; exact Option.some.inj hc))
        have hkt : k ∈ mapKeys tree := by
          by_contra hc
          exact hp (by rw [hl2]; exact (mapFind_eq_none_iff k tree).2 hc)
        rcases ht3 k hkt with h0 | ⟨e, he, j, hget, hjk⟩
        · simp [mapKeys] at h0
        · exact ⟨(e.1, j), (mem_jointEntries st1 e.1 j).2 ⟨e.2, he, hget⟩, hjk⟩

/-! ## The two-link example -/

/-- C7, counterexample: for `brokenChildDocument` the conversion reports
success, but the joint J of the joint map has the empty child link name,
which is not a key of the link map, and the link B, which is not the root A,
is the child of no joint. -/
theorem C7_counterexample :
    (_Extract true brokenChildDocument).toOption.map (fun r => r.1) = some true ∧
    (_Extract true brokenChildDocument).toOption.map (fun r => r.2.root_link_)
      = some (some "A") ∧
    (_Extract true brokenChildDocument).toOption.map (fun r => mapKeys r.2.links_)
      = some ["A", "B"] ∧
    (_Extract true brokenChildDocument).toOption.map
      (fun r => r.2.jointEntries.map (fun e => (e.1, e.2.parent_link_name, e.2.child_link_name)))
      = some [("J", "A", "")] := by
  refine ⟨by decide, by decide, by decide, by decide⟩

/-- C7 (amended): after a conversion that reports success, every joint of the
joint map has a parent link name that is a key of the link map and a child
link name that is empty or a key of the link map.  When moreover neither
`initTree` nor `initRoot` raise `ParseError` on the model, the model has a
root that is a key of the link map, the child link name of every joint is a
key of the link map other than the root, and every link other than the root
is the child link name of at least one joint of the joint map. -/
theorem C7_joints_name_links (asserts : Bool) (dom : DomCOLLADA) (m : ModelInterface)
    (h : _Extract asserts dom = .ok (true, m)) :
    (∀ e ∈ m.jointEntries,
      e.2.parent_link_name ∈ mapKeys m.links_ ∧
      (e.2.child_link_name = "" ∨ e.2.child_link_name ∈ mapKeys m.links_)) ∧
    (_PostProcess_failed m = false →
      ∃ root, m.root_link_ = some root ∧ root ∈ mapKeys m.links_ ∧
        (∀ e ∈ m.jointEntries,
          e.2.child_link_name ∈ mapKeys m.links_ ∧ e.2.child_link_name ≠ root) ∧
        (∀ k ∈ mapKeys m.links_, k ≠ root →
          ∃ e ∈ m.jointEntries, e.2.child_link_name = k)) := by
  constructor
  · intro e he
    obtain ⟨n, j⟩ := e
    obtain ⟨i, _, hget⟩ := (mem_jointEntries m n j).1 he
    exact _Extract_jointsNameLinks asserts dom true m h j (List.get?_mem hget)
  · intro hfail
    have hpp : ∃ st1, m = _PostProcess st1 := by
      unfold _Extract at h
      split at h
      · simp at h
      · exact _Extract_scenes_postProcessed asserts _ _ _ m h
    obtain ⟨st1, hst1⟩ := hpp
    subst hst1
    exact _PostProcess_tree st1 hfail

/-- C7 (amended), witness: the two-link document, where post-processing
raises no error. -/
theorem C7_joints_name_links_witness :
    _Extract true twoLinkDocument = .ok (true, twoLinkModel) ∧
    (∀ e ∈ twoLinkModel.jointEntries,
      e.2.parent_link_name ∈ mapKeys twoLinkModel.links_ ∧
      (e.2.child_link_name = "" ∨ e.2.child_link_name ∈ mapKeys twoLinkModel.links_)) ∧
    (_PostProcess_failed twoLinkModel = false →
      ∃ root, twoLinkModel.root_link_ = some root ∧ root ∈ mapKeys twoLinkModel.links_ ∧
        (∀ e ∈ twoLinkModel.jointEntries,
          e.2.child_link_name ∈ mapKeys twoLinkModel.links_ ∧ e.2.child_link_name ≠ root) ∧
        (∀ k ∈ mapKeys twoLinkModel.links_, k ≠ root →
          ∃ e ∈ twoLinkModel.jointEntries, e.2.child_link_name = k)) :=
  ⟨by decide!, C7_joints_name_links true twoLinkDocument twoLinkModel (by decide!)⟩

/-! ## Generated names -/

/-- C6, the code at the failing input: for the two axes of the attachment of
`twoAxesUnnamed` both joints have the parent P; the first joint has the real
child C and the second one the synthetic link P_dummy1, which is a leaf. -/
theorem C6_two_axes_not_a_chain :
    (_ExtractLink {} (some {}) {} twoAxesUnnamed).toOption.map
      (fun r => r.2.jointEntries.map (fun e => (e.1, e.2.parent_link_name, e.2.child_link_name)))
      = some [("dummy0", "P", "C"), ("dummy1", "P", "P_dummy1")] := by
  decide

/-! ## The two-link example, extracted -/

/-- The axis-info rules leave velocity and effort alone. -/
theorem _ExtractLink_axisInfoLimits_speed (kai : Option KinematicsAxisInfo) (j : Joint) :
    (_ExtractLink_axisInfoLimits kai j).1.limits.velocity = j.limits.velocity ∧
    (_ExtractLink_axisInfoLimits kai j).1.limits.effort = j.limits.effort := by
  unfold _ExtractLink_axisInfoLimits
  cases kai with
  | none => exact ⟨rfl, rfl⟩
  | some k =>
    dsimp only
    cases k.limits with
    | none => split_ifs <;> exact ⟨rfl, rfl⟩
    | some lim => dsimp only; split_ifs <;> exact ⟨rfl, rfl⟩

/-- The inline limits leave velocity and effort alone. -/
theorem _ExtractLink_inlineLimits_speed (pdomaxis : AxisConstraint) (j : Joint) :
    (_ExtractLink_inlineLimits pdomaxis j).limits.velocity = j.limits.velocity ∧
    (_ExtractLink_inlineLimits pdomaxis j).limits.effort = j.limits.effort := by
  unfold _ExtractLink_inlineLimits
  cases pdomaxis.limits with
  | none => dsimp only; split_ifs <;> exact ⟨rfl, rfl⟩
  | some lim => dsimp only; split_ifs <;> exact ⟨rfl, rfl⟩

/-- The default velocity leaves the effort alone. -/
theorem _ExtractLink_velocity_effort (j : Joint) :
    (_ExtractLink_velocity j).limits.effort = j.limits.effort := by
  unfold _ExtractLink_velocity
  split_ifs <;> rfl

/-- The velocity after the default, from the velocity before it. -/
theorem _ExtractLink_velocity_eq (j : Joint) :
    (_ExtractLink_velocity j).limits.velocity =
      if j.limits.velocity = 0 then
        (if (_ExtractLink_velocity j).type = JointType.PRISMATIC then 1 / 100 else 1 / 2)
      else j.limits.velocity := by
  rw [_ExtractLink_velocity_type]
  unfold _ExtractLink_velocity
  by_cases h : j.limits.velocity = 0
  · simp only [h, if_true]
  · simp only [h, if_false]

/-- The joint before the default velocity: its velocity and effort are those
the motion axis-info gave. -/
theorem _ExtractLink_limits_speed (pdomaxis : AxisConstraint) (kai : Option KinematicsAxisInfo)
    (mai : Option MotionAxisInfo) (pjoint : Joint) :
    (_ExtractLink_limits pdomaxis kai mai pjoint).limits.velocity =
      (if (_ExtractLink_motion mai pjoint).limits.velocity = 0 then
        (if (_ExtractLink_limits pdomaxis kai mai pjoint).type = JointType.PRISMATIC
          then 1 / 100 else 1 / 2)
      else (_ExtractLink_motion mai pjoint).limits.velocity) ∧
    (_ExtractLink_limits pdomaxis kai mai pjoint).limits.effort =
      (_ExtractLink_motion mai pjoint).limits.effort := by
  unfold _ExtractLink_limits
  dsimp only
  rw [_ExtractLink_velocity_eq, _ExtractLink_velocity_effort]
  have h1 := _ExtractLink_inlineLimits_speed pdomaxis
    (_ExtractLink_axisInfoLimits kai (_ExtractLink_motion mai pjoint)).1
  have h2 := _ExtractLink_axisInfoLimits_speed kai (_ExtractLink_motion mai pjoint)
  by_cases hc : kai.isNone = true ∨ (¬ _ExtractLink_locked kai = true ∧
      ¬ (_ExtractLink_axisInfoLimits kai (_ExtractLink_motion mai pjoint)).2 = true)
  · simp only [if_pos hc]
    rw [h1.1, h1.2, h2.1, h2.2]
    exact ⟨rfl, rfl⟩
  · simp only [if_neg hc]
    rw [h2.1, h2.2]
    exact ⟨rfl, rfl⟩

/-- C11, as stated, fails.  A revolute axis without motion axis-info keeps the
effort 0 it was created with; a speed of -1 is kept as velocity -1; and a
prismatic axis with inline limits [0,0], which becomes FIXED, gets the velocity
0.5 and not 0.01. -/
theorem C11_counterexample :
    (_ExtractLink_limits { eid := 0, kind := AxisKind.revolute } none none
      { name := "j", type := JointType.REVOLUTE, parent_link_name := "l" }).limits.effort = 0 ∧
    (_ExtractLink_limits { eid := 0, kind := AxisKind.revolute } none
      (some { speed := some { float := some (-1) } })
      { name := "j", type := JointType.REVOLUTE, parent_link_name := "l" }).limits.velocity = -1 ∧
    (_ExtractLink_limits { eid := 0, kind := AxisKind.prismatic, limits := some (0, 0) } none none
      { name := "j", type := JointType.PRISMATIC, parent_link_name := "l" }).limits.velocity
        = 1 / 2 := by
  refine ⟨?_, ?_, ?_⟩ <;> decide!

/-- C11, amended: for a joint created with velocity 0 and effort 0, the
velocity after the limits are resolved is the speed the motion axis-info
resolves to, and when that is missing or zero it is 0.01 if the joint's type
is then PRISMATIC and 0.5 otherwise; so it is never zero, and positive unless
the speed is negative.  The effort is the acceleration the motion axis-info
resolves to, and 0 when there is none. -/
theorem C11_velocity_defaulted_effort_kept (pdomaxis : AxisConstraint)
    (kai : Option KinematicsAxisInfo) (mai : Option MotionAxisInfo) (pjoint : Joint)
    (hv : pjoint.limits.velocity = 0) (he : pjoint.limits.effort = 0) :
    ∃ speed acceleration : ℚ,
      (speed = match mai with
        | some m => (match m.speed with
          | some s => resolveFloat s m.newparams
          | none => 0)
        | none => 0) ∧
      (acceleration = match mai with
        | some m => (match m.acceleration with
          | some a => resolveFloat a m.newparams
          | none => 0)
        | none => 0) ∧
      (_ExtractLink_limits pdomaxis kai mai pjoint).limits.velocity =
        (if speed = 0 then
          (if (_ExtractLink_limits pdomaxis kai mai pjoint).type = JointType.PRISMATIC
            then 1 / 100 else 1 / 2)
        else speed) ∧
      (_ExtractLink_limits pdomaxis kai mai pjoint).limits.velocity ≠ 0 ∧
      (0 ≤ speed → 0 < (_ExtractLink_limits pdomaxis kai mai pjoint).limits.velocity) ∧
      (_ExtractLink_limits pdomaxis kai mai pjoint).limits.effort = acceleration := by
  have hm : (_ExtractLink_motion mai pjoint).limits.velocity = (match mai with
        | some m => (match m.speed with
          | some s => resolveFloat s m.newparams
          | none => 0)
        | none => 0) ∧
      (_ExtractLink_motion mai pjoint).limits.effort = (match mai with
        | some m => (match m.acceleration with
          | some a => resolveFloat a m.newparams
          | none => 0)
        | none => 0) := by
    unfold _ExtractLink_motion
    cases mai with
    | none => exact ⟨hv, he⟩
    | some m =>
      rcases m with ⟨ax, np, sp, acc⟩
      cases sp <;> cases acc <;> exact ⟨by first | exact hv | rfl, by first | exact he | rfl⟩
  have hl := _ExtractLink_limits_speed pdomaxis kai mai pjoint
  refine ⟨(_ExtractLink_motion mai pjoint).limits.velocity,
    (_ExtractLink_motion mai pjoint).limits.effort, hm.1, hm.2, hl.1, ?_, ?_, hl.2⟩
  · rw [hl.1]
    split_ifs with h1 h2
    · norm_num
    · norm_num
    · exact h1
  · intro h0
    rw [hl.1]
    split_ifs with h1 h2
    · norm_num
    · norm_num
    · exact lt_of_le_of_ne h0 (Ne.symm h1)

/-- C11, amended, on a prismatic axis whose motion axis-info gives a speed of
0 and an acceleration of 3. -/
theorem C11_velocity_defaulted_effort_kept_witness :
    ∃ speed acceleration : ℚ,
      (speed = 0) ∧ (acceleration = 3) ∧
      (_ExtractLink_limits { eid := 0, kind := AxisKind.prismatic } none
        (some { speed := some { float := some 0 }, acceleration := some { float := some 3 } })
        { name := "j", type := JointType.PRISMATIC, parent_link_name := "l" }).limits.velocity
          = 1 / 100 ∧
      (_ExtractLink_limits { eid := 0, kind := AxisKind.prismatic } none
        (some { speed := some { float := some 0 }, acceleration := some { float := some 3 } })
        { name := "j", type := JointType.PRISMATIC, parent_link_name := "l" }).limits.effort
          = 3 := by
  obtain ⟨speed, acceleration, h1, h2, h3, -, -, h6⟩ :=
    C11_velocity_defaulted_effort_kept { eid := 0, kind := AxisKind.prismatic } none
      (some { speed := some { float := some 0 }, acceleration := some { float := some 3 } })
      { name := "j", type := JointType.PRISMATIC, parent_link_name := "l" } rfl rfl
  have hs : speed = 0 := h1
  have ha : acceleration = 3 := h2
  have ht : (_ExtractLink_limits { eid := 0, kind := AxisKind.prismatic } none
        (some { speed := some { float := some 0 }, acceleration := some { float := some 3 } })
        { name := "j", type := JointType.PRISMATIC, parent_link_name := "l" }).type
          = JointType.PRISMATIC := by decide!
  refine ⟨speed, acceleration, hs, ha, ?_, ?_⟩
  · rw [h3, if_pos hs, if_pos ht]
  · rw [h6, ha]

/-! ## Mimic formulas -/

/-- Without assertions, an `<apply>` whose first child is neither `plus` nor
`minus` reads as multiplier 1, offset 0 and that first child as the symbol. -/
theorem _ExtractKinematicsModel_math_other (n : String) (num : Option ℚ) (enc : Option String)
    (j : Option DomJoint) (papplyelt c0 : DaeElement) (args more : List DaeElement)
    (hc : papplyelt.children = c0 :: args)
    (hplus : _checkMathML c0 "plus" = false) (hminus : _checkMathML c0 "minus" = false) :
    _ExtractKinematicsModel_math false (DaeElement.mk n num enc j (papplyelt :: more)) =
      .ok (1, 0, c0) := by
  rcases papplyelt with ⟨n1, num1, enc1, j1, ch1⟩
  simp only [DaeElement.children] at hc
  subst hc
  simp [_ExtractKinematicsModel_math, BOOST_ASSERT, childAt, DaeElement.children, hplus,
    hminus, bind, Except.bind, pure, Except.pure]

/-- C13, as stated, fails when `BOOST_ASSERT` is compiled in: the formula
`T = apply(times, cn 2, csymbol B)` stops the extraction of the kinematics
model at the failed assertion, and a later formula is not processed. -/
theorem C13_counterexample :
    _ExtractKinematicsModel_formula true
        (formulaOf (some { name := some "T" }) (mathProduct 2 (some { name := some "B" })))
        mimicModel = .error Fault.assertFailed ∧
    _ExtractKinematicsModel_kmodel true
        { formula := [formulaOf (some { name := some "T" })
                        (mathProduct 2 (some { name := some "B" })),
                      formulaOf (some { name := some "B" })
                        (mathBare (some { name := some "T" }))] }
        none {} mimicModel = .error Fault.assertFailed := by
  constructor <;> rfl

/-- C13, amended: take a formula whose `<math>` holds an `<apply>` whose first
child is neither `plus` nor `minus` and refers to no extracted joint, as in
`apply(times, cn a, csymbol x)`.  With `BOOST_ASSERT` compiled out the
formula is skipped: the model stays as it was (the target joint gets no mimic
record), the later formulas are processed, and `_ExtractKinematicsModel`
returns true when they succeed.  With `BOOST_ASSERT` compiled in, a formula
of this kind whose target is an extracted joint and whose first child is no
`csymbol` stops the extraction at the failed assertion. -/
theorem C13_unrecognised_formula_skipped_without_asserts (pf : DomFormula) (st : ModelInterface)
    (children : List DaeElement) (n : String) (num : Option ℚ) (enc : Option String)
    (j : Option DomJoint) (papplyelt c0 : DaeElement) (args more : List DaeElement)
    (htc : pf.technique_common = some children)
    (hfind : _ExtractKinematicsModel_findMath children none =
      some (DaeElement.mk n num enc j (papplyelt :: more)))
    (hc : papplyelt.children = c0 :: args)
    (hplus : _checkMathML c0 "plus" = false) (hminus : _checkMathML c0 "minus" = false)
    (hjoint : _getJointFromRef c0.joint st = none) :
    _ExtractKinematicsModel_formula false pf st = .ok st ∧
    (∀ rest, _ExtractKinematicsModel_formulas false (pf :: rest) st =
      _ExtractKinematicsModel_formulas false rest st) ∧
    (∀ kmodel pnode bindings st0 rest st2,
      _ExtractKinematicsModel_links pnode bindings kmodel.link 0 st0 = .ok st →
      kmodel.formula = pf :: rest →
      _ExtractKinematicsModel_formulas false rest st = .ok st2 →
      _ExtractKinematicsModel_kmodel false kmodel pnode bindings st0 = .ok (true, st2)) ∧
    (∀ target t, pf.target = some target → _getJointFromRef target st = some t →
      _checkMathML c0 "csymbol" = false →
      _ExtractKinematicsModel_formula true pf st = .error Fault.assertFailed) := by
  have hskip : _ExtractKinematicsModel_formula false pf st = .ok st := by
    unfold _ExtractKinematicsModel_formula
    cases htg : pf.target with
    | none => rfl
    | some target =>
      dsimp only
      cases hr : _getJointFromRef target st with
      | none => rfl
      | some t =>
        simp only [htc, hfind,
          _ExtractKinematicsModel_math_other n num enc j papplyelt c0 args more hc hplus hminus,
          hjoint]
        rfl
  refine ⟨hskip, fun rest => ?_, ?_, ?_⟩
  · simp only [_ExtractKinematicsModel_formulas, hskip]
  · intro kmodel pnode bindings st0 rest st2 hl hf hr
    simp only [_ExtractKinematicsModel_kmodel, hl, hf, _ExtractKinematicsModel_formulas, hskip, hr]
  · intro target t htg hr hsym
    rcases papplyelt with ⟨n1, num1, enc1, j1, ch1⟩
    simp only [DaeElement.children] at hc
    subst hc
    unfold _ExtractKinematicsModel_formula
    simp only [htg, hr, htc, hfind]
    have hm : _ExtractKinematicsModel_math true
        (DaeElement.mk n num enc j (DaeElement.mk n1 num1 enc1 j1 (c0 :: args) :: more)) =
        .error Fault.assertFailed := by
      by_cases hap : _checkMathML (DaeElement.mk n1 num1 enc1 j1 (c0 :: args)) "apply" = true
      · simp [_ExtractKinematicsModel_math, BOOST_ASSERT, childAt, DaeElement.children, hplus,
          hminus, hsym, hap, bind, Except.bind, pure, Except.pure]
      · simp [_ExtractKinematicsModel_math, BOOST_ASSERT, childAt, DaeElement.children,
          hap, bind, Except.bind, pure, Except.pure]
    rw [hm]

/-- C13, amended, on `T = apply(times, cn 2, csymbol B)` followed by the
formula `B = T`: without assertions the first is skipped and the second is
processed. -/
theorem C13_unrecognised_formula_skipped_without_asserts_witness :
    _ExtractKinematicsModel_formula false
        (formulaOf (some { name := some "T" }) (mathProduct 2 (some { name := some "B" })))
        mimicModel = .ok mimicModel ∧
    _ExtractKinematicsModel_kmodel false
        { formula := [formulaOf (some { name := some "T" })
                        (mathProduct 2 (some { name := some "B" })),
                      formulaOf (some { name := some "B" })
                        (mathBare (some { name := some "T" }))] }
        none {} mimicModel =
      .ok (true, mimicModel.setJoint 0
        { name := "B", type := JointType.REVOLUTE,
          mimic := some { joint_name := "T", multiplier := 1, offset := 0 } }) :=
  have h := C13_unrecognised_formula_skipped_without_asserts
    (formulaOf (some { name := some "T" }) (mathProduct 2 (some { name := some "B" })))
    mimicModel
    [DaeElement.mk "math" none none none [mathProduct 2 (some { name := some "B" })]]
    "math" none none none (mathProduct 2 (some { name := some "B" })) (mathOp "times")
    [mathCn 2, mathCsymbol (some { name := some "B" })] [] rfl rfl rfl rfl rfl rfl
  ⟨h.1, h.2.2.1 { formula := [formulaOf (some { name := some "T" })
                        (mathProduct 2 (some { name := some "B" })),
                      formulaOf (some { name := some "B" })
                        (mathBare (some { name := some "T" }))] }
      none {} mimicModel _ _ rfl rfl rfl⟩

/-! ## Quaternions and poses -/

/-- Dividing a quaternion of non-zero norm by an exact square root of the sum
of its squares gives a sum of squares of 1. -/
theorem normalizeRotation_normSq {K : Type} [Field K] (sqrt : K → K) (q : Rotation K)
    (hs : sqrt q.normSq * sqrt q.normSq = q.normSq) (hq : q.normSq ≠ 0) :
    (normalizeRotation sqrt q).normSq = 1 := by
  have hne : sqrt q.normSq ≠ 0 := by
    intro h0
    rw [h0, mul_zero] at hs
    exact hq hs.symm
  unfold Rotation.normSq at hs hq hne
  simp only [normalizeRotation, Rotation.normSq]
  field_simp
  linear_combination -hs

/-- The product before normalisation is the Hamilton product. -/
theorem _quatMult_product_toQuaternion {K : Type} [Field K] (q0 q1 : Rotation K) :
    (_quatMult_product q0 q1).toQuaternion = q0.toQuaternion * q1.toQuaternion := by
  apply Quaternion.ext <;>
    simp [_quatMult_product, Rotation.toQuaternion] <;> ring

/-- The sum of squares is the squared norm of the quaternion of Mathlib. -/
theorem normSq_toQuaternion {K : Type} [Field K] (q : Rotation K) :
    Quaternion.normSq q.toQuaternion = q.normSq := by
  rw [Quaternion.normSq_def']
  simp only [Rotation.toQuaternion, Rotation.normSq]
  ring

/-- The sum of squares of the product is the product of the sums. -/
theorem _quatMult_product_normSq {K : Type} [Field K] (q0 q1 : Rotation K) :
    (_quatMult_product q0 q1).normSq = q0.normSq * q1.normSq := by
  simp only [_quatMult_product, Rotation.normSq]
  ring

/-- The function `_quatMult` with a square root that is exact at the sum of
squares of the product. -/
theorem _quatMult_normSq {K : Type} [Field K] (sqrt : K → K) (q0 q1 : Rotation K)
    (h0 : q0.normSq ≠ 0) (h1 : q1.normSq ≠ 0)
    (hs : sqrt (q0.normSq * q1.normSq) * sqrt (q0.normSq * q1.normSq) =
      q0.normSq * q1.normSq) :
    sqrt (q0.normSq * q1.normSq) ≠ 0 ∧
    (_quatMult sqrt q0 q1).toQuaternion =
      (sqrt (q0.normSq * q1.normSq))⁻¹ • (q0.toQuaternion * q1.toQuaternion) ∧
    (_quatMult sqrt q0 q1).normSq = 1 := by
  have hN := _quatMult_product_normSq q0 q1
  have hne : sqrt (q0.normSq * q1.normSq) ≠ 0 := by
    intro hz
    rw [hz, mul_zero] at hs
    exact mul_ne_zero h0 h1 hs.symm
  refine ⟨hne, ?_, ?_⟩
  · rw [← _quatMult_product_toQuaternion]
    have hf : sqrt ((_quatMult_product q0 q1).x * (_quatMult_product q0 q1).x +
        (_quatMult_product q0 q1).y * (_quatMult_product q0 q1).y +
        (_quatMult_product q0 q1).z * (_quatMult_product q0 q1).z +
        (_quatMult_product q0 q1).w * (_quatMult_product q0 q1).w) =
        sqrt (q0.normSq * q1.normSq) := congrArg sqrt hN
    apply Quaternion.ext <;>
      simp only [_quatMult, normalizeRotation, Rotation.toQuaternion, hf, Quaternion.smul_re,
        Quaternion.smul_imI, Quaternion.smul_imJ, Quaternion.smul_imK, smul_eq_mul] <;>
      rw [div_eq_inv_mul]
  · apply normalizeRotation_normSq
    · rw [hN]
      exact hs
    · rw [hN]
      exact mul_ne_zero h0 h1

/-- C17: over the reals, with the real square root, for quaternions `q0` and
`q1` of non-zero norm the norm of the Hamilton product is not zero,
`_quatMult(q0, q1)` is the Hamilton product divided by that norm, and the
result has `x^2 + y^2 + z^2 + w^2 = 1`. -/
theorem C17_quatMult_unit (q0 q1 : Rotation ℝ) (h0 : q0.normSq ≠ 0) (h1 : q1.normSq ≠ 0) :
    Real.sqrt (Quaternion.normSq (q0.toQuaternion * q1.toQuaternion)) ≠ 0 ∧
    (_quatMult Real.sqrt q0 q1).toQuaternion =
      (Real.sqrt (Quaternion.normSq (q0.toQuaternion * q1.toQuaternion)))⁻¹ •
        (q0.toQuaternion * q1.toQuaternion) ∧
    (_quatMult Real.sqrt q0 q1).normSq = 1 := by
  have hn : Quaternion.normSq (q0.toQuaternion * q1.toQuaternion) = q0.normSq * q1.normSq := by
    rw [map_mul, normSq_toQuaternion, normSq_toQuaternion]
  have hpos : 0 ≤ q0.normSq * q1.normSq := by
    rw [← hn]
    exact Quaternion.normSq_nonneg
  rw [hn]
  exact _quatMult_normSq Real.sqrt q0 q1 h0 h1 (Real.mul_self_sqrt hpos)

/-- C17 on the quaternions (1, 2, 3, 4) and (0, 0, 0, 2). -/
theorem C17_quatMult_unit_witness :
    (_quatMult Real.sqrt { x := 1, y := 2, z := 3, w := 4 }
      { x := 0, y := 0, z := 0, w := 2 }).normSq = 1 :=
  (C17_quatMult_unit { x := 1, y := 2, z := 3, w := 4 } { x := 0, y := 0, z := 0, w := 2 }
    (by norm_num [Rotation.normSq]) (by norm_num [Rotation.normSq])).2.2

/-- The sum of squares before normalisation in `_quatFromMatrix` is at least
1: the component computed from the diagonal is. -/
theorem _quatFromMatrix_branch_diagonal {K : Type} [LinearOrderedField K] (mat : Fin 12 → K) :
    (0 ≤ mat 0 + mat 5 + mat 10 →
      (_quatFromMatrix_branch mat).w = mat 0 + mat 5 + mat 10 + 1 ∧
      1 ≤ (_quatFromMatrix_branch mat).w) ∧
    (mat 0 + mat 5 + mat 10 < 0 →
      (mat 0 < mat 5 ∧ mat 5 < mat 10) ∨ (mat 5 ≤ mat 0 ∧ mat 0 < mat 10) →
      (_quatFromMatrix_branch mat).z = (mat 10 - (mat 0 + mat 5)) + 1 ∧
      1 ≤ (_quatFromMatrix_branch mat).z) ∧
    (mat 0 + mat 5 + mat 10 < 0 → mat 0 < mat 5 → mat 10 ≤ mat 5 →
      (_quatFromMatrix_branch mat).y = (mat 5 - (mat 10 + mat 0)) + 1 ∧
      1 ≤ (_quatFromMatrix_branch mat).y) ∧
    (mat 0 + mat 5 + mat 10 < 0 → mat 5 ≤ mat 0 → mat 10 ≤ mat 0 →
      (_quatFromMatrix_branch mat).x = (mat 0 - (mat 5 + mat 10)) + 1 ∧
      1 ≤ (_quatFromMatrix_branch mat).x) := by
  unfold _quatFromMatrix_branch
  refine ⟨fun h => ?_, fun h hc => ?_, fun h h1 h2 => ?_, fun h h1 h2 => ?_⟩
  · simp only [ge_iff_le, h, if_true]
    exact ⟨trivial, by linarith⟩
  · have hn : ¬ (mat 0 + mat 5 + mat 10 ≥ 0) := not_le.mpr h
    rcases hc with ⟨h1, h2⟩ | ⟨h1, h2⟩
    · simp only [hn, if_false, gt_iff_lt, h1, h2, if_true]
      exact ⟨trivial, by linarith⟩
    · simp only [hn, if_false, gt_iff_lt, not_lt.mpr h1, h2, if_true]
      exact ⟨trivial, by linarith⟩
  · have hn : ¬ (mat 0 + mat 5 + mat 10 ≥ 0) := not_le.mpr h
    simp only [hn, if_false, gt_iff_lt, h1, not_lt.mpr h2, if_true]
    exact ⟨trivial, by linarith⟩
  · have hn : ¬ (mat 0 + mat 5 + mat 10 ≥ 0) := not_le.mpr h
    simp only [hn, if_false, gt_iff_lt, not_lt.mpr h1, not_lt.mpr h2]
    exact ⟨trivial, by linarith⟩

/-- Whatever the matrix, some component of the quaternion before
normalisation is at least 1, so the sum of its squares is. -/
theorem _quatFromMatrix_branch_normSq {K : Type} [LinearOrderedField K] (mat : Fin 12 → K) :
    1 ≤ (_quatFromMatrix_branch mat).normSq := by
  have hd := _quatFromMatrix_branch_diagonal mat
  have hx := mul_self_nonneg (_quatFromMatrix_branch mat).x
  have hy := mul_self_nonneg (_quatFromMatrix_branch mat).y
  have hz := mul_self_nonneg (_quatFromMatrix_branch mat).z
  have hw := mul_self_nonneg (_quatFromMatrix_branch mat).w
  unfold Rotation.normSq
  rcases le_or_lt 0 (mat 0 + mat 5 + mat 10) with h | h
  · have h1 := (hd.1 h).2
    nlinarith
  · rcases lt_or_le (mat 0) (mat 5) with h1 | h1
    · rcases lt_or_le (mat 5) (mat 10) with h2 | h2
      · have h3 := (hd.2.1 h (Or.inl ⟨h1, h2⟩)).2
        nlinarith
      · have h3 := (hd.2.2.1 h h1 h2).2
        nlinarith
    · rcases lt_or_le (mat 0) (mat 10) with h2 | h2
      · have h3 := (hd.2.1 h (Or.inr ⟨h1, h2⟩)).2
        nlinarith
      · have h3 := (hd.2.2.2 h h1 h2).2
        nlinarith

/-- C14: over the reals, with the real square root, `_quatFromMatrix` returns
a unit quaternion for every 3x4 matrix.  In each of the four branches the
component computed from the diagonal is at least 1 before normalisation, so
the norm that divides is not zero, and the result has
`x^2 + y^2 + z^2 + w^2 = 1`. -/
theorem C14_quatFromMatrix_unit (mat : Fin 12 → ℝ) :
    (0 ≤ mat 0 + mat 5 + mat 10 →
      (_quatFromMatrix_branch mat).w = mat 0 + mat 5 + mat 10 + 1 ∧
      1 ≤ (_quatFromMatrix_branch mat).w) ∧
    (mat 0 + mat 5 + mat 10 < 0 →
      (mat 0 < mat 5 ∧ mat 5 < mat 10) ∨ (mat 5 ≤ mat 0 ∧ mat 0 < mat 10) →
      (_quatFromMatrix_branch mat).z = (mat 10 - (mat 0 + mat 5)) + 1 ∧
      1 ≤ (_quatFromMatrix_branch mat).z) ∧
    (mat 0 + mat 5 + mat 10 < 0 → mat 0 < mat 5 → mat 10 ≤ mat 5 →
      (_quatFromMatrix_branch mat).y = (mat 5 - (mat 10 + mat 0)) + 1 ∧
      1 ≤ (_quatFromMatrix_branch mat).y) ∧
    (mat 0 + mat 5 + mat 10 < 0 → mat 5 ≤ mat 0 → mat 10 ≤ mat 0 →
      (_quatFromMatrix_branch mat).x = (mat 0 - (mat 5 + mat 10)) + 1 ∧
      1 ≤ (_quatFromMatrix_branch mat).x) ∧
    Real.sqrt (_quatFromMatrix_branch mat).normSq ≠ 0 ∧
    _quatFromMatrix Real.sqrt mat =
      { x := (_quatFromMatrix_branch mat).x / Real.sqrt (_quatFromMatrix_branch mat).normSq
        y := (_quatFromMatrix_branch mat).y / Real.sqrt (_quatFromMatrix_branch mat).normSq
        z := (_quatFromMatrix_branch mat).z / Real.sqrt (_quatFromMatrix_branch mat).normSq
        w := (_quatFromMatrix_branch mat).w / Real.sqrt (_quatFromMatrix_branch mat).normSq } ∧
    (_quatFromMatrix Real.sqrt mat).normSq = 1 := by
  have hd := _quatFromMatrix_branch_diagonal mat
  have hn := _quatFromMatrix_branch_normSq mat
  have hpos : 0 < (_quatFromMatrix_branch mat).normSq := lt_of_lt_of_le one_pos hn
  refine ⟨hd.1, hd.2.1, hd.2.2.1, hd.2.2.2, ?_, rfl, ?_⟩
  · exact (Real.sqrt_pos.mpr hpos).ne.symm
  · exact normalizeRotation_normSq Real.sqrt _ (Real.mul_self_sqrt hpos.le) hpos.ne.symm

/-- The product of two unit quaternions needs no normalisation when the
square root of 1 is 1. -/
theorem _quatMult_of_unit {K : Type} [Field K] (sqrt : K → K) (q0 q1 : Rotation K)
    (h0 : q0.normSq = 1) (h1 : q1.normSq = 1) (hs : sqrt 1 = 1) :
    _quatMult sqrt q0 q1 = _quatMult_product q0 q1 := by
  have hN : (_quatMult_product q0 q1).normSq = 1 := by
    rw [_quatMult_product_normSq, h0, h1, mul_one]
  unfold Rotation.normSq at hN
  simp only [_quatMult, normalizeRotation, hN, hs, div_one]

/-- A unit quaternion times its conjugate is (0, 0, 0, 1). -/
theorem _quatMult_conjugate {K : Type} [Field K] (sqrt : K → K) (q : Rotation K)
    (h : q.normSq = 1) (hs : sqrt 1 = 1) :
    _quatMult sqrt q { x := -q.x, y := -q.y, z := -q.z, w := q.w } =
      { x := 0, y := 0, z := 0, w := 1 } := by
  have hc : (Rotation.mk (-q.x) (-q.y) (-q.z) q.w).normSq = 1 := by
    rw [← h]
    simp only [Rotation.normSq]
    ring
  rw [_quatMult_of_unit sqrt q _ h hc hs]
  unfold Rotation.normSq at h
  simp only [_quatMult_product, Rotation.mk.injEq]
  refine ⟨by ring, by ring, by ring, ?_⟩
  linear_combination h

/-- The position of a pose with unit rotation, carried back by the inverse
pose and forth again, is the origin. -/
theorem _poseMult_point_inverse {K : Type} [Field K] (p : Pose K) (h : p.rotation.normSq = 1) :
    _poseMult_point p (_poseInverse p).position = { x := 0, y := 0, z := 0 } := by
  rcases p with ⟨⟨px, py, pz⟩, ⟨x, y, z, w⟩⟩
  simp only [Rotation.normSq] at h
  simp only [_poseMult_point, _poseInverse, Vector3.mk.injEq]
  refine ⟨?_, ?_, ?_⟩
  · linear_combination
      (-(x * x + y * y + z * z + w * w + 1) * px
        + (2 * (w * w + x * x - y * y - z * z) * px + 4 * x * y * py + 4 * x * z * pz)
        - (x * x + y * y + z * z + w * w - 1) * px) * h
  · linear_combination
      (-(x * x + y * y + z * z + w * w + 1) * py
        + (4 * x * y * px + 2 * (w * w - x * x + y * y - z * z) * py + 4 * y * z * pz)
        - (x * x + y * y + z * z + w * w - 1) * py) * h
  · linear_combination
      (-(x * x + y * y + z * z + w * w + 1) * pz
        + (4 * x * z * px + 4 * y * z * py + 2 * (w * w - x * x - y * y + z * z) * pz)
        - (x * x + y * y + z * z + w * w - 1) * pz) * h

/-- C15: over the reals, with the real square root, for every pose `p` whose
rotation is a unit quaternion, `_poseMult(p, _poseInverse(p))` is the identity
pose, position (0, 0, 0) and rotation (0, 0, 0, 1). -/
theorem C15_pose_times_inverse (p : Pose ℝ) (h : p.rotation.normSq = 1) :
    _poseMult Real.sqrt p (_poseInverse p) =
      { position := { x := 0, y := 0, z := 0 }
        rotation := { x := 0, y := 0, z := 0, w := 1 } } := by
  have hp := _poseMult_point_inverse p h
  have hq := _quatMult_conjugate Real.sqrt p.rotation h Real.sqrt_one
  simp only [_poseMult, hp]
  have hr : (_poseInverse p).rotation =
      { x := -p.rotation.x, y := -p.rotation.y, z := -p.rotation.z, w := p.rotation.w } := rfl
  rw [hr, hq]

/-- C15 on the pose at (1, 2, 3) turned by the unit quaternion
(3/5, 0, 0, 4/5). -/
theorem C15_pose_times_inverse_witness :
    _poseMult Real.sqrt
        { position := { x := 1, y := 2, z := 3 }
          rotation := { x := 3 / 5, y := 0, z := 0, w := 4 / 5 } }
        (_poseInverse
          { position := { x := 1, y := 2, z := 3 }
            rotation := { x := 3 / 5, y := 0, z := 0, w := 4 / 5 } }) =
      { position := { x := 0, y := 0, z := 0 }
        rotation := { x := 0, y := 0, z := 0, w := 1 } } :=
  C15_pose_times_inverse
    { position := { x := 1, y := 2, z := 3 }
      rotation := { x := 3 / 5, y := 0, z := 0, w := 4 / 5 } }
    (by norm_num [Rotation.normSq])

/-- Turning by the product of two unit quaternions is turning by the second
and then by the first. -/
theorem _poseMult_point_product {K : Type} [Field K] (p0 p1 : Pose K) (v : Vector3 K)
    (h0 : p0.rotation.normSq = 1) (h1 : p1.rotation.normSq = 1) :
    _poseMult_point
        { position := _poseMult_point p0 p1.position
          rotation := _quatMult_product p0.rotation p1.rotation } v =
      _poseMult_point p0 (_poseMult_point p1 v) := by
  rcases p0 with ⟨⟨px, py, pz⟩, ⟨x, y, z, w⟩⟩
  rcases p1 with ⟨⟨sx, sy, sz⟩, ⟨a, b, c, d⟩⟩
  rcases v with ⟨vx, vy, vz⟩
  simp only [Rotation.normSq] at h0 h1
  simp only [_poseMult_point, _quatMult_product, Vector3.mk.injEq]
  refine ⟨?_, ?_, ?_⟩
  · linear_combination
      (-vx + ((d * d + a * a - b * b - c * c) * vx + 2 * (a * b - d * c) * vy
          + 2 * (a * c + d * b) * vz)
        - (a * a + b * b + c * c + d * d - 1) * vx) * h0
      + (-(x * x + y * y + z * z + w * w) * vx
        + ((w * w + x * x - y * y - z * z) * vx + 2 * (x * y - w * z) * vy
          + 2 * (x * z + w * y) * vz)) * h1
  · linear_combination
      (-vy + (2 * (a * b + d * c) * vx + (d * d - a * a + b * b - c * c) * vy
          + 2 * (b * c - d * a) * vz)
        - (a * a + b * b + c * c + d * d - 1) * vy) * h0
      + (-(x * x + y * y + z * z + w * w) * vy
        + (2 * (x * y + w * z) * vx + (w * w - x * x + y * y - z * z) * vy
          + 2 * (y * z - w * x) * vz)) * h1
  · linear_combination
      (-vz + (2 * (a * c - d * b) * vx + 2 * (b * c + d * a) * vy
          + (d * d - a * a - b * b + c * c) * vz)
        - (a * a + b * b + c * c + d * d - 1) * vz) * h0
      + (-(x * x + y * y + z * z + w * w) * vz
        + (2 * (x * z - w * y) * vx + 2 * (y * z + w * x) * vy
          + (w * w - x * x - y * y + z * z) * vz)) * h1

/-- C16: over the reals, with the real square root, `_poseMult(p0, p1)`
applies `p0` after `p1`: for poses with unit rotations and every vector `v`,
`_poseMult(_poseMult(p0, p1), v) = _poseMult(p0, _poseMult(p1, v))`. -/
theorem C16_pose_composition (p0 p1 : Pose ℝ) (v : Vector3 ℝ)
    (h0 : p0.rotation.normSq = 1) (h1 : p1.rotation.normSq = 1) :
    _poseMult_point (_poseMult Real.sqrt p0 p1) v =
      _poseMult_point p0 (_poseMult_point p1 v) := by
  rw [← _poseMult_point_product p0 p1 v h0 h1]
  simp only [_poseMult, _quatMult_of_unit Real.sqrt p0.rotation p1.rotation h0 h1 Real.sqrt_one]

/-- C16 on a turn about z at (1, 0, 0) after a half turn about x at (0, 2, 0),
applied to the point (1, 1, 1). -/
theorem C16_pose_composition_witness :
    _poseMult_point
        (_poseMult Real.sqrt
          ({ position := { x := 1, y := 0, z := 0 }
             rotation := { x := 0, y := 0, z := 3 / 5, w := 4 / 5 } } : Pose ℝ)
          ({ position := { x := 0, y := 2, z := 0 }
             rotation := { x := 1, y := 0, z := 0, w := 0 } } : Pose ℝ))
        ({ x := 1, y := 1, z := 1 } : Vector3 ℝ) =
      _poseMult_point
        ({ position := { x := 1, y := 0, z := 0 }
           rotation := { x := 0, y := 0, z := 3 / 5, w := 4 / 5 } } : Pose ℝ)
        (_poseMult_point
          ({ position := { x := 0, y := 2, z := 0 }
             rotation := { x := 1, y := 0, z := 0, w := 0 } } : Pose ℝ)
          ({ x := 1, y := 1, z := 1 } : Vector3 ℝ)) :=
  C16_pose_composition
    { position := { x := 1, y := 0, z := 0 }
      rotation := { x := 0, y := 0, z := 3 / 5, w := 4 / 5 } }
    { position := { x := 0, y := 2, z := 0 }
      rotation := { x := 1, y := 0, z := 0, w := 0 } }
    { x := 1, y := 1, z := 1 }
    (by norm_num [Rotation.normSq]) (by norm_num [Rotation.normSq])

/-! ## The collision mesh of a box -/

/-- The function `InitCollisionMesh` on a box is the box case on cleared
buffers. -/
theorem InitCollisionMesh_of_box {K : Type} [LinearOrderedField K] [FloorRing K]
    (asserts : Bool) (lib : MathLibrary K) (g : GEOMPROPERTIES K) (f : K)
    (h : g.type = GeomType.GeomBox) :
    InitCollisionMesh asserts lib g f =
      InitCollisionMesh_box { g with indices := [], vertices := [] } := by
  unfold InitCollisionMesh
  simp [h]

/-- One step of the winding loop of a box on an empty index buffer: a
negative test makes the swap, which finds no position to swap. -/
theorem InitCollisionMesh_boxWinding_cons {K : Type} [LinearOrderedField K]
    (v : List (Vector3 K)) (a b c : Nat) (rest : List Nat) (i : Nat) (v1 v2 v3 : Vector3 K)
    (h1 : vectorAt v a = .ok v1) (h2 : vectorAt v b = .ok v2) (h3 : vectorAt v c = .ok v3) :
    InitCollisionMesh_boxWinding v (a :: b :: c :: rest) i [] =
      if _dot3 v1 (_sub3 v2 (_cross3 v1 (_sub3 v3 v1))) < 0 then .error Fault.outOfRange
      else InitCollisionMesh_boxWinding v rest (i + 3) [] := by
  simp only [InitCollisionMesh_boxWinding, h1, h2, h3]
  split_ifs
  · rfl
  · rfl

/-- The winding loop of a box on the cleared index buffer stops at the first
triangle whose test is negative, and there is one unless all extents are 0. -/
theorem InitCollisionMesh_boxWinding_fault {K : Type} [LinearOrderedField K] (ex : Vector3 K)
    (h : ex.x ≠ 0 ∨ ex.y ≠ 0 ∨ ex.z ≠ 0) :
    InitCollisionMesh_boxWinding (boxVertices ex) startindices 0 [] =
      .error Fault.outOfRange := by
  have hx := mul_self_nonneg ex.x
  have hy := mul_self_nonneg ex.y
  have hz := mul_self_nonneg ex.z
  have hpos : 0 < ex.x * ex.x + ex.y * ex.y + ex.z * ex.z := by
    rcases h with h | h | h
    · have := mul_self_pos.mpr h
      linarith
    · have := mul_self_pos.mpr h
      linarith
    · have := mul_self_pos.mpr h
      linarith
  unfold startindices
  rw [InitCollisionMesh_boxWinding_cons (boxVertices ex) 0 1 2 _ _ ⟨ex.x, ex.y, ex.z⟩ ⟨ex.x, ex.y, -ex.z⟩ ⟨ex.x, -ex.y, ex.z⟩
    rfl rfl rfl]
  split_ifs with h1
  · rfl
  rw [InitCollisionMesh_boxWinding_cons (boxVertices ex) 1 2 3 _ _ ⟨ex.x, ex.y, -ex.z⟩ ⟨ex.x, -ex.y, ex.z⟩ ⟨ex.x, -ex.y, -ex.z⟩
    rfl rfl rfl]
  split_ifs with h2
  · rfl
  rw [InitCollisionMesh_boxWinding_cons (boxVertices ex) 4 5 6 _ _ ⟨-ex.x, ex.y, ex.z⟩ ⟨-ex.x, ex.y, -ex.z⟩ ⟨-ex.x, -ex.y, ex.z⟩
    rfl rfl rfl]
  split_ifs with h3
  · rfl
  rw [InitCollisionMesh_boxWinding_cons (boxVertices ex) 5 6 7 _ _ ⟨-ex.x, ex.y, -ex.z⟩ ⟨-ex.x, -ex.y, ex.z⟩ ⟨-ex.x, -ex.y, -ex.z⟩
    rfl rfl rfl]
  split_ifs with h4
  · rfl
  rw [InitCollisionMesh_boxWinding_cons (boxVertices ex) 0 1 4 _ _ ⟨ex.x, ex.y, ex.z⟩ ⟨ex.x, ex.y, -ex.z⟩ ⟨-ex.x, ex.y, ex.z⟩
    rfl rfl rfl]
  split_ifs with h5
  · rfl
  rw [InitCollisionMesh_boxWinding_cons (boxVertices ex) 1 4 5 _ _ ⟨ex.x, ex.y, -ex.z⟩ ⟨-ex.x, ex.y, ex.z⟩ ⟨-ex.x, ex.y, -ex.z⟩
    rfl rfl rfl]
  split_ifs with h6
  · rfl
  rw [InitCollisionMesh_boxWinding_cons (boxVertices ex) 2 3 6 _ _ ⟨ex.x, -ex.y, ex.z⟩ ⟨ex.x, -ex.y, -ex.z⟩ ⟨-ex.x, -ex.y, ex.z⟩
    rfl rfl rfl]
  split_ifs with h7
  · rfl
  rw [InitCollisionMesh_boxWinding_cons (boxVertices ex) 3 6 7 _ _ ⟨ex.x, -ex.y, -ex.z⟩ ⟨-ex.x, -ex.y, ex.z⟩ ⟨-ex.x, -ex.y, -ex.z⟩
    rfl rfl rfl]
  split_ifs with h8
  · rfl
  rw [InitCollisionMesh_boxWinding_cons (boxVertices ex) 0 2 4 _ _ ⟨ex.x, ex.y, ex.z⟩ ⟨ex.x, -ex.y, ex.z⟩ ⟨-ex.x, ex.y, ex.z⟩
    rfl rfl rfl]
  split_ifs with h9
  · rfl
  rw [InitCollisionMesh_boxWinding_cons (boxVertices ex) 2 4 6 _ _ ⟨ex.x, -ex.y, ex.z⟩ ⟨-ex.x, ex.y, ex.z⟩ ⟨-ex.x, -ex.y, ex.z⟩
    rfl rfl rfl]
  split_ifs with h10
  · rfl
  exfalso
  simp only [_dot3, _sub3, _cross3] at h2 h6 h10
  linarith

/-- The signed volumes of the twelve triangles of `startindices` on the
corners of a box: six of them are `-4 * ex * ey * ez`. -/
theorem signedVolumes_startindices {K : Type} [Field K] (ex : Vector3 K) :
    signedVolumes (boxVertices ex) startindices =
      [-(4 * ex.x * ex.y * ex.z), 4 * ex.x * ex.y * ex.z, 4 * ex.x * ex.y * ex.z,
       -(4 * ex.x * ex.y * ex.z), 4 * ex.x * ex.y * ex.z, -(4 * ex.x * ex.y * ex.z),
       -(4 * ex.x * ex.y * ex.z), 4 * ex.x * ex.y * ex.z, -(4 * ex.x * ex.y * ex.z),
       4 * ex.x * ex.y * ex.z, 4 * ex.x * ex.y * ex.z, -(4 * ex.x * ex.y * ex.z)] := by
  simp only [startindices, signedVolumes, boxVertices, List.getD_cons_zero, List.getD_cons_succ,
    signedVolume, _dot3, _cross3, _sub3, List.cons.injEq, and_true]
  refine ⟨?_, ?_, ?_, ?_, ?_, ?_, ?_, ?_, ?_, ?_, ?_, ?_⟩ <;> ring

/-- On a box with an extent that is not 0 the function `InitCollisionMesh`
stops in the loop that corrects the winding: the loop runs on `startindices`
while the index buffer of the geometry is still the cleared one, so the first
swap it makes is at a position that the buffer does not have.  No geometry
that the reader builds is a box, so no run of the reader gets there. -/
theorem InitCollisionMesh_box_fault {K : Type} [LinearOrderedField K] [FloorRing K]
    (asserts : Bool) (lib : MathLibrary K) (g : GEOMPROPERTIES K) (f : K)
    (hbox : g.type = GeomType.GeomBox)
    (h : g.vGeomData.x ≠ 0 ∨ g.vGeomData.y ≠ 0 ∨ g.vGeomData.z ≠ 0) :
    InitCollisionMesh asserts lib g f = .error Fault.outOfRange := by
  rw [InitCollisionMesh_of_box _ _ _ _ hbox]
  unfold InitCollisionMesh_box
  dsimp only
  rw [InitCollisionMesh_boxWinding_fault _ h]

/-! ## The collision mesh of a sphere -/

/-- One step of the orientation loop. -/
theorem orientCCW_cons {K : Type} [LinearOrderedField K] (vertices : List (Vector3 K))
    (a b c : Nat) (rest r : List Nat) (v0 v1 v2 : Vector3 K)
    (h0 : vectorAt vertices a = .ok v0) (h1 : vectorAt vertices b = .ok v1)
    (h2 : vectorAt vertices c = .ok v2) (hr : orientCCW vertices rest = .ok r) :
    orientCCW vertices (a :: b :: c :: rest) =
      if _dot3 v0 (_cross3 (_sub3 v1 v0) (_sub3 v2 v0)) < 0 then .ok (b :: a :: c :: r)
      else .ok (a :: b :: c :: r) := by
  simp only [orientCCW, h0, h1, h2, hr]

/-- The sign of the test of the orientation loop on three vertices of the
icosahedron, from the coordinates. -/
theorem icosahedron_test {K : Type} [LinearOrderedField K] (x0 y0 z0 x1 y1 z1 x2 y2 z2 : K) :
    _dot3 (Vector3.mk x0 y0 z0) (_cross3 (_sub3 ⟨x1, y1, z1⟩ ⟨x0, y0, z0⟩)
      (_sub3 ⟨x2, y2, z2⟩ ⟨x0, y0, z0⟩)) =
    x0 * ((y1 - y0) * (z2 - z0) - (z1 - z0) * (y2 - y0)) +
    y0 * ((z1 - z0) * (x2 - x0) - (x1 - x0) * (z2 - z0)) +
    z0 * ((x1 - x0) * (y2 - y0) - (y1 - y0) * (x2 - x0)) := rfl

/-- The orientation loop on the icosahedron, in every ordered field. -/
theorem orientCCW_icosahedron {K : Type} [LinearOrderedField K] :
    orientCCW (icosahedronVertices : List (Vector3 K)) icosahedronIndices =
      .ok icosahedronOriented := by
  have hend : orientCCW (icosahedronVertices : List (Vector3 K)) [] = .ok [] := rfl
  have h19 : orientCCW (icosahedronVertices : List (Vector3 K)) [0, 2, 9] = .ok [0, 2, 9] := by
    rw [orientCCW_cons icosahedronVertices 0 2 9 _ _ _ _ _ rfl rfl rfl hend, icosahedron_test]
    rw [if_neg (by norm_num [GTS_M_ICOSAHEDRON_X, GTS_M_ICOSAHEDRON_Y, GTS_M_ICOSAHEDRON_Z])]
  have h18 : orientCCW (icosahedronVertices : List (Vector3 K)) [0, 8, 9, 0, 2, 9] = .ok [8, 0, 9, 0, 2, 9] := by
    rw [orientCCW_cons icosahedronVertices 0 8 9 _ _ _ _ _ rfl rfl rfl h19, icosahedron_test]
    rw [if_pos (by norm_num [GTS_M_ICOSAHEDRON_X, GTS_M_ICOSAHEDRON_Y, GTS_M_ICOSAHEDRON_Z])]
  have h17 : orientCCW (icosahedronVertices : List (Vector3 K)) [1, 2, 4, 0, 8, 9, 0, 2, 9] = .ok [2, 1, 4, 8, 0, 9, 0, 2, 9] := by
    rw [orientCCW_cons icosahedronVertices 1 2 4 _ _ _ _ _ rfl rfl rfl h18, icosahedron_test]
    rw [if_pos (by norm_num [GTS_M_ICOSAHEDRON_X, GTS_M_ICOSAHEDRON_Y, GTS_M_ICOSAHEDRON_Z])]
  have h16 : orientCCW (icosahedronVertices : List (Vector3 K)) [4, 7, 11, 1, 2, 4, 0, 8, 9, 0, 2, 9] = .ok [7, 4, 11, 2, 1, 4, 8, 0, 9, 0, 2, 9] := by
    rw [orientCCW_cons icosahedronVertices 4 7 11 _ _ _ _ _ rfl rfl rfl h17, icosahedron_test]
    rw [if_pos (by norm_num [GTS_M_ICOSAHEDRON_X, GTS_M_ICOSAHEDRON_Y, GTS_M_ICOSAHEDRON_Z])]
  have h15 : orientCCW (icosahedronVertices : List (Vector3 K)) [6, 8, 10, 4, 7, 11, 1, 2, 4, 0, 8, 9, 0, 2, 9] = .ok [6, 8, 10, 7, 4, 11, 2, 1, 4, 8, 0, 9, 0, 2, 9] := by
    rw [orientCCW_cons icosahedronVertices 6 8 10 _ _ _ _ _ rfl rfl rfl h16, icosahedron_test]
    rw [if_neg (by norm_num [GTS_M_ICOSAHEDRON_X, GTS_M_ICOSAHEDRON_Y, GTS_M_ICOSAHEDRON_Z])]
  have h14 : orientCCW (icosahedronVertices : List (Vector3 K)) [3, 4, 11, 6, 8, 10, 4, 7, 11, 1, 2, 4, 0, 8, 9, 0, 2, 9] = .ok [4, 3, 11, 6, 8, 10, 7, 4, 11, 2, 1, 4, 8, 0, 9, 0, 2, 9] := by
    rw [orientCCW_cons icosahedronVertices 3 4 11 _ _ _ _ _ rfl rfl rfl h15, icosahedron_test]
    rw [if_pos (by norm_num [GTS_M_ICOSAHEDRON_X, GTS_M_ICOSAHEDRON_Y, GTS_M_ICOSAHEDRON_Z])]
  have h13 : orientCCW (icosahedronVertices : List (Vector3 K)) [9, 10, 8, 3, 4, 11, 6, 8, 10, 4, 7, 11, 1, 2, 4, 0, 8, 9, 0, 2, 9] = .ok [9, 10, 8, 4, 3, 11, 6, 8, 10, 7, 4, 11, 2, 1, 4, 8, 0, 9, 0, 2, 9] := by
    rw [orientCCW_cons icosahedronVertices 9 10 8 _ _ _ _ _ rfl rfl rfl h14, icosahedron_test]
    rw [if_neg (by norm_num [GTS_M_ICOSAHEDRON_X, GTS_M_ICOSAHEDRON_Y, GTS_M_ICOSAHEDRON_Z])]
  have h12 : orientCCW (icosahedronVertices : List (Vector3 K)) [3, 6, 11, 9, 10, 8, 3, 4, 11, 6, 8, 10, 4, 7, 11, 1, 2, 4, 0, 8, 9, 0, 2, 9] = .ok [3, 6, 11, 9, 10, 8, 4, 3, 11, 6, 8, 10, 7, 4, 11, 2, 1, 4, 8, 0, 9, 0, 2, 9] := by
    rw [orientCCW_cons icosahedronVertices 3 6 11 _ _ _ _ _ rfl rfl rfl h13, icosahedron_test]
    rw [if_neg (by norm_num [GTS_M_ICOSAHEDRON_X, GTS_M_ICOSAHEDRON_Y, GTS_M_ICOSAHEDRON_Z])]
  have h11 : orientCCW (icosahedronVertices : List (Vector3 K)) [6, 10, 11, 3, 6, 11, 9, 10, 8, 3, 4, 11, 6, 8, 10, 4, 7, 11, 1, 2, 4, 0, 8, 9, 0, 2, 9] = .ok [6, 10, 11, 3, 6, 11, 9, 10, 8, 4, 3, 11, 6, 8, 10, 7, 4, 11, 2, 1, 4, 8, 0, 9, 0, 2, 9] := by
    rw [orientCCW_cons icosahedronVertices 6 10 11 _ _ _ _ _ rfl rfl rfl h12, icosahedron_test]
    rw [if_neg (by norm_num [GTS_M_ICOSAHEDRON_X, GTS_M_ICOSAHEDRON_Y, GTS_M_ICOSAHEDRON_Z])]
  have h10 : orientCCW (icosahedronVertices : List (Vector3 K)) [1, 3, 5, 6, 10, 11, 3, 6, 11, 9, 10, 8, 3, 4, 11, 6, 8, 10, 4, 7, 11, 1, 2, 4, 0, 8, 9, 0, 2, 9] = .ok [3, 1, 5, 6, 10, 11, 3, 6, 11, 9, 10, 8, 4, 3, 11, 6, 8, 10, 7, 4, 11, 2, 1, 4, 8, 0, 9, 0, 2, 9] := by
    rw [orientCCW_cons icosahedronVertices 1 3 5 _ _ _ _ _ rfl rfl rfl h11, icosahedron_test]
    rw [if_pos (by norm_num [GTS_M_ICOSAHEDRON_X, GTS_M_ICOSAHEDRON_Y, GTS_M_ICOSAHEDRON_Z])]
  have h9 : orientCCW (icosahedronVertices : List (Vector3 K)) [7, 10, 11, 1, 3, 5, 6, 10, 11, 3, 6, 11, 9, 10, 8, 3, 4, 11, 6, 8, 10, 4, 7, 11, 1, 2, 4, 0, 8, 9, 0, 2, 9] = .ok [10, 7, 11, 3, 1, 5, 6, 10, 11, 3, 6, 11, 9, 10, 8, 4, 3, 11, 6, 8, 10, 7, 4, 11, 2, 1, 4, 8, 0, 9, 0, 2, 9] := by
    rw [orientCCW_cons icosahedronVertices 7 10 11 _ _ _ _ _ rfl rfl rfl h10, icosahedron_test]
    rw [if_pos (by norm_num [GTS_M_ICOSAHEDRON_X, GTS_M_ICOSAHEDRON_Y, GTS_M_ICOSAHEDRON_Z])]
  have h8 : orientCCW (icosahedronVertices : List (Vector3 K)) [0, 1, 5, 7, 10, 11, 1, 3, 5, 6, 10, 11, 3, 6, 11, 9, 10, 8, 3, 4, 11, 6, 8, 10, 4, 7, 11, 1, 2, 4, 0, 8, 9, 0, 2, 9] = .ok [1, 0, 5, 10, 7, 11, 3, 1, 5, 6, 10, 11, 3, 6, 11, 9, 10, 8, 4, 3, 11, 6, 8, 10, 7, 4, 11, 2, 1, 4, 8, 0, 9, 0, 2, 9] := by
    rw [orientCCW_cons icosahedronVertices 0 1 5 _ _ _ _ _ rfl rfl rfl h9, icosahedron_test]
    rw [if_pos (by norm_num [GTS_M_ICOSAHEDRON_X, GTS_M_ICOSAHEDRON_Y, GTS_M_ICOSAHEDRON_Z])]
  have h7 : orientCCW (icosahedronVertices : List (Vector3 K)) [7, 9, 10, 0, 1, 5, 7, 10, 11, 1, 3, 5, 6, 10, 11, 3, 6, 11, 9, 10, 8, 3, 4, 11, 6, 8, 10, 4, 7, 11, 1, 2, 4, 0, 8, 9, 0, 2, 9] = .ok [9, 7, 10, 1, 0, 5, 10, 7, 11, 3, 1, 5, 6, 10, 11, 3, 6, 11, 9, 10, 8, 4, 3, 11, 6, 8, 10, 7, 4, 11, 2, 1, 4, 8, 0, 9, 0, 2, 9] := by
    rw [orientCCW_cons icosahedronVertices 7 9 10 _ _ _ _ _ rfl rfl rfl h8, icosahedron_test]
    rw [if_pos (by norm_num [GTS_M_ICOSAHEDRON_X, GTS_M_ICOSAHEDRON_Y, GTS_M_ICOSAHEDRON_Z])]
  have h6 : orientCCW (icosahedronVertices : List (Vector3 K)) [0, 5, 8, 7, 9, 10, 0, 1, 5, 7, 10, 11, 1, 3, 5, 6, 10, 11, 3, 6, 11, 9, 10, 8, 3, 4, 11, 6, 8, 10, 4, 7, 11, 1, 2, 4, 0, 8, 9, 0, 2, 9] = .ok [5, 0, 8, 9, 7, 10, 1, 0, 5, 10, 7, 11, 3, 1, 5, 6, 10, 11, 3, 6, 11, 9, 10, 8, 4, 3, 11, 6, 8, 10, 7, 4, 11, 2, 1, 4, 8, 0, 9, 0, 2, 9] := by
    rw [orientCCW_cons icosahedronVertices 0 5 8 _ _ _ _ _ rfl rfl rfl h7, icosahedron_test]
    rw [if_pos (by norm_num [GTS_M_ICOSAHEDRON_X, GTS_M_ICOSAHEDRON_Y, GTS_M_ICOSAHEDRON_Z])]
  have h5 : orientCCW (icosahedronVertices : List (Vector3 K)) [2, 7, 9, 0, 5, 8, 7, 9, 10, 0, 1, 5, 7, 10, 11, 1, 3, 5, 6, 10, 11, 3, 6, 11, 9, 10, 8, 3, 4, 11, 6, 8, 10, 4, 7, 11, 1, 2, 4, 0, 8, 9, 0, 2, 9] = .ok [2, 7, 9, 5, 0, 8, 9, 7, 10, 1, 0, 5, 10, 7, 11, 3, 1, 5, 6, 10, 11, 3, 6, 11, 9, 10, 8, 4, 3, 11, 6, 8, 10, 7, 4, 11, 2, 1, 4, 8, 0, 9, 0, 2, 9] := by
    rw [orientCCW_cons icosahedronVertices 2 7 9 _ _ _ _ _ rfl rfl rfl h6, icosahedron_test]
    rw [if_neg (by norm_num [GTS_M_ICOSAHEDRON_X, GTS_M_ICOSAHEDRON_Y, GTS_M_ICOSAHEDRON_Z])]
  have h4 : orientCCW (icosahedronVertices : List (Vector3 K)) [5, 6, 8, 2, 7, 9, 0, 5, 8, 7, 9, 10, 0, 1, 5, 7, 10, 11, 1, 3, 5, 6, 10, 11, 3, 6, 11, 9, 10, 8, 3, 4, 11, 6, 8, 10, 4, 7, 11, 1, 2, 4, 0, 8, 9, 0, 2, 9] = .ok [6, 5, 8, 2, 7, 9, 5, 0, 8, 9, 7, 10, 1, 0, 5, 10, 7, 11, 3, 1, 5, 6, 10, 11, 3, 6, 11, 9, 10, 8, 4, 3, 11, 6, 8, 10, 7, 4, 11, 2, 1, 4, 8, 0, 9, 0, 2, 9] := by
    rw [orientCCW_cons icosahedronVertices 5 6 8 _ _ _ _ _ rfl rfl rfl h5, icosahedron_test]
    rw [if_pos (by norm_num [GTS_M_ICOSAHEDRON_X, GTS_M_ICOSAHEDRON_Y, GTS_M_ICOSAHEDRON_Z])]
  have h3 : orientCCW (icosahedronVertices : List (Vector3 K)) [2, 4, 7, 5, 6, 8, 2, 7, 9, 0, 5, 8, 7, 9, 10, 0, 1, 5, 7, 10, 11, 1, 3, 5, 6, 10, 11, 3, 6, 11, 9, 10, 8, 3, 4, 11, 6, 8, 10, 4, 7, 11, 1, 2, 4, 0, 8, 9, 0, 2, 9] = .ok [2, 4, 7, 6, 5, 8, 2, 7, 9, 5, 0, 8, 9, 7, 10, 1, 0, 5, 10, 7, 11, 3, 1, 5, 6, 10, 11, 3, 6, 11, 9, 10, 8, 4, 3, 11, 6, 8, 10, 7, 4, 11, 2, 1, 4, 8, 0, 9, 0, 2, 9] := by
    rw [orientCCW_cons icosahedronVertices 2 4 7 _ _ _ _ _ rfl rfl rfl h4, icosahedron_test]
    rw [if_neg (by norm_num [GTS_M_ICOSAHEDRON_X, GTS_M_ICOSAHEDRON_Y, GTS_M_ICOSAHEDRON_Z])]
  have h2 : orientCCW (icosahedronVertices : List (Vector3 K)) [3, 5, 6, 2, 4, 7, 5, 6, 8, 2, 7, 9, 0, 5, 8, 7, 9, 10, 0, 1, 5, 7, 10, 11, 1, 3, 5, 6, 10, 11, 3, 6, 11, 9, 10, 8, 3, 4, 11, 6, 8, 10, 4, 7, 11, 1, 2, 4, 0, 8, 9, 0, 2, 9] = .ok [3, 5, 6, 2, 4, 7, 6, 5, 8, 2, 7, 9, 5, 0, 8, 9, 7, 10, 1, 0, 5, 10, 7, 11, 3, 1, 5, 6, 10, 11, 3, 6, 11, 9, 10, 8, 4, 3, 11, 6, 8, 10, 7, 4, 11, 2, 1, 4, 8, 0, 9, 0, 2, 9] := by
    rw [orientCCW_cons icosahedronVertices 3 5 6 _ _ _ _ _ rfl rfl rfl h3, icosahedron_test]
    rw [if_neg (by norm_num [GTS_M_ICOSAHEDRON_X, GTS_M_ICOSAHEDRON_Y, GTS_M_ICOSAHEDRON_Z])]
  have h1 : orientCCW (icosahedronVertices : List (Vector3 K)) [1, 3, 4, 3, 5, 6, 2, 4, 7, 5, 6, 8, 2, 7, 9, 0, 5, 8, 7, 9, 10, 0, 1, 5, 7, 10, 11, 1, 3, 5, 6, 10, 11, 3, 6, 11, 9, 10, 8, 3, 4, 11, 6, 8, 10, 4, 7, 11, 1, 2, 4, 0, 8, 9, 0, 2, 9] = .ok [1, 3, 4, 3, 5, 6, 2, 4, 7, 6, 5, 8, 2, 7, 9, 5, 0, 8, 9, 7, 10, 1, 0, 5, 10, 7, 11, 3, 1, 5, 6, 10, 11, 3, 6, 11, 9, 10, 8, 4, 3, 11, 6, 8, 10, 7, 4, 11, 2, 1, 4, 8, 0, 9, 0, 2, 9] := by
    rw [orientCCW_cons icosahedronVertices 1 3 4 _ _ _ _ _ rfl rfl rfl h2, icosahedron_test]
    rw [if_neg (by norm_num [GTS_M_ICOSAHEDRON_X, GTS_M_ICOSAHEDRON_Y, GTS_M_ICOSAHEDRON_Z])]
  have h0 : orientCCW (icosahedronVertices : List (Vector3 K)) [0, 1, 2, 1, 3, 4, 3, 5, 6, 2, 4, 7, 5, 6, 8, 2, 7, 9, 0, 5, 8, 7, 9, 10, 0, 1, 5, 7, 10, 11, 1, 3, 5, 6, 10, 11, 3, 6, 11, 9, 10, 8, 3, 4, 11, 6, 8, 10, 4, 7, 11, 1, 2, 4, 0, 8, 9, 0, 2, 9] = .ok [0, 1, 2, 1, 3, 4, 3, 5, 6, 2, 4, 7, 6, 5, 8, 2, 7, 9, 5, 0, 8, 9, 7, 10, 1, 0, 5, 10, 7, 11, 3, 1, 5, 6, 10, 11, 3, 6, 11, 9, 10, 8, 4, 3, 11, 6, 8, 10, 7, 4, 11, 2, 1, 4, 8, 0, 9, 0, 2, 9] := by
    rw [orientCCW_cons icosahedronVertices 0 1 2 _ _ _ _ _ rfl rfl rfl h1, icosahedron_test]
    rw [if_neg (by norm_num [GTS_M_ICOSAHEDRON_X, GTS_M_ICOSAHEDRON_Y, GTS_M_ICOSAHEDRON_Z])]
  exact h0

/-- The key of an edge between indices below 2^32. -/
theorem edgeKey_eq (a b : Nat) (ha : a < 2 ^ 32) (hb : b < 2 ^ 32) :
    edgeKey a b = 2 ^ 32 * a + b := by
  unfold edgeKey
  have h1 : a % 2 ^ 64 = a := Nat.mod_eq_of_lt (by omega)
  have h2 : b % 2 ^ 64 = b := Nat.mod_eq_of_lt (by omega)
  have h3 : a * 2 ^ 32 % 2 ^ 64 = 2 ^ 32 * a := by
    rw [Nat.mod_eq_of_lt (by omega)]
    ring
  rw [h1, h2, h3]
  exact (Nat.mul_add_lt_is_or hb a).symm

/-- The swapped key is the key of the opposite edge. -/
theorem edgeKeySwapped_edgeKey (a b : Nat) (ha : a < 2 ^ 32) (hb : b < 2 ^ 32) :
    edgeKeySwapped (edgeKey a b) = edgeKey b a := by
  rw [edgeKey_eq a b ha hb, edgeKey_eq b a hb ha]
  unfold edgeKeySwapped
  have h1 : (2 ^ 32 * a + b) * 2 ^ 32 % 2 ^ 64 = 2 ^ 32 * b := by omega
  have h2 : (2 ^ 32 * a + b) / 2 ^ 32 = a := by omega
  rw [h1, h2]
  exact (Nat.mul_add_lt_is_or ha b).symm

/-- Keys of edges between indices below 2^32 tell the edges apart. -/
theorem edgeKey_inj (a b c d : Nat) (ha : a < 2 ^ 32) (hb : b < 2 ^ 32) (hc : c < 2 ^ 32)
    (hd : d < 2 ^ 32) (h : edgeKey a b = edgeKey c d) : a = c ∧ b = d := by
  rw [edgeKey_eq a b ha hb, edgeKey_eq c d hc hd] at h
  omega

/-- Two edges are the same undirected edge when they are equal or opposite. -/
theorem undirected_eq_iff (a b c d : Nat) :
    undirected (c, d) = undirected (a, b) ↔ (c = a ∧ d = b) ∨ (c = b ∧ d = a) := by
  unfold undirected
  simp only
  split_ifs <;> simp only [Prod.mk.injEq] <;> omega

/-- Lookup in an association list with one more entry in front. -/
theorem lookup_cons_eq (k k1 v : Nat) (l : List (Nat × Nat)) :
    List.lookup k ((k1, v) :: l) = if k = k1 then some v else List.lookup k l := by
  rw [List.lookup_cons]
  by_cases h : k = k1
  · simp [h]
  · have hb : (k == k1) = false := by simpa using h
    rw [hb, if_neg h]

/-- One edge of a triangle, on the counts: the map keeps describing the set of
the edges seen, the indices it holds stay below the number of vertices, and
the number of vertices grows by one exactly when the edge is new. -/
theorem subdivideEdgeCount_spec (a b n : Nat) (m : List (Nat × Nat)) (S : Finset (Nat × Nat))
    (ha : a < 2 ^ 32) (hb : b < 2 ^ 32) (hinv : EdgeInv S m) (hmb : MapBelow n m) :
    EdgeInv (insert (undirected (a, b)) S) (subdivideEdgeCount a b (n, m)).2.2 ∧
    MapBelow (subdivideEdgeCount a b (n, m)).2.1 (subdivideEdgeCount a b (n, m)).2.2 ∧
    (subdivideEdgeCount a b (n, m)).1 < (subdivideEdgeCount a b (n, m)).2.1 ∧
    n ≤ (subdivideEdgeCount a b (n, m)).2.1 ∧
    (subdivideEdgeCount a b (n, m)).2.1 + S.card =
      n + (insert (undirected (a, b)) S).card := by
  have hS := hinv a b ha hb
  unfold subdivideEdgeCount
  dsimp only
  cases hl : List.lookup (edgeKey a b) m with
  | none =>
    have hnot : undirected (a, b) ∉ S := by
      intro hmem
      have := hS.mpr hmem
      rw [hl] at this
      cases this
    dsimp only
    refine ⟨?_, ?_, Nat.lt_succ_self n, Nat.le_succ n, ?_⟩
    · intro c d hc hd
      rw [lookup_cons_eq, lookup_cons_eq, edgeKeySwapped_edgeKey a b ha hb, Finset.mem_insert,
        undirected_eq_iff]
      by_cases h1 : edgeKey c d = edgeKey a b
      · have := edgeKey_inj c d a b hc hd ha hb h1
        simp [h1, this]
      · by_cases h2 : edgeKey c d = edgeKey b a
        · have := edgeKey_inj c d b a hc hd hb ha h2
          simp [h2, this]
        · rw [if_neg h1, if_neg h2, hinv c d hc hd]
          constructor
          · intro h
            exact Or.inr h
          · rintro (h | h)
            · rcases h with ⟨h3, h4⟩ | ⟨h3, h4⟩
              · exact absurd (by rw [h3, h4]) h1
              · exact absurd (by rw [h3, h4]) h2
            · exact h
    · intro k v hk
      rw [lookup_cons_eq, lookup_cons_eq] at hk
      split_ifs at hk
      · cases hk
        exact Nat.lt_succ_self n
      · cases hk
        exact Nat.lt_succ_self n
      · exact Nat.lt_succ_of_lt (hmb k v hk)
    · rw [Finset.card_insert_of_not_mem hnot]
      omega
  | some ind =>
    have hmem : undirected (a, b) ∈ S := by
      apply hS.mp
      rw [hl]
      rfl
    dsimp only
    rw [Finset.insert_eq_of_mem hmem]
    exact ⟨hinv, hmb, hmb _ _ hl, le_refl n, rfl⟩

/-- The undirected edges of a buffer that starts with the triangle
`(a, b, c)`. -/
theorem undirectedEdges_cons (a b c : Nat) (rest : List Nat) :
    undirectedEdges (a :: b :: c :: rest) =
      insert (undirected (a, b)) (insert (undirected (b, c))
        (insert (undirected (c, a)) (undirectedEdges rest))) := by
  simp only [undirectedEdges, triangleEdges, List.map_cons, List.toFinset_cons]

/-- The loop over the triangles of one level, on the counts.  For an index
buffer of `F` triangles over `cur` vertices it ends without a fault, lists
`12 * F` more indices, all below the new number of vertices, and adds one
vertex for every undirected edge that was not in `S`. -/
theorem subdivideLoopCount_spec (cur : Nat) (hcur : cur ≤ 2 ^ 32) :
    ∀ (F : Nat) (idx : List Nat) (n : Nat) (out : List Nat) (m : List (Nat × Nat))
      (S : Finset (Nat × Nat)),
      idx.length = 3 * F → (∀ i ∈ idx, i < cur) → cur ≤ n → EdgeInv S m → MapBelow n m →
      (∀ i ∈ out, i < n) →
      ∃ n1 out1 m1, subdivideLoopCount cur idx (n, out, m) = .ok (n1, out1, m1) ∧
        EdgeInv (S ∪ undirectedEdges idx) m1 ∧ MapBelow n1 m1 ∧ n ≤ n1 ∧
        n1 + S.card = n + (S ∪ undirectedEdges idx).card ∧
        out1.length = out.length + 12 * F ∧ (∀ i ∈ out1, i < n1) := by
  intro F
  induction F with
  | zero =>
    intro idx n out m S hlen _ _ hinv hmb hout
    have hnil : idx = [] := List.length_eq_zero.mp (by omega)
    subst hnil
    refine ⟨n, out, m, rfl, ?_, hmb, le_refl n, ?_, by omega, hout⟩
    · simpa [undirectedEdges, triangleEdges] using hinv
    · simp [undirectedEdges, triangleEdges]
  | succ F ih =>
    intro idx n out m S hlen hidx hn hinv hmb hout
    match idx, hlen, hidx with
    | [], hlen, _ => simp at hlen
    | [_], hlen, _ => simp at hlen; omega
    | [_, _], hlen, _ => simp at hlen; omega
    | a :: b :: c :: rest, hlen, hidx =>
      have ha : a < cur := hidx a (by simp)
      have hb : b < cur := hidx b (by simp)
      have hc : c < cur := hidx c (by simp)
      have hrest : ∀ i ∈ rest, i < cur := fun i hi => hidx i (by simp [hi])
      have hlen1 : rest.length = 3 * F := by
        simp only [List.length_cons] at hlen
        omega
      have h0 := subdivideEdgeCount_spec a b n m S (by omega) (by omega) hinv hmb
      have h1 := subdivideEdgeCount_spec b c (subdivideEdgeCount a b (n, m)).2.1
        (subdivideEdgeCount a b (n, m)).2.2 _ (by omega) (by omega) h0.1 h0.2.1
      have h2 := subdivideEdgeCount_spec c a
        (subdivideEdgeCount b c (subdivideEdgeCount a b (n, m)).2).2.1
        (subdivideEdgeCount b c (subdivideEdgeCount a b (n, m)).2).2.2 _ (by omega) (by omega)
        h1.1 h1.2.1
      have hstep : subdivideLoopCount cur (a :: b :: c :: rest) (n, out, m) =
          subdivideLoopCount cur rest
            ((subdivideEdgeCount c a
                (subdivideEdgeCount b c (subdivideEdgeCount a b (n, m)).2).2).2.1,
             out ++ [a, (subdivideEdgeCount a b (n, m)).1,
               (subdivideEdgeCount c a
                 (subdivideEdgeCount b c (subdivideEdgeCount a b (n, m)).2).2).1,
               (subdivideEdgeCount a b (n, m)).1, b,
               (subdivideEdgeCount b c (subdivideEdgeCount a b (n, m)).2).1,
               (subdivideEdgeCount c a
                 (subdivideEdgeCount b c (subdivideEdgeCount a b (n, m)).2).2).1,
               (subdivideEdgeCount a b (n, m)).1,
               (subdivideEdgeCount b c (subdivideEdgeCount a b (n, m)).2).1,
               (subdivideEdgeCount c a
                 (subdivideEdgeCount b c (subdivideEdgeCount a b (n, m)).2).2).1,
               (subdivideEdgeCount b c (subdivideEdgeCount a b (n, m)).2).1, c],
             (subdivideEdgeCount c a
                (subdivideEdgeCount b c (subdivideEdgeCount a b (n, m)).2).2).2.2) := by
        simp only [subdivideLoopCount]
        rw [if_pos ⟨ha, hb, hc⟩]
      generalize subdivideEdgeCount a b (n, m) = e0 at h0 h1 h2 hstep
      generalize subdivideEdgeCount b c e0.2 = e1 at h1 h2 hstep
      generalize subdivideEdgeCount c a e1.2 = e2 at h2 hstep
      have hout2 : ∀ i ∈ out ++ [a, e0.1, e2.1, e0.1, b, e1.1, e2.1, e0.1, e1.1, e2.1, e1.1, c],
          i < e2.2.1 := by
        intro i hi
        rw [List.mem_append] at hi
        rcases hi with hi | hi
        · have := hout i hi
          omega
        · simp only [List.mem_cons, List.mem_singleton, List.not_mem_nil, or_false] at hi
          rcases hi with h | h | h | h | h | h | h | h | h | h | h | h <;> subst h <;> omega
      obtain ⟨n1, out1, m1, hok, hinv1, hmb1, hle, hcard, hlen2, hbound⟩ :=
        ih rest e2.2.1 _ e2.2.2 _ hlen1 hrest (by omega) h2.1 h2.2.1 hout2
      have hset : insert (undirected (c, a)) (insert (undirected (b, c))
          (insert (undirected (a, b)) S)) ∪ undirectedEdges rest =
          S ∪ undirectedEdges (a :: b :: c :: rest) := by
        rw [undirectedEdges_cons]
        ext x
        simp only [Finset.mem_union, Finset.mem_insert]
        tauto
      rw [hset] at hinv1 hcard
      refine ⟨n1, out1, m1, hstep.trans hok, hinv1, hmb1, by omega, ?_, ?_, hbound⟩
      · have := h0.2.2.2.2
        have := h1.2.2.2.2
        have := h2.2.2.2.2
        omega
      · rw [hlen2, List.length_append]
        simp only [List.length_cons, List.length_nil]
        omega

/-- Checked indexing below the length succeeds. -/
theorem vectorAt_of_lt {α : Type} (v : List α) (i : Nat) (h : i < v.length) :
    ∃ a, vectorAt v i = .ok a := by
  unfold vectorAt
  rw [List.get?_eq_get h]
  exact ⟨_, rfl⟩

/-- One edge of a triangle: the vertex buffer grows as the count does, and
the index and the map are those of the count. -/
theorem subdivideEdge_count {K : Type} [Field K] (sqrt : K → K) (a b : Nat) (va vb : Vector3 K)
    (s : List (Vector3 K) × List (Nat × Nat)) :
    subdivideEdgeCount a b (s.1.length, s.2) =
      ((subdivideEdge sqrt a b va vb s).1, (subdivideEdge sqrt a b va vb s).2.1.length,
        (subdivideEdge sqrt a b va vb s).2.2) := by
  unfold subdivideEdge subdivideEdgeCount
  dsimp only
  cases List.lookup (edgeKey a b) s.2 with
  | none => simp
  | some ind => simp

/-- The loop over the triangles of one level ends as its count does. -/
theorem subdivideLoop_of_count {K : Type} [Field K] (sqrt : K → K) (cur : List (Vector3 K)) :
    ∀ (idx : List Nat) (vs : List (Vector3 K)) (out : List Nat) (m : List (Nat × Nat))
      (n1 : Nat) (out1 : List Nat) (m1 : List (Nat × Nat)),
      subdivideLoopCount cur.length idx (vs.length, out, m) = .ok (n1, out1, m1) →
      ∃ vs1, subdivideLoop sqrt cur idx (vs, out, m) = .ok (vs1, out1, m1) ∧ vs1.length = n1
  | [], vs, out, m, n1, out1, m1, h => by
    simp only [subdivideLoopCount, Except.ok.injEq, Prod.mk.injEq] at h
    obtain ⟨h1, h2, h3⟩ := h
    subst h2 h3
    exact ⟨vs, rfl, h1⟩
  | [_], vs, out, m, n1, out1, m1, h => by
    simp [subdivideLoopCount] at h
  | [_, _], vs, out, m, n1, out1, m1, h => by
    simp [subdivideLoopCount] at h
  | a :: b :: c :: rest, vs, out, m, n1, out1, m1, h => by
    simp only [subdivideLoopCount] at h
    split_ifs at h with hlt
    obtain ⟨v0, h0⟩ := vectorAt_of_lt cur a hlt.1
    obtain ⟨v1, h1⟩ := vectorAt_of_lt cur b hlt.2.1
    obtain ⟨v2, h2⟩ := vectorAt_of_lt cur c hlt.2.2
    have e0 := subdivideEdge_count sqrt a b v0 v1 (vs, m)
    dsimp only at e0
    rw [e0] at h
    dsimp only at h
    have e1 := subdivideEdge_count sqrt b c v1 v2 (subdivideEdge sqrt a b v0 v1 (vs, m)).2
    rw [e1] at h
    dsimp only at h
    have e2 := subdivideEdge_count sqrt c a v2 v0
      (subdivideEdge sqrt b c v1 v2 (subdivideEdge sqrt a b v0 v1 (vs, m)).2).2
    rw [e2] at h
    dsimp only at h
    simp only [subdivideLoop, h0, h1, h2]
    exact subdivideLoop_of_count sqrt cur rest _ _ _ _ _ _ h

/-- The ends of an undirected edge are the ends of the edge. -/
theorem undirected_lt (e : Nat × Nat) (w : Nat) (h : e.1 < w ∧ e.2 < w) :
    (undirected e).1 < w ∧ (undirected e).2 < w := by
  unfold undirected
  split_ifs
  · exact h
  · exact ⟨h.2, h.1⟩

/-- The bit-set count is the number of elements of the set of undirected
edges. -/
theorem countEdges_spec (w : Nat) :
    ∀ (es : List (Nat × Nat)) (seen n : Nat) (S : Finset (Nat × Nat)),
      (∀ e ∈ es, e.1 < w ∧ e.2 < w) →
      (∀ p : Nat × Nat, p.1 < w → p.2 < w → (seen.testBit (p.1 * w + p.2) = true ↔ p ∈ S)) →
      countEdges w es seen n + S.card = n + (S ∪ (es.map undirected).toFinset).card := by
  intro es
  induction es with
  | nil =>
    intro seen n S _ _
    simp [countEdges]
  | cons e es ih =>
    intro seen n S hes hseen
    have hu := undirected_lt e w (hes e (by simp))
    have hrest : ∀ e1 ∈ es, e1.1 < w ∧ e1.2 < w := fun e1 h1 => hes e1 (by simp [h1])
    have hS := hseen (undirected e) hu.1 hu.2
    simp only [countEdges, List.map_cons, List.toFinset_cons]
    by_cases hbit : seen.testBit ((undirected e).1 * w + (undirected e).2) = true
    · rw [if_pos hbit]
      have hmem := hS.mp hbit
      have hset : S ∪ insert (undirected e) (es.map undirected).toFinset =
          S ∪ (es.map undirected).toFinset := by
        ext x
        simp only [Finset.mem_union, Finset.mem_insert]
        constructor
        · rintro (h | h | h)
          · exact Or.inl h
          · exact Or.inl (h ▸ hmem)
          · exact Or.inr h
        · rintro (h | h)
          · exact Or.inl h
          · exact Or.inr (Or.inr h)
      rw [hset]
      exact ih seen n S hrest hseen
    · rw [if_neg hbit]
      have hnot : undirected e ∉ S := fun h => hbit (hS.mpr h)
      have hseen1 : ∀ p : Nat × Nat, p.1 < w → p.2 < w →
          ((seen ||| 2 ^ ((undirected e).1 * w + (undirected e).2)).testBit (p.1 * w + p.2)
            = true ↔ p ∈ insert (undirected e) S) := by
        intro p hp1 hp2
        rw [Nat.testBit_or, Bool.or_eq_true, Finset.mem_insert, hseen p hp1 hp2,
          Nat.testBit_two_pow, decide_eq_true_eq]
        constructor
        · rintro (h | h)
          · exact Or.inr h
          · left
            have h1 : (undirected e).1 = p.1 ∧ (undirected e).2 = p.2 := by
              have hw : 0 < w := by omega
              constructor
              · have := congrArg (fun x => x / w) h
                simp only at this
                rwa [Nat.mul_comm, Nat.mul_add_div hw, Nat.div_eq_of_lt hu.2,
                  Nat.mul_comm p.1, Nat.mul_add_div hw, Nat.div_eq_of_lt hp2] at this
              · have := congrArg (fun x => x % w) h
                simp only at this
                rwa [Nat.mul_comm, Nat.mul_add_mod, Nat.mod_eq_of_lt hu.2,
                  Nat.mul_comm p.1, Nat.mul_add_mod, Nat.mod_eq_of_lt hp2] at this
            exact (Prod.ext h1.1 h1.2).symm
        · rintro (h | h)
          · right
            rw [h]
          · exact Or.inl h
      have h := ih _ (n + 1) (insert (undirected e) S) hrest hseen1
      rw [Finset.card_insert_of_not_mem hnot] at h
      have hset : insert (undirected e) S ∪ (es.map undirected).toFinset =
          S ∪ insert (undirected e) (es.map undirected).toFinset := by
        ext x
        simp only [Finset.mem_union, Finset.mem_insert]
        tauto
      rw [hset] at h
      omega

/-- The number of undirected edges of an index buffer over `w` vertices, from
the bit-set count. -/
theorem card_undirectedEdges (w : Nat) (idx : List Nat)
    (h : ∀ e ∈ triangleEdges idx, e.1 < w ∧ e.2 < w) :
    (undirectedEdges idx).card = countEdges w (triangleEdges idx) 0 0 := by
  have := countEdges_spec w (triangleEdges idx) 0 0 ∅ h (by simp)
  simpa [undirectedEdges] using this.symm

/-- The loop over the levels ends as its count does. -/
theorem subdivide_of_count {K : Type} [Field K] (sqrt : K → K) :
    ∀ (n : Nat) (cur : List (Vector3 K) × List Nat) (n1 : Nat) (idx1 : List Nat),
      subdivideCount n (cur.1.length, cur.2) = .ok (n1, idx1) →
      ∃ vs1, subdivide sqrt n cur = .ok (vs1, idx1) ∧ vs1.length = n1 := by
  intro n
  induction n with
  | zero =>
    intro cur n1 idx1 h
    simp only [subdivideCount, Except.ok.injEq, Prod.mk.injEq] at h
    exact ⟨cur.1, by rw [← h.2]; rfl, h.1⟩
  | succ n ih =>
    intro cur n1 idx1 h
    simp only [subdivideCount] at h
    split at h
    · cases h
    · rename_i r hr
      obtain ⟨vs, hvs, hlen⟩ := subdivideLoop_of_count sqrt cur.1 cur.2 cur.1 [] [] r.1 r.2.1 r.2.2 hr
      simp only [subdivide, hvs]
      apply ih (vs, r.2.1)
      rw [hlen]
      exact h

/-- One level of subdivision, on the counts: a mesh of `F` triangles over `V`
vertices becomes one of `4 * F` triangles over `V` plus the number of its
undirected edges vertices, and its indices are below that number. -/
theorem subdivideCount_one (V F : Nat) (idx : List Nat) (hV : V ≤ 2 ^ 32)
    (hlen : idx.length = 3 * F) (hidx : ∀ i ∈ idx, i < V) :
    ∃ idx1, subdivideCount 1 (V, idx) = .ok (V + (undirectedEdges idx).card, idx1) ∧
      idx1.length = 3 * (4 * F) ∧ (∀ i ∈ idx1, i < V + (undirectedEdges idx).card) := by
  obtain ⟨n1, out1, m1, hok, -, -, -, hcard, hl, hb⟩ :=
    subdivideLoopCount_spec V hV F idx V [] [] ∅ hlen hidx (le_refl V)
      (by intro a b _ _; simp) (by intro k v h; simp at h) (by simp)
  simp only [Finset.card_empty, Finset.empty_union, Nat.add_zero] at hcard
  subst hcard
  refine ⟨out1, ?_, ?_, hb⟩
  · simp only [subdivideCount, hok]
  · rw [hl]
    simp only [List.length_nil]
    omega

/-- The loop over the levels, with the last level apart. -/
theorem subdivideCount_succ (n : Nat) :
    ∀ (cur r : Nat × List Nat), subdivideCount n cur = .ok r →
      subdivideCount (n + 1) cur = subdivideCount 1 r := by
  induction n with
  | zero =>
    intro cur r h
    simp only [subdivideCount, Except.ok.injEq] at h
    rw [h]
  | succ n ih =>
    intro cur r h
    have hunf : ∀ k, subdivideCount (k + 1) cur =
        match subdivideLoopCount cur.1 cur.2 (cur.1, [], []) with
        | .error e => .error e
        | .ok r => subdivideCount k (r.1, r.2.1) := fun _ => rfl
    rw [hunf] at h ⊢
    cases hr1 : subdivideLoopCount cur.1 cur.2 (cur.1, [], []) with
    | error e =>
      rw [hr1] at h
      cases h
    | ok r1 =>
      rw [hr1] at h
      exact ih _ r h

/-- The first level of subdivision of the icosahedron, on the counts. -/
theorem subdivideCount_icosahedron_1 :
    subdivideCount 1 (12, icosahedronOriented) = .ok (42, icosahedronLevel1) := by
  decide!

/-- The second level of subdivision of the icosahedron, on the counts. -/
theorem subdivideCount_icosahedron_2 :
    subdivideCount 1 (42, icosahedronLevel1) = .ok (162, icosahedronLevel2) := by
  decide!

/-- The mesh after two levels has 480 undirected edges. -/
theorem card_undirectedEdges_level2 : (undirectedEdges icosahedronLevel2).card = 480 := by
  rw [card_undirectedEdges 162 icosahedronLevel2 (by decide!)]
  decide!

/-- The third level of subdivision of the icosahedron, on the counts. -/
theorem subdivideCount_icosahedron_3 :
    ∃ idx3, subdivideCount 1 (162, icosahedronLevel2) = .ok (642, idx3) ∧
      idx3.length = 3 * 1280 := by
  obtain ⟨idx1, h1, h2, -⟩ := subdivideCount_one 162 320 icosahedronLevel2 (by norm_num)
    (by decide!) (by decide!)
  rw [card_undirectedEdges_level2] at h1
  exact ⟨idx1, h1, h2⟩

/-- The function `GenerateSphereTriangulation` runs the levels on the
oriented icosahedron. -/
theorem GenerateSphereTriangulation_eq {K : Type} [LinearOrderedField K] (sqrt : K → K)
    (realvertices : List (Vector3 K)) (realindices : List Nat) (levels : Int) :
    GenerateSphereTriangulation sqrt realvertices realindices levels =
      subdivide sqrt levels.toNat (icosahedronVertices, icosahedronOriented) := by
  unfold GenerateSphereTriangulation
  rw [orientCCW_icosahedron]

/-- The working buffers of `GenerateSphereTriangulation` after one, two and
three levels. -/
theorem GenerateSphereTriangulation_levels {K : Type} [LinearOrderedField K] (sqrt : K → K)
    (realvertices : List (Vector3 K)) (realindices : List Nat) :
    (∃ vs idx, GenerateSphereTriangulation sqrt realvertices realindices 1 = .ok (vs, idx) ∧
      vs.length = 42 ∧ idx.length = 3 * 80) ∧
    (∃ vs idx, GenerateSphereTriangulation sqrt realvertices realindices 2 = .ok (vs, idx) ∧
      vs.length = 162 ∧ idx.length = 3 * 320) ∧
    (∃ vs idx, GenerateSphereTriangulation sqrt realvertices realindices 3 = .ok (vs, idx) ∧
      vs.length = 642 ∧ idx.length = 3 * 1280) := by
  have h1 := subdivideCount_icosahedron_1
  have h2 : subdivideCount 2 (12, icosahedronOriented) = .ok (162, icosahedronLevel2) := by
    rw [subdivideCount_succ 1 _ _ h1]
    exact subdivideCount_icosahedron_2
  obtain ⟨idx3, h3, hlen3⟩ := subdivideCount_icosahedron_3
  have h3 : subdivideCount 3 (12, icosahedronOriented) = .ok (642, idx3) := by
    rw [subdivideCount_succ 2 _ _ h2]
    exact h3
  have hv : (icosahedronVertices : List (Vector3 K)).length = 12 := rfl
  refine ⟨?_, ?_, ?_⟩
  · obtain ⟨vs, hvs, hl⟩ := subdivide_of_count sqrt 1 (icosahedronVertices, icosahedronOriented)
      42 icosahedronLevel1 h1
    exact ⟨vs, icosahedronLevel1, by rw [GenerateSphereTriangulation_eq]; exact hvs, hl,
      by decide!⟩
  · obtain ⟨vs, hvs, hl⟩ := subdivide_of_count sqrt 2 (icosahedronVertices, icosahedronOriented)
      162 icosahedronLevel2 h2
    exact ⟨vs, icosahedronLevel2, by rw [GenerateSphereTriangulation_eq]; exact hvs, hl,
      by decide!⟩
  · obtain ⟨vs, hvs, hl⟩ := subdivide_of_count sqrt 3 (icosahedronVertices, icosahedronOriented)
      642 idx3 h3
    exact ⟨vs, idx3, by rw [GenerateSphereTriangulation_eq]; exact hvs, hl, hlen3⟩

/-- C26: one subdivision level of `GenerateSphereTriangulation` turns a
working mesh of `V` vertices (at most 2^32) and `F` triangles, whose indices
are below `V`, into one with `4 * F` triangles and `V + E` vertices, where `E`
is the number of distinct undirected edges.  From the icosahedron with 12
vertices and 20 triangles, the working buffers after 1, 2 and 3 levels hold
42/80, 162/320 and 642/1280 vertices/triangles. -/
theorem C26_subdivision_counts {K : Type} [LinearOrderedField K] (sqrt : K → K)
    (realvertices : List (Vector3 K)) (realindices : List Nat) :
    (∀ (vs : List (Vector3 K)) (idx : List Nat) (F : Nat),
      vs.length ≤ 2 ^ 32 → idx.length = 3 * F → (∀ i ∈ idx, i < vs.length) →
      ∃ vs1 idx1, subdivide sqrt 1 (vs, idx) = .ok (vs1, idx1) ∧
        vs1.length = vs.length + (undirectedEdges idx).card ∧ idx1.length = 3 * (4 * F)) ∧
    (icosahedronVertices : List (Vector3 K)).length = 12 ∧ icosahedronIndices.length = 3 * 20 ∧
    (∃ vs idx, GenerateSphereTriangulation sqrt realvertices realindices 1 = .ok (vs, idx) ∧
      vs.length = 42 ∧ idx.length = 3 * 80) ∧
    (∃ vs idx, GenerateSphereTriangulation sqrt realvertices realindices 2 = .ok (vs, idx) ∧
      vs.length = 162 ∧ idx.length = 3 * 320) ∧
    (∃ vs idx, GenerateSphereTriangulation sqrt realvertices realindices 3 = .ok (vs, idx) ∧
      vs.length = 642 ∧ idx.length = 3 * 1280) := by
  refine ⟨?_, rfl, rfl, GenerateSphereTriangulation_levels sqrt realvertices realindices⟩
  intro vs idx F hV hlen hidx
  obtain ⟨idx1, h1, h2, -⟩ := subdivideCount_one vs.length F idx hV hlen hidx
  obtain ⟨vs1, hvs, hl⟩ := subdivide_of_count sqrt 1 (vs, idx) _ idx1 h1
  exact ⟨vs1, idx1, hvs, hl, h2⟩

/-- C26 on the rationals with the constant 1 for the square root: the first
level adds the 30 edges of the icosahedron to its 12 vertices. -/
theorem C26_subdivision_counts_witness :
    ∃ vs1 idx1, subdivide (fun _ : ℚ => 1) 1 (icosahedronVertices, icosahedronOriented) =
        .ok (vs1, idx1) ∧
      vs1.length = 12 + (undirectedEdges icosahedronOriented).card ∧ idx1.length = 3 * (4 * 20) :=
  (C26_subdivision_counts (fun _ : ℚ => 1) [] []).1 icosahedronVertices icosahedronOriented 20
    (by decide) (by decide) (by decide)

/-- On a sphere `GenerateSphereTriangulation` takes the two buffers by value,
so the 642 vertices and 1280 triangles it builds stay in its own copies, and
`InitCollisionMesh` returns with the buffers of the geometry as it cleared
them.  Stated over the reals with the real square root, sine, cosine and
logarithm and without rounding, at the tessellation factor 1.  No geometry
that the reader builds is a sphere, so no run of the reader gets there. -/
theorem InitCollisionMesh_sphere_buffers (asserts : Bool) (r y z : ℝ)
    (vertices : List (Vector3 ℝ)) (indices : List Nat) :
    InitCollisionMesh asserts
        (MathLibrary.mk Real.sqrt Real.sin Real.cos Real.log (fun x => x) (fun x => x))
        { vGeomData := { x := r, y := y, z := z }, vertices := vertices, indices := indices,
          type := GeomType.GeomSphere } 1 =
      .ok (true, { vGeomData := { x := r, y := y, z := z }, vertices := [], indices := [],
                   type := GeomType.GeomSphere }) := by
  obtain ⟨vs, idx, h3, -, -⟩ :=
    (GenerateSphereTriangulation_levels Real.sqrt ([] : List (Vector3 ℝ)) []).2.2
  have hf : ¬ ((1 : ℝ) < 5368709 / 536870912) := by norm_num
  have hl : toInt32 (Real.log 1 / Real.log 2) = .ok 0 := by
    simp [toInt32]
  simp only [InitCollisionMesh, if_neg hf, InitCollisionMesh_sphere, hl]
  simp [h3]

/-! ## Identifiers of the writer -/

/-- The loop of `_ComputeId` keeps the length. -/
theorem _ComputeId_loop_length (l : List Char) : (_ComputeId_loop l).length = l.length := by
  induction l with
  | nil => rfl
  | cons c rest ih => simp [_ComputeId_loop, ih]

/-- The loop of `_ComputeId`, position by position. -/
theorem _ComputeId_loop_get (l : List Char) (i : Nat) :
    (_ComputeId_loop l).get? i =
      (l.get? i).map (fun c => if c = '/' ∨ c = ' ' ∨ c = '.' then '_' else c) := by
  induction l generalizing i with
  | nil => rfl
  | cons c rest ih =>
    cases i with
    | zero => rfl
    | succ i => simpa [_ComputeId_loop] using ih i

/-- C22: for every string `s`, `_ComputeId(s)` has the length of `s`, has
an underscore at each position where `s` has a slash, a space or a dot, and
the character of `s` at every other position; so it contains none of the
three characters. -/
theorem C22_computeId_characters (s : String) :
    (_ComputeId s).length = s.length ∧
    (∀ i c, s.data.get? i = some c →
      (c = '/' ∨ c = ' ' ∨ c = '.' → (_ComputeId s).data.get? i = some '_') ∧
      (¬ (c = '/' ∨ c = ' ' ∨ c = '.') → (_ComputeId s).data.get? i = some c)) ∧
    (∀ c ∈ (_ComputeId s).data, c ≠ '/' ∧ c ≠ ' ' ∧ c ≠ '.') := by
  refine ⟨?_, ?_, ?_⟩
  · rcases s with ⟨l⟩
    exact _ComputeId_loop_length l
  · intro i c hc
    have hg : (_ComputeId s).data.get? i =
        some (if c = '/' ∨ c = ' ' ∨ c = '.' then '_' else c) := by
      show (_ComputeId_loop s.data).get? i = _
      rw [_ComputeId_loop_get, hc]
      rfl
    constructor
    · intro h
      rw [hg, if_pos h]
    · intro h
      rw [hg, if_neg h]
  · intro c hc
    have hc1 : c ∈ _ComputeId_loop s.data := hc
    obtain ⟨i, hi⟩ := List.mem_iff_get?.mp hc1
    rw [_ComputeId_loop_get] at hi
    cases hs : s.data.get? i with
    | none =>
      rw [hs] at hi
      cases hi
    | some d =>
      rw [hs] at hi
      have hi1 : (if d = '/' ∨ d = ' ' ∨ d = '.' then '_' else d) = c := Option.some.inj hi
      split_ifs at hi1 with h
      · subst hi1
        decide
      · subst hi1
        exact ⟨fun h1 => h (Or.inl h1), fun h1 => h (Or.inr (Or.inl h1)),
          fun h1 => h (Or.inr (Or.inr h1))⟩

/-- C23, as stated, fails: the distinct names `a/b` and `a.b` get the same
identifier. -/
theorem C23_counterexample :
    "a/b" ≠ "a.b" ∧ _ComputeId "a/b" = _ComputeId "a.b" := by
  decide

/-- The loop of `_ComputeId` leaves a name without slash, space and dot as it
is. -/
theorem _ComputeId_loop_of_legal (l : List Char)
    (h : ∀ c ∈ l, c ≠ '/' ∧ c ≠ ' ' ∧ c ≠ '.') : _ComputeId_loop l = l := by
  induction l with
  | nil => rfl
  | cons c rest ih =>
    have hc := h c (by simp)
    have hn : ¬ (c = '/' ∨ c = ' ' ∨ c = '.') := by
      rintro (h1 | h1 | h1)
      · exact hc.1 h1
      · exact hc.2.1 h1
      · exact hc.2.2 h1
    simp only [_ComputeId_loop, if_neg hn, ih (fun d hd => h d (by simp [hd]))]

/-- C23, amended: names that contain no slash, space or dot are their own
identifiers, so two distinct names of this kind get distinct identifiers. -/
theorem C23_computeId_injective_on_legal (s t : String)
    (hs : ∀ c ∈ s.data, c ≠ '/' ∧ c ≠ ' ' ∧ c ≠ '.')
    (ht : ∀ c ∈ t.data, c ≠ '/' ∧ c ≠ ' ' ∧ c ≠ '.') (hne : s ≠ t) :
    _ComputeId s = s ∧ _ComputeId t = t ∧ _ComputeId s ≠ _ComputeId t := by
  have h1 : _ComputeId s = s := by
    simp [_ComputeId, _ComputeId_loop_of_legal s.data hs]
  have h2 : _ComputeId t = t := by
    simp [_ComputeId, _ComputeId_loop_of_legal t.data ht]
  exact ⟨h1, h2, by rw [h1, h2]; exact hne⟩

/-- C23, amended, on the names `joint1` and `joint2`. -/
theorem C23_computeId_injective_on_legal_witness :
    _ComputeId "joint1" ≠ _ComputeId "joint2" :=
  (C23_computeId_injective_on_legal "joint1" "joint2" (by decide) (by decide) (by decide)).2.2

/-! ## Order of the scenes -/

/-- The method `daeTArray::get` at a position of the array. -/
theorem daeGet_of_lt {α : Type} (a : List α) (i : Nat) (d : α) (h : i < a.length) :
    daeGet a (i : Int) = .ok (a.getD i d) := by
  unfold daeGet vectorAt
  rw [if_pos (Int.natCast_nonneg i), Int.toNat_natCast, List.get?_eq_get h]
  simp only
  rw [List.getD_eq_getElem _ _ h]
  rfl

/-- A `size_t` below 2^31 is its own `int`. -/
theorem sizeToInt_of_lt (n : Nat) (h : n < 2 ^ 31) : sizeToInt n = (n : Int) := by
  unfold sizeToInt
  have h1 : n % 2 ^ 32 = n := Nat.mod_eq_of_lt (by omega)
  rw [h1, if_pos h]

/-- The index `index0` does not wrap when three times the index is below
2^31. -/
theorem _ExtractGeometry_index0_of_lt (i : Nat) (h : 3 * i < 2 ^ 31) :
    _ExtractGeometry_index0 i = ((3 * i : Nat) : Int) := by
  unfold _ExtractGeometry_index0
  have h1 : (i * 3) % 2 ^ 64 = 3 * i := by omega
  rw [h1, sizeToInt_of_lt _ h]

/-- The counter `k` does not wrap when the sum is below 2^31. -/
theorem intPlusSize_of_lt (k s : Nat) (h : k + s < 2 ^ 31) :
    intPlusSize (k : Int) s = ((k + s : Nat) : Int) := by
  unfold intPlusSize
  have e : (k : Int) + (s : Int) = ((k + s : Nat) : Int) := by
    push_cast
    rfl
  rw [e, Int.emod_eq_of_lt (by omega) (by omega), Int.toNat_natCast, sizeToInt_of_lt _ h]

/-- One vertex, when the position `k` is one of the index array and the index
there selects three floats of the float array at positions below 2^31. -/
theorem _ExtractGeometry_vertex_spec {K : Type} [Field K] (indexArray : List Nat)
    (listFloats : List K) (fUnitScale : K) (k : Nat) (hk : k < indexArray.length)
    (hf : 3 * indexArray.getD k 0 + 2 < listFloats.length)
    (hw : 3 * indexArray.getD k 0 + 2 < 2 ^ 31) :
    _ExtractGeometry_vertex indexArray listFloats fUnitScale (k : Int) =
      .ok (scaledPosition listFloats fUnitScale (indexArray.getD k 0)) := by
  unfold _ExtractGeometry_vertex
  rw [daeGet_of_lt indexArray k 0 hk]
  simp only
  rw [_ExtractGeometry_index0_of_lt _ (by omega)]
  have hlt : ((3 * indexArray.getD k 0 : Nat) : Int) + 2 < 2 ^ 31 := by omega
  rw [if_pos hlt]
  have e1 : ((3 * indexArray.getD k 0 : Nat) : Int) + 1 =
      ((3 * indexArray.getD k 0 + 1 : Nat) : Int) := by
    push_cast
    rfl
  have e2 : ((3 * indexArray.getD k 0 : Nat) : Int) + 2 =
      ((3 * indexArray.getD k 0 + 2 : Nat) : Int) := by
    push_cast
    rfl
  rw [e2, e1, daeGet_of_lt listFloats _ 0 (by omega), daeGet_of_lt listFloats _ 0 (by omega),
    daeGet_of_lt listFloats _ 0 hf]
  rfl

/-- The `while` loop of a group reads `m` vertices when the positions
`k, k + stride, ...` below the length of the index array are `m`, the counter
does not wrap and each position selects three floats. -/
theorem _ExtractGeometry_groupVertices_spec {K : Type} [Field K] (stride : Nat)
    (indexArray : List Nat) (listFloats : List K) (fUnitScale : K)
    (hsize : indexArray.length < 2 ^ 31) (hfloats : listFloats.length ≤ 2 ^ 31) :
    ∀ (m k fuel : Nat) (vertices : List (Vector3 K)), m < fuel →
      (∀ j < m, k + j * stride < indexArray.length) → indexArray.length ≤ k + m * stride →
      k + m * stride < 2 ^ 31 →
      (∀ j < m, 3 * indexArray.getD (k + j * stride) 0 + 2 < listFloats.length) →
      _ExtractGeometry_groupVertices stride indexArray listFloats fUnitScale fuel (k : Int)
          vertices =
        .ok (vertices ++ (List.range m).map
          (fun j => scaledPosition listFloats fUnitScale (indexArray.getD (k + j * stride) 0))) := by
  intro m
  induction m with
  | zero =>
    intro k fuel vertices hfuel _ hlen _ _
    obtain ⟨f, rfl⟩ : ∃ f, fuel = f + 1 := ⟨fuel - 1, by omega⟩
    have hnot : ¬ ((k : Int) < (indexArray.length : Int)) := by
      simp only [Nat.zero_mul, Nat.add_zero] at hlen
      omega
    simp [_ExtractGeometry_groupVertices, sizeToInt_of_lt _ hsize, hnot]
  | succ m ih =>
    intro k fuel vertices hfuel hpos hlen hwrap hval
    obtain ⟨f, rfl⟩ : ∃ f, fuel = f + 1 := ⟨fuel - 1, by omega⟩
    have hk : k < indexArray.length := by simpa using hpos 0 (by omega)
    have hlt : (k : Int) < (indexArray.length : Int) := by omega
    have hv0 := hval 0 (by omega)
    simp only [Nat.zero_mul, Nat.add_zero] at hv0
    have hv := _ExtractGeometry_vertex_spec indexArray listFloats fUnitScale k hk hv0
      (by omega)
    have hstep : k + stride + m * stride = k + (m + 1) * stride := by
      rw [Nat.add_mul, Nat.one_mul]
      omega
    have hks : k + stride < 2 ^ 31 := by
      have : k + stride ≤ k + stride + m * stride := Nat.le_add_right _ _
      omega
    simp only [_ExtractGeometry_groupVertices, sizeToInt_of_lt _ hsize, if_pos hlt, hv,
      intPlusSize_of_lt k stride hks]
    rw [ih (k + stride) f _ (by omega)
      (fun j hj => by have := hpos (j + 1) (by omega); rw [Nat.add_mul] at this; omega)
      (by rw [Nat.add_mul] at hlen; omega)
      (by omega)
      (fun j hj => by
        have := hval (j + 1) (by omega)
        rw [Nat.add_mul, Nat.one_mul] at this
        rw [show k + stride + j * stride = k + (j * stride + stride) by omega]
        exact this)]
    rw [List.range_succ_eq_map, List.map_cons, List.map_map, List.append_assoc]
    simp only [List.singleton_append, Nat.zero_mul, Nat.add_zero, Except.ok.injEq,
      List.append_cancel_left_eq, List.cons.injEq, true_and]
    apply List.map_congr_left
    intro j _
    simp only [Function.comp, Nat.succ_eq_add_one, Nat.add_mul, Nat.one_mul]
    rw [show k + stride + j * stride = k + (j * stride + stride) by omega]


/-- The loop that emits the triangles of a fan. -/
theorem _ExtractGeometry_fanIndices_spec (s : Nat) :
    ∀ (n ivert : Nat) (indices : List Nat),
      _ExtractGeometry_fanIndices s n ivert indices =
        indices ++ (List.range n).flatMap (fun i => [s, ivert + i - 1, ivert + i]) := by
  intro n
  induction n with
  | zero =>
    intro ivert indices
    simp [_ExtractGeometry_fanIndices]
  | succ n ih =>
    intro ivert indices
    rw [_ExtractGeometry_fanIndices, ih, List.range_succ_eq_map, List.flatMap_cons,
      List.flatMap_map, List.append_assoc]
    simp only [Nat.add_zero, List.append_cancel_left_eq]
    congr 1
    funext i
    simp only [Function.comp, Nat.succ_eq_add_one]
    rw [show ivert + 1 + i = ivert + (i + 1) by omega]

/-- The loop that emits the triangles of a strip, from an even position. -/
theorem _ExtractGeometry_stripIndices_spec :
    ∀ (n ivert : Nat) (bFlip : Bool) (indices : List Nat),
      _ExtractGeometry_stripIndices n ivert bFlip indices =
        indices ++ (List.range n).flatMap (fun j =>
          [ivert + j - 2, if (bFlip != decide (j % 2 = 1)) then ivert + j else ivert + j - 1,
           if (bFlip != decide (j % 2 = 1)) then ivert + j - 1 else ivert + j]) := by
  intro n
  induction n with
  | zero =>
    intro ivert bFlip indices
    simp [_ExtractGeometry_stripIndices]
  | succ n ih =>
    intro ivert bFlip indices
    rw [_ExtractGeometry_stripIndices, ih, List.range_succ_eq_map, List.flatMap_cons,
      List.flatMap_map, List.append_assoc]
    have h0 : (bFlip != decide (0 % 2 = 1)) = bFlip := by cases bFlip <;> rfl
    simp only [Nat.add_zero, h0, List.append_cancel_left_eq]
    congr 1
    funext j
    simp only [Function.comp, Nat.succ_eq_add_one]
    have hb : ((!bFlip) != decide (j % 2 = 1)) = (bFlip != decide ((j + 1) % 2 = 1)) := by
      rcases Nat.mod_two_eq_zero_or_one j with h | h
      · have h1 : (j + 1) % 2 = 1 := by omega
        cases bFlip <;> simp [h, h1]
      · have h1 : (j + 1) % 2 = 0 := by omega
        cases bFlip <;> simp [h, h1]
    rw [hb, show ivert + 1 + j = ivert + (j + 1) by omega]

/-- The triangles of a fan, from the loop that emits them. -/
theorem fanTriangles_eq (s m : Nat) :
    (List.range (m - 2)).flatMap (fun i => [s, s + 2 + i - 1, s + 2 + i]) = fanTriangles s m := by
  unfold fanTriangles
  apply List.flatMap_congr
  intro i _
  rw [show s + 2 + i = s + (i + 2) by omega]

/-- The triangles of a strip, from the loop that emits them. -/
theorem stripTriangles_eq (s m : Nat) :
    (List.range (m - 2)).flatMap (fun j =>
      [s + 2 + j - 2, if (false != decide (j % 2 = 1)) then s + 2 + j else s + 2 + j - 1,
       if (false != decide (j % 2 = 1)) then s + 2 + j - 1 else s + 2 + j]) =
      stripTriangles s m := by
  unfold stripTriangles
  apply List.flatMap_congr
  intro j _
  rcases Nat.mod_two_eq_zero_or_one j with h | h
  · simp only [h, Nat.zero_ne_one, decide_False, bne_self_eq_false, Bool.false_eq_true, if_false,
      if_true]
    rw [show s + 2 + j - 2 = s + j by omega, show s + 2 + j - 1 = s + j + 1 by omega,
      show s + 2 + j = s + j + 2 by omega]
  · simp only [h, decide_True, Nat.one_ne_zero, if_false]
    rw [show s + 2 + j - 2 = s + j by omega, show s + 2 + j - 1 = s + j + 1 by omega,
      show s + 2 + j = s + j + 2 by omega]
    rfl


/-- The number of positions of a group is at most the length of its index
array. -/
theorem group_positions_le (k stride n m : Nat) (hpos : ∀ j < m, k + j * stride < n)
    (hlen : n ≤ k + m * stride) : m ≤ n := by
  rcases Nat.eq_zero_or_pos m with h0 | h0
  · omega
  · have h1 := hpos (m - 1) (by omega)
    rcases Nat.eq_zero_or_pos stride with hs | hs
    · subst hs
      have h2 := hpos 0 h0
      simp only [Nat.mul_zero, Nat.add_zero] at hlen h2
      omega
    · have h3 : m - 1 ≤ (m - 1) * stride := Nat.le_mul_of_pos_right _ hs
      omega

/-- The reservation of a fan with at least two indices does not throw. -/
theorem reserveIndices_fan (max_size size n : Nat) (hn : 2 ≤ n)
    (hmax : size + 3 * n ≤ max_size) (hmax2 : max_size < 2 ^ 64) :
    reserveIndices max_size size (sizeTimesThree (sizeMinusTwo n)) = .ok () := by
  unfold reserveIndices sizeTimesThree sizeMinusTwo
  have h1 : ((2 ^ 64 - 2) + n) % 2 ^ 64 = n - 2 := by omega
  rw [h1]
  have h2 : (size + 3 * (n - 2) % 2 ^ 64) % 2 ^ 64 = size + 3 * (n - 2) := by omega
  rw [h2, if_neg (by omega)]

/-- The reservation of a strip with at least two indices does not throw. -/
theorem reserveIndices_strip (max_size size n : Nat) (hn : 2 ≤ n)
    (hmax : size + 3 * n ≤ max_size) (hmax2 : max_size < 2 ^ 64) :
    reserveIndices max_size size (sizeMinusTwo n) = .ok () := by
  unfold reserveIndices sizeMinusTwo
  have h1 : ((2 ^ 64 - 2) + n) % 2 ^ 64 = n - 2 := by omega
  rw [h1]
  have h2 : (size + (n - 2)) % 2 ^ 64 = size + (n - 2) := by omega
  rw [h2, if_neg (by omega)]

/-- One group of `<trifans>` whose positions and indices are valid and below
2^31: unless the reservation throws, the vertices are the scaled positions that its indices
select and the triangles those of the fan. -/
theorem _ExtractGeometry_fanGroup_eq {K : Type} [Field K] (max_size vertexoffset stride : Nat)
    (indexArray : List Nat) (listFloats : List K) (fUnitScale : K)
    (geom : GEOMPROPERTIES K) (m : Nat)
    (hsize : indexArray.length < 2 ^ 31) (hfloats : listFloats.length ≤ 2 ^ 31)
    (hpos : ∀ j < m, vertexoffset + j * stride < indexArray.length)
    (hlen : indexArray.length ≤ vertexoffset + m * stride)
    (hwrap : vertexoffset + m * stride < 2 ^ 31)
    (hval : ∀ j < m,
      3 * indexArray.getD (vertexoffset + j * stride) 0 + 2 < listFloats.length) :
    _ExtractGeometry_fanGroup max_size vertexoffset stride indexArray listFloats fUnitScale geom =
      match reserveIndices max_size geom.indices.length (sizeTimesThree (sizeMinusTwo indexArray.length)) with
      | .error e => .error e
      | .ok _ =>
        .ok { geom with
          vertices := geom.vertices ++ (List.range m).map (fun j =>
            scaledPosition listFloats fUnitScale
              (indexArray.getD (vertexoffset + j * stride) 0))
          indices := geom.indices ++ fanTriangles geom.vertices.length m } := by
  have hm := group_positions_le vertexoffset stride indexArray.length m hpos hlen
  have hoff : vertexoffset < 2 ^ 31 := by
    have : vertexoffset ≤ vertexoffset + m * stride := Nat.le_add_right _ _
    omega
  have hv := _ExtractGeometry_groupVertices_spec stride indexArray listFloats fUnitScale hsize
    hfloats m vertexoffset (indexArray.length + 1) geom.vertices (by omega) hpos hlen hwrap hval
  unfold _ExtractGeometry_fanGroup
  rw [sizeToInt_of_lt vertexoffset hoff, hv]
  dsimp only
  rw [_ExtractGeometry_fanIndices_spec, List.length_append, List.length_map,
    List.length_range,
    show geom.vertices.length + m - (geom.vertices.length + 2) = m - 2 by omega,
    fanTriangles_eq]

/-- One group of `<tristrips>` whose positions and indices are valid and below
2^31: unless the reservation throws, the vertices are the scaled positions that its indices
select and the triangles those of the strip. -/
theorem _ExtractGeometry_stripGroup_eq {K : Type} [Field K] (max_size vertexoffset stride : Nat)
    (indexArray : List Nat) (listFloats : List K) (fUnitScale : K)
    (geom : GEOMPROPERTIES K) (m : Nat)
    (hsize : indexArray.length < 2 ^ 31) (hfloats : listFloats.length ≤ 2 ^ 31)
    (hpos : ∀ j < m, vertexoffset + j * stride < indexArray.length)
    (hlen : indexArray.length ≤ vertexoffset + m * stride)
    (hwrap : vertexoffset + m * stride < 2 ^ 31)
    (hval : ∀ j < m,
      3 * indexArray.getD (vertexoffset + j * stride) 0 + 2 < listFloats.length) :
    _ExtractGeometry_stripGroup max_size vertexoffset stride indexArray listFloats fUnitScale geom =
      match reserveIndices max_size geom.indices.length (sizeMinusTwo indexArray.length) with
      | .error e => .error e
      | .ok _ =>
        .ok { geom with
          vertices := geom.vertices ++ (List.range m).map (fun j =>
            scaledPosition listFloats fUnitScale
              (indexArray.getD (vertexoffset + j * stride) 0))
          indices := geom.indices ++ stripTriangles geom.vertices.length m } := by
  have hm := group_positions_le vertexoffset stride indexArray.length m hpos hlen
  have hoff : vertexoffset < 2 ^ 31 := by
    have : vertexoffset ≤ vertexoffset + m * stride := Nat.le_add_right _ _
    omega
  have hv := _ExtractGeometry_groupVertices_spec stride indexArray listFloats fUnitScale hsize
    hfloats m vertexoffset (indexArray.length + 1) geom.vertices (by omega) hpos hlen hwrap hval
  unfold _ExtractGeometry_stripGroup
  rw [sizeToInt_of_lt vertexoffset hoff, hv]
  dsimp only
  rw [_ExtractGeometry_stripIndices_spec, List.length_append, List.length_map,
    List.length_range,
    show geom.vertices.length + m - (geom.vertices.length + 2) = m - 2 by omega,
    stripTriangles_eq]

/-- A group of `<trifans>` or `<tristrips>` with the float array of its
position source. -/
theorem _ExtractGeometry_fan_some {K : Type} [Field K] (max_size vertexoffset stride : Nat)
    (indexArray : List Nat) (node : PositionSource K) (listFloats : List K)
    (geom : GEOMPROPERTIES K) (hfl : node.float_array = some listFloats) :
    _ExtractGeometry_fan max_size vertexoffset stride indexArray (some node) geom =
      _ExtractGeometry_fanGroup max_size vertexoffset stride indexArray listFloats
        node.fUnitScale geom ∧
    _ExtractGeometry_strip max_size vertexoffset stride indexArray (some node) geom =
      _ExtractGeometry_stripGroup max_size vertexoffset stride indexArray listFloats
        node.fUnitScale geom := by
  unfold _ExtractGeometry_fan _ExtractGeometry_strip
  dsimp only
  rw [hfl]
  exact ⟨rfl, rfl⟩

/-- The triangles of a fan and of a strip of `m` vertices are `m - 2`, none
for `m` below 3. -/
theorem fanTriangles_length (s m : Nat) :
    (fanTriangles s m).length = 3 * (m - 2) ∧ (stripTriangles s m).length = 3 * (m - 2) := by
  unfold fanTriangles stripTriangles
  generalize m - 2 = n
  constructor
  · induction n with
    | zero => rfl
    | succ n ih =>
      rw [List.range_succ, List.flatMap_append, List.length_append, ih]
      simp only [List.flatMap_cons, List.flatMap_nil, List.append_nil, List.length_cons,
        List.length_nil]
      omega
  · induction n with
    | zero => rfl
    | succ n ih =>
      rw [List.range_succ, List.flatMap_append, List.length_append, ih]
      simp only [List.flatMap_cons, List.flatMap_nil, List.append_nil]
      split_ifs <;> simp only [List.length_cons, List.length_nil] <;> omega

/-- The loop over the vertices of a polygon whose positions all lie inside the
index array and select floats at positions below 2^31. -/
theorem _ExtractGeometry_polygonVertices_spec {K : Type} [Field K] (stride : Nat)
    (indexArray : List Nat) (listFloats : List K) (fUnitScale : K)
    (hfloats : listFloats.length ≤ 2 ^ 31) :
    ∀ (j k : Nat) (vertices : List (Vector3 K)),
      (∀ i < j, k + i * stride < indexArray.length) → k + j * stride < 2 ^ 64 →
      (∀ i < j, 3 * indexArray.getD (k + i * stride) 0 + 2 < listFloats.length) →
      _ExtractGeometry_polygonVertices stride indexArray listFloats fUnitScale j k vertices =
        .ok (k + j * stride, vertices ++ (List.range j).map
          (fun i => scaledPosition listFloats fUnitScale (indexArray.getD (k + i * stride) 0))) := by
  intro j
  induction j with
  | zero =>
    intro k vertices _ _ _
    simp [_ExtractGeometry_polygonVertices]
  | succ j ih =>
    intro k vertices hpos hbound hval
    have hk : k < indexArray.length := by simpa using hpos 0 (by omega)
    have hv0 := hval 0 (by omega)
    simp only [Nat.zero_mul, Nat.add_zero] at hv0
    have hv := _ExtractGeometry_vertex_spec indexArray listFloats fUnitScale k hk hv0
      (by omega)
    have hb : k + stride + j * stride < 2 ^ 64 := by
      rw [Nat.add_mul, Nat.one_mul] at hbound
      omega
    have hmod : (k + stride) % 2 ^ 64 = k + stride := Nat.mod_eq_of_lt (by omega)
    simp only [_ExtractGeometry_polygonVertices, hv, hmod]
    rw [ih (k + stride) _
      (fun i hi => by have := hpos (i + 1) (by omega); rw [Nat.add_mul] at this; omega) hb
      (fun i hi => by
        have := hval (i + 1) (by omega)
        rw [Nat.add_mul, Nat.one_mul] at this
        rw [show k + stride + i * stride = k + (i * stride + stride) by omega]
        exact this)]
    rw [List.range_succ_eq_map, List.map_cons, List.map_map, List.append_assoc]
    have e1 : k + stride + j * stride = k + (j + 1) * stride := by
      rw [Nat.add_mul, Nat.one_mul]
      omega
    simp only [List.singleton_append, Nat.zero_mul, Nat.add_zero, Except.ok.injEq, Prod.mk.injEq,
      List.append_cancel_left_eq, List.cons.injEq, true_and, e1]
    apply List.map_congr_left
    intro i _
    simp only [Function.comp, Nat.succ_eq_add_one, Nat.add_mul, Nat.one_mul]
    rw [show k + stride + i * stride = k + (i * stride + stride) by omega]

/-- One polygon of a `<polylist>` whose positions all lie inside the index
array: its vertices are appended and fanned from the first. -/
theorem _ExtractGeometry_polygons_cons {K : Type} [Field K] (stride : Nat)
    (indexArray : List Nat) (listFloats : List K) (fUnitScale : K) (numverts k : Nat)
    (rest : List Nat) (geom : GEOMPROPERTIES K) (hfloats : listFloats.length ≤ 2 ^ 31)
    (hnum : 0 < numverts)
    (hin : k + (numverts - 1) * stride < indexArray.length)
    (hbound : k + numverts * stride < 2 ^ 64)
    (hval : ∀ i < numverts, 3 * indexArray.getD (k + i * stride) 0 + 2 < listFloats.length) :
    _ExtractGeometry_polygons stride indexArray listFloats fUnitScale (numverts :: rest) k geom =
      _ExtractGeometry_polygons stride indexArray listFloats fUnitScale rest
        (k + numverts * stride)
        { geom with
          vertices := geom.vertices ++ (List.range numverts).map (fun i =>
            scaledPosition listFloats fUnitScale (indexArray.getD (k + i * stride) 0))
          indices := geom.indices ++ fanTriangles geom.vertices.length numverts } := by
  have hpos : ∀ i < numverts, k + i * stride < indexArray.length := by
    intro i hi
    have h1 : i * stride ≤ (numverts - 1) * stride := Nat.mul_le_mul_right _ (by omega)
    omega
  have hmod : (k + (numverts - 1) * stride) % 2 ^ 64 = k + (numverts - 1) * stride := by
    apply Nat.mod_eq_of_lt
    have h1 : (numverts - 1) * stride ≤ numverts * stride := Nat.mul_le_mul_right _ (by omega)
    omega
  have hc : numverts > 0 ∧ (k + (numverts - 1) * stride) % 2 ^ 64 < indexArray.length := by
    rw [hmod]
    exact ⟨hnum, hin⟩
  have hv := _ExtractGeometry_polygonVertices_spec stride indexArray listFloats fUnitScale
    hfloats numverts k geom.vertices hpos hbound hval
  rw [_ExtractGeometry_polygons, if_pos hc]
  dsimp only
  rw [hv]
  dsimp only
  rw [_ExtractGeometry_fanIndices_spec, List.length_append, List.length_map, List.length_range,
    show geom.vertices.length + numverts - (geom.vertices.length + 2) = numverts - 2 by omega,
    fanTriangles_eq]

/-- A `<polylist>` of one polygon whose positions all lie inside the index
array: the vertices of the polygon, fanned from the first. -/
theorem _ExtractGeometry_polylist_single {K : Type} [Field K] (vertexoffset stride numverts : Nat)
    (indexArray : List Nat) (node : PositionSource K) (listFloats : List K)
    (hfl : node.float_array = some listFloats) (hfloats : listFloats.length ≤ 2 ^ 31)
    (hnum : 0 < numverts)
    (hin : vertexoffset + (numverts - 1) * stride < indexArray.length)
    (hbound : vertexoffset + numverts * stride < 2 ^ 64)
    (hval : ∀ i < numverts,
      3 * indexArray.getD (vertexoffset + i * stride) 0 + 2 < listFloats.length) :
    _ExtractGeometry_polylist vertexoffset stride [numverts] indexArray (some node) =
      .ok (false,
        { vGeomData := { x := 0, y := 0, z := 0 }
          vertices := (List.range numverts).map (fun i =>
            scaledPosition listFloats node.fUnitScale
              (indexArray.getD (vertexoffset + i * stride) 0))
          indices := fanTriangles 0 numverts
          type := GeomType.GeomTrimesh }) := by
  unfold _ExtractGeometry_polylist
  dsimp only
  rw [hfl]
  dsimp only
  rw [_ExtractGeometry_polygons_cons stride indexArray listFloats node.fUnitScale numverts
    vertexoffset [] _ hfloats hnum hin hbound hval, _ExtractGeometry_polygons]
  simp

/-- The reservation of a group with fewer than two indices throws when the
index buffer is empty: the `size_t` difference `getCount() - 2` wraps. -/
theorem reserveIndices_short (max_size n : Nat) (hn : n < 2) (h : max_size < 2 ^ 63) :
    reserveIndices max_size 0 (sizeMinusTwo n) = .error Fault.lengthError ∧
    reserveIndices max_size 0 (sizeTimesThree (sizeMinusTwo n)) = .error Fault.lengthError := by
  have h0 : sizeMinusTwo 0 = 2 ^ 64 - 2 := by decide
  have h1 : sizeMinusTwo 1 = 2 ^ 64 - 1 := by decide
  have h2 : sizeTimesThree (sizeMinusTwo 0) = 2 ^ 64 - 6 := by decide
  have h3 : sizeTimesThree (sizeMinusTwo 1) = 2 ^ 64 - 3 := by decide
  have hcases : n = 0 ∨ n = 1 := by omega
  rcases hcases with rfl | rfl
  · rw [h2, h0]
    unfold reserveIndices
    constructor
    · rw [if_pos]
      show max_size < (0 + (2 ^ 64 - 2)) % 2 ^ 64
      omega
    · rw [if_pos]
      show max_size < (0 + (2 ^ 64 - 6)) % 2 ^ 64
      omega
  · rw [h3, h1]
    unfold reserveIndices
    constructor
    · rw [if_pos]
      show max_size < (0 + (2 ^ 64 - 1)) % 2 ^ 64
      omega
    · rw [if_pos]
      show max_size < (0 + (2 ^ 64 - 3)) % 2 ^ 64
      omega

/-- A group of `<tristrips>` or of `<trifans>` with fewer than two indices
throws `std::length_error` when the index buffer is empty. -/
theorem _ExtractGeometry_group_short {K : Type} [Field K] (max_size vertexoffset stride : Nat)
    (indexArray : List Nat) (node : PositionSource K) (listFloats : List K)
    (geom : GEOMPROPERTIES K) (hfl : node.float_array = some listFloats)
    (hn : indexArray.length < 2) (hempty : geom.indices = []) (hmax : max_size < 2 ^ 63) :
    _ExtractGeometry_strip max_size vertexoffset stride indexArray (some node) geom =
      .error Fault.lengthError ∧
    _ExtractGeometry_fan max_size vertexoffset stride indexArray (some node) geom =
      .error Fault.lengthError := by
  obtain ⟨h1, h2⟩ := _ExtractGeometry_fan_some max_size vertexoffset stride indexArray node
    listFloats geom hfl
  obtain ⟨r1, r2⟩ := reserveIndices_short max_size indexArray.length hn hmax
  rw [h1, h2]
  unfold _ExtractGeometry_stripGroup _ExtractGeometry_fanGroup
  rw [hempty, List.length_nil, r1, r2]
  exact ⟨rfl, rfl⟩

/-- One group of `<tristrips>` with at least two indices, all positions and
indices below 2^31: the vertices are the scaled positions that its indices
select, the triangles those of the strip, `(s+j, s+j+1, s+j+2)` for even `j`
and `(s+j, s+j+2, s+j+1)` for odd `j`. -/
theorem _ExtractGeometry_strip_spec {K : Type} [Field K] (max_size vertexoffset stride : Nat)
    (indexArray : List Nat) (node : PositionSource K) (listFloats : List K)
    (geom : GEOMPROPERTIES K) (m : Nat)
    (hfl : node.float_array = some listFloats)
    (hsize : indexArray.length < 2 ^ 31) (hfloats : listFloats.length ≤ 2 ^ 31)
    (hpos : ∀ j < m, vertexoffset + j * stride < indexArray.length)
    (hlen : indexArray.length ≤ vertexoffset + m * stride)
    (hwrap : vertexoffset + m * stride < 2 ^ 31)
    (hval : ∀ j < m,
      3 * indexArray.getD (vertexoffset + j * stride) 0 + 2 < listFloats.length)
    (hn : 2 ≤ indexArray.length)
    (hmax : geom.indices.length + 3 * indexArray.length ≤ max_size) (hmax2 : max_size < 2 ^ 64) :
    _ExtractGeometry_strip max_size vertexoffset stride indexArray (some node) geom =
      .ok { geom with
        vertices := geom.vertices ++ (List.range m).map (fun j =>
          scaledPosition listFloats node.fUnitScale
            (indexArray.getD (vertexoffset + j * stride) 0))
        indices := geom.indices ++ stripTriangles geom.vertices.length m } := by
  rw [(_ExtractGeometry_fan_some max_size vertexoffset stride indexArray node listFloats
    geom hfl).2, _ExtractGeometry_stripGroup_eq max_size vertexoffset stride indexArray
    listFloats node.fUnitScale geom m hsize hfloats hpos hlen hwrap hval,
    reserveIndices_strip max_size geom.indices.length indexArray.length hn hmax hmax2]

/-- One group of `<trifans>` with at least two indices, all positions and
indices below 2^31: the vertices are the scaled positions that its indices
select, the triangles `(s, s+i-1, s+i)` for `i = 2 .. m-1`. -/
theorem _ExtractGeometry_fan_spec {K : Type} [Field K] (max_size vertexoffset stride : Nat)
    (indexArray : List Nat) (node : PositionSource K) (listFloats : List K)
    (geom : GEOMPROPERTIES K) (m : Nat)
    (hfl : node.float_array = some listFloats)
    (hsize : indexArray.length < 2 ^ 31) (hfloats : listFloats.length ≤ 2 ^ 31)
    (hpos : ∀ j < m, vertexoffset + j * stride < indexArray.length)
    (hlen : indexArray.length ≤ vertexoffset + m * stride)
    (hwrap : vertexoffset + m * stride < 2 ^ 31)
    (hval : ∀ j < m,
      3 * indexArray.getD (vertexoffset + j * stride) 0 + 2 < listFloats.length)
    (hn : 2 ≤ indexArray.length)
    (hmax : geom.indices.length + 3 * indexArray.length ≤ max_size) (hmax2 : max_size < 2 ^ 64) :
    _ExtractGeometry_fan max_size vertexoffset stride indexArray (some node) geom =
      .ok { geom with
        vertices := geom.vertices ++ (List.range m).map (fun j =>
          scaledPosition listFloats node.fUnitScale
            (indexArray.getD (vertexoffset + j * stride) 0))
        indices := geom.indices ++ fanTriangles geom.vertices.length m } := by
  rw [(_ExtractGeometry_fan_some max_size vertexoffset stride indexArray node listFloats
    geom hfl).1, _ExtractGeometry_fanGroup_eq max_size vertexoffset stride indexArray
    listFloats node.fUnitScale geom m hsize hfloats hpos hlen hwrap hval,
    reserveIndices_fan max_size geom.indices.length indexArray.length hn hmax hmax2]

/-- The groups that a decoder of `<trifans>` or `<tristrips>` visits start
with the first group when the count is not 0. -/
theorem take_primitivecount {α : Type} (count : Nat) (first : α) (rest : List α)
    (hcount : 0 < count) :
    ∃ n, List.take (if count > (first :: rest).length then (first :: rest).length else count)
      (first :: rest) = first :: List.take n rest := by
  by_cases h : count > (first :: rest).length
  · rw [if_pos h]
    exact ⟨rest.length, rfl⟩
  · rw [if_neg h]
    obtain ⟨c, rfl⟩ : ∃ c, count = c + 1 := ⟨count - 1, by omega⟩
    exact ⟨c, rfl⟩

/-- C27 fails when the first group of `<tristrips>` has fewer than two
indices: the claim lets a group of fewer than 3 vertices emit no triangle,
but the `size_t` value `indexArray.getCount() - 2` wraps, the index buffer is
asked to reserve that many places, and `reserve` throws `std::length_error`,
which ends the decoding of the whole element, whatever groups follow. -/
theorem C27_short_first_strip_throws {K : Type} [Field K]
    (max_size count vertexoffset stride : Nat) (indexArray : List Nat) (rest : List (List Nat))
    (node : PositionSource K) (listFloats : List K)
    (hfl : node.float_array = some listFloats) (hcount : 0 < count)
    (hn : indexArray.length < 2) (hmax : max_size < 2 ^ 63) :
    _ExtractGeometry_tristrips max_size count vertexoffset stride (indexArray :: rest)
        (some node) =
      .error Fault.lengthError := by
  obtain ⟨n, hn1⟩ := take_primitivecount count indexArray rest hcount
  unfold _ExtractGeometry_tristrips
  dsimp only
  rw [hn1, _ExtractGeometry_groups]
  rw [(_ExtractGeometry_group_short max_size vertexoffset stride indexArray node listFloats _ hfl
    hn rfl hmax).1]

/-- C27 on a `<tristrips>` whose only group holds the one index 0. -/
theorem C27_short_first_strip_throws_witness :
    _ExtractGeometry_tristrips (2 ^ 61 - 1) 1 0 1 [[0]]
        (some { fUnitScale := (1 : ℚ), float_array := some [0, 0, 0] }) =
      .error Fault.lengthError :=
  C27_short_first_strip_throws (2 ^ 61 - 1) 1 0 1 [0] []
    { fUnitScale := (1 : ℚ), float_array := some [0, 0, 0] } [0, 0, 0] rfl (by decide)
    (by decide) (by decide)

/-- C28 fails when the first group of `<trifans>` has fewer than two indices:
the claim lets a group of fewer than 3 vertices emit no triangle, but the
`size_t` value `3*(indexArray.getCount() - 2)` wraps, the index buffer is
asked to reserve that many places, and `reserve` throws `std::length_error`,
which ends the decoding of the whole element, whatever groups follow. -/
theorem C28_short_first_fan_throws {K : Type} [Field K]
    (max_size count vertexoffset stride : Nat) (indexArray : List Nat) (rest : List (List Nat))
    (node : PositionSource K) (listFloats : List K)
    (hfl : node.float_array = some listFloats) (hcount : 0 < count)
    (hn : indexArray.length < 2) (hmax : max_size < 2 ^ 63) :
    _ExtractGeometry_trifans max_size count vertexoffset stride (indexArray :: rest)
        (some node) =
      .error Fault.lengthError := by
  obtain ⟨n, hn1⟩ := take_primitivecount count indexArray rest hcount
  unfold _ExtractGeometry_trifans
  dsimp only
  rw [hn1, _ExtractGeometry_groups]
  rw [(_ExtractGeometry_group_short max_size vertexoffset stride indexArray node listFloats _ hfl
    hn rfl hmax).2]

/-- C28 on a `<trifans>` whose only group holds the one index 0. -/
theorem C28_short_first_fan_throws_witness :
    _ExtractGeometry_trifans (2 ^ 61 - 1) 1 0 1 [[0]]
        (some { fUnitScale := (1 : ℚ), float_array := some [0, 0, 0] }) =
      .error Fault.lengthError :=
  C28_short_first_fan_throws (2 ^ 61 - 1) 1 0 1 [0] []
    { fUnitScale := (1 : ℚ), float_array := some [0, 0, 0] } [0, 0, 0] rfl (by decide)
    (by decide) (by decide)

/-- The three corners of one triangle of `<triangles>`, or any number `j` of
corners, whose positions lie in the index array. -/
theorem _ExtractGeometry_triangle_spec {K : Type} [Field K] (stride : Nat)
    (indexArray : List Nat) (listFloats : List K) (fUnitScale : K)
    (hfloats : listFloats.length ≤ 2 ^ 31) :
    ∀ (j k : Nat) (geom : GEOMPROPERTIES K),
      (∀ i < j, k + i * stride < indexArray.length) → k + j * stride < 2 ^ 31 →
      (∀ i < j, 3 * indexArray.getD (k + i * stride) 0 + 2 < listFloats.length) →
      _ExtractGeometry_triangle stride indexArray listFloats fUnitScale j (k : Int) geom =
        .ok (((k + j * stride : Nat) : Int),
          { geom with
            indices := geom.indices ++ (List.range j).map (fun i => geom.vertices.length + i)
            vertices := geom.vertices ++ (List.range j).map (fun i =>
              scaledPosition listFloats fUnitScale (indexArray.getD (k + i * stride) 0)) }) := by
  intro j
  induction j with
  | zero =>
    intro k geom _ _ _
    simp [_ExtractGeometry_triangle]
  | succ j ih =>
    intro k geom hpos hwrap hval
    have hk : k < indexArray.length := by simpa using hpos 0 (by omega)
    have hv0 := hval 0 (by omega)
    simp only [Nat.zero_mul, Nat.add_zero] at hv0
    have hv := _ExtractGeometry_vertex_spec indexArray listFloats fUnitScale k hk hv0
      (by omega)
    have hstep : k + stride + j * stride = k + (j + 1) * stride := by
      rw [Nat.add_mul, Nat.one_mul]
      omega
    have hks : k + stride < 2 ^ 31 := by
      have : k + stride ≤ k + stride + j * stride := Nat.le_add_right _ _
      omega
    simp only [_ExtractGeometry_triangle, hv, intPlusSize_of_lt k stride hks]
    rw [ih (k + stride) _
      (fun i hi => by have := hpos (i + 1) (by omega); rw [Nat.add_mul] at this; omega)
      (by omega)
      (fun i hi => by
        have := hval (i + 1) (by omega)
        rw [Nat.add_mul, Nat.one_mul] at this
        rw [show k + stride + i * stride = k + (i * stride + stride) by omega]
        exact this)]
    have e1 : k + stride + j * stride = k + (j + 1) * stride := by
      rw [Nat.add_mul, Nat.one_mul]
      omega
    rw [e1, List.range_succ_eq_map, List.map_cons, List.map_cons, List.map_map, List.map_map]
    simp only [List.length_append, List.length_singleton, List.append_assoc,
      List.singleton_append, Nat.zero_mul, Nat.add_zero, Except.ok.injEq, Prod.mk.injEq,
      GEOMPROPERTIES.mk.injEq, List.append_cancel_left_eq, List.cons.injEq, true_and]
    refine ⟨?_, ?_, trivial⟩
    · apply List.map_congr_left
      intro i _
      simp only [Function.comp, Nat.succ_eq_add_one, Nat.add_mul, Nat.one_mul]
      rw [show k + stride + i * stride = k + (i * stride + stride) by omega]
    · apply List.map_congr_left
      intro i _
      simp only [Function.comp, Nat.succ_eq_add_one]
      omega

/-- The loop over the triangles of `<triangles>` when the positions of all
`3 * n` corners lie in the index array. -/
theorem _ExtractGeometry_trianglesLoop_spec {K : Type} [Field K] (stride : Nat)
    (indexArray : List Nat) (listFloats : List K) (fUnitScale : K)
    (hsize : indexArray.length < 2 ^ 64) (hfloats : listFloats.length ≤ 2 ^ 31) :
    ∀ (n k : Nat) (geom : GEOMPROPERTIES K),
      (∀ i < 3 * n, k + i * stride < indexArray.length) → k + 3 * n * stride < 2 ^ 31 →
      (∀ i < 3 * n, 3 * indexArray.getD (k + i * stride) 0 + 2 < listFloats.length) →
      _ExtractGeometry_trianglesLoop stride indexArray listFloats fUnitScale n (k : Int) geom =
        .ok { geom with
          indices := geom.indices ++
            (List.range (3 * n)).map (fun i => geom.vertices.length + i)
          vertices := geom.vertices ++ (List.range (3 * n)).map (fun i =>
            scaledPosition listFloats fUnitScale (indexArray.getD (k + i * stride) 0)) } := by
  intro n
  induction n with
  | zero =>
    intro k geom _ _ _
    simp [_ExtractGeometry_trianglesLoop]
  | succ n ih =>
    intro k geom hpos hwrap hval
    have hw3 : k + 3 * stride + 3 * n * stride = k + 3 * (n + 1) * stride := by
      rw [Nat.mul_add, Nat.add_mul]
      omega
    have h2 := hpos 2 (by omega)
    have hc : (((k : Int) + 2 * (stride : Int)) % 2 ^ 64).toNat < indexArray.length := by
      have e : (k : Int) + 2 * (stride : Int) = ((k + 2 * stride : Nat) : Int) := by
        push_cast
        rfl
      have e2 : ((k + 2 * stride : Nat) : Int) % 2 ^ 64 = ((k + 2 * stride : Nat) : Int) :=
        Int.emod_eq_of_lt (by omega) (by omega)
      rw [e, e2, Int.toNat_natCast]
      omega
    have ht := _ExtractGeometry_triangle_spec stride indexArray listFloats fUnitScale hfloats 3
      k geom (fun i hi => hpos i (by omega))
      (by
        have : k + 3 * stride ≤ k + 3 * stride + 3 * n * stride := Nat.le_add_right _ _
        omega)
      (fun i hi => hval i (by omega))
    rw [_ExtractGeometry_trianglesLoop, if_pos hc, ht]
    dsimp only
    rw [ih (k + 3 * stride) _
      (fun i hi => by
        have := hpos (3 + i) (by omega)
        rw [Nat.add_mul] at this
        omega)
      (by omega)
      (fun i hi => by
        have := hval (3 + i) (by omega)
        rw [Nat.add_mul] at this
        rw [show k + 3 * stride + i * stride = k + (3 * stride + i * stride) by omega]
        exact this)]
    have e3 : 3 * (n + 1) = 3 + 3 * n := by omega
    rw [e3, List.range_add, List.map_append, List.map_append, List.map_map, List.map_map]
    simp only [List.length_append, List.length_map, List.length_range, List.append_assoc,
      Except.ok.injEq, GEOMPROPERTIES.mk.injEq, List.append_cancel_left_eq, true_and]
    refine ⟨?_, ?_, trivial⟩
    · apply List.map_congr_left
      intro i _
      simp only [Function.comp, Nat.add_mul]
      rw [show k + 3 * stride + i * stride = k + (3 * stride + i * stride) by omega]
    · apply List.map_congr_left
      intro i _
      simp only [Function.comp]
      omega

/-- The decoder of `<triangles>` on positions and indices below 2^31: every
vertex is the position triple that the index at its position of the index
array selects in the float array, times the unit scale of the position source;
with the count `n` and an index array that holds the positions of all `3 * n`
corners it appends exactly `3 * n` vertices, with the indices `0 .. 3n-1` in
order. -/
theorem _ExtractGeometry_triangles_spec {K : Type} [Field K] (count vertexoffset stride : Nat)
    (indexArray : List Nat) (node : PositionSource K) (listFloats : List K)
    (hfl : node.float_array = some listFloats)
    (hsize : indexArray.length < 2 ^ 31) (hfloats : listFloats.length ≤ 2 ^ 31)
    (hpos : ∀ i < 3 * count, vertexoffset + i * stride < indexArray.length)
    (hwrap : vertexoffset + 3 * count * stride < 2 ^ 31)
    (hval : ∀ i < 3 * count,
      3 * indexArray.getD (vertexoffset + i * stride) 0 + 2 < listFloats.length) :
    _ExtractGeometry_triangles count vertexoffset stride indexArray (some node) =
      .ok (true,
        { vGeomData := { x := 0, y := 0, z := 0 }
          vertices := (List.range (3 * count)).map (fun i =>
            scaledPosition listFloats node.fUnitScale
              (indexArray.getD (vertexoffset + i * stride) 0))
          indices := List.range (3 * count)
          type := GeomType.GeomTrimesh }) := by
  have hoff : vertexoffset < 2 ^ 31 := by
    have : vertexoffset ≤ vertexoffset + 3 * count * stride := Nat.le_add_right _ _
    omega
  unfold _ExtractGeometry_triangles
  dsimp only
  rw [hfl]
  dsimp only
  rw [sizeToInt_of_lt vertexoffset hoff,
    _ExtractGeometry_trianglesLoop_spec stride indexArray listFloats node.fUnitScale
      (by omega) hfloats count vertexoffset _ hpos hwrap hval]
  simp

/-- C29 fails at an index whose triple wraps: `indexArray.get(k)*vertexStride`
is an unsigned product of 64 bits that is stored in the `int` `index0`.  For
the index 1431655766 the product is 2^32 + 2 and `index0` is 2, so the vertex
that `<triangles>` appends for it is made of the floats at the positions 2, 3
and 4, not of floats at the positions that the index selects, which the float
array does not even have. -/
theorem C29_wrapped_index_reads_other_floats {K : Type} [Field K]
    (fUnitScale f0 f1 f2 f3 f4 f5 : K) :
    3 * 1431655766 = 2 ^ 32 + 2 ∧
    _ExtractGeometry_index0 1431655766 = 2 ∧
    _ExtractGeometry_vertex [1431655766, 0, 1] [f0, f1, f2, f3, f4, f5] fUnitScale 0 =
      .ok { x := f2 * fUnitScale, y := f3 * fUnitScale, z := f4 * fUnitScale } ∧
    _ExtractGeometry_triangles 1 0 1 [1431655766, 0, 1]
        (some { fUnitScale := fUnitScale, float_array := some [f0, f1, f2, f3, f4, f5] }) =
      .ok (true,
        { vGeomData := { x := 0, y := 0, z := 0 }
          vertices := [{ x := f2 * fUnitScale, y := f3 * fUnitScale, z := f4 * fUnitScale },
                       { x := f0 * fUnitScale, y := f1 * fUnitScale, z := f2 * fUnitScale },
                       { x := f3 * fUnitScale, y := f4 * fUnitScale, z := f5 * fUnitScale }]
          indices := [0, 1, 2]
          type := GeomType.GeomTrimesh }) := by
  refine ⟨by norm_num, by decide, rfl, rfl⟩

/-! ## Index bounds and the cylinder -/

/-- The loop of the cylinder appends two vertices and twelve indices in every
iteration, and keeps the indices below the number of vertices. -/
theorem InitCollisionMesh_cylinderLoop_spec {K : Type} [Field K] (lib : MathLibrary K)
    (rad len dtheta : K) :
    ∀ (n i : Nat) (s : List (Vector3 K) × List Nat),
      (InitCollisionMesh_cylinderLoop lib rad len dtheta n i s).1.length = s.1.length + 2 * n ∧
      (InitCollisionMesh_cylinderLoop lib rad len dtheta n i s).2.length = s.2.length + 12 * n ∧
      ((∀ x ∈ s.2, x < s.1.length) →
        ∀ x ∈ (InitCollisionMesh_cylinderLoop lib rad len dtheta n i s).2,
          x < (InitCollisionMesh_cylinderLoop lib rad len dtheta n i s).1.length) := by
  intro n
  induction n with
  | zero =>
    intro i s
    exact ⟨rfl, rfl, fun h => h⟩
  | succ n ih =>
    intro i s
    rw [InitCollisionMesh_cylinderLoop]
    obtain ⟨h1, h2, h3⟩ := ih (i + 1)
      (s.1 ++ [{ x := rad * lib.cos (dtheta * (i : K)), y := rad * lib.sin (dtheta * (i : K)),
                 z := len },
               { x := rad * lib.cos (dtheta * (i : K)), y := rad * lib.sin (dtheta * (i : K)),
                 z := -len }],
       s.2 ++ [0, s.1.length, s.1.length - 2, 1, s.1.length - 1, s.1.length + 1,
               s.1.length - 2, s.1.length, s.1.length - 1,
               s.1.length, s.1.length - 1, s.1.length + 1])
    refine ⟨?_, ?_, ?_⟩
    · rw [h1]
      simp only [List.length_append, List.length_cons, List.length_nil]
      omega
    · rw [h2]
      simp only [List.length_append, List.length_cons, List.length_nil]
      omega
    · intro hinv
      apply h3
      intro x hx
      simp only [List.mem_append, List.mem_cons, List.mem_singleton, List.not_mem_nil,
        or_false, List.length_append, List.length_cons, List.length_nil] at hx ⊢
      rcases hx with hx | hx | hx | hx | hx | hx | hx | hx | hx | hx | hx | hx | hx
      · have := hinv x hx
        omega
      all_goals omega

/-- The function `InitCollisionMesh` on a cylinder whose tessellation factor
is at least 0.01, when the rounded product `t` of the factor and 24 is not
negative and small enough for `int`: the case of the cylinder returns the
result of its loop over `floor(t) + 4` iterations, which has
`2 + 2 * (floor(t) + 5)` vertices and twelve indices for each iteration. -/
theorem InitCollisionMesh_of_cylinder {K : Type} [LinearOrderedField K] [FloorRing K]
    (asserts : Bool) (lib : MathLibrary K) (g : GEOMPROPERTIES K) (f : K)
    (hcyl : g.type = GeomType.GeomCylinder) (hf : 1 / 100 ≤ f)
    (hf0 : 0 ≤ lib.roundDouble (f * 24))
    (hsmall : Int.floor (lib.roundDouble (f * 24)) + 3 < 2 ^ 31) :
    ∃ g1, InitCollisionMesh asserts lib g f = .ok (true, g1) ∧
      g1.vertices.length = 2 + 2 * ((Int.floor (lib.roundDouble (f * 24))).toNat + 5) ∧
      g1.indices.length = 12 * ((Int.floor (lib.roundDouble (f * 24))).toNat + 4) := by
  have hfl : 0 ≤ Int.floor (lib.roundDouble (f * 24)) := Int.floor_nonneg.mpr hf0
  have hnot : ¬ (f < 5368709 / 536870912) := by
    have : (5368709 : K) / 536870912 < 1 / 100 := by norm_num
    intro h
    linarith
  have hto : toInt32 (lib.roundDouble (f * 24)) = .ok (Int.floor (lib.roundDouble (f * 24))) := by
    unfold toInt32
    simp only [if_pos hf0]
    rw [if_pos ⟨by omega, by omega⟩]
  have hne : g.type ≠ GeomType.GeomTrimesh := by
    rw [hcyl]
    decide
  have hn : (Int.floor (lib.roundDouble (f * 24)) + 3 + 1).toNat =
      (Int.floor (lib.roundDouble (f * 24))).toNat + 4 := by omega
  unfold InitCollisionMesh
  rw [if_neg hne]
  simp only [hcyl, if_neg hnot]
  unfold InitCollisionMesh_cylinder
  simp only [hto, if_pos hsmall, List.nil_append]
  refine ⟨_, rfl, ?_, ?_⟩
  · dsimp only
    rw [(InitCollisionMesh_cylinderLoop_spec _ _ _ _ _ _ _).1, hn]
    simp only [List.length_cons, List.length_nil]
    omega
  · dsimp only
    rw [(InitCollisionMesh_cylinderLoop_spec _ _ _ _ _ _ _).2.1, hn]
    simp only [List.length_nil]
    omega

/-- The entries of the matrix of a quaternion. -/
theorem _matrixFromQuat_entries {K : Type} [Field K] (q : Rotation K) :
    _matrixFromQuat q 0 = 1 - 2 * q.y * q.y - 2 * q.z * q.z ∧
    _matrixFromQuat q 1 = 2 * (q.x * q.y - q.w * q.z) ∧
    _matrixFromQuat q 2 = 2 * (q.x * q.z + q.w * q.y) ∧
    _matrixFromQuat q 4 = 2 * (q.x * q.y + q.w * q.z) ∧
    _matrixFromQuat q 5 = 1 - 2 * q.x * q.x - 2 * q.z * q.z ∧
    _matrixFromQuat q 6 = 2 * (q.y * q.z - q.w * q.x) ∧
    _matrixFromQuat q 8 = 2 * (q.x * q.z - q.w * q.y) ∧
    _matrixFromQuat q 9 = 2 * (q.y * q.z + q.w * q.x) ∧
    _matrixFromQuat q 10 = 1 - 2 * q.x * q.x - 2 * q.y * q.y :=
  ⟨rfl, rfl, rfl, rfl, rfl, rfl, rfl, rfl, rfl⟩

/-- C40: the two ways of transforming a point agree: for every pose, with any
quaternion, and every vector, `_poseMult` of the pose is `_poseMult` of the
matrix that `_matrixFromPose` makes of it. -/
theorem C40_poseMult_agrees_with_matrix {K : Type} [Field K] (p : Pose K) (v : Vector3 K) :
    _poseMult_point p v = _poseMult_matrix_point (_matrixFromPose p) v := by
  obtain ⟨e0, e1, e2, e4, e5, e6, e8, e9, e10⟩ := _matrixFromQuat_entries p.rotation
  have h0 : _matrixFromPose p 0 = _matrixFromQuat p.rotation 0 := rfl
  have h1 : _matrixFromPose p 1 = _matrixFromQuat p.rotation 1 := rfl
  have h2 : _matrixFromPose p 2 = _matrixFromQuat p.rotation 2 := rfl
  have h3 : _matrixFromPose p 3 = p.position.x := rfl
  have h4 : _matrixFromPose p 4 = _matrixFromQuat p.rotation 4 := rfl
  have h5 : _matrixFromPose p 5 = _matrixFromQuat p.rotation 5 := rfl
  have h6 : _matrixFromPose p 6 = _matrixFromQuat p.rotation 6 := rfl
  have h7 : _matrixFromPose p 7 = p.position.y := rfl
  have h8 : _matrixFromPose p 8 = _matrixFromQuat p.rotation 8 := rfl
  have h9 : _matrixFromPose p 9 = _matrixFromQuat p.rotation 9 := rfl
  have h10 : _matrixFromPose p 10 = _matrixFromQuat p.rotation 10 := rfl
  have h11 : _matrixFromPose p 11 = p.position.z := rfl
  simp only [_poseMult_point, _poseMult_matrix_point, h0, h1, h2, h3, h4, h5, h6, h7, h8, h9,
    h10, h11, e0, e1, e2, e4, e5, e6, e8, e9, e10, Vector3.mk.injEq]
  refine ⟨?_, ?_, ?_⟩ <;> ring

/-- The quaternion that `_quatFromMatrix` reads from the matrix of a unit
quaternion is, before it is normalised, a multiple of the quaternion by a
factor that is not 0. -/
theorem _quatFromMatrix_branch_matrixFromQuat {K : Type} [LinearOrderedField K]
    (q : Rotation K) (hq : q.normSq = 1) :
    ∃ c : K, c ≠ 0 ∧ _quatFromMatrix_branch (_matrixFromQuat q) =
      { x := c * q.x, y := c * q.y, z := c * q.z, w := c * q.w } := by
  obtain ⟨e0, e1, e2, e4, e5, e6, e8, e9, e10⟩ := _matrixFromQuat_entries q
  unfold Rotation.normSq at hq
  unfold _quatFromMatrix_branch
  simp only [e0, e1, e2, e4, e5, e6, e8, e9, e10]
  clear e0 e1 e2 e4 e5 e6 e8 e9 e10
  split_ifs with h1 h2 h3 h4
  · refine ⟨4 * q.w, ?_, ?_⟩
    · intro h0
      have hw : q.w = 0 := by linarith
      rw [hw] at hq
      linarith
    · simp only [Rotation.mk.injEq]
      refine ⟨?_, ?_, ?_, ?_⟩
      · ring
      · ring
      · ring
      · linear_combination (-4) * hq
  · refine ⟨4 * q.z, ?_, ?_⟩
    · intro h0
      have hz : q.z = 0 := by linarith
      rw [hz] at h3
      linarith [mul_self_nonneg q.y]
    · simp only [Rotation.mk.injEq]
      refine ⟨?_, ?_, ?_, ?_⟩ <;> ring
  · refine ⟨4 * q.y, ?_, ?_⟩
    · intro h0
      have hy : q.y = 0 := by linarith
      rw [hy] at h2
      linarith [mul_self_nonneg q.x]
    · simp only [Rotation.mk.injEq]
      refine ⟨?_, ?_, ?_, ?_⟩ <;> ring
  · refine ⟨4 * q.z, ?_, ?_⟩
    · intro h0
      have hz : q.z = 0 := by linarith
      rw [hz] at h4
      linarith [mul_self_nonneg q.x]
    · simp only [Rotation.mk.injEq]
      refine ⟨?_, ?_, ?_, ?_⟩ <;> ring
  · refine ⟨4 * q.x, ?_, ?_⟩
    · intro h0
      have hx : q.x = 0 := by linarith
      have h1a := not_le.mp h1
      have h2a := not_lt.mp h2
      have h4a := not_lt.mp h4
      rw [hx] at h1a h2a h4a
      linarith [mul_self_nonneg q.y, mul_self_nonneg q.z]
    · simp only [Rotation.mk.injEq]
      refine ⟨?_, ?_, ?_, ?_⟩ <;> ring

/-- C39: over the reals, with the real square root, the quaternion that
`_quatFromMatrix` reads from the matrix `_matrixFromQuat(q)` of a unit
quaternion `q` is `q` or `-q`, in each of the four branches. -/
theorem C39_quat_matrix_round_trip (q : Rotation ℝ) (hq : q.normSq = 1) :
    _quatFromMatrix Real.sqrt (_matrixFromQuat q) = q ∨
    _quatFromMatrix Real.sqrt (_matrixFromQuat q) = q.neg := by
  obtain ⟨c, hc, hb⟩ := _quatFromMatrix_branch_matrixFromQuat q hq
  unfold Rotation.normSq at hq
  have hn : c * q.x * (c * q.x) + c * q.y * (c * q.y) + c * q.z * (c * q.z) +
      c * q.w * (c * q.w) = c * c := by
    linear_combination (c * c) * hq
  unfold _quatFromMatrix normalizeRotation
  rw [hb]
  simp only [hn, Real.sqrt_mul_self_eq_abs]
  rcases lt_or_gt_of_ne hc with hneg | hpos
  · right
    rw [abs_of_neg hneg]
    rcases q with ⟨x, y, z, w⟩
    simp only [Rotation.neg, Rotation.mk.injEq]
    refine ⟨?_, ?_, ?_, ?_⟩ <;> rw [div_neg, mul_div_cancel_left₀ _ hc]
  · left
    rw [abs_of_pos hpos]
    rcases q with ⟨x, y, z, w⟩
    simp only [Rotation.mk.injEq]
    refine ⟨?_, ?_, ?_, ?_⟩ <;> rw [mul_div_cancel_left₀ _ hc]

/-- C39 at the half turn about the third axis. -/
theorem C39_quat_matrix_round_trip_witness :
    _quatFromMatrix Real.sqrt
        (_matrixFromQuat ({ x := 0, y := 0, z := 1, w := 0 } : Rotation ℝ)) =
      { x := 0, y := 0, z := 1, w := 0 } ∨
    _quatFromMatrix Real.sqrt
        (_matrixFromQuat ({ x := 0, y := 0, z := 1, w := 0 } : Rotation ℝ)) =
      ({ x := 0, y := 0, z := 1, w := 0 } : Rotation ℝ).neg :=
  C39_quat_matrix_round_trip { x := 0, y := 0, z := 1, w := 0 }
    (by simp [Rotation.normSq])

/-! ## Parameter resolution -/

/-- The loop of `resolveFloat` finds the first new-param with the name that
resolves to a float. -/
theorem resolveFloatParams_eq (name : String) (parent : List Newparam) :
    resolveFloatParams name parent =
      match parent.find? (fun p => decide (p.sid = some name) && (newparamFloat p).isSome) with
      | some p => (newparamFloat p).getD 0
      | none => 0 := by
  induction parent with
  | nil => rfl
  | cons p rest ih =>
    rw [resolveFloatParams, List.find?_cons]
    by_cases hs : p.sid = some name
    · rw [if_pos hs]
      rcases hf : p.float with _ | f
      · rcases hr : p.SIDREF with _ | ⟨b, _ | f⟩
        · simp only [newparamFloat, hf, hr, hs, decide_True, Option.isSome_none, Bool.and_false]
          exact ih
        · simp only [newparamFloat, hf, hr, hs, decide_True, Option.isSome_none, Bool.and_false]
          exact ih
        · simp [newparamFloat, hf, hr, hs]
      · simp [newparamFloat, hf, hs]
    · rw [if_neg hs]
      simp only [hs, decide_False, Bool.false_and]
      exact ih

/-- The loop of `resolveBool` finds the first new-param with the name that
resolves to a boolean. -/
theorem resolveBoolParams_eq (name : String) (parent : List Newparam) :
    resolveBoolParams name parent =
      match parent.find? (fun p => decide (p.sid = some name) && (newparamBool p).isSome) with
      | some p => (newparamBool p).getD false
      | none => false := by
  induction parent with
  | nil => rfl
  | cons p rest ih =>
    rw [resolveBoolParams, List.find?_cons]
    by_cases hs : p.sid = some name
    · rw [if_pos hs]
      rcases hf : p.bool with _ | f
      · rcases hr : p.SIDREF with _ | ⟨_ | b, f⟩
        · simp only [newparamBool, hf, hr, hs, decide_True, Option.isSome_none, Bool.and_false]
          exact ih
        · simp only [newparamBool, hf, hr, hs, decide_True, Option.isSome_none, Bool.and_false]
          exact ih
        · simp [newparamBool, hf, hr, hs]
      · simp [newparamBool, hf, hs]
    · rw [if_neg hs]
      simp only [hs, decide_False, Bool.false_and]
      exact ih

/-- C32: `resolveFloat` returns the literal whenever there is one, whatever
the parameter table holds; for a parameter name it returns the value of the
first new-param of the parent with that sid that holds a float or a SIDREF
that resolves to a float; and it returns 0 when there is neither literal nor
name, or when no new-param of the name resolves.  `resolveBool` does the same
with booleans and `false`. -/
theorem C32_resolve_literal_param_default (parent : List Newparam) :
    (∀ paddr, resolveFloat paddr parent = resolveFloatSpec paddr parent) ∧
    (∀ paddr, resolveBool paddr parent = resolveBoolSpec paddr parent) ∧
    (∀ f param, resolveFloat { float := some f, param := param } parent = f) ∧
    (∀ b param, resolveBool { bool := some b, param := param } parent = b) ∧
    resolveFloat { float := none, param := none } parent = 0 ∧
    resolveBool { bool := none, param := none } parent = false ∧
    (∀ name, (∀ p ∈ parent, p.sid = some name → newparamFloat p = none) →
      resolveFloat { float := none, param := some name } parent = 0) ∧
    (∀ name, (∀ p ∈ parent, p.sid = some name → newparamBool p = none) →
      resolveBool { bool := none, param := some name } parent = false) := by
  refine ⟨?_, ?_, fun _ _ => rfl, fun _ _ => rfl, rfl, rfl, ?_, ?_⟩
  · intro paddr
    unfold resolveFloat resolveFloatSpec
    rcases paddr.float with _ | f
    · rcases paddr.param with _ | name
      · rfl
      · exact resolveFloatParams_eq name parent
    · rfl
  · intro paddr
    unfold resolveBool resolveBoolSpec
    rcases paddr.bool with _ | f
    · rcases paddr.param with _ | name
      · rfl
      · exact resolveBoolParams_eq name parent
    · rfl
  · intro name h
    show resolveFloatParams name parent = 0
    rw [resolveFloatParams_eq]
    have hnone : parent.find? (fun p => decide (p.sid = some name) &&
        (newparamFloat p).isSome) = none := by
      rw [List.find?_eq_none]
      intro p hp
      by_cases hs : p.sid = some name
      · simp [h p hp hs]
      · simp [hs]
    rw [hnone]
  · intro name h
    show resolveBoolParams name parent = false
    rw [resolveBoolParams_eq]
    have hnone : parent.find? (fun p => decide (p.sid = some name) &&
        (newparamBool p).isSome) = none := by
      rw [List.find?_eq_none]
      intro p hp
      by_cases hs : p.sid = some name
      · simp [h p hp hs]
      · simp [hs]
    rw [hnone]

/-- C36 fails whenever the list of link bindings is not empty: with a null
node the loop over the link bindings reads `pdomnode->getID()` in its first
iteration, so `_ExtractLink` stops there, whatever the link is. -/
theorem C36_null_node_with_link_binding (kv : List (DomNode × Nat))
    (axisBindings : List JointAxisBinding) (b : LinkBinding) (rest : List LinkBinding)
    (st : ModelInterface) (pdomlink : DomLink) :
    _ExtractLink { listKinematicsVisualBindings := kv, listAxisBindings := axisBindings,
                   listLinkBindings := b :: rest } none st pdomlink =
      .error Fault.nullDeref := by
  rcases pdomlink with ⟨name, id, attachment_full⟩
  simp only [_ExtractLink, _ExtractLink_findRigid]

/-! ## Scale of a node -/

/-- C24 fails for every matrix: `_decompose` sets the scale to (1, 1, 1)
whatever the matrix is, so the extents of a box and the radius of a sphere are
left as they are.  At the matrix with the rotation block `diag(2, 3, 4)` the
scale returned is (1, 1, 1) and not (2, 3, 4). -/
theorem C24_decompose_scale_is_one {K : Type} [LinearOrderedField K] (sqrt : K → K)
    (tm : Fin 12 → K) (g : GEOMPROPERTIES K) :
    (_decompose sqrt tm).1 = _poseFromMatrix sqrt tm ∧
    (_decompose sqrt tm).2 = { x := 1, y := 1, z := 1 } ∧
    (_decompose sqrt ![2, 0, 0, 0, 0, 3, 0, 0, 0, 0, 4, 0]).2 = { x := 1, y := 1, z := 1 } ∧
    (g.type = GeomType.GeomBox →
      (_ExtractGeometry_switch tm (_decompose sqrt tm).2 g).vGeomData = g.vGeomData) ∧
    (g.type = GeomType.GeomSphere →
      (_ExtractGeometry_switch tm (_decompose sqrt tm).2 g).vGeomData = g.vGeomData) := by
  refine ⟨rfl, rfl, rfl, ?_, ?_⟩
  · intro h
    simp only [_ExtractGeometry_switch, h, _decompose, mul_one]
  · intro h
    simp only [_ExtractGeometry_switch, h, _decompose, max_self, mul_one]

/-! ## Unit scale of the elements -/

/-- The loop over the children visits every child but `passet`. -/
theorem _processUserData_children_get (scale : ℚ) (passet : Option Nat) :
    ∀ (children : List UnitElement) (k i : Nat),
      (_processUserData_children scale passet k children).get? i =
        (children.get? i).map (fun c =>
          if passet = some (k + i) then UserDataTree.mk none [] else _processUserData scale c) := by
  intro children
  induction children with
  | nil =>
    intro k i
    simp [_processUserData_children]
  | cons c rest ih =>
    intro k i
    cases i with
    | zero => simp [_processUserData_children]
    | succ i =>
      simp only [_processUserData_children, List.get?_cons_succ]
      rw [ih (k + 1) i]
      rw [show k + 1 + i = k + (i + 1) by omega]

/-- The scale that an element hands to its children is the meter it
declares, or else the scale it was given. -/
theorem _processUserData_scale_eq (e : UnitElement) (scale : ℚ) :
    _processUserData_scale e.children scale = (declaredUnit e).getD scale := by
  unfold _processUserData_scale declaredUnit
  rcases getChild_asset e.children with _ | a
  · rfl
  · dsimp only
    cases a.meter <;> rfl

/-- The user data below an element that was given the scale `scale`. -/
theorem _processUserData_at :
    ∀ (path : List Nat) (e : UnitElement) (scale : ℚ),
      (elementAt e path).isSome → insideAsset e path = false →
      userDataAt (_processUserData scale e) path = some (unitScaleSpec scale e path) := by
  intro path
  induction path with
  | nil =>
    intro e scale _ _
    rcases e with ⟨n, m, children⟩
    have h := _processUserData_scale_eq (UnitElement.mk n m children) scale
    simp only [UnitElement.children] at h
    simp only [_processUserData, userDataAt, UserDataTree.scale, unitScaleSpec, ancestorsOrSelf,
      List.reverse_singleton, List.find?_cons, List.find?_nil, h]
    rcases hd : declaredUnit (UnitElement.mk n m children) with _ | d
    · simp
    · simp [hd]
  | cons i path ih =>
    intro e scale hel hin
    rcases e with ⟨n, m, children⟩
    have hs := _processUserData_scale_eq (UnitElement.mk n m children) scale
    simp only [UnitElement.children] at hs
    simp only [elementAt, UnitElement.children] at hel
    simp only [insideAsset, UnitElement.children] at hin
    rcases hc : children.get? i with _ | c
    · rw [hc] at hel
      cases hel
    · rw [hc] at hel hin
      have hne : ¬ getChild_assetIndex children = some i := by
        intro h
        rw [if_pos h] at hin
        cases hin
      rw [if_neg hne] at hin
      have h1 := ih c (_processUserData_scale children scale) hel hin
      simp only [_processUserData, userDataAt, UserDataTree.children,
        _processUserData_children_get, hc, Option.map_some', Nat.zero_add, if_neg hne, h1,
        Option.some.injEq]
      simp only [unitScaleSpec, ancestorsOrSelf, UnitElement.children, hc, List.reverse_cons,
        List.find?_append, List.find?_cons, List.find?_nil, hs]
      rcases hf : (ancestorsOrSelf c path).reverse.find? (fun e => (declaredUnit e).isSome)
        with _ | a
      · rcases hd : declaredUnit (UnitElement.mk n m children) with _ | d
        · simp
        · simp [hd]
      · have ha := List.find?_some hf
        rcases hda : declaredUnit a with _ | d
        · rw [hda] at ha
          cases ha
        · simp [hda]

/-- C33: after `_processUserData(root, 1.0)` every element that is not inside
the subtree of an `<asset>` child carries as unit scale the meter of the
nearest ancestor-or-self element with an `<asset>` child that declares a
`<unit>`, and 1.0 when there is no such element; the `<asset>` child of an
element is the one that `getChild("asset")` returns. -/
theorem C33_unit_scale_of_nearest_asset (root : UnitElement) (path : List Nat)
    (hel : (elementAt root path).isSome) (hin : insideAsset root path = false) :
    userDataAt (_processUserData 1 root) path = some (unitScaleSpec 1 root path) :=
  _processUserData_at path root 1 hel hin

/-- C33 on a document whose root declares the meter 1/100 and whose second
child declares the meter 1/1000: the third child has the scale 1/100, the
child of the second child the scale 1/1000. -/
theorem C33_unit_scale_of_nearest_asset_witness :
    userDataAt (_processUserData 1
      (UnitElement.mk "COLLADA" none
        [UnitElement.mk "asset" (some (1 / 100)) [UnitElement.mk "unit" none []],
         UnitElement.mk "library_geometries" none
           [UnitElement.mk "asset" (some (1 / 1000)) [], UnitElement.mk "geometry" none []],
         UnitElement.mk "library_nodes" none []])) [1, 1] = some (1 / 1000) ∧
    userDataAt (_processUserData 1
      (UnitElement.mk "COLLADA" none
        [UnitElement.mk "asset" (some (1 / 100)) [UnitElement.mk "unit" none []],
         UnitElement.mk "library_geometries" none
           [UnitElement.mk "asset" (some (1 / 1000)) [], UnitElement.mk "geometry" none []],
         UnitElement.mk "library_nodes" none []])) [2] = some (1 / 100) := by
  constructor
  · rw [C33_unit_scale_of_nearest_asset _ [1, 1] (by decide) (by decide)]
    decide!
  · rw [C33_unit_scale_of_nearest_asset _ [2] (by decide) (by decide)]
    decide!

/-! ## Principal axes of the inertia -/

/-- The constant `g_fEpsilon` is positive. -/
theorem g_fEpsilon_pos {K : Type} [LinearOrderedField K] : (0 : K) < ((g_fEpsilon : ℚ) : K) := by
  have h : (0 : ℚ) < g_fEpsilon := by
    unfold g_fEpsilon
    positivity
  exact_mod_cast h

/-- The function `Tridiagonal3` when the entry `mat[2]` is 0: the branch of
the identity. -/
theorem Tridiagonal3_of_zero {K : Type} [LinearOrderedField K] (sqrt : K → K) (mat : Nat → K)
    (hc : mat 2 = 0) :
    Tridiagonal3 sqrt mat =
      (fun i => ([1, 0, 0, 0, 1, 0, 0, 0, 1] : List K).getD i (mat i),
       fun i => ([mat 0, mat 4, mat 8] : List K).getD i 0,
       fun i => ([mat 1, mat 5, 0] : List K).getD i 0) := by
  have hlt : ¬ (|mat 2| ≥ ((g_fEpsilon : ℚ) : K)) := by
    rw [hc, abs_zero]
    exact not_le.mpr g_fEpsilon_pos
  unfold Tridiagonal3
  simp only [if_neg hlt]

/-- The loop over `iIter` stops at its first test when the subdiagonal entry
at `i0` is 0, and at once for `i0 = 2`. -/
theorem _QLAlgorithm3_iterate_of_zero {K : Type} [LinearOrderedField K] (sqrt : K → K)
    (i0 : Nat) (s : QLState K) (h : 2 ≤ i0 ∨ s.afSubDiag i0 = 0) :
    _QLAlgorithm3_iterate sqrt i0 32 s = (true, s) := by
  have hi1 : _QLAlgorithm3_i1 s.afDiag s.afSubDiag 2 i0 = i0 := by
    rw [_QLAlgorithm3_i1]
    by_cases hle : i0 ≤ 1
    · rcases h with h | h
      · omega
      · rw [if_pos hle]
        simp only [h, abs_zero, zero_add, if_true]
    · rw [if_neg hle]
  rw [_QLAlgorithm3_iterate]
  simp only [hi1, if_true]

/-- The function `_QLAlgorithm3` leaves a state whose subdiagonal is 0 at
the positions 0 and 1 as it is. -/
theorem _QLAlgorithm3_of_zero {K : Type} [LinearOrderedField K] (sqrt : K → K)
    (s : QLState K) (h0 : s.afSubDiag 0 = 0) (h1 : s.afSubDiag 1 = 0) :
    _QLAlgorithm3 sqrt s = (true, s) := by
  unfold _QLAlgorithm3
  simp only [_QLAlgorithm3_loop, _QLAlgorithm3_iterate_of_zero sqrt 0 s (Or.inr h0),
    _QLAlgorithm3_iterate_of_zero sqrt 1 s (Or.inr h1),
    _QLAlgorithm3_iterate_of_zero sqrt 2 s (Or.inl (le_refl 2)), if_true]

/-- The determinant that `EigenSymmetric3` computes is the determinant of the
matrix. -/
theorem EigenSymmetric3_fDet_eq {K : Type} [Field K] (fevecs : Nat → K) :
    EigenSymmetric3_fDet fevecs = (toMatrix3 fevecs).det := by
  rw [Matrix.det_fin_three]
  simp only [EigenSymmetric3_fDet, toMatrix3, Fin.val_zero, Fin.val_one, Fin.val_two]
  ring

/-- C37: for a diagonal inertia `EigenSymmetric3` returns the eigenvalues
`(ixx, iyy, izz)` in that order and the identity matrix: `Tridiagonal3` takes
the branch of the identity, with the subdiagonal 0, and the QL iteration stops
at its first test for each index, so no rotation is applied. -/
theorem C37_diagonal_inertia_kept {K : Type} [LinearOrderedField K] (sqrt : K → K)
    (ixx iyy izz : K) :
    (EigenSymmetric3 sqrt (fCovariance ixx 0 0 iyy 0 izz)).1 0 = ixx ∧
    (EigenSymmetric3 sqrt (fCovariance ixx 0 0 iyy 0 izz)).1 1 = iyy ∧
    (EigenSymmetric3 sqrt (fCovariance ixx 0 0 iyy 0 izz)).1 2 = izz ∧
    toMatrix3 (EigenSymmetric3 sqrt (fCovariance ixx 0 0 iyy 0 izz)).2 = 1 ∧
    toMatrix3 (Tridiagonal3 sqrt (fCovariance ixx 0 0 iyy 0 izz)).1 = 1 ∧
    (∀ i, (Tridiagonal3 sqrt (fCovariance ixx 0 0 iyy 0 izz)).2.2 i = 0) ∧
    _QLAlgorithm3 sqrt
        { m_aafEntry := (Tridiagonal3 sqrt (fCovariance ixx 0 0 iyy 0 izz)).1
          afDiag := (Tridiagonal3 sqrt (fCovariance ixx 0 0 iyy 0 izz)).2.1
          afSubDiag := (Tridiagonal3 sqrt (fCovariance ixx 0 0 iyy 0 izz)).2.2 } =
      (true,
        { m_aafEntry := (Tridiagonal3 sqrt (fCovariance ixx 0 0 iyy 0 izz)).1
          afDiag := (Tridiagonal3 sqrt (fCovariance ixx 0 0 iyy 0 izz)).2.1
          afSubDiag := (Tridiagonal3 sqrt (fCovariance ixx 0 0 iyy 0 izz)).2.2 }) := by
  have ht := Tridiagonal3_of_zero sqrt (fCovariance ixx 0 0 iyy 0 izz) rfl
  have hid : toMatrix3 (Tridiagonal3 sqrt (fCovariance ixx 0 0 iyy 0 izz)).1 = 1 := by
    rw [ht]
    ext i j
    fin_cases i <;> fin_cases j <;> rfl
  have hsub : ∀ i, (Tridiagonal3 sqrt (fCovariance ixx 0 0 iyy 0 izz)).2.2 i = 0 := by
    intro i
    rw [ht]
    match i with
    | 0 => rfl
    | 1 => rfl
    | 2 => rfl
    | _ + 3 => rfl
  have hql := _QLAlgorithm3_of_zero sqrt
    { m_aafEntry := (Tridiagonal3 sqrt (fCovariance ixx 0 0 iyy 0 izz)).1
      afDiag := (Tridiagonal3 sqrt (fCovariance ixx 0 0 iyy 0 izz)).2.1
      afSubDiag := (Tridiagonal3 sqrt (fCovariance ixx 0 0 iyy 0 izz)).2.2 } (hsub 0) (hsub 1)
  have hdet : ¬ EigenSymmetric3_fDet (Tridiagonal3 sqrt (fCovariance ixx 0 0 iyy 0 izz)).1 < 0 := by
    rw [EigenSymmetric3_fDet_eq, hid, Matrix.det_one]
    exact not_lt.mpr zero_le_one
  have he : EigenSymmetric3 sqrt (fCovariance ixx 0 0 iyy 0 izz) =
      ((Tridiagonal3 sqrt (fCovariance ixx 0 0 iyy 0 izz)).2.1,
       (Tridiagonal3 sqrt (fCovariance ixx 0 0 iyy 0 izz)).1) := by
    unfold EigenSymmetric3
    simp only [hql, if_neg hdet]
  refine ⟨?_, ?_, ?_, ?_, hid, hsub, hql⟩
  · rw [he, ht]
    rfl
  · rw [he, ht]
    rfl
  · rw [he, ht]
    rfl
  · rw [he]
    exact hid

/-- The reflection that `Tridiagonal3` builds: for `b = b1 * ell`,
`c = c1 * ell` and `b1^2 + c1^2 = 1` the matrix `Q` with the rows
`(1, 0, 0)`, `(0, b1, c1)`, `(0, c1, -b1)` is symmetric and orthogonal and
makes the symmetric matrix tridiagonal. -/
theorem Tridiagonal3_reflection {K : Type} [Field K] (a d e f ell b1 c1 : K)
    (hunit : b1 * b1 + c1 * c1 = 1) :
    (!![1, 0, 0; 0, b1, c1; 0, c1, -b1] : Matrix (Fin 3) (Fin 3) K).transpose =
      !![1, 0, 0; 0, b1, c1; 0, c1, -b1] ∧
    (!![1, 0, 0; 0, b1, c1; 0, c1, -b1] : Matrix (Fin 3) (Fin 3) K).transpose *
      !![1, 0, 0; 0, b1, c1; 0, c1, -b1] = 1 ∧
    (!![1, 0, 0; 0, b1, c1; 0, c1, -b1] : Matrix (Fin 3) (Fin 3) K).transpose *
      !![a, b1 * ell, c1 * ell; b1 * ell, d, e; c1 * ell, e, f] *
      !![1, 0, 0; 0, b1, c1; 0, c1, -b1] =
      !![a, ell, 0;
         ell, d + c1 * (2 * b1 * e + c1 * (f - d)), e - b1 * (2 * b1 * e + c1 * (f - d));
         0, e - b1 * (2 * b1 * e + c1 * (f - d)), f - c1 * (2 * b1 * e + c1 * (f - d))] := by
  have hT : (!![1, 0, 0; 0, b1, c1; 0, c1, -b1] : Matrix (Fin 3) (Fin 3) K).transpose =
      !![1, 0, 0; 0, b1, c1; 0, c1, -b1] := by
    ext i j
    fin_cases i <;> fin_cases j <;> rfl
  rw [hT]
  refine ⟨rfl, ?_, ?_⟩
  · ext i j
    fin_cases i <;> fin_cases j <;>
      simp [Matrix.mul_apply, Fin.sum_univ_three, Matrix.one_apply, Matrix.vecHead,
        Matrix.vecTail] <;>
      first
        | ring1
        | linear_combination hunit
  · ext i j
    fin_cases i <;> fin_cases j <;>
      simp [Matrix.mul_apply, Fin.sum_univ_three, Matrix.vecHead, Matrix.vecTail] <;>
      first
        | ring1
        | linear_combination ell * hunit
        | linear_combination d * hunit
        | linear_combination e * hunit
        | linear_combination f * hunit

/-- C30: over the reals, with the real square root, `Tridiagonal3` is an
orthogonal similarity transform: for a symmetric matrix `A` whose entry
`A[0][2]` is 0 or at least `g_fEpsilon` in absolute value, the matrix `Q`
that it writes over `mat` is symmetric and orthogonal, `Q^T A Q` is the
tridiagonal matrix of `diag` and `subd`, `subd[2]` is 0, and the sum of `diag`
is the trace of `A`. -/
theorem C30_tridiagonal_similarity (mat : Nat → ℝ)
    (h10 : mat 3 = mat 1) (h20 : mat 6 = mat 2) (h21 : mat 7 = mat 5)
    (hc : mat 2 = 0 ∨ ((g_fEpsilon : ℚ) : ℝ) ≤ |mat 2|) :
    (toMatrix3 (Tridiagonal3 Real.sqrt mat).1).transpose =
      toMatrix3 (Tridiagonal3 Real.sqrt mat).1 ∧
    (toMatrix3 (Tridiagonal3 Real.sqrt mat).1).transpose *
      toMatrix3 (Tridiagonal3 Real.sqrt mat).1 = 1 ∧
    (toMatrix3 (Tridiagonal3 Real.sqrt mat).1).transpose * toMatrix3 mat *
      toMatrix3 (Tridiagonal3 Real.sqrt mat).1 =
      !![(Tridiagonal3 Real.sqrt mat).2.1 0, (Tridiagonal3 Real.sqrt mat).2.2 0, 0;
         (Tridiagonal3 Real.sqrt mat).2.2 0, (Tridiagonal3 Real.sqrt mat).2.1 1,
           (Tridiagonal3 Real.sqrt mat).2.2 1;
         0, (Tridiagonal3 Real.sqrt mat).2.2 1, (Tridiagonal3 Real.sqrt mat).2.1 2] ∧
    (Tridiagonal3 Real.sqrt mat).2.2 2 = 0 ∧
    (Tridiagonal3 Real.sqrt mat).2.1 0 + (Tridiagonal3 Real.sqrt mat).2.1 1 +
      (Tridiagonal3 Real.sqrt mat).2.1 2 = mat 0 + mat 4 + mat 8 := by
  have hA : toMatrix3 mat =
      !![mat 0, mat 1, mat 2; mat 1, mat 4, mat 5; mat 2, mat 5, mat 8] := by
    ext i j
    fin_cases i <;> fin_cases j <;>
      simp [toMatrix3, h10, h20, h21]
  by_cases hge : |mat 2| ≥ ((g_fEpsilon : ℚ) : ℝ)
  · have hc0 : mat 2 ≠ 0 := by
      intro h0
      rw [h0, abs_zero] at hge
      exact absurd hge (not_le.mpr g_fEpsilon_pos)
    have hpos : 0 < mat 1 * mat 1 + mat 2 * mat 2 := by
      have := mul_self_pos.mpr hc0
      nlinarith [mul_self_nonneg (mat 1)]
    have hell : 0 < Real.sqrt (mat 1 * mat 1 + mat 2 * mat 2) := Real.sqrt_pos.mpr hpos
    have hsq := Real.mul_self_sqrt hpos.le
    have ht : Tridiagonal3 Real.sqrt mat =
        (fun i => ([1, 0, 0, 0, mat 1 / Real.sqrt (mat 1 * mat 1 + mat 2 * mat 2),
            mat 2 / Real.sqrt (mat 1 * mat 1 + mat 2 * mat 2), 0,
            mat 2 / Real.sqrt (mat 1 * mat 1 + mat 2 * mat 2),
            -(mat 1 / Real.sqrt (mat 1 * mat 1 + mat 2 * mat 2))] : List ℝ).getD i (mat i),
         fun i => ([mat 0,
            mat 4 + mat 2 / Real.sqrt (mat 1 * mat 1 + mat 2 * mat 2) *
              (2 * (mat 1 / Real.sqrt (mat 1 * mat 1 + mat 2 * mat 2)) * mat 5 +
                mat 2 / Real.sqrt (mat 1 * mat 1 + mat 2 * mat 2) * (mat 8 - mat 4)),
            mat 8 - mat 2 / Real.sqrt (mat 1 * mat 1 + mat 2 * mat 2) *
              (2 * (mat 1 / Real.sqrt (mat 1 * mat 1 + mat 2 * mat 2)) * mat 5 +
                mat 2 / Real.sqrt (mat 1 * mat 1 + mat 2 * mat 2) * (mat 8 - mat 4))] :
            List ℝ).getD i 0,
         fun i => ([Real.sqrt (mat 1 * mat 1 + mat 2 * mat 2),
            mat 5 - mat 1 / Real.sqrt (mat 1 * mat 1 + mat 2 * mat 2) *
              (2 * (mat 1 / Real.sqrt (mat 1 * mat 1 + mat 2 * mat 2)) * mat 5 +
                mat 2 / Real.sqrt (mat 1 * mat 1 + mat 2 * mat 2) * (mat 8 - mat 4)),
            0] : List ℝ).getD i 0) := by
      unfold Tridiagonal3
      simp only [if_pos hge]
    generalize Real.sqrt (mat 1 * mat 1 + mat 2 * mat 2) = ell at hell hsq ht
    have hQ : toMatrix3 (Tridiagonal3 Real.sqrt mat).1 =
        !![1, 0, 0; 0, mat 1 / ell, mat 2 / ell; 0, mat 2 / ell, -(mat 1 / ell)] := by
      rw [ht]
      ext i j
      fin_cases i <;> fin_cases j <;> rfl
    have hunit : mat 1 / ell * (mat 1 / ell) + mat 2 / ell * (mat 2 / ell) = 1 := by
      field_simp
      linarith
    have hb : mat 1 = mat 1 / ell * ell := by field_simp
    have hcc : mat 2 = mat 2 / ell * ell := by field_simp
    obtain ⟨r1, r2, r3⟩ := Tridiagonal3_reflection (mat 0) (mat 4) (mat 5) (mat 8) ell
      (mat 1 / ell) (mat 2 / ell) hunit
    rw [← hb, ← hcc] at r3
    rw [hQ, hA]
    refine ⟨r1, r2, ?_, ?_, ?_⟩
    · rw [r3, ht]
      rfl
    · rw [ht]
      rfl
    · rw [ht]
      show mat 0 +
          (mat 4 + mat 2 / ell * (2 * (mat 1 / ell) * mat 5 + mat 2 / ell * (mat 8 - mat 4))) +
          (mat 8 - mat 2 / ell * (2 * (mat 1 / ell) * mat 5 + mat 2 / ell * (mat 8 - mat 4))) =
        mat 0 + mat 4 + mat 8
      ring
  · have hc0 : mat 2 = 0 := by
      rcases hc with h | h
      · exact h
      · exact absurd h hge
    have ht := Tridiagonal3_of_zero Real.sqrt mat hc0
    have hQ : toMatrix3 (Tridiagonal3 Real.sqrt mat).1 = 1 := by
      rw [ht]
      ext i j
      fin_cases i <;> fin_cases j <;> rfl
    rw [hQ, hA, hc0]
    refine ⟨Matrix.transpose_one, ?_, ?_, ?_, ?_⟩
    · rw [Matrix.transpose_one, Matrix.one_mul]
    · rw [Matrix.transpose_one, Matrix.one_mul, Matrix.mul_one, ht]
      rfl
    · rw [ht]
      rfl
    · rw [ht]
      rfl

/-- C30 at the symmetric matrix with the rows (1, 3, 4), (3, 2, 0),
(4, 0, 5): the trace of the tridiagonal matrix is 8. -/
theorem C30_tridiagonal_similarity_witness :
    (Tridiagonal3 Real.sqrt (fCovariance 1 3 4 2 0 5)).2.2 2 = 0 ∧
    (Tridiagonal3 Real.sqrt (fCovariance 1 3 4 2 0 5)).2.1 0 +
        (Tridiagonal3 Real.sqrt (fCovariance 1 3 4 2 0 5)).2.1 1 +
        (Tridiagonal3 Real.sqrt (fCovariance 1 3 4 2 0 5)).2.1 2 =
      fCovariance (1 : ℝ) 3 4 2 0 5 0 + fCovariance (1 : ℝ) 3 4 2 0 5 4 +
        fCovariance (1 : ℝ) 3 4 2 0 5 8 :=
  have hc : ((g_fEpsilon : ℚ) : ℝ) ≤ |fCovariance (1 : ℝ) 3 4 2 0 5 2| := by
    have h4 : fCovariance (1 : ℝ) 3 4 2 0 5 2 = 4 := rfl
    rw [h4, abs_of_pos (by norm_num)]
    unfold g_fEpsilon
    norm_num
  (C30_tridiagonal_similarity (fCovariance 1 3 4 2 0 5) rfl rfl rfl (Or.inr hc)).2.2.2

/-! ## Joint limits from the writer to the reader -/

/-- The axis-info rule of the reader on limits that are literals, for a joint
that is not locked. -/
theorem _ExtractLink_limits_of_axisInfo (pdomaxis : AxisConstraint) (k : KinematicsAxisInfo)
    (mai : Option MotionAxisInfo) (pjoint : Joint) (lo hi : ℚ)
    (hlocked : k.locked = some { bool := some false })
    (hlimits : k.limits = some { min := { float := some lo }, max := { float := some hi } })
    (htype : pjoint.type = JointType.REVOLUTE ∨ pjoint.type = JointType.PRISMATIC)
    (hne : ¬ ((if pjoint.type = JointType.REVOLUTE then M_PI / 180 else k.scale) * lo = 0 ∧
      (if pjoint.type = JointType.REVOLUTE then M_PI / 180 else k.scale) * hi = 0)) :
    (_ExtractLink_limits pdomaxis (some k) mai pjoint).type = pjoint.type ∧
    (_ExtractLink_limits pdomaxis (some k) mai pjoint).limits.lower =
      (if pjoint.type = JointType.REVOLUTE then M_PI / 180 else k.scale) * lo ∧
    (_ExtractLink_limits pdomaxis (some k) mai pjoint).limits.upper =
      (if pjoint.type = JointType.REVOLUTE then M_PI / 180 else k.scale) * hi := by
  have hm : (_ExtractLink_motion mai pjoint).type = pjoint.type := by
    unfold _ExtractLink_motion
    rcases mai with _ | m
    · rfl
    · rcases m with ⟨ax, np, _ | s, _ | a⟩ <;> rfl
  have hl : _ExtractLink_locked (some k) = false := by
    simp [_ExtractLink_locked, hlocked, resolveBool]
  unfold _ExtractLink_limits
  generalize _ExtractLink_motion mai pjoint = j1 at hm ⊢
  rw [← hm] at hne htype ⊢
  have hr : _ExtractLink_axisInfoLimits (some k) j1 =
      ({ j1 with limits := { j1.limits with
          lower := (if j1.type = JointType.REVOLUTE then M_PI / 180 else k.scale) * lo,
          upper := (if j1.type = JointType.REVOLUTE then M_PI / 180 else k.scale) * hi } },
        true) := by
    simp only [_ExtractLink_axisInfoLimits, hl, hlimits, resolveFloat, if_pos htype,
      if_neg hne, Bool.false_eq_true, if_false]
  simp only [hr, hl, Option.isNone_some, Bool.false_eq_true, false_or, not_true_eq_false,
    and_false, if_false, _ExtractLink_velocity]
  split_ifs <;> exact ⟨rfl, rfl, rfl⟩

/-- C38: the limits and the type of a joint survive the way through the
writer and the reader.  For a REVOLUTE joint with limits `(l, u)` that are not
both 0 and without safety limits the writer emits the axis-info limits
`(l * 180 / pi, u * 180 / pi)` with `locked` false, and a revolute axis; the
reader makes a REVOLUTE joint with the limits `(l, u)` of them.  For a
PRISMATIC joint the writer emits `(l, u)` and a prismatic axis, and the reader,
at the unit scale 1, makes a PRISMATIC joint with the limits `(l, u)`. -/
theorem C38_limits_round_trip (lim : JointLimits) (mimic : Bool) (eid : Nat)
    (axis : List (Option Nat)) (mai : Option MotionAxisInfo) (j0 : Joint)
    (hne : ¬ (lim.lower = 0 ∧ lim.upper = 0)) :
    (_WriteRobot_axisInfo { type := JointType.REVOLUTE, limits := some lim, mimic := mimic }).limits =
      some { min := { float := some (lim.lower * (180 / M_PI)) },
             max := { float := some (lim.upper * (180 / M_PI)) } } ∧
    (_WriteRobot_axisInfo { type := JointType.REVOLUTE, limits := some lim, mimic := mimic }).locked =
      some { bool := some false } ∧
    (∃ a, WriteKinematics_model_axis
        { type := JointType.REVOLUTE, limits := some lim, mimic := mimic } = some a ∧
      a.kind = AxisKind.revolute ∧
      (_ExtractLink_limits a
        (some { _WriteRobot_axisInfo
            { type := JointType.REVOLUTE, limits := some lim, mimic := mimic } with
          eid := eid, axis := axis }) mai
        { j0 with type := _ExtractLink_axisType a.kind JointType.UNKNOWN }).type =
        JointType.REVOLUTE ∧
      (_ExtractLink_limits a
        (some { _WriteRobot_axisInfo
            { type := JointType.REVOLUTE, limits := some lim, mimic := mimic } with
          eid := eid, axis := axis }) mai
        { j0 with type := _ExtractLink_axisType a.kind JointType.UNKNOWN }).limits.lower =
        lim.lower ∧
      (_ExtractLink_limits a
        (some { _WriteRobot_axisInfo
            { type := JointType.REVOLUTE, limits := some lim, mimic := mimic } with
          eid := eid, axis := axis }) mai
        { j0 with type := _ExtractLink_axisType a.kind JointType.UNKNOWN }).limits.upper =
        lim.upper) ∧
    (_WriteRobot_axisInfo { type := JointType.PRISMATIC, limits := some lim, mimic := mimic }).limits =
      some { min := { float := some lim.lower }, max := { float := some lim.upper } } ∧
    (∃ a, WriteKinematics_model_axis
        { type := JointType.PRISMATIC, limits := some lim, mimic := mimic } = some a ∧
      a.kind = AxisKind.prismatic ∧
      (_ExtractLink_limits a
        (some { _WriteRobot_axisInfo
            { type := JointType.PRISMATIC, limits := some lim, mimic := mimic } with
          eid := eid, axis := axis, scale := 1 }) mai
        { j0 with type := _ExtractLink_axisType a.kind JointType.UNKNOWN }).type =
        JointType.PRISMATIC ∧
      (_ExtractLink_limits a
        (some { _WriteRobot_axisInfo
            { type := JointType.PRISMATIC, limits := some lim, mimic := mimic } with
          eid := eid, axis := axis, scale := 1 }) mai
        { j0 with type := _ExtractLink_axisType a.kind JointType.UNKNOWN }).limits.lower =
        lim.lower ∧
      (_ExtractLink_limits a
        (some { _WriteRobot_axisInfo
            { type := JointType.PRISMATIC, limits := some lim, mimic := mimic } with
          eid := eid, axis := axis, scale := 1 }) mai
        { j0 with type := _ExtractLink_axisType a.kind JointType.UNKNOWN }).limits.upper =
        lim.upper) := by
  have hpi : M_PI ≠ 0 := by
    unfold M_PI
    norm_num
  have e1 : ∀ x : ℚ, M_PI / 180 * (x * (180 / M_PI)) = x := by
    intro x
    field_simp
    ring
  refine ⟨?_, rfl, ?_, ?_, ?_⟩
  · simp [_WriteRobot_axisInfo]
  · refine ⟨_, rfl, rfl, ?_⟩
    have h := _ExtractLink_limits_of_axisInfo
      { eid := 0, kind := AxisKind.revolute,
        limits := some (lim.lower * (180 / M_PI), lim.upper * (180 / M_PI)) }
      { _WriteRobot_axisInfo { type := JointType.REVOLUTE, limits := some lim, mimic := mimic } with
        eid := eid, axis := axis } mai
      { j0 with type := JointType.REVOLUTE } (lim.lower * (180 / M_PI))
      (lim.upper * (180 / M_PI)) rfl (by simp [_WriteRobot_axisInfo]) (Or.inl rfl)
      (by simpa [e1] using hne)
    simp only [if_true, e1] at h
    exact h
  · simp [_WriteRobot_axisInfo]
  · refine ⟨_, rfl, rfl, ?_⟩
    have h := _ExtractLink_limits_of_axisInfo
      { eid := 0, kind := AxisKind.prismatic, limits := some (lim.lower, lim.upper) }
      { _WriteRobot_axisInfo { type := JointType.PRISMATIC, limits := some lim, mimic := mimic } with
        eid := eid, axis := axis, scale := 1 } mai
      { j0 with type := JointType.PRISMATIC } lim.lower lim.upper rfl
      (by simp [_WriteRobot_axisInfo]) (Or.inr rfl)
      (by simpa using hne)
    simpa using h

/-- C38 at the limits (-1, 1): what the writer emits for a PRISMATIC joint,
and the way of a REVOLUTE joint through the writer and the reader. -/
theorem C38_limits_round_trip_witness :
    (_WriteRobot_axisInfo
      { type := JointType.PRISMATIC, limits := some { lower := -1, upper := 1 },
        mimic := false }).limits =
      some { min := { float := some (-1) }, max := { float := some 1 } } ∧
    ∃ a, WriteKinematics_model_axis
        { type := JointType.REVOLUTE, limits := some { lower := -1, upper := 1 },
          mimic := false } = some a ∧
      a.kind = AxisKind.revolute ∧
      (_ExtractLink_limits a
        (some { _WriteRobot_axisInfo
            { type := JointType.REVOLUTE, limits := some { lower := -1, upper := 1 },
              mimic := false } with
          eid := 0, axis := [] }) none
        { ({} : Joint) with type := _ExtractLink_axisType a.kind JointType.UNKNOWN }).type =
        JointType.REVOLUTE ∧
      (_ExtractLink_limits a
        (some { _WriteRobot_axisInfo
            { type := JointType.REVOLUTE, limits := some { lower := -1, upper := 1 },
              mimic := false } with
          eid := 0, axis := [] }) none
        { ({} : Joint) with type := _ExtractLink_axisType a.kind JointType.UNKNOWN }).limits.lower =
        -1 ∧
      (_ExtractLink_limits a
        (some { _WriteRobot_axisInfo
            { type := JointType.REVOLUTE, limits := some { lower := -1, upper := 1 },
              mimic := false } with
          eid := 0, axis := [] }) none
        { ({} : Joint) with type := _ExtractLink_axisType a.kind JointType.UNKNOWN }).limits.upper =
        1 :=
  have h := C38_limits_round_trip { lower := -1, upper := 1 } false 0 [] none {}
    (by norm_num)
  ⟨h.2.2.2.1, h.2.2.1⟩

end ColladaModelReader
